import Mathlib

/-!
Storelite: cart and order core

A shallow embedding of the cart and order pipeline of the store backend
(`services/order_service.go`, `services/cart_service.go`, `models/*.go`,
`controllers/product_controller.go`, and for the identity of a cart
`controllers/cart_controller.go`, `routes/*.go`, `middleware/auth.go`), of
the account handlers (`controllers/auth_controller.go`), of the review
handlers (`controllers/review_controller.go`) and of the admin confirmation
of a cash payment (`controllers/order_controller.go`), together with the
properties proved about it.

Conventions of the embedding.

* A table is the list of its live rows in ascending primary-key order.  Rows
  that are soft-deleted are invisible to every query of the services (no
  query is unscoped).  For the two tables on which `main.go` puts a unique
  constraint, `cart_items` and `product_sizes`, the rows marked deleted are
  kept in a list of their own, because the constraint still counts them and
  the database refuses the insert of a row that repeats their key; in the
  other tables a deleted row is simply absent.  Likewise the unique index on
  `order_code` refuses the insert of an order whose code is in use.
* `First` with a condition is `List.find?` (lowest primary key first) and
  `Order("id DESC").First` is the last row of the list.  `First(&dest)` into
  a destination whose primary key is already set also asks for that key.
* `Create` writes the default of a column tagged `default:true` in place of
  the zero value `false`.
* Primary keys are drawn from per-table counters kept in the store.  A
  rollback restores the store the transaction started from, counters
  included: the gaps a rolled-back insert leaves in a real sequence are not
  modelled.
* Go `int` is `Int`, `uint` is `Nat` and `time.Time` is a number of seconds
  (`Int`).  Money and the average rating of a product (`float64` in the
  source) are exact rationals while they are computed; what is written to a
  `decimal(_, 2)` column of an order, an order item, a payment or the rating
  statistics is kept as the nearest hundredth, and where the exact value lies
  halfway between two hundredths, so that the rounding error of the float
  decides in the source, the direction is left to the oracle below.  Prices
  of products, sizes and cart items are read from such columns and written
  back unchanged.
* Library calls (bcrypt, the token signer and checker, the struct validator,
  `utils.SanitizeString`, the random recovery code) are parameters.
* The only statements that can fail for reasons outside the store are the
  writes; they are driven by an oracle `Faults`.  A read fails only with
  "record not found".

The file gives the definitions first (the embedding, then the notions the
properties are stated with and the concrete stores they are run on), then the
properties.
-/

namespace Storelite

/-! ## Data model -/

/-- Seconds since an arbitrary epoch. -/
abbrev Time := Int

/-- Row of `products` (models/product.go), restricted to the columns the cart
and order services, the reviews and the product list read or write. -/
structure Product where
  ID : Nat
  Name : String := ""
  Price : ℚ := 0
  DiscountPrice : Option ℚ := none
  TotalStock : Int := 0
  IsActive : Bool := false
  AverageRating : ℚ := 0
  ReviewCount : Int := 0
  ViewCount : Int := 0
  CreatedAt : Time := 0
deriving DecidableEq

/-- Row of `product_sizes` (models/product_size.go). -/
structure ProductSize where
  ID : Nat
  ProductID : Nat := 0
  Size : String := ""
  Stock : Int := 0
  Price : Option ℚ := none
  IsActive : Bool := false
deriving DecidableEq

/-- Row of `carts` (models/cart.go). -/
structure Cart where
  ID : Nat
  UserID : Option Nat := none
  SessionID : String := ""
  ExpiresAt : Time := 0
deriving DecidableEq

/-- Row of `cart_items` (models/cart.go). -/
structure CartItem where
  ID : Nat
  CartID : Nat := 0
  ProductID : Nat := 0
  ProductSizeID : Nat := 0
  Quantity : Int := 0
  Price : ℚ := 0
deriving DecidableEq

/-- The request struct `ShippingAddress` (models/order.go). -/
structure ShippingAddress where
  FullName : String := ""
  Phone : String := ""
  AddressLine : String := ""
  City : String := ""
  District : String := ""
  Ward : String := ""
  PostalCode : String := ""
deriving DecidableEq

/-- The request struct `CreateOrderRequest` (models/order.go). -/
structure CreateOrderRequest where
  CustomerName : String := ""
  CustomerEmail : String := ""
  CustomerPhone : String := ""
  ShippingAddress : ShippingAddress := {}
  PaymentMethod : String := ""
  Notes : String := ""
deriving DecidableEq

/-- Row of `orders` (models/order.go). -/
structure Order where
  ID : Nat
  UserID : Option Nat := none
  OrderCode : String := ""
  CustomerName : String := ""
  CustomerEmail : String := ""
  CustomerPhone : String := ""
  ShippingAddress : ShippingAddress := {}
  TotalAmount : ℚ := 0
  ShippingFee : ℚ := 0
  DiscountAmount : ℚ := 0
  FinalAmount : ℚ := 0
  Status : String := ""
  PaymentMethod : String := ""
  PaymentStatus : String := ""
  Notes : String := ""
  SessionID : String := ""
  ExpiresAt : Time := 0
deriving DecidableEq

/-- Row of `order_items` (models/order.go). -/
structure OrderItem where
  ID : Nat
  OrderID : Nat := 0
  ProductID : Nat := 0
  ProductSizeID : Nat := 0
  ProductName : String := ""
  ProductSize : String := ""
  Quantity : Int := 0
  UnitPrice : ℚ := 0
  TotalPrice : ℚ := 0
deriving DecidableEq

/-- Row of `payments` (models/payment.go).  `ResponseData` is the JSON object
of the gateway, kept as a list of key/value pairs. -/
structure Payment where
  ID : Nat
  OrderID : Nat := 0
  TransactionID : String := ""
  Amount : ℚ := 0
  PaymentGateway : String := ""
  Status : String := ""
  PaymentDate : Option Time := none
  ResponseData : List (String × String) := []
  Notes : String := ""
deriving DecidableEq

/-- The struct `OrderSummary` (models/order.go). -/
structure OrderSummary where
  ItemCount : Nat
  TotalQuantity : Int
  TotalAmount : ℚ
  ShippingFee : ℚ
  DiscountAmount : ℚ
  FinalAmount : ℚ
deriving DecidableEq

/-- The struct `CartValidationResult` (models/cart.go). -/
structure CartValidationResult where
  IsValid : Bool
  Issues : List String
deriving DecidableEq

/-- Row of `users` (models/user.go), restricted to the columns the login and
recovery handlers read or write. -/
structure User where
  ID : Nat := 0
  Fullname : String := ""
  Email : String := ""
  Password : String := ""
  Role : Int := 0
  IsActive : Bool := false
  FailedLoginCount : Int := 0
  LastLoginAt : Option Time := none
deriving DecidableEq

/-- Row of `recovery_codes` (models/user.go). -/
structure RecoveryCode where
  ID : Nat := 0
  UserID : Nat := 0
  Code : String := ""
  IsUsed : Bool := false
  ExpiresAt : Time := 0
deriving DecidableEq

/-- Row of `login_attempts` (models/user.go). -/
structure LoginAttempt where
  ID : Nat := 0
  Email : String := ""
  IPAddress : String := ""
  UserAgent : String := ""
  IsSuccess : Bool := false
  FailReason : String := ""
  AttemptedAt : Time := 0
deriving DecidableEq

/-- Row of `reviews` (models/review.go). -/
structure Review where
  ID : Nat := 0
  ProductID : Nat := 0
  UserID : Nat := 0
  Comment : String := ""
  Rating : Int := 0
  IsActive : Bool := false
deriving DecidableEq

/-- The database: one list per table and one sequence per primary key. -/
structure Store where
  products : List Product := []
  productSizes : List ProductSize := []
  deletedProductSizes : List ProductSize := []
  carts : List Cart := []
  cartItems : List CartItem := []
  deletedCartItems : List CartItem := []
  orders : List Order := []
  orderItems : List OrderItem := []
  payments : List Payment := []
  cartSeq : Nat := 0
  cartItemSeq : Nat := 0
  orderSeq : Nat := 0
  orderItemSeq : Nat := 0
  paymentSeq : Nat := 0
  productSeq : Nat := 0
  productSizeSeq : Nat := 0
  users : List User := []
  recoveryCodes : List RecoveryCode := []
  loginAttempts : List LoginAttempt := []
  reviews : List Review := []
  userSeq : Nat := 0
  recoveryCodeSeq : Nat := 0
  loginAttemptSeq : Nat := 0
  reviewSeq : Nat := 0
deriving DecidableEq

/-! ## Constants (models/order.go, models/payment.go, models/cart.go) -/

def OrderStatusPending : String := "pending"
def OrderStatusPaid : String := "paid"
def OrderStatusShipped : String := "shipped"
def OrderStatusDelivered : String := "delivered"
def OrderStatusCancelled : String := "cancelled"

def PaymentStatusUnpaid : String := "unpaid"
def PaymentStatusPaid : String := "paid"
def PaymentStatusFailed : String := "failed"

def PaymentMethodCOD : String := "cod"
def PaymentMethodBankTransfer : String := "bank_transfer"
def PaymentMethodMomo : String := "momo"
def PaymentMethodZaloPay : String := "zalopay"
def PaymentMethodVNPay : String := "vnpay"

def PaymentGatewayInternal : String := "internal"
def PaymentGatewayBankTransfer : String := "bank_transfer"
def PaymentGatewayMomo : String := "momo"
def PaymentGatewayZaloPay : String := "zalopay"
def PaymentGatewayVNPay : String := "vnpay"

def PaymentRecordStatusPending : String := "pending"
def PaymentRecordStatusCompleted : String := "completed"
def PaymentRecordStatusFailed : String := "failed"
def PaymentRecordStatusCancelled : String := "cancelled"

def OrderExpiryMinutes : Int := 30
def MaxOrderCode : Int := 99999
def MinOrderCode : Int := 1

def CartExpiryHours : Int := 24 * 7
def GuestCartExpiryHours : Int := 24
def MaxCartItems : Int := 50
def MaxItemQuantity : Int := 100

/-- Seconds in `time.Minute`. -/
def Minute : Int := 60
/-- Seconds in `time.Hour`. -/
def Hour : Int := 3600

/-! ## Errors and write faults -/

deriving instance DecidableEq for Except

/-- The error returned by a service call, one constructor per `return` site. -/
inductive Err
  | recordNotFound
  | dbError
  | parseError
  | allOrderCodesTaken
  | failedToGetCart (cause : Err)
  | cartValidationFailed (issues : List String)
  | cartIsEmpty
  | failedToGenerateOrderCode (cause : Err)
  | failedToCreateOrder
  | productSizeNotFound
  | insufficientStock (available required : Int)
  | failedToUpdateStock
  | productNotFound
  | failedToUpdateProductTotalStock
  | failedToCreateOrderItem
  | failedToClearCart
  | failedToCreatePaymentRecord
  | orderNotFound
  | orderCannotBeCancelled (status : String)
  | failedToUpdateOrder
  | failedToRestoreProductSizeStock
  | failedToRestoreProductTotalStock
  | failedToUpdatePaymentStatus
  | failedToUpdatePayment
  | requestRejected
  | failedToCreateProduct
  | failedToCreateProductSize
  | failedToUpdateProduct
  | failedToDeleteExistingSizes
  | cartProductNotFound
  | productNotActive
  | cartProductSizeNotFound
  | productSizeNotActive
  | insufficientStockAvailable (available : Int)
  | cartItemsLimitExceeded
  | itemQuantityLimitExceeded
  | insufficientStockForTotal (available : Int)
  | cartItemNotFound
deriving DecidableEq

/-- The write statements of the services.  Each may fail for a reason outside
the store (lost connection, constraint of an unmodelled table).  The last
entry is not a failure but the other question the source leaves to the
database: whether a value written to a `decimal(_, 2)` column that lies
exactly halfway between two hundredths is kept as the upper one. -/
inductive Stmt
  | createCart
  | saveCart (cartID : Nat)
  | clearCart (cartID : Nat)
  | createOrder
  | saveProductSize (sizeID : Nat)
  | saveProduct (productID : Nat)
  | createOrderItem (cartItemID : Nat)
  | createPayment
  | saveOrder (orderID : Nat)
  | restoreProductSizeStock (sizeID : Nat)
  | restoreProductTotalStock (productID : Nat)
  | cancelPayments (orderID : Nat)
  | completePayments (orderID : Nat)
  | createProduct
  | createProductSize (index : Nat)
  | createCartItem
  | saveCartItem (itemID : Nat)
  | deleteCartItem (itemID : Nat)
  | deleteCart (cartID : Nat)
  | deleteProductSizes (productID : Nat)
  | createUser
  | saveUser (userID : Nat)
  | createRecoveryCode
  | saveRecoveryCode (codeID : Nat)
  | createLoginAttempt
  | createReview
  | saveReview (reviewID : Nat)
  | deleteReview (reviewID : Nat)
  | updateProductRating (productID : Nat)
  | roundHalfUp (value : ℚ)
deriving DecidableEq

/-- The oracle telling which write statements fail, and which way a rounding
tie goes. -/
abbrev Faults := Stmt → Bool

/-- No write fails (and a rounding tie goes down). -/
def noFaults : Faults := fun _ => false

/-- What a `decimal(_, 2)` column keeps of a value written to it: the nearest
hundredth.  With `value = num / den`, `hundredths` is the floor of
`value * 100` and `rest / den` its fractional part.  The source carries the
value in a `float64`; here it is the exact rational, and a value exactly
halfway between two hundredths, where the rounding error of the float decides,
goes the way the oracle says. -/
def toScale2 (fails : Faults) (value : ℚ) : ℚ :=
  let scaled : ℤ := value.num * 100
  let hundredths : ℤ := scaled / value.den
  let rest : ℤ := scaled % value.den
  if 2 * rest < value.den then mkRat hundredths 100
  else if (value.den : ℤ) < 2 * rest then mkRat (hundredths + 1) 100
  else if fails (.roundHalfUp value) then mkRat (hundredths + 1) 100
  else mkRat hundredths 100

/-- A value a `decimal(_, 2)` column can hold: a whole number of hundredths. -/
def IsCents (x : ℚ) : Prop := ∃ k : ℤ, x = (k : ℚ) / 100

/-! ## `Save` of a loaded row: `UPDATE .. WHERE id = ?` with every column -/

/-- `Save(&cart)`. -/
def saveCart (carts : List Cart) (cart : Cart) : List Cart :=
  carts.map (fun c => if c.ID == cart.ID then cart else c)

/-- `Save(&productSize)`. -/
def saveProductSize (sizes : List ProductSize) (size : ProductSize) : List ProductSize :=
  sizes.map (fun s => if s.ID == size.ID then size else s)

/-- `Save(&product)`. -/
def saveProduct (products : List Product) (product : Product) : List Product :=
  products.map (fun p => if p.ID == product.ID then product else p)

/-- `Save(&cartItem)`. -/
def saveCartItem (items : List CartItem) (item : CartItem) : List CartItem :=
  items.map (fun i => if i.ID == item.ID then item else i)

/-- `Save(&order)`. -/
def saveOrder (orders : List Order) (order : Order) : List Order :=
  orders.map (fun o => if o.ID == order.ID then order else o)

/-! ## `fmt.Sprintf("%05d", _)` and `strconv.Atoi` -/

/-- The character of a decimal digit. -/
def digitChar (d : Nat) : Char := Char.ofNat (48 + d)

/-- Decimal digits with a recursion budget. -/
def decimalDigitsAux : Nat → Nat → List Char
  | 0, n => [digitChar (n % 10)]
  | fuel + 1, n =>
    if n < 10 then [digitChar n] else decimalDigitsAux fuel (n / 10) ++ [digitChar (n % 10)]

/-- Decimal digits of a natural number, most significant first. -/
def decimalDigits (n : Nat) : List Char := decimalDigitsAux n n

/-- The verb `%05d`: decimal, zero-padded to width 5, the sign counted in the width. -/
def Sprintf05d (n : Int) : String :=
  if n < 0 then
    let ds := decimalDigits n.natAbs
    String.mk ('-' :: (List.replicate (4 - ds.length) '0' ++ ds))
  else
    let ds := decimalDigits n.toNat
    String.mk (List.replicate (5 - ds.length) '0' ++ ds)

/-- Value of a decimal digit character. -/
def digitValue (c : Char) : Option Nat :=
  if 48 ≤ c.toNat ∧ c.toNat ≤ 57 then some (c.toNat - 48) else none

/-- Reads a run of decimal digits, failing on any other character. -/
def parseDigits : List Char → Nat → Option Nat
  | [], acc => some acc
  | c :: cs, acc =>
    match digitValue c with
    | none => none
    | some d => parseDigits cs (acc * 10 + d)

/-- Range check of a 64-bit `int`. -/
def inIntRange (v : Int) : Option Int :=
  if -(2 : Int) ^ 63 ≤ v ∧ v < (2 : Int) ^ 63 then some v else none

/-- `strconv.Atoi`: optional sign, then at least one decimal digit, nothing
else; `none` is the parse error. -/
def Atoi (s : String) : Option Int :=
  match s.data with
  | [] => none
  | c :: cs =>
    if c = '-' then
      if cs = [] then none
      else (parseDigits cs 0).bind (fun n => inIntRange (-(n : Int)))
    else if c = '+' then
      if cs = [] then none
      else (parseDigits cs 0).bind (fun n => inIntRange (n : Int))
    else (parseDigits (c :: cs) 0).bind (fun n => inIntRange (n : Int))

/-! ## Order codes (services/order_service.go) -/

/-- The query `Where("order_code = ?", code).First(..)` finds a row. -/
def orderCodeExists (db : Store) (code : String) : Bool :=
  (db.orders.find? (fun o => o.OrderCode == code)).isSome

/-- The query `Where("order_code = ?", code).First(&existingOrder)`.  `First`
adds the primary key of its destination struct, when that key is not zero, as
one more condition of the query: `existingID` is the key the struct holds. -/
def firstOrderByCode (db : Store) (existingID : Nat) (code : String) : Option Order :=
  db.orders.find? (fun o => o.OrderCode == code && (existingID == 0 || o.ID == existingID))

/-- One of the two probing loops, `k` codes from `i` on.  Every query of the
loop loads into the same struct `existingOrder`, whose primary key is
`existingID`.  Returns the first code whose query reports no record, or else
the key the struct holds after the last query. -/
def probeOrderCode (db : Store) : Nat → Int → Nat → String ⊕ Nat
  | 0, _, existingID => .inr existingID
  | k + 1, i, existingID =>
    let testCode := Sprintf05d i
    match firstOrderByCode db existingID testCode with
    | none => .inl testCode
    | some existingOrder => probeOrderCode db k (i + 1) existingOrder.ID

/-- The starting code: one more than the code of the last order (by id),
wrapped, or `MinOrderCode` when there is no order. -/
def nextOrderCode (db : Store) : Except Err Int :=
  match db.orders.getLast? with
  | none => .ok MinOrderCode
  | some lastOrder =>
    match Atoi lastOrder.OrderCode with
    | none => .error .parseError
    | some currentCode =>
      let nextCode := currentCode + 1
      .ok (if nextCode > MaxOrderCode then MinOrderCode else nextCode)

/-- `OrderService.GenerateOrderCode`.  The safety check and the two loops share
the struct `existingOrder`: once the check has found a row, the loops look for
each code on that row only. -/
def GenerateOrderCode (db : Store) : Except Err String :=
  match nextOrderCode db with
  | .error e => .error e
  | .ok nextCode =>
    let orderCode := Sprintf05d nextCode
    match firstOrderByCode db 0 orderCode with
    | none => .ok orderCode
    | some existingOrder =>
      match probeOrderCode db (MaxOrderCode - nextCode + 1).toNat nextCode existingOrder.ID with
      | .inl testCode => .ok testCode
      | .inr existingID =>
        match probeOrderCode db (nextCode - MinOrderCode).toNat MinOrderCode existingID with
        | .inl testCode => .ok testCode
        | .inr _ => .error .allOrderCodesTaken

/-! ## Cart service (services/cart_service.go, models/cart.go) -/

/-- `Cart.IsExpired`: `time.Now().After(c.ExpiresAt)`. -/
def Cart.IsExpired (c : Cart) (now : Time) : Bool := decide (c.ExpiresAt < now)

/-- `Cart.GetExpiryTime`. -/
def GetExpiryTime (now : Time) (isGuest : Bool) : Time :=
  if isGuest then now + GuestCartExpiryHours * Hour else now + CartExpiryHours * Hour

/-- `Preload("CartItems")`: the items of a cart. -/
def loadCartItems (db : Store) (cartID : Nat) : List CartItem :=
  db.cartItems.filter (fun i => i.CartID == cartID)

/-- `Preload("CartItems.Product")` for one item; the zero value when the row is gone. -/
def preloadProduct (db : Store) (productID : Nat) : Product :=
  (db.products.find? (fun p => p.ID == productID)).getD { ID := 0 }

/-- `First(&size, id)`; the zero value when the row is gone. -/
def preloadProductSize (db : Store) (sizeID : Nat) : ProductSize :=
  (db.productSizes.find? (fun s => s.ID == sizeID)).getD { ID := 0 }

/-- The table `cart_items` after `Where("cart_id = ?", cartID).Delete(..)`: `CartItem` has
a `DeletedAt`, so the rows of the cart stay in the table, marked deleted. -/
def deleteCartItems (db : Store) (cartID : Nat) : Store :=
  { db with cartItems := db.cartItems.filter (fun i => i.CartID != cartID),
            deletedCartItems :=
              db.deletedCartItems ++ db.cartItems.filter (fun i => i.CartID == cartID) }

/-- `CartService.ClearCart`, on the plain connection `cs.db`. -/
def ClearCart (fails : Faults) (db : Store) (cartID : Nat) : Store × Except Err Unit :=
  if fails (.clearCart cartID) then (db, .error .dbError)
  else (deleteCartItems db cartID, .ok ())

/-- `CartService.CleanExpiredCart`. -/
def CleanExpiredCart (fails : Faults) (now : Time) (db : Store) (cart : Cart) :
    Store × Except Err Unit :=
  match ClearCart fails db cart.ID with
  | (db1, .error e) => (db1, .error e)
  | (db1, .ok _) =>
    let isGuest := cart.UserID.isNone
    let cart1 := { cart with ExpiresAt := GetExpiryTime now isGuest }
    if fails (.saveCart cart.ID) then (db1, .error .dbError)
    else ({ db1 with carts := saveCart db1.carts cart1 }, .ok ())

/-- The lookup of `GetOrCreateCart`: by user id for a logged-in user, by
session id among the user-less carts for a guest. -/
def findCart (db : Store) (userID : Option Nat) (sessionID : String) : Option Cart :=
  match userID with
  | some u => db.carts.find? (fun c => c.UserID == some u)
  | none => db.carts.find? (fun c => c.SessionID == sessionID && c.UserID == none)

/-- `CartService.GetOrCreateCart`; returns the cart row and its preloaded items. -/
def GetOrCreateCart (fails : Faults) (now : Time) (db : Store) (userID : Option Nat)
    (sessionID : String) : Store × Except Err (Cart × List CartItem) :=
  let found : Store × Except Err Cart :=
    match findCart db userID sessionID with
    | some cart => (db, .ok cart)
    | none =>
      let cart : Cart :=
        match userID with
        | some u =>
          { ID := db.cartSeq + 1, UserID := some u, SessionID := sessionID,
            ExpiresAt := GetExpiryTime now false }
        | none =>
          { ID := db.cartSeq + 1, SessionID := sessionID, ExpiresAt := GetExpiryTime now true }
      if fails .createCart then (db, .error .dbError)
      else ({ db with carts := db.carts ++ [cart], cartSeq := db.cartSeq + 1 }, .ok cart)
  match found with
  | (db1, .error e) => (db1, .error e)
  | (db1, .ok cart) =>
    let db2 := if cart.IsExpired now then (CleanExpiredCart fails now db1 cart).1 else db1
    let reloaded := (db2.carts.find? (fun c => c.ID == cart.ID)).getD cart
    (db2, .ok (reloaded, loadCartItems db2 cart.ID))

/-- The issue `ValidateCart` raises for one item, if any. -/
def validateItem (db : Store) (item : CartItem) : Option String :=
  let currentProduct := preloadProduct db item.ProductID
  let currentSize := preloadProductSize db item.ProductSizeID
  if !currentProduct.IsActive then
    some (currentProduct.Name ++ " không còn hoạt động")
  else if !currentSize.IsActive then
    some (currentProduct.Name ++ " - Size " ++ currentSize.Size ++ " không còn hoạt động")
  else if currentSize.Stock = 0 then
    some (currentProduct.Name ++ " - Size " ++ currentSize.Size ++ " đã hết hàng")
  else if currentSize.Stock < item.Quantity then
    some (currentProduct.Name ++ " - Size " ++ currentSize.Size ++ " chỉ còn "
      ++ toString currentSize.Stock ++ " sản phẩm (yêu cầu " ++ toString item.Quantity ++ ")")
  else none

/-- `CartService.ValidateCart`. -/
def ValidateCart (db : Store) (now : Time) (cart : Cart) (items : List CartItem) :
    CartValidationResult :=
  if cart.IsExpired now then { IsValid := false, Issues := ["Giỏ hàng đã hết hạn"] }
  else if items.length = 0 then { IsValid := false, Issues := ["Giỏ hàng trống"] }
  else
    let issues := items.filterMap (validateItem db)
    { IsValid := issues.length == 0, Issues := issues }

/-- The struct `AddToCartRequest` (models/cart.go). -/
structure AddToCartRequest where
  ProductID : Nat := 0
  ProductSizeID : Nat := 0
  Quantity : Int := 0
deriving DecidableEq

/-- The block `// Calculate price` of `AddToCart` (the same lines open
`CartItem.ToResponse`): the price of the size when it has one, else the
discount price of the product when it is set and positive, else the price of
the product. -/
def calculatePrice (product : Product) (productSize : ProductSize) : ℚ :=
  match productSize.Price with
  | some sizePrice => sizePrice
  | none =>
    match product.DiscountPrice with
    | some discountPrice => if discountPrice > 0 then discountPrice else product.Price
    | none => product.Price

/-- The lookup of `AddToCart` for an item of the cart with the same product and size. -/
def findCartItem (db : Store) (cartID productID productSizeID : Nat) : Option CartItem :=
  db.cartItems.find? (fun i =>
    i.CartID == cartID && i.ProductID == productID && i.ProductSizeID == productSizeID)

/-- The row `AddToCart` inserts when the cart has no item for the product and size. -/
def newCartItem (db : Store) (cart : Cart) (req : AddToCartRequest) (price : ℚ) : CartItem :=
  { ID := db.cartItemSeq + 1, CartID := cart.ID, ProductID := req.ProductID,
    ProductSizeID := req.ProductSizeID, Quantity := req.Quantity, Price := price }

/-- The row `AddToCart` saves when the cart already has an item for the product and size. -/
def mergedCartItem (existingItem : CartItem) (newQuantity : Int) (price : ℚ) : CartItem :=
  { existingItem with Quantity := newQuantity, Price := price }

/-- The cart row with its expiry pushed forward (`// Update cart expiry`). -/
def refreshedCart (now : Time) (cart : Cart) : Cart :=
  { cart with ExpiresAt := GetExpiryTime now cart.UserID.isNone }

/-- The constraint `unique_cart_item` of main.go,
`UNIQUE (cart_id, product_id, product_size_id)`: whether the table `cart_items`, rows
marked deleted included, has a row for the cart, product and size. -/
def cartItemKeyTaken (db : Store) (cartID productID sizeID : Nat) : Bool :=
  (db.cartItems ++ db.deletedCartItems).any
    (fun i => i.CartID == cartID && i.ProductID == productID && i.ProductSizeID == sizeID)

/-- The item write of `AddToCart`, after the checks on the product and the size:
insert a new item or raise the quantity of the existing one.  The insert is refused by the
database when `unique_cart_item` does not admit the row. -/
def writeCartItem (fails : Faults) (db : Store) (cart : Cart) (req : AddToCartRequest)
    (productSize : ProductSize) (price : ℚ) : Store × Except Err Unit :=
  match findCartItem db cart.ID req.ProductID req.ProductSizeID with
  | none =>
    let itemCount : Int := (loadCartItems db cart.ID).length
    if itemCount ≥ MaxCartItems then (db, .error .cartItemsLimitExceeded)
    else if fails .createCartItem
        || cartItemKeyTaken db cart.ID req.ProductID req.ProductSizeID then
      (db, .error .dbError)
    else
      ({ db with cartItems := db.cartItems ++ [newCartItem db cart req price],
                 cartItemSeq := db.cartItemSeq + 1 }, .ok ())
  | some existingItem =>
    let newQuantity := existingItem.Quantity + req.Quantity
    if newQuantity > MaxItemQuantity then (db, .error .itemQuantityLimitExceeded)
    else if productSize.Stock < newQuantity then
      (db, .error (.insufficientStockForTotal productSize.Stock))
    else if fails (.saveCartItem existingItem.ID) then (db, .error .dbError)
    else
      ({ db with cartItems :=
            saveCartItem db.cartItems (mergedCartItem existingItem newQuantity price) }, .ok ())

/-- `CartService.AddToCart`.  The final `cs.db.Save(cart)` has its error dropped. -/
def AddToCart (fails : Faults) (now : Time) (db : Store) (cart : Cart)
    (req : AddToCartRequest) : Store × Except Err Unit :=
  match db.products.find? (fun p => p.ID == req.ProductID) with
  | none => (db, .error .cartProductNotFound)
  | some product =>
    if !product.IsActive then (db, .error .productNotActive)
    else
      match db.productSizes.find?
          (fun s => s.ID == req.ProductSizeID && s.ProductID == req.ProductID) with
      | none => (db, .error .cartProductSizeNotFound)
      | some productSize =>
        if !productSize.IsActive then (db, .error .productSizeNotActive)
        else if productSize.Stock < req.Quantity then
          (db, .error (.insufficientStockAvailable productSize.Stock))
        else
          let price := calculatePrice product productSize
          match writeCartItem fails db cart req productSize price with
          | (db1, .error e) => (db1, .error e)
          | (db1, .ok _) =>
            if fails (.saveCart cart.ID) then (db1, .ok ())
            else ({ db1 with carts := saveCart db1.carts (refreshedCart now cart) }, .ok ())

/-- `CartService.UpdateCartItem`. -/
def UpdateCartItem (fails : Faults) (db : Store) (cartID itemID : Nat) (quantity : Int) :
    Store × Except Err Unit :=
  match db.cartItems.find? (fun i => i.ID == itemID && i.CartID == cartID) with
  | none => (db, .error .cartItemNotFound)
  | some cartItem =>
    let productSize := preloadProductSize db cartItem.ProductSizeID
    if quantity = 0 then
      if fails (.deleteCartItem cartItem.ID) then (db, .error .dbError)
      else
        ({ db with cartItems := db.cartItems.filter (fun i => i.ID != cartItem.ID),
                   deletedCartItems :=
                     db.deletedCartItems ++ db.cartItems.filter (fun i => i.ID == cartItem.ID) },
          .ok ())
    else if quantity > MaxItemQuantity then (db, .error .itemQuantityLimitExceeded)
    else if productSize.Stock < quantity then
      (db, .error (.insufficientStockAvailable productSize.Stock))
    else if fails (.saveCartItem cartItem.ID) then (db, .error .dbError)
    else
      ({ db with cartItems :=
            saveCartItem db.cartItems (mergedCartItem cartItem quantity cartItem.Price) }, .ok ())

/-- `CartService.RemoveFromCart`. -/
def RemoveFromCart (fails : Faults) (db : Store) (cartID itemID : Nat) :
    Store × Except Err Unit :=
  if fails (.deleteCartItem itemID) then (db, .error .dbError)
  else
    ({ db with cartItems :=
          db.cartItems.filter (fun i => !(i.ID == itemID && i.CartID == cartID)),
               deletedCartItems :=
          db.deletedCartItems ++
            db.cartItems.filter (fun i => i.ID == itemID && i.CartID == cartID) }, .ok ())

/-- The loop of `MergeGuestCartToUser`: every guest item is offered to
`AddToCart` on the cart of the user, the outcome ignored. -/
def mergeItems (fails : Faults) (now : Time) (userCart : Cart) :
    List CartItem → Store → Store
  | [], db => db
  | guestItem :: rest, db =>
    mergeItems fails now userCart rest
      (AddToCart fails now db userCart
        { ProductID := guestItem.ProductID, ProductSizeID := guestItem.ProductSizeID,
          Quantity := guestItem.Quantity }).1

/-- The table `carts` after `Delete(&guestCart)`. -/
def deleteCart (db : Store) (cartID : Nat) : Store :=
  { db with carts := db.carts.filter (fun c => c.ID != cartID) }

/-- `CartService.MergeGuestCartToUser`.  The two deletes at the end have their
errors dropped. -/
def MergeGuestCartToUser (fails : Faults) (now : Time) (db : Store) (sessionID : String)
    (userID : Nat) : Store × Except Err Unit :=
  match db.carts.find? (fun c => c.SessionID == sessionID && c.UserID == none) with
  | none => (db, .ok ())
  | some guestCart =>
    let guestItems := loadCartItems db guestCart.ID
    match GetOrCreateCart fails now db (some userID) sessionID with
    | (db1, .error e) => (db1, .error e)
    | (db1, .ok (userCart, _)) =>
      let db2 := mergeItems fails now userCart guestItems db1
      let db3 := if fails (.clearCart guestCart.ID) then db2 else deleteCartItems db2 guestCart.ID
      let db4 := if fails (.deleteCart guestCart.ID) then db3 else deleteCart db3 guestCart.ID
      (db4, .ok ())

/-! ## Order service (services/order_service.go) -/

/-- `OrderService.calculateShippingFee`. -/
def calculateShippingFee (address : ShippingAddress) (totalAmount : ℚ) : ℚ :=
  if totalAmount ≥ 500000 then 0
  else
    let baseShippingFee : ℚ := 30000
    let remoteCities := ["Cà Mau", "An Giang", "Kiên Giang", "Hà Giang"]
    if remoteCities.contains address.City then baseShippingFee + 20000 else baseShippingFee

/-- `OrderService.calculateDiscount`. -/
def calculateDiscount (totalAmount : ℚ) : ℚ :=
  if totalAmount ≥ 1000000 then totalAmount * (5 / 100) else 0

/-- `OrderService.CalculateOrderSummary`. -/
def CalculateOrderSummary (items : List CartItem) (shippingAddress : ShippingAddress) :
    Except Err OrderSummary :=
  if items.length = 0 then .error .cartIsEmpty
  else
    let totalAmount := items.foldl (fun acc item => acc + (item.Quantity : ℚ) * item.Price) 0
    let totalQuantity := items.foldl (fun acc item => acc + item.Quantity) 0
    let shippingFee := calculateShippingFee shippingAddress totalAmount
    let discountAmount := calculateDiscount totalAmount
    let finalAmount := totalAmount + shippingFee - discountAmount
    .ok { ItemCount := items.length, TotalQuantity := totalQuantity, TotalAmount := totalAmount,
          ShippingFee := shippingFee, DiscountAmount := discountAmount,
          FinalAmount := finalAmount }

/-- `OrderService.getPaymentGateway`. -/
def getPaymentGateway (paymentMethod : String) : String :=
  if paymentMethod = PaymentMethodCOD then PaymentGatewayInternal
  else if paymentMethod = PaymentMethodBankTransfer then PaymentGatewayBankTransfer
  else if paymentMethod = PaymentMethodMomo then PaymentGatewayMomo
  else if paymentMethod = PaymentMethodZaloPay then PaymentGatewayZaloPay
  else if paymentMethod = PaymentMethodVNPay then PaymentGatewayVNPay
  else PaymentGatewayInternal

/-- One turn of the loop of `CreateOrder` over the cart items, inside the
transaction `tx`.  `loaded` is the store the cart was preloaded from. -/
def createOrderItem (fails : Faults) (loaded : Store) (orderID : Nat) (cartItem : CartItem)
    (tx : Store) : Except Err Store :=
  match tx.productSizes.find? (fun s => s.ID == cartItem.ProductSizeID) with
  | none => .error .productSizeNotFound
  | some productSize =>
    if productSize.Stock < cartItem.Quantity then
      .error (.insufficientStock productSize.Stock cartItem.Quantity)
    else
      let productSize1 := { productSize with Stock := productSize.Stock - cartItem.Quantity }
      if fails (.saveProductSize productSize.ID) then .error .failedToUpdateStock
      else
        let tx1 := { tx with productSizes := saveProductSize tx.productSizes productSize1 }
        match tx1.products.find? (fun p => p.ID == cartItem.ProductID) with
        | none => .error .productNotFound
        | some product =>
          let product1 := { product with TotalStock := product.TotalStock - cartItem.Quantity }
          if fails (.saveProduct product.ID) then .error .failedToUpdateProductTotalStock
          else
            let tx2 := { tx1 with products := saveProduct tx1.products product1 }
            let orderItem : OrderItem :=
              { ID := tx2.orderItemSeq + 1,
                OrderID := orderID,
                ProductID := cartItem.ProductID,
                ProductSizeID := cartItem.ProductSizeID,
                ProductName := (preloadProduct loaded cartItem.ProductID).Name,
                ProductSize := productSize.Size,
                Quantity := cartItem.Quantity,
                UnitPrice := toScale2 fails cartItem.Price,
                TotalPrice := toScale2 fails ((cartItem.Quantity : ℚ) * cartItem.Price) }
            if fails (.createOrderItem cartItem.ID) then .error .failedToCreateOrderItem
            else
              .ok { tx2 with orderItems := tx2.orderItems ++ [orderItem],
                             orderItemSeq := tx2.orderItemSeq + 1 }

/-- The loop of `CreateOrder` over the cart items. -/
def createOrderItems (fails : Faults) (loaded : Store) (orderID : Nat) :
    List CartItem → Store → Except Err Store
  | [], tx => .ok tx
  | cartItem :: rest, tx =>
    match createOrderItem fails loaded orderID cartItem tx with
    | .error e => .error e
    | .ok tx1 => createOrderItems fails loaded orderID rest tx1

/-- The row of `orders` as inserted and read back: the four amounts at the
scale of their columns (`decimal(12,2)`, `decimal(10,2)`). -/
def storedOrder (fails : Faults) (order : Order) : Order :=
  { order with TotalAmount := toScale2 fails order.TotalAmount,
               ShippingFee := toScale2 fails order.ShippingFee,
               DiscountAmount := toScale2 fails order.DiscountAmount,
               FinalAmount := toScale2 fails order.FinalAmount }

/-- `OrderService.CreateOrder`.  Returns the committed store and the result.
The transaction works on the copies `tx1 .. tx4` of the store and a
`tx.Rollback()` returns the committed store.  `GenerateOrderCode` and
`ClearCart` go through the plain connection `os.db` / `cs.db`, not through
`tx`: what `ClearCart` deletes is committed at once (`db1`) and is also seen
by the transaction (`tx3`).  `order_code` carries a unique index, so the
insert of an order whose code is in use fails.  The order returned is the one
read back after the commit. -/
def CreateOrder (fails : Faults) (now : Time) (db : Store) (userID : Option Nat)
    (sessionID : String) (req : CreateOrderRequest) : Store × Except Err Order :=
  match GetOrCreateCart fails now db userID sessionID with
  | (db0, .error e) => (db0, .error (.failedToGetCart e))
  | (db0, .ok (cart, cartItems)) =>
    let validation := ValidateCart db0 now cart cartItems
    if !validation.IsValid then (db0, .error (.cartValidationFailed validation.Issues))
    else
      match CalculateOrderSummary cartItems req.ShippingAddress with
      | .error e => (db0, .error e)
      | .ok summary =>
        -- tx := os.db.Begin()
        match GenerateOrderCode db0 with
        | .error e => (db0, .error (.failedToGenerateOrderCode e))
        | .ok orderCode =>
          let order : Order :=
            { ID := db0.orderSeq + 1,
              UserID := userID,
              OrderCode := orderCode,
              CustomerName := req.CustomerName,
              CustomerEmail := req.CustomerEmail,
              CustomerPhone := req.CustomerPhone,
              ShippingAddress := req.ShippingAddress,
              TotalAmount := summary.TotalAmount,
              ShippingFee := summary.ShippingFee,
              DiscountAmount := summary.DiscountAmount,
              FinalAmount := summary.FinalAmount,
              Status := OrderStatusPending,
              PaymentMethod := req.PaymentMethod,
              PaymentStatus := PaymentStatusUnpaid,
              Notes := req.Notes,
              SessionID := sessionID,
              ExpiresAt := now + OrderExpiryMinutes * Minute }
          if fails .createOrder || orderCodeExists db0 orderCode then
            (db0, .error .failedToCreateOrder)
          else
            let stored := storedOrder fails order
            let tx1 := { db0 with orders := db0.orders ++ [stored], orderSeq := db0.orderSeq + 1 }
            match createOrderItems fails db0 order.ID cartItems tx1 with
            | .error e => (db0, .error e)
            | .ok tx2 =>
              match ClearCart fails db0 cart.ID with
              | (_, .error _) => (db0, .error .failedToClearCart)
              | (db1, .ok _) =>
                let tx3 := deleteCartItems tx2 cart.ID
                let payment : Payment :=
                  { ID := tx3.paymentSeq + 1,
                    OrderID := order.ID,
                    Amount := toScale2 fails order.FinalAmount,
                    PaymentGateway := getPaymentGateway req.PaymentMethod,
                    Status := PaymentRecordStatusPending }
                if fails .createPayment then
                  (db1, .error .failedToCreatePaymentRecord)
                else
                  let tx4 := { tx3 with payments := tx3.payments ++ [payment],
                                        paymentSeq := tx3.paymentSeq + 1 }
                  -- tx.Commit()
                  (tx4, .ok stored)

/-- `Order.CanBeCancelled` (models/order.go). -/
def Order.CanBeCancelled (o : Order) : Bool :=
  o.Status == OrderStatusPending || o.Status == OrderStatusPaid

/-- `OrderService.GetOrder`: the order with this code, scoped to the caller. -/
def GetOrder (db : Store) (userID : Option Nat) (sessionID : String) (orderCode : String) :
    Option Order :=
  match userID with
  | some u => db.orders.find? (fun o => o.OrderCode == orderCode && o.UserID == some u)
  | none =>
    db.orders.find?
      (fun o => o.OrderCode == orderCode && o.SessionID == sessionID && o.UserID == none)

/-- `Preload("OrderItems")`: the items of an order. -/
def loadOrderItems (db : Store) (orderID : Nat) : List OrderItem :=
  db.orderItems.filter (fun i => i.OrderID == orderID)

/-- `Preload("Payments")`: the payment rows of an order. -/
def loadPayments (db : Store) (orderID : Nat) : List Payment :=
  db.payments.filter (fun p => p.OrderID == orderID)

/-- The statement `UPDATE product_sizes SET stock = stock + ? WHERE id = ?`. -/
def addSizeStock (sizes : List ProductSize) (sizeID : Nat) (qty : Int) : List ProductSize :=
  sizes.map (fun s => if s.ID == sizeID then { s with Stock := s.Stock + qty } else s)

/-- The statement `UPDATE products SET total_stock = total_stock + ? WHERE id = ?`. -/
def addProductStock (products : List Product) (productID : Nat) (qty : Int) : List Product :=
  products.map (fun p => if p.ID == productID then { p with TotalStock := p.TotalStock + qty } else p)

/-- The loop of `CancelOrder` over the order items, inside the transaction. -/
def restoreStock (fails : Faults) : List OrderItem → Store → Except Err Store
  | [], tx => .ok tx
  | item :: rest, tx =>
    if fails (.restoreProductSizeStock item.ProductSizeID) then
      .error .failedToRestoreProductSizeStock
    else
      let tx1 := { tx with productSizes := addSizeStock tx.productSizes item.ProductSizeID item.Quantity }
      if fails (.restoreProductTotalStock item.ProductID) then
        .error .failedToRestoreProductTotalStock
      else
        let tx2 := { tx1 with products := addProductStock tx1.products item.ProductID item.Quantity }
        restoreStock fails rest tx2

/-- The statement `UPDATE payments SET status = 'cancelled' WHERE order_id = ?`. -/
def cancelPayments (payments : List Payment) (orderID : Nat) : List Payment :=
  payments.map (fun p =>
    if p.OrderID == orderID then { p with Status := PaymentRecordStatusCancelled } else p)

/-- `OrderService.CancelOrder`. -/
def CancelOrder (fails : Faults) (db : Store) (userID : Option Nat) (sessionID : String)
    (orderCode : String) (reason : String) : Store × Except Err Unit :=
  match GetOrder db userID sessionID orderCode with
  | none => (db, .error .orderNotFound)
  | some order =>
    if !order.CanBeCancelled then (db, .error (.orderCannotBeCancelled order.Status))
    else
      -- tx := os.db.Begin()
      let order1 :=
        { order with Status := OrderStatusCancelled,
                     Notes := order.Notes ++ "\nLý do hủy: " ++ reason }
      if fails (.saveOrder order.ID) then (db, .error .failedToUpdateOrder)
      else
        let tx1 := { db with orders := saveOrder db.orders order1 }
        match restoreStock fails (loadOrderItems db order.ID) tx1 with
        | .error e => (db, .error e)
        | .ok tx2 =>
          if fails (.cancelPayments order.ID) then (db, .error .failedToUpdatePaymentStatus)
          else
            -- tx.Commit()
            ({ tx2 with payments := cancelPayments tx2.payments order.ID }, .ok ())

/-- The statement of `ProcessPayment` that settles the payment rows of an order. -/
def completePayments (payments : List Payment) (orderID : Nat) (transactionID : String)
    (now : Time) (responseData : List (String × String)) : List Payment :=
  payments.map (fun p =>
    if p.OrderID == orderID then
      { p with TransactionID := transactionID, Status := PaymentRecordStatusCompleted,
               PaymentDate := some now, ResponseData := responseData }
    else p)

/-- `OrderService.ProcessPayment`. -/
def ProcessPayment (fails : Faults) (now : Time) (db : Store) (orderCode : String)
    (transactionID : String) (responseData : List (String × String)) :
    Store × Except Err Unit :=
  match db.orders.find? (fun o => o.OrderCode == orderCode) with
  | none => (db, .error .orderNotFound)
  | some order =>
    if order.PaymentStatus = PaymentStatusPaid then (db, .ok ())
    else
      -- tx := os.db.Begin()
      let order1 := { order with PaymentStatus := PaymentStatusPaid, Status := OrderStatusPaid }
      if fails (.saveOrder order.ID) then (db, .error .failedToUpdateOrder)
      else
        let tx1 := { db with orders := saveOrder db.orders order1 }
        if fails (.completePayments order.ID) then (db, .error .failedToUpdatePayment)
        else
          -- tx.Commit()
          ({ tx1 with payments :=
                completePayments tx1.payments order.ID transactionID now responseData }, .ok ())

/-- The selection of `CleanExpiredOrders`. -/
def expiredOrders (db : Store) (now : Time) : List Order :=
  db.orders.filter (fun o =>
    decide (o.ExpiresAt < now) && o.Status == OrderStatusPending
      && o.PaymentStatus == PaymentStatusUnpaid)

/-- The loop of `CleanExpiredOrders`: cancels each selected order, ignoring the outcome. -/
def cancelExpired (fails : Faults) : List Order → Store → Store
  | [], db => db
  | order :: rest, db =>
    cancelExpired fails rest
      (CancelOrder fails db order.UserID order.SessionID order.OrderCode
        "Đơn hàng hết hạn thanh toán").1

/-- `OrderService.CleanExpiredOrders`. -/
def CleanExpiredOrders (fails : Faults) (now : Time) (db : Store) : Store × Except Err Unit :=
  (cancelExpired fails (expiredOrders db now) db, .ok ())

/-! ## Product creation and update (controllers/product_controller.go) -/

/-- The table `product_sizes` after
`Where("product_id = ?", product.ID).Delete(&models.ProductSize{})`: `ProductSize` has a
`DeletedAt`, so the rows of the product stay in the table, marked deleted. -/
def deleteProductSizes (db : Store) (productID : Nat) : Store :=
  { db with productSizes := db.productSizes.filter (fun s => s.ProductID != productID),
            deletedProductSizes :=
              db.deletedProductSizes ++
                db.productSizes.filter (fun s => s.ProductID == productID) }

/-- The row of a product size, by id. -/
def findSize (db : Store) (sizeID : Nat) : Option ProductSize :=
  db.productSizes.find? (fun s => s.ID == sizeID)

/-- The row of a product, by id. -/
def findProduct (db : Store) (productID : Nat) : Option Product :=
  db.products.find? (fun p => p.ID == productID)

/-- The stock of a product size, by id. -/
def stockOf (db : Store) (sizeID : Nat) : Option Int :=
  (findSize db sizeID).map (fun s => s.Stock)

/-- The total stock of a product, by id. -/
def totalStockOf (db : Store) (productID : Nat) : Option Int :=
  (findProduct db productID).map (fun p => p.TotalStock)

/-- The quantity a list of cart items asks of one product size. -/
def reservedOfSize (items : List CartItem) (sizeID : Nat) : Int :=
  ((items.filter (fun i => i.ProductSizeID == sizeID)).map (fun i => i.Quantity)).sum

/-- The quantity a list of cart items asks of one product. -/
def reservedOfProduct (items : List CartItem) (productID : Nat) : Int :=
  ((items.filter (fun i => i.ProductID == productID)).map (fun i => i.Quantity)).sum

/-- The order item `CreateOrder` writes for a cart item. -/
def orderItemOf (fails : Faults) (loaded : Store) (orderID : Nat) (sizeName : String)
    (seq : Nat) (cartItem : CartItem) : OrderItem :=
  { ID := seq + 1,
    OrderID := orderID,
    ProductID := cartItem.ProductID,
    ProductSizeID := cartItem.ProductSizeID,
    ProductName := (preloadProduct loaded cartItem.ProductID).Name,
    ProductSize := sizeName,
    Quantity := cartItem.Quantity,
    UnitPrice := toScale2 fails cartItem.Price,
    TotalPrice := toScale2 fails ((cartItem.Quantity : ℚ) * cartItem.Price) }

/-! ## Inversion of `CreateOrder` -/

/-- The order `CreateOrder` builds; `storedOrder` of it is the row inserted. -/
def newOrder (now : Time) (db0 : Store) (userID : Option Nat) (sessionID : String)
    (req : CreateOrderRequest) (summary : OrderSummary) (orderCode : String) : Order :=
  { ID := db0.orderSeq + 1,
    UserID := userID,
    OrderCode := orderCode,
    CustomerName := req.CustomerName,
    CustomerEmail := req.CustomerEmail,
    CustomerPhone := req.CustomerPhone,
    ShippingAddress := req.ShippingAddress,
    TotalAmount := summary.TotalAmount,
    ShippingFee := summary.ShippingFee,
    DiscountAmount := summary.DiscountAmount,
    FinalAmount := summary.FinalAmount,
    Status := OrderStatusPending,
    PaymentMethod := req.PaymentMethod,
    PaymentStatus := PaymentStatusUnpaid,
    Notes := req.Notes,
    SessionID := sessionID,
    ExpiresAt := now + OrderExpiryMinutes * Minute }

/-- The payment row `CreateOrder` inserts, written from the order as read
back: its amount is the final amount at the scale of the column. -/
def newPayment (seq : Nat) (order : Order) (req : CreateOrderRequest) : Payment :=
  { ID := seq + 1,
    OrderID := order.ID,
    Amount := order.FinalAmount,
    PaymentGateway := getPaymentGateway req.PaymentMethod,
    Status := PaymentRecordStatusPending }

/-- The store after `tx.Create(&payment)`. -/
def insertPayment (tx : Store) (payment : Payment) : Store :=
  { tx with payments := tx.payments ++ [payment], paymentSeq := tx.paymentSeq + 1 }

/-- How far a call of `CreateOrder` that reached `os.db.Begin()` got. -/
structure Begun (fails : Faults) (now : Time) (db : Store) (userID : Option Nat)
    (sessionID : String) (req : CreateOrderRequest) (db0 : Store) (cart : Cart)
    (items : List CartItem) (summary : OrderSummary) : Prop where
  loaded : GetOrCreateCart fails now db userID sessionID = (db0, .ok (cart, items))
  valid : (ValidateCart db0 now cart items).IsValid = true
  summed : CalculateOrderSummary items req.ShippingAddress = .ok summary

/-! ## A small shop used to run the services on concrete data -/

/-- One product "Runner" with a single size M (stock 2) and a guest cart holding two of it. -/
def demoStore : Store :=
  { products := [{ ID := 1, Name := "Runner", Price := 100, TotalStock := 2, IsActive := true }],
    productSizes :=
      [{ ID := 1, ProductID := 1, Size := "M", Stock := 2, Price := some 100, IsActive := true }],
    carts := [{ ID := 1, SessionID := "s1", ExpiresAt := 86400 }],
    cartItems :=
      [{ ID := 1, CartID := 1, ProductID := 1, ProductSizeID := 1, Quantity := 2, Price := 100 }],
    cartSeq := 1, cartItemSeq := 1, productSeq := 1, productSizeSeq := 1 }

/-- A cash-on-delivery checkout request. -/
def demoRequest : CreateOrderRequest :=
  { CustomerName := "Alice", CustomerEmail := "alice@x", CustomerPhone := "0900000000",
    ShippingAddress := { FullName := "Alice", City := "Hà Nội" },
    PaymentMethod := "cod" }

/-- The order the checkout of `demoStore` creates at time 0. -/
def demoOrder : Order :=
  { ID := 1, OrderCode := "00001", CustomerName := "Alice", CustomerEmail := "alice@x",
    CustomerPhone := "0900000000", ShippingAddress := { FullName := "Alice", City := "Hà Nội" },
    TotalAmount := 200, ShippingFee := 30000, DiscountAmount := 0, FinalAmount := 30200,
    Status := "pending", PaymentMethod := "cod", PaymentStatus := "unpaid",
    SessionID := "s1", ExpiresAt := 1800 }

/-- The store after the checkout of `demoStore`. -/
def demoStoreAfter : Store :=
  { products := [{ ID := 1, Name := "Runner", Price := 100, TotalStock := 0, IsActive := true }],
    productSizes :=
      [{ ID := 1, ProductID := 1, Size := "M", Stock := 0, Price := some 100, IsActive := true }],
    carts := [{ ID := 1, SessionID := "s1", ExpiresAt := 86400 }],
    cartItems := [],
    deletedCartItems :=
      [{ ID := 1, CartID := 1, ProductID := 1, ProductSizeID := 1, Quantity := 2, Price := 100 }],
    orders := [demoOrder],
    orderItems :=
      [{ ID := 1, OrderID := 1, ProductID := 1, ProductSizeID := 1, ProductName := "Runner",
         ProductSize := "M", Quantity := 2, UnitPrice := 100, TotalPrice := 200 }],
    payments := [{ ID := 1, OrderID := 1, Amount := 30200, PaymentGateway := "internal",
                   Status := "pending" }],
    cartSeq := 1, cartItemSeq := 1, orderSeq := 1, orderItemSeq := 1, paymentSeq := 1,
    productSeq := 1, productSizeSeq := 1 }

/-! ## Stock reservation -/

/-- The oracle under which only the insert of the payment row fails. -/
def paymentInsertFails : Faults := fun s => decide (s = Stmt.createPayment)

/-- Two stores agree on the catalogue, the orders, the order items and the payments. -/
def SameOrderTables (a b : Store) : Prop :=
  a.products = b.products ∧ a.productSizes = b.productSizes ∧ a.orders = b.orders ∧
    a.orderItems = b.orderItems ∧ a.payments = b.payments

/-- The errors `CreateOrder` raises between `os.db.Begin()` and the insert of the payment row. -/
def Err.beforePayment : Err → Bool
  | .failedToGenerateOrderCode _ => true
  | .failedToCreateOrder => true
  | .productSizeNotFound => true
  | .insufficientStock _ _ => true
  | .failedToUpdateStock => true
  | .productNotFound => true
  | .failedToUpdateProductTotalStock => true
  | .failedToCreateOrderItem => true
  | .failedToClearCart => true
  | _ => false

/-! ## The loop of `CancelOrder` -/

/-- The quantity a list of order items gives back to one product size. -/
def restoredOfSize (items : List OrderItem) (sizeID : Nat) : Int :=
  ((items.filter (fun i => i.ProductSizeID == sizeID)).map (fun i => i.Quantity)).sum

/-- The quantity a list of order items gives back to one product. -/
def restoredOfProduct (items : List OrderItem) (productID : Nat) : Int :=
  ((items.filter (fun i => i.ProductID == productID)).map (fun i => i.Quantity)).sum

/-- The order row `CancelOrder` saves. -/
def cancelledOrder (order : Order) (reason : String) : Order :=
  { order with Status := OrderStatusCancelled,
               Notes := order.Notes ++ "\nLý do hủy: " ++ reason }

/-- A shop with one earlier order on record, five pairs of size M in stock and
a guest cart holding one of them. -/
def busyStore : Store :=
  { products := [{ ID := 1, Name := "Runner", Price := 100, TotalStock := 5, IsActive := true }],
    productSizes :=
      [{ ID := 1, ProductID := 1, Size := "M", Stock := 5, Price := some 100, IsActive := true }],
    carts := [{ ID := 1, SessionID := "s1", ExpiresAt := 86400 }],
    cartItems :=
      [{ ID := 2, CartID := 1, ProductID := 1, ProductSizeID := 1, Quantity := 1, Price := 100 }],
    orders := [demoOrder],
    orderItems :=
      [{ ID := 1, OrderID := 1, ProductID := 1, ProductSizeID := 1, ProductName := "Runner",
         ProductSize := "M", Quantity := 2, UnitPrice := 100, TotalPrice := 200 }],
    payments := [{ ID := 1, OrderID := 1, Amount := 30200, PaymentGateway := "internal",
                   Status := "pending" }],
    cartSeq := 1, cartItemSeq := 2, orderSeq := 1, orderItemSeq := 1, paymentSeq := 1,
    productSeq := 1, productSizeSeq := 1 }

/-- The order the checkout of `busyStore` creates at time 0. -/
def busyOrder : Order :=
  { ID := 2, OrderCode := "00002", CustomerName := "Alice", CustomerEmail := "alice@x",
    CustomerPhone := "0900000000", ShippingAddress := { FullName := "Alice", City := "Hà Nội" },
    TotalAmount := 100, ShippingFee := 30000, DiscountAmount := 0, FinalAmount := 30100,
    Status := "pending", PaymentMethod := "cod", PaymentStatus := "unpaid",
    SessionID := "s1", ExpiresAt := 1800 }

/-! ## Five-digit codes -/

/-- The five characters of a code number. -/
def codeChars (n : Nat) : List Char :=
  [digitChar (n / 10000 % 10), digitChar (n / 1000 % 10), digitChar (n / 100 % 10),
   digitChar (n / 10 % 10), digitChar (n % 10)]

/-- The code of a number, as text. -/
def codeOf (n : Nat) : String := String.mk (codeChars n)

/-- A five-digit order code: the decimal digits of a number in `1..99999`, zero-padded. -/
def ValidCode (code : String) : Prop :=
  ∃ n : Nat, 1 ≤ n ∧ n ≤ 99999 ∧ code = codeOf n

/-- The `j`-th code number in cyclic order over `1..99999` starting from `s`. -/
def cyclicCode (s j : Nat) : Nat := (s - 1 + j) % 99999 + 1

/-- Some order of the store carries the code. -/
def CodeUsed (db : Store) (code : String) : Prop := ∃ o ∈ db.orders, o.OrderCode = code

/-- One checkout call: the oracle, the clock and the arguments of `CreateOrder`. -/
structure Checkout where
  fails : Faults
  now : Time
  userID : Option Nat
  sessionID : String
  req : CreateOrderRequest

/-- A sequence of `CreateOrder` calls, each on the store the previous one left. -/
def createOrders : List Checkout → Store → Store
  | [], db => db
  | c :: rest, db => createOrders rest (CreateOrder c.fails c.now db c.userID c.sessionID c.req).1

/-! ## Allocation of order codes, as worded -/

/-- Search for the first unused code among `k` codes taken in cyclic order
from `s`, beginning at offset `j`. -/
def firstUnusedFrom (db : Store) (s : Nat) : Nat → Nat → Option String
  | 0, _ => none
  | k + 1, j =>
    if orderCodeExists db (codeOf (cyclicCode s j)) then firstUnusedFrom db s k (j + 1)
    else some (codeOf (cyclicCode s j))

/-- One more than a code number, wrapping to 1 after 99999. -/
def codeAfter (m : Int) : Nat := if m + 1 > 99999 then 1 else (m + 1).toNat

/-- The highest number carried by an order code of the store. -/
def highestOrderCode (db : Store) : Option Int :=
  db.orders.foldl (fun acc o =>
    match Atoi o.OrderCode, acc with
    | none, _ => acc
    | some n, none => some n
    | some n, some m => some (max m n)) none

/-- The allocation with the start taken from the highest existing code: the
first unused code in cyclic order over `00001..99999` starting from the
highest existing order code plus one, from `00001` when no order exists;
`none` when there is no unused code. -/
def orderCodeAfterHighest (db : Store) : Option String :=
  let start := match highestOrderCode db with
    | none => 1
    | some m => codeAfter m
  firstUnusedFrom db start 99999 0

/-- Two orders, the more recent one with the lower code. -/
def wrappedStore : Store :=
  { orders := [{ ID := 1, OrderCode := "00005" }, { ID := 2, OrderCode := "00002" }],
    orderSeq := 2 }

/-! ## Who may cancel, and when -/

/-- The order is the caller's: same user id, or same session id and no user. -/
def Order.ownedBy (o : Order) (userID : Option Nat) (sessionID : String) : Prop :=
  match userID with
  | some u => o.UserID = some u
  | none => o.SessionID = sessionID ∧ o.UserID = none

/-! ## Total stock against the stock of the sizes -/

/-- The order row `ProcessPayment` saves. -/
def paidOrder (order : Order) : Order :=
  { order with PaymentStatus := PaymentStatusPaid, Status := OrderStatusPaid }

/-- The payment row `ProcessPayment` leaves for a row of the order. -/
def completedPayment (p : Payment) (transactionID : String) (now : Time)
    (responseData : List (String × String)) : Payment :=
  { p with TransactionID := transactionID, Status := PaymentRecordStatusCompleted,
           PaymentDate := some now, ResponseData := responseData }

/-- An unpaid order with two payment rows: a first attempt recorded as failed
and the pending row of the retry. -/
def retriedStore : Store :=
  { orders := [{ ID := 1, OrderCode := "00001", SessionID := "s1", Status := "pending",
                 PaymentStatus := "unpaid", FinalAmount := 230 }],
    payments := [{ ID := 1, OrderID := 1, TransactionID := "t0", Amount := 230,
                   PaymentGateway := "vnpay", Status := "failed" },
                 { ID := 2, OrderID := 1, Amount := 230, PaymentGateway := "vnpay",
                   Status := "pending" }],
    orderSeq := 1, paymentSeq := 2 }

/-! ## The expiry sweep of orders -/

/-- The reason `CleanExpiredOrders` gives to `CancelOrder`. -/
def expiryReason : String := "Đơn hàng hết hạn thanh toán"

/-- The condition of the sweep: expired, still pending and unpaid. -/
def Order.isSwept (o : Order) (now : Time) : Bool :=
  decide (o.ExpiresAt < now) && o.Status == OrderStatusPending
    && o.PaymentStatus == PaymentStatusUnpaid

/-- An order row after the sweep. -/
def sweptOrder (now : Time) (o : Order) : Order :=
  if o.isSwept now then cancelledOrder o expiryReason else o

/-- The payment row `CancelOrder` leaves for a row of the order. -/
def cancelledPayment (p : Payment) : Payment :=
  { p with Status := PaymentRecordStatusCancelled }

/-- A payment row after the sweep of the orders with these ids. -/
def sweptPayment (orderIDs : List Nat) (p : Payment) : Payment :=
  if orderIDs.contains p.OrderID then cancelledPayment p else p

/-- The order items of a list of orders. -/
def itemsOfOrders (db : Store) (orders : List Order) : List OrderItem :=
  (orders.map (fun o => loadOrderItems db o.ID)).flatten

/-- The lookup of `AddToCart` for the size of the product. -/
def findSizeOf (db : Store) (sizeID productID : Nat) : Option ProductSize :=
  db.productSizes.find? (fun s => s.ID == sizeID && s.ProductID == productID)

/-- The grounds on which an `AddToCart` request is to be refused, clause by
clause: the product is missing or inactive; the size is missing, belongs to
another product or is inactive; the size has less stock than asked; the cart
has no item for the product and size and already holds `MaxCartItems` items;
the cart has such an item and the summed quantity exceeds `MaxItemQuantity` or
the stock of the size. -/
def AddToCartRefused (db : Store) (cart : Cart) (req : AddToCartRequest) : Prop :=
  (∀ product, findProduct db req.ProductID = some product → product.IsActive = false) ∨
  (∀ size, findSizeOf db req.ProductSizeID req.ProductID = some size → size.IsActive = false) ∨
  (∃ size, findSizeOf db req.ProductSizeID req.ProductID = some size ∧
    size.Stock < req.Quantity) ∨
  (findCartItem db cart.ID req.ProductID req.ProductSizeID = none ∧
    MaxCartItems ≤ ((loadCartItems db cart.ID).length : Int)) ∨
  (∃ existing size, findCartItem db cart.ID req.ProductID req.ProductSizeID = some existing ∧
    findSizeOf db req.ProductSizeID req.ProductID = some size ∧
    (MaxItemQuantity < existing.Quantity + req.Quantity ∨
      size.Stock < existing.Quantity + req.Quantity))

/-! ## `AddToCart`: what it writes -/

/-- A shelf with two products and the cart of a guest.  Product 1 is on
discount at 80, product 2 carries a discount price of 0; size 3 has a price of
its own.  The cart holds two pairs of size 1, taken at the former price. -/
def shelfStore : Store :=
  { products :=
      [{ ID := 1, Name := "Runner", Price := 100, DiscountPrice := some 80, TotalStock := 10,
         IsActive := true },
       { ID := 2, Name := "Walker", Price := 100, DiscountPrice := some 0, TotalStock := 5,
         IsActive := true }],
    productSizes :=
      [{ ID := 1, ProductID := 1, Size := "M", Stock := 5, IsActive := true },
       { ID := 2, ProductID := 2, Size := "M", Stock := 5, IsActive := true },
       { ID := 3, ProductID := 1, Size := "L", Stock := 5, Price := some 90, IsActive := true }],
    carts := [{ ID := 1, SessionID := "s1", ExpiresAt := 86400 }],
    cartItems :=
      [{ ID := 1, CartID := 1, ProductID := 1, ProductSizeID := 1, Quantity := 2, Price := 100 }],
    cartSeq := 1, cartItemSeq := 1, productSeq := 2, productSizeSeq := 3 }

/-- The cart of `shelfStore`. -/
def shelfCart : Cart := { ID := 1, SessionID := "s1", ExpiresAt := 86400 }

/-- The shelf of `shelfStore` with a second item in the cart: one pair of product 2,
taken at 50 before the product went to 100 with a discount price of 0. -/
def walkerStore : Store :=
  { shelfStore with
    cartItems :=
      [{ ID := 1, CartID := 1, ProductID := 1, ProductSizeID := 1, Quantity := 2, Price := 100 },
       { ID := 2, CartID := 1, ProductID := 2, ProductSizeID := 2, Quantity := 1, Price := 50 }],
    cartItemSeq := 2 }

/-- The invariant of the cart items: at most one row per cart, product and size. -/
def CartItemsUnique (db : Store) : Prop :=
  ∀ cartID productID sizeID : Nat,
    (db.cartItems.filter (fun i =>
      i.CartID == cartID && i.ProductID == productID && i.ProductSizeID == sizeID)).length ≤ 1

/-- The store with another table of cart items. -/
def withCartItems (db : Store) (items : List CartItem) : Store :=
  { db with cartItems := items }

/-- The time to live `Cart.GetExpiryTime` grants: a day to a guest cart, a week
to the cart of a user. -/
def cartTTL (cart : Cart) : Int :=
  if cart.UserID = none then GuestCartExpiryHours * Hour else CartExpiryHours * Hour

/-! ## The price `AddToCart` captures -/

/-- The unit price as `size.price ?? product.discount_price ?? product.price`:
any discount price that is set wins over the price of the product. -/
def coalescedPrice (product : Product) (productSize : ProductSize) : ℚ :=
  productSize.Price.getD (product.DiscountPrice.getD product.Price)

/-! ## `ValidateCart` -/

/-- An item `ValidateCart` has to report: its product is inactive, its size is
inactive, its size is out of stock, or its size has less stock than the item asks. -/
def itemFaulty (db : Store) (item : CartItem) : Bool :=
  !(preloadProduct db item.ProductID).IsActive ||
  !(preloadProductSize db item.ProductSizeID).IsActive ||
  (preloadProductSize db item.ProductSizeID).Stock == 0 ||
  decide ((preloadProductSize db item.ProductSizeID).Stock < item.Quantity)

/-- A shelf whose only product has been withdrawn, and a cart, expired since
time 100, that still holds a pair of it. -/
def staleStore : Store :=
  { products := [{ ID := 1, Name := "Runner", Price := 100, TotalStock := 5, IsActive := false }],
    productSizes := [{ ID := 1, ProductID := 1, Size := "M", Stock := 5, IsActive := true }],
    carts := [{ ID := 1, SessionID := "s1", ExpiresAt := 100 }],
    cartItems :=
      [{ ID := 1, CartID := 1, ProductID := 1, ProductSizeID := 1, Quantity := 1, Price := 100 }],
    cartSeq := 1, cartItemSeq := 1, productSeq := 1, productSizeSeq := 1 }

/-- The cart of `staleStore`. -/
def staleCart : Cart := { ID := 1, SessionID := "s1", ExpiresAt := 100 }

/-! ## `GetOrCreateCart` -/

/-- At most one cart per user, and at most one cart without user per session. -/
def CartsUnique (db : Store) : Prop :=
  (∀ u : Nat, (db.carts.filter (fun c => c.UserID == some u)).length ≤ 1) ∧
  (∀ s : String, (db.carts.filter (fun c => c.SessionID == s && c.UserID == none)).length ≤ 1)

/-- The primary key of `carts`: distinct ids, none above the sequence. -/
def CartKeys (db : Store) : Prop :=
  (db.carts.map (fun c => c.ID)).Nodup ∧ ∀ c ∈ db.carts, c.ID ≤ db.cartSeq

/-- The cart a miss of the lookup is to create: a day to live for a guest, seven
days for a user. -/
def createdCart (db : Store) (now : Time) (userID : Option Nat) (sessionID : String) : Cart :=
  { ID := db.cartSeq + 1, UserID := userID, SessionID := sessionID,
    ExpiresAt := match userID with
      | none => now + 24 * Hour
      | some _ => now + 7 * 24 * Hour }

/-! ## `UpdateCartItem` -/

/-- The lookup of `UpdateCartItem`: the item with this id in this cart. -/
def findItemOfCart (db : Store) (cartID itemID : Nat) : Option CartItem :=
  db.cartItems.find? (fun i => i.ID == itemID && i.CartID == cartID)

/-! ## Cart routes (routes/routes.go, routes/cart_routes.go, middleware/auth.go,
controllers/cart_controller.go) -/

/-- The struct `JWTClaims` (utils/jwt.go). -/
structure JWTClaims where
  UserID : Nat := 0
  Email : String := ""
  Role : Int := 0
  CSRFToken : String := ""
deriving DecidableEq

/-- The part of the HTTP request the cart handlers read: method, path and the
headers `Authorization`, `X-Session-ID` and `X-CSRF-Token` (empty when absent). -/
structure Request where
  Method : String := "GET"
  Path : String := ""
  Authorization : String := ""
  XSessionID : String := ""
  XCSRFToken : String := ""
deriving DecidableEq

/-- The part of `gin.Context` the handlers use: the request, the keys written
with `c.Set`, the abort flag, the status of the response and its header
`X-Session-ID`. -/
structure Context where
  Request : Request
  user_id : Option Nat := none
  user_email : Option String := none
  user_role : Option Int := none
  csrf_token : Option String := none
  aborted : Bool := false
  status : Option Nat := none
  headerXSessionID : Option String := none
deriving DecidableEq

/-- Splitting a list of characters at every separator. -/
def splitChars (sep : Char) : List Char → List (List Char)
  | [] => [[]]
  | c :: cs =>
    if c = sep then [] :: splitChars sep cs
    else
      match splitChars sep cs with
      | [] => [[c]]
      | part :: parts => (c :: part) :: parts

/-- `strings.Split` with a separator of one character. -/
def Split (s : String) (sep : Char) : List String :=
  (splitChars sep s.data).map String.mk

/-- `c.JSON(status, ..)` followed by `c.Abort()`. -/
def abortWith (c : Context) (status : Nat) : Context :=
  { c with status := some status, aborted := true }

/-- `AuthMiddleware.RequireAuth`, over the token check `utils.ValidateToken`. -/
def RequireAuth (ValidateToken : String → Option JWTClaims) (c : Context) : Context :=
  let authHeader := c.Request.Authorization
  if authHeader = "" then abortWith c 401
  else
    match Split authHeader ' ' with
    | [scheme, token] =>
      if scheme ≠ "Bearer" then abortWith c 401
      else
        match ValidateToken token with
        | none => abortWith c 401
        | some claims =>
          { c with user_id := some claims.UserID, user_email := some claims.Email,
                   user_role := some claims.Role, csrf_token := some claims.CSRFToken }
    | _ => abortWith c 401

/-- The handler `SetupRoutes` installs on the engine: CORS headers, and the
answer to a preflight request. -/
def corsMiddleware (c : Context) : Context :=
  if c.Request.Method = "OPTIONS" then { c with status := some 204, aborted := true } else c

/-- The chain of a route: each handler runs unless an earlier one aborted. -/
def runHandlers : List (Context → Context) → Context → Context
  | [], c => c
  | handler :: rest, c => if c.aborted then c else runHandlers rest (handler c)

/-- The handlers in front of every controller of `SetupCartRoutes`: the CORS
handler of the engine; the groups `/api/v1` and `/cart` install none.  (The
logger and the recovery handler of `gin.Default()` write no key of the context
and are left out.) -/
def cartMiddlewares : List (Context → Context) := [corsMiddleware]

/-- The context a cart controller receives for a request. -/
def cartContext (req : Request) : Context :=
  runHandlers cartMiddlewares { Request := req }

/-- `middleware.GetUserIDFromContext`. -/
def GetUserIDFromContext (c : Context) : Option Nat := c.user_id

/-- `CartController.getCartIdentifier`; `GenerateSessionID` is the fresh UUID.
Returns the user id, the session id and the context, whose response header is
set when a session id was generated. -/
def getCartIdentifier (GenerateSessionID : String) (c : Context) :
    Option Nat × String × Context :=
  match GetUserIDFromContext c with
  | some userID => (some userID, "", c)
  | none =>
    let sessionID := c.Request.XSessionID
    if sessionID = "" then
      (none, GenerateSessionID, { c with headerXSessionID := some GenerateSessionID })
    else (none, sessionID, c)

/-- `CartController.MergeGuestCart`: the store and the status of the response. -/
def MergeGuestCart (fails : Faults) (now : Time) (db : Store) (c : Context) : Store × Nat :=
  match GetUserIDFromContext c with
  | none => (db, 401)
  | some userID =>
    let sessionID := c.Request.XSessionID
    if sessionID = "" then (db, 400)
    else
      match MergeGuestCartToUser fails now db sessionID userID with
      | (db1, .error _) => (db1, 500)
      | (db1, .ok _) => ((GetOrCreateCart fails now db1 (some userID) "").1, 200)

/-- A token check that accepts the token `good`, of user 7. -/
def demoValidateToken (token : String) : Option JWTClaims :=
  if token = "good" then some { UserID := 7, Email := "u7@x" } else none

/-- The request of user 7, logged in, to merge the guest cart of session `s1`. -/
def mergeRequest : Request :=
  { Method := "POST", Path := "/api/v1/cart/merge", Authorization := "Bearer good",
    XSessionID := "s1" }

/-! ## `MergeGuestCartToUser` -/

/-- The primary key of `cart_items`: distinct ids, none above the sequence. -/
def CartItemKeys (db : Store) : Prop :=
  (db.cartItems.map (fun i => i.ID)).Nodup ∧ ∀ i ∈ db.cartItems, i.ID ≤ db.cartItemSeq

/-- The quantity of an item is at most `MaxItemQuantity` and at most the stock
of its size. -/
def WithinBounds (db : Store) (item : CartItem) : Prop :=
  item.Quantity ≤ MaxItemQuantity ∧
  ∀ size, findSizeOf db item.ProductSizeID item.ProductID = some size →
    item.Quantity ≤ size.Stock

/-- The id of the cart the merge fills: the cart of the user, or the one
`GetOrCreateCart` is about to create. -/
def userCartID (db : Store) (userID : Nat) (sessionID : String) : Nat :=
  match findCart db (some userID) sessionID with
  | some userCart => userCart.ID
  | none => db.cartSeq + 1

/-- Every item of the cart in `a` is still in the cart in `b`, same row id,
product and size, with at least its quantity. -/
def ItemsKept (cartID : Nat) (a b : Store) : Prop :=
  ∀ i ∈ loadCartItems a cartID, ∃ j ∈ loadCartItems b cartID,
    j.ID = i.ID ∧ j.ProductID = i.ProductID ∧ j.ProductSizeID = i.ProductSizeID ∧
    i.Quantity ≤ j.Quantity

/-- The guest cart of session `s1` with two pairs of size 1, and the cart of
user 7, expired since time 100, with a pair of size 3. -/
def lapsedStore : Store :=
  { products := [{ ID := 1, Name := "Runner", Price := 100, TotalStock := 10, IsActive := true }],
    productSizes :=
      [{ ID := 1, ProductID := 1, Size := "M", Stock := 5, IsActive := true },
       { ID := 3, ProductID := 1, Size := "L", Stock := 5, IsActive := true }],
    carts := [{ ID := 1, SessionID := "s1", ExpiresAt := 86400 },
              { ID := 2, UserID := some 7, ExpiresAt := 100 }],
    cartItems :=
      [{ ID := 1, CartID := 1, ProductID := 1, ProductSizeID := 1, Quantity := 2, Price := 100 },
       { ID := 2, CartID := 2, ProductID := 1, ProductSizeID := 3, Quantity := 1, Price := 100 }],
    cartSeq := 2, cartItemSeq := 2, productSeq := 1, productSizeSeq := 3 }

/-- The guest cart of session `s1` with two pairs of size 1, and the cart of
user 7, not expired, with nine pairs of size 2, which has five left in stock. -/
def overdrawnStore : Store :=
  { products :=
      [{ ID := 1, Name := "Runner", Price := 100, TotalStock := 5, IsActive := true },
       { ID := 2, Name := "Walker", Price := 100, TotalStock := 5, IsActive := true }],
    productSizes :=
      [{ ID := 1, ProductID := 1, Size := "M", Stock := 5, IsActive := true },
       { ID := 2, ProductID := 2, Size := "M", Stock := 5, IsActive := true }],
    carts := [{ ID := 1, SessionID := "s1", ExpiresAt := 86400 },
              { ID := 2, UserID := some 7, ExpiresAt := 86400 }],
    cartItems :=
      [{ ID := 1, CartID := 1, ProductID := 1, ProductSizeID := 1, Quantity := 2, Price := 100 },
       { ID := 2, CartID := 2, ProductID := 2, ProductSizeID := 2, Quantity := 9, Price := 100 }],
    cartSeq := 2, cartItemSeq := 2, productSeq := 2, productSizeSeq := 2 }

/-! ## Shipping fee -/

/-- The cities the shipping policy counts as remote. -/
def remoteCities : List String := ["Cà Mau", "An Giang", "Kiên Giang", "Hà Giang"]

/-! ## CSRF guard (middleware/auth.go) -/

/-- `isPublicEndpoint`. -/
def isPublicEndpoint (path : String) : Bool :=
  let publicEndpoints :=
    ["/api/v1/auth/login", "/api/v1/auth/register", "/api/v1/auth/recovery",
     "/api/v1/auth/recovery/verify", "/health"]
  publicEndpoints.any (fun endpoint => path == endpoint)

/-- `AuthMiddleware.CSRFProtection`. -/
def CSRFProtection (c : Context) : Context :=
  if c.Request.Method = "GET" then c
  else if isPublicEndpoint c.Request.Path then c
  else
    let csrfToken := c.Request.XCSRFToken
    if csrfToken = "" then abortWith c 403
    else
      match c.csrf_token with
      | none => abortWith c 403
      | some contextCSRF => if csrfToken ≠ contextCSRF then abortWith c 403 else c

/-- The handlers the protected groups install in front of their controllers
(`users.Use`, `adminProducts.Use`, ...): `RequireAuth`, then `CSRFProtection`. -/
def protectedMiddlewares (ValidateToken : String → Option JWTClaims) :
    List (Context → Context) :=
  [RequireAuth ValidateToken, CSRFProtection]

/-- A token check that accepts the token `good`, of user 7, with the CSRF token `c7`. -/
def csrfValidateToken (token : String) : Option JWTClaims :=
  if token = "good" then some { UserID := 7, Email := "u7@x", CSRFToken := "c7" } else none

/-! ## Login, lockout and recovery (controllers/auth_controller.go) -/

/-- `utils.MaxFailedLogins` (utils/jwt.go). -/
def MaxFailedLogins : Int := 5

/-- `models.RoleUser`. -/
def RoleUser : Int := 1

/-- `models.RoleAdmin`. -/
def RoleAdmin : Int := 0

/-- What the client sees of an answer: the HTTP status and the fields of
`APIResponse` (the technical `error` text left out). -/
structure HTTPResponse where
  Status : Nat
  Success : Bool
  Message : String
  Data : List (String × String) := []
deriving DecidableEq

/-- The library calls of the auth handlers, taken as given:
`bcrypt.CompareHashAndPassword` (true when the password matches the hash),
`bcrypt.GenerateFromPassword`, `utils.GenerateToken` (the token, its CSRF
token and its expiry), the struct validation of the requests and the parsing
of a birthday. -/
structure AuthEnv where
  CompareHashAndPassword : String → String → Bool
  GenerateFromPassword : String → Option String
  GenerateToken : Nat → String → Int → Option (String × String × Time)
  isEmail : String → Bool
  validRegister : String → String → String → Bool
  parseBirthday : String → Option Time

/-- `Save(&user)`. -/
def saveUser (users : List User) (user : User) : List User :=
  users.map (fun u => if u.ID == user.ID then user else u)

/-- `Save(&recoveryCode)`. -/
def saveRecoveryCode (codes : List RecoveryCode) (code : RecoveryCode) : List RecoveryCode :=
  codes.map (fun r => if r.ID == code.ID then code else r)

/-- `Where("email = ?", email).First(&user)`. -/
def findUserByEmail (db : Store) (email : String) : Option User :=
  db.users.find? (fun u => u.Email == email)

/-- `AuthController.logLoginAttempt`; the error of the insert is dropped. -/
def logLoginAttempt (fails : Faults) (now : Time) (db : Store) (email ipAddress userAgent : String)
    (isSuccess : Bool) (failReason : String) : Store :=
  if fails .createLoginAttempt then db
  else
    { db with
      loginAttempts := db.loginAttempts ++
        [{ ID := db.loginAttemptSeq + 1, Email := email, IPAddress := ipAddress,
           UserAgent := userAgent, IsSuccess := isSuccess, FailReason := failReason,
           AttemptedAt := now }],
      loginAttemptSeq := db.loginAttemptSeq + 1 }

/-- The struct `RegisterRequest` (models/user.go), address and phone left out. -/
structure RegisterRequest where
  Fullname : String := ""
  Email : String := ""
  Password : String := ""
  ConfirmPassword : String := ""
  Birthday : String := ""
deriving DecidableEq

/-- The user row `Register` inserts. -/
def newUser (db : Store) (req : RegisterRequest) (hashedPassword : String) : User :=
  { ID := db.userSeq + 1, Fullname := req.Fullname, Email := req.Email,
    Password := hashedPassword, Role := RoleUser, IsActive := true }

/-- `AuthController.Register`. -/
def Register (env : AuthEnv) (fails : Faults) (db : Store) (req : RegisterRequest) :
    Store × HTTPResponse :=
  if !(env.validRegister req.Fullname req.Email req.Password
        && req.ConfirmPassword == req.Password) then
    (db, { Status := 400, Success := false, Message := "Validation failed" })
  else
    match findUserByEmail db req.Email with
    | some _ => (db, { Status := 409, Success := false, Message := "Email already registered" })
    | none =>
      match env.GenerateFromPassword req.Password with
      | none => (db, { Status := 500, Success := false, Message := "Failed to hash password" })
      | some hashedPassword =>
        if req.Birthday ≠ "" ∧ env.parseBirthday req.Birthday = none then
          (db, { Status := 400, Success := false,
                 Message := "Invalid birthday format. Use YYYY-MM-DD" })
        else if fails .createUser then
          (db, { Status := 500, Success := false, Message := "Failed to create user" })
        else
          ({ db with users := db.users ++ [newUser db req hashedPassword],
                     userSeq := db.userSeq + 1 },
           { Status := 201, Success := true, Message := "User registered successfully" })

/-- The struct `LoginRequest` (models/user.go). -/
structure LoginRequest where
  Email : String := ""
  Password : String := ""
deriving DecidableEq

/-- The user row `Login` saves after a wrong password. -/
def failedLoginUser (user : User) : User :=
  { user with
    FailedLoginCount := user.FailedLoginCount + 1,
    IsActive := if user.FailedLoginCount + 1 ≥ MaxFailedLogins then false else user.IsActive }

/-- The user row `Login` saves after the right password. -/
def loggedInUser (user : User) (now : Time) : User :=
  { user with FailedLoginCount := 0, LastLoginAt := some now }

/-- The message of `Login` for a locked account. -/
def lockedMessage (tail : String) : String :=
  "Tài khoản đã bị khóa do nhập sai mật khẩu quá " ++ toString MaxFailedLogins ++ tail

/-- `AuthController.Login`.  The save after a wrong password has its error
dropped; so has the insert of the login attempt. -/
def Login (env : AuthEnv) (fails : Faults) (now : Time) (db : Store) (req : LoginRequest)
    (ipAddress userAgent : String) : Store × HTTPResponse :=
  if !(env.isEmail req.Email) || req.Password == "" then
    (db, { Status := 400, Success := false, Message := "Validation failed" })
  else
    match findUserByEmail db req.Email with
    | none =>
      (logLoginAttempt fails now db req.Email ipAddress userAgent false "Email not found",
       { Status := 401, Success := false, Message := "Invalid email or password" })
    | some user =>
      if !user.IsActive then
        (logLoginAttempt fails now db req.Email ipAddress userAgent false "Account is locked",
         { Status := 401, Success := false,
           Message := lockedMessage " lần. Vui lòng kiểm tra email để nhận mã khôi phục." })
      else if !(env.CompareHashAndPassword user.Password req.Password) then
        let user1 := failedLoginUser user
        let db1 :=
          if fails (.saveUser user.ID) then db else { db with users := saveUser db.users user1 }
        let failReason := "Invalid password (attempt " ++ toString user1.FailedLoginCount
          ++ "/" ++ toString MaxFailedLogins ++ ")"
        let db2 := logLoginAttempt fails now db1 req.Email ipAddress userAgent false failReason
        if user1.FailedLoginCount ≥ MaxFailedLogins then
          (db2, { Status := 401, Success := false,
                  Message := lockedMessage " lần. Mã khôi phục đã được gửi đến email của bạn." })
        else
          (db2, { Status := 401, Success := false,
                  Message := "Mật khẩu không đúng. Còn "
                    ++ toString (MaxFailedLogins - user1.FailedLoginCount) ++ " lần thử." })
      else
        let user1 := loggedInUser user now
        if fails (.saveUser user.ID) then
          (db, { Status := 500, Success := false, Message := "Failed to update user login info" })
        else
          let db1 := { db with users := saveUser db.users user1 }
          match env.GenerateToken user.ID user.Email user.Role with
          | none => (db1, { Status := 500, Success := false, Message := "Failed to generate token" })
          | some (token, csrfToken, _) =>
            (logLoginAttempt fails now db1 req.Email ipAddress userAgent true "Login successful",
             { Status := 200, Success := true, Message := "Login successful",
               Data := [("token", token), ("token_type", "Bearer"), ("csrf_token", csrfToken)] })

/-- `AuthController.RequestRecovery`; `code` is the outcome of
`utils.GenerateRecoveryCode`. -/
def RequestRecovery (env : AuthEnv) (fails : Faults) (now : Time) (db : Store) (email : String)
    (code : Option String) : Store × HTTPResponse :=
  if !(env.isEmail email) then
    (db, { Status := 400, Success := false, Message := "Validation failed" })
  else
    match findUserByEmail db email with
    | none =>
      (db, { Status := 200, Success := true,
             Message := "Nếu email tồn tại, mã khôi phục đã được gửi đến email của bạn." })
    | some user =>
      match code with
      | none =>
        (db, { Status := 500, Success := false, Message := "Failed to generate recovery code" })
      | some code =>
        if fails .createRecoveryCode then
          (db, { Status := 500, Success := false, Message := "Failed to save recovery code" })
        else
          ({ db with
             recoveryCodes := db.recoveryCodes ++
               [{ ID := db.recoveryCodeSeq + 1, UserID := user.ID, Code := code,
                  ExpiresAt := now + 30 * Minute }],
             recoveryCodeSeq := db.recoveryCodeSeq + 1 },
           { Status := 200, Success := true,
             Message := "Mã khôi phục đã được gửi đến email của bạn. Mã có hiệu lực trong 30 phút." })

/-- The lookup of `VerifyRecovery`: the code, unused and not yet expired. -/
def findRecoveryCode (db : Store) (now : Time) (code : String) : Option RecoveryCode :=
  db.recoveryCodes.find? (fun r => r.Code == code && r.IsUsed == false && decide (r.ExpiresAt > now))

/-- `Preload("User")` of a recovery code; the zero value when the row is gone. -/
def preloadUser (db : Store) (userID : Nat) : User :=
  (db.users.find? (fun u => u.ID == userID)).getD {}

/-- The recovery code row `VerifyRecovery` saves. -/
def usedRecoveryCode (recoveryCode : RecoveryCode) : RecoveryCode :=
  { recoveryCode with IsUsed := true }

/-- The user row `VerifyRecovery` saves. -/
def reactivatedUser (user : User) : User :=
  { user with IsActive := true, FailedLoginCount := 0 }

/-- The store with another table of users. -/
def withUsers (db : Store) (users : List User) : Store := { db with users := users }

/-- The store with another table of recovery codes. -/
def withRecoveryCodes (db : Store) (codes : List RecoveryCode) : Store :=
  { db with recoveryCodes := codes }

/-- `AuthController.VerifyRecovery`: two saves on the plain connection, one
after the other.  `Save` of a row whose primary key is zero (the preload found
no user) is an insert. -/
def VerifyRecovery (fails : Faults) (now : Time) (db : Store) (code : String) :
    Store × HTTPResponse :=
  if code = "" then (db, { Status := 400, Success := false, Message := "Validation failed" })
  else
    match findRecoveryCode db now code with
    | none =>
      (db, { Status := 400, Success := false,
             Message := "Mã khôi phục không hợp lệ hoặc đã hết hạn." })
    | some recoveryCode =>
      let owner := preloadUser db recoveryCode.UserID
      if fails (.saveRecoveryCode recoveryCode.ID) then
        (db, { Status := 500, Success := false, Message := "Failed to update recovery code" })
      else
        let db1 := withRecoveryCodes db
          (saveRecoveryCode db.recoveryCodes (usedRecoveryCode recoveryCode))
        let user := reactivatedUser owner
        let done : HTTPResponse :=
          { Status := 200, Success := true,
            Message := "Tài khoản đã được kích hoạt lại thành công. Bạn có thể đăng nhập ngay bây giờ.",
            Data := [("user_email", user.Email), ("is_active", "true")] }
        let failed : HTTPResponse :=
          { Status := 500, Success := false, Message := "Failed to reactivate account" }
        if user.ID = 0 then
          if fails .createUser then (db1, failed)
          else
            ({ db1 with users := db1.users ++ [{ user with ID := db1.userSeq + 1 }],
                        userSeq := db1.userSeq + 1 }, done)
        else if fails (.saveUser user.ID) then (db1, failed)
        else (withUsers db1 (saveUser db1.users user), done)

/-- A store with one registered user, locked out. -/
def lockedStore : Store :=
  { users := [{ ID := 1, Fullname := "An", Email := "an@x.vn", Password := "hash", Role := 1,
                IsActive := false, FailedLoginCount := 5 }],
    userSeq := 1 }

/-- A validation that takes every string with an `@` for an e-mail address. -/
def demoAuthEnv : AuthEnv :=
  { CompareHashAndPassword := fun hash password => hash == "hash" && password == "secret",
    GenerateFromPassword := fun _ => some "hash",
    GenerateToken := fun _ _ _ => some ("good", "c7", 86400),
    isEmail := fun s => s.data.contains '@',
    validRegister := fun fullname email password =>
      decide (2 ≤ fullname.length) && email.data.contains '@' && decide (6 ≤ password.length),
    parseBirthday := fun _ => none }

/-- The answer of `RequestRecovery` when no user has the address. -/
def recoveryAnswerUnknown : HTTPResponse :=
  { Status := 200, Success := true,
    Message := "Nếu email tồn tại, mã khôi phục đã được gửi đến email của bạn." }

/-- The lockout invariant: a user with `MaxFailedLogins` failures or more on
record is inactive. -/
def LockoutInvariant (db : Store) : Prop :=
  ∀ u ∈ db.users, MaxFailedLogins ≤ u.FailedLoginCount → u.IsActive = false

/-- The stores reachable from one without users through `Register`, `Login`,
`RequestRecovery` and `VerifyRecovery`, whatever the requests and whichever
writes fail. -/
inductive AuthReachable (env : AuthEnv) : Store → Prop
  | start (db : Store) (h : db.users = []) : AuthReachable env db
  | register (fails : Faults) (db : Store) (req : RegisterRequest) :
      AuthReachable env db → AuthReachable env (Register env fails db req).1
  | login (fails : Faults) (now : Time) (db : Store) (req : LoginRequest)
      (ipAddress userAgent : String) :
      AuthReachable env db → AuthReachable env (Login env fails now db req ipAddress userAgent).1
  | requestRecovery (fails : Faults) (now : Time) (db : Store) (email : String)
      (code : Option String) :
      AuthReachable env db → AuthReachable env (RequestRecovery env fails now db email code).1
  | verifyRecovery (fails : Faults) (now : Time) (db : Store) (code : String) :
      AuthReachable env db → AuthReachable env (VerifyRecovery fails now db code).1

/-- `n` login attempts in a row with the same request. -/
def repeatLogin (env : AuthEnv) (fails : Faults) (now : Time) (req : LoginRequest)
    (ipAddress userAgent : String) : Nat → Store → Store
  | 0, db => db
  | n + 1, db =>
    (Login env fails now (repeatLogin env fails now req ipAddress userAgent n db) req
      ipAddress userAgent).1

/-- A store with one registered user, active and without failures. -/
def freshUserStore : Store :=
  { users := [{ ID := 1, Fullname := "An", Email := "an@x.vn", Password := "hash", Role := 1,
                IsActive := true }],
    userSeq := 1 }

/-! ## `VerifyRecovery` -/

/-- The user `VerifyRecovery` is to reactivate: the row with the id the code names. -/
def findUser (db : Store) (userID : Nat) : Option User :=
  db.users.find? (fun u => u.ID == userID)

/-- The answer of `VerifyRecovery` to a code it accepts and whose owner it reactivates. -/
def recoveryDone (email : String) : HTTPResponse :=
  { Status := 200, Success := true,
    Message := "Tài khoản đã được kích hoạt lại thành công. Bạn có thể đăng nhập ngay bây giờ.",
    Data := [("user_email", email), ("is_active", "true")] }

/-- `lockedStore` with two recovery codes issued to its user, both good until 1800. -/
def recoveryStore : Store :=
  { lockedStore with
    recoveryCodes := [{ ID := 1, UserID := 1, Code := "4f1c", ExpiresAt := 1800 },
                      { ID := 2, UserID := 1, Code := "9b2e", ExpiresAt := 1800 }],
    recoveryCodeSeq := 2 }

/-- The oracle under which only the save of user 1 fails. -/
def userSaveFails : Faults := fun s => decide (s = Stmt.saveUser 1)

/-! ## Reviews (controllers/review_controller.go) -/

/-- `models.ReviewRequest`. -/
structure ReviewRequest where
  ProductID : Nat := 0
  Comment : String := ""
  Rating : Int := 0
deriving DecidableEq

/-- `validator.Struct(&req)` over the tags of `ReviewRequest`: `required` on all three
fields, `min=10,max=1000` on the comment, `min=1,max=5` on the rating. -/
def ReviewRequest.valid (req : ReviewRequest) : Bool :=
  req.ProductID != 0 && decide (10 ≤ req.Comment.length) &&
    decide (req.Comment.length ≤ 1000) && decide (1 ≤ req.Rating) && decide (req.Rating ≤ 5)

/-- `middleware.GetUserRoleFromContext`. -/
def GetUserRoleFromContext (c : Context) : Int × Bool :=
  match c.user_role with
  | some role => (role, true)
  | none => (0, false)

/-- The store with another table of reviews. -/
def withReviews (db : Store) (reviews : List Review) : Store := { db with reviews := reviews }

/-- The store with another table of products. -/
def withProducts (db : Store) (products : List Product) : Store :=
  { db with products := products }

/-- The product row after `Updates` of `review_count` and `average_rating`. -/
def ratedProduct (p : Product) (count : Int) (average : ℚ) : Product :=
  { p with ReviewCount := count, AverageRating := average }

/-- `ReviewController.updateProductRatingStats`: `COUNT(*)` and `AVG(rating)` over the
active reviews of the product, written to the product row, where the column
`average_rating` is a `decimal(3,2)` and keeps two decimals of the average.  `AVG` over
no row is NULL, which `Scan` leaves as the zero value of `stats.Average`.  `none` is the
error. -/
def updateProductRatingStats (fails : Faults) (tx : Store) (productID : Nat) : Option Store :=
  let rows := tx.reviews.filter (fun r => r.ProductID == productID && r.IsActive == true)
  let count : Int := rows.length
  let average : Option ℚ :=
    if rows.length = 0 then none
    else some ((((rows.map (fun r => r.Rating)).sum : Int) : ℚ) / (rows.length : ℚ))
  if fails (.updateProductRating productID) then none
  else
    some (withProducts tx
      (tx.products.map (fun p =>
        if p.ID == productID then ratedProduct p count (toScale2 fails (average.getD 0))
        else p)))

/-- The review `CreateReview` builds; `SanitizeString` is `utils.SanitizeString`. -/
def newReview (SanitizeString : String → String) (req : ReviewRequest) (userID : Nat) :
    Review :=
  { ProductID := req.ProductID, UserID := userID, Comment := SanitizeString req.Comment,
    Rating := req.Rating, IsActive := true }

/-- `tx.Create(&review)`. -/
def insertReview (db : Store) (review : Review) : Store :=
  { db with reviews := db.reviews ++ [{ review with ID := db.reviewSeq + 1 }],
            reviewSeq := db.reviewSeq + 1 }

/-- An answer without data. -/
def answer (status : Nat) (success : Bool) (message : String) : HTTPResponse :=
  { Status := status, Success := success, Message := message }

/-- `ReviewController.CreateReview`, on the context the middleware leaves. -/
def CreateReview (SanitizeString : String → String) (fails : Faults) (db : Store)
    (c : Context) (req : ReviewRequest) : Store × HTTPResponse :=
  if req.valid = false then (db, answer 400 false "Validation failed")
  else
    match GetUserIDFromContext c with
    | none => (db, answer 401 false "User ID not found")
    | some userID =>
      match db.products.find? (fun p => p.ID == req.ProductID && p.IsActive == true) with
      | none => (db, answer 404 false "Product not found or inactive")
      | some _ =>
        match db.reviews.find?
            (fun r => r.ProductID == req.ProductID && r.UserID == userID) with
        | some _ => (db, answer 409 false "You have already reviewed this product")
        | none =>
          if fails .createReview then (db, answer 500 false "Failed to create review")
          else
            match updateProductRatingStats fails
                (insertReview db (newReview SanitizeString req userID)) req.ProductID with
            | none => (db, answer 500 false "Failed to update product statistics")
            | some tx => (tx, answer 201 true "Review created successfully")

/-- `Save(&review)`. -/
def saveReview (reviews : List Review) (review : Review) : List Review :=
  reviews.map (fun r => if r.ID == review.ID then review else r)

/-- The review `UpdateReview` saves. -/
def editedReview (SanitizeString : String → String) (review : Review) (req : ReviewRequest) :
    Review :=
  { review with Comment := SanitizeString req.Comment, Rating := req.Rating }

/-- `ReviewController.UpdateReview`; `id` is the parsed path parameter, `none` when
`strconv.ParseUint` fails. -/
def UpdateReview (SanitizeString : String → String) (fails : Faults) (db : Store)
    (c : Context) (id : Option Nat) (req : ReviewRequest) : Store × HTTPResponse :=
  match id with
  | none => (db, answer 400 false "Invalid review ID")
  | some id =>
    if req.valid = false then (db, answer 400 false "Validation failed")
    else
      match GetUserIDFromContext c with
      | none => (db, answer 401 false "User ID not found")
      | some userID =>
        let userRole := (GetUserRoleFromContext c).1
        match db.reviews.find? (fun r => r.ID == id) with
        | none => (db, answer 404 false "Review not found")
        | some review =>
          if review.UserID ≠ userID ∧ userRole ≠ RoleAdmin then
            (db, answer 403 false "You can only update your own reviews")
          else
            let oldRating := review.Rating
            let review := editedReview SanitizeString review req
            if fails (.saveReview review.ID) then
              (db, answer 500 false "Failed to update review")
            else
              let tx := withReviews db (saveReview db.reviews review)
              if oldRating ≠ req.Rating then
                match updateProductRatingStats fails tx review.ProductID with
                | none => (db, answer 500 false "Failed to update product statistics")
                | some tx => (tx, answer 200 true "Review updated successfully")
              else (tx, answer 200 true "Review updated successfully")

/-- `ReviewController.DeleteReview`. -/
def DeleteReview (fails : Faults) (db : Store) (c : Context) (id : Option Nat) :
    Store × HTTPResponse :=
  match id with
  | none => (db, answer 400 false "Invalid review ID")
  | some id =>
    match GetUserIDFromContext c with
    | none => (db, answer 401 false "User ID not found")
    | some userID =>
      let userRole := (GetUserRoleFromContext c).1
      match db.reviews.find? (fun r => r.ID == id) with
      | none => (db, answer 404 false "Review not found")
      | some review =>
        if review.UserID ≠ userID ∧ userRole ≠ RoleAdmin then
          (db, answer 403 false "You can only delete your own reviews")
        else
          let productID := review.ProductID
          if fails (.deleteReview review.ID) then
            (db, answer 500 false "Failed to delete review")
          else
            match updateProductRatingStats fails
                (withReviews db (db.reviews.filter (fun r => r.ID != review.ID)))
                productID with
            | none => (db, answer 500 false "Failed to update product statistics")
            | some tx => (tx, answer 200 true "Review deleted successfully")

/-- Spec: the ratings of the active reviews of a product. -/
def activeRatings (db : Store) (productID : Nat) : List Int :=
  (db.reviews.filter (fun r => r.ProductID == productID && r.IsActive)).map (fun r => r.Rating)

/-- Spec: the arithmetic mean of a list of ratings, 0 when there are none. -/
def meanRating (ratings : List Int) : ℚ :=
  if ratings = [] then 0 else ((ratings.sum : Int) : ℚ) / (ratings.length : ℚ)

/-- Spec: the statistics stored on the products with this id are those of its active
reviews. -/
def RatingStatsRight (db : Store) (productID : Nat) : Prop :=
  ∀ p ∈ db.products, p.ID = productID →
    p.ReviewCount = ((activeRatings db productID).length : Int) ∧
    p.AverageRating = meanRating (activeRatings db productID)

/-- The statistics stored on the products with this id are those of its active reviews,
the mean rounded to two decimals: a whole number of hundredths at most half a hundredth
away from it. -/
def RatingStatsAtScale (db : Store) (productID : Nat) : Prop :=
  ∀ p ∈ db.products, p.ID = productID →
    p.ReviewCount = ((activeRatings db productID).length : Int) ∧
    IsCents p.AverageRating ∧
    |p.AverageRating - meanRating (activeRatings db productID)| ≤ 1 / 200

/-- Review ids are unique and come from the sequence. -/
def ReviewsKeyed (db : Store) : Prop :=
  (db.reviews.map (fun r => r.ID)).Nodup ∧ ∀ r ∈ db.reviews, r.ID ≤ db.reviewSeq

/-- The stores the review handlers reach from the empty one.  `other` stands for
every handler that leaves the reviews alone and stores a product either with the
statistics it had or, when no review names it, with none. -/
inductive ReviewReachable (SanitizeString : String → String) : Store → Prop
  | start : ReviewReachable SanitizeString {}
  | create (fails : Faults) (db : Store) (c : Context) (req : ReviewRequest) :
      ReviewReachable SanitizeString db →
      ReviewReachable SanitizeString (CreateReview SanitizeString fails db c req).1
  | update (fails : Faults) (db : Store) (c : Context) (id : Option Nat)
      (req : ReviewRequest) :
      ReviewReachable SanitizeString db →
      ReviewReachable SanitizeString (UpdateReview SanitizeString fails db c id req).1
  | delete (fails : Faults) (db : Store) (c : Context) (id : Option Nat) :
      ReviewReachable SanitizeString db →
      ReviewReachable SanitizeString (DeleteReview fails db c id).1
  | other (db db1 : Store) :
      ReviewReachable SanitizeString db →
      db1.reviews = db.reviews → db1.reviewSeq = db.reviewSeq →
      (∀ p ∈ db1.products,
        (∃ q ∈ db.products, q.ID = p.ID ∧ q.ReviewCount = p.ReviewCount ∧
          q.AverageRating = p.AverageRating) ∨
        (p.ReviewCount = 0 ∧ p.AverageRating = 0 ∧ ∀ r ∈ db.reviews, r.ProductID ≠ p.ID)) →
      ReviewReachable SanitizeString db1

/-- The rating a review contributes to a product: its own when it is an active review of
that product. -/
def ratingOf (productID : Nat) (r : Review) : Option Int :=
  if r.ProductID == productID && r.IsActive then some r.Rating else none

/-- What every reachable store satisfies: keyed reviews and right statistics. -/
def ReviewInvariant (db : Store) : Prop :=
  ReviewsKeyed db ∧ ∀ productID, RatingStatsAtScale db productID

/-- One active product without reviews. -/
def reviewStore : Store :=
  { products := [{ ID := 1, Name := "Áo thun", Price := 150000, IsActive := true }],
    productSeq := 1 }

/-- The context `RequireAuth` leaves for a customer. -/
def reviewer (userID : Nat) : Context :=
  { Request := { Method := "POST" }, user_id := some userID, user_role := some RoleUser }

/-- A review request for product 1. -/
def rate (rating : Int) : ReviewRequest :=
  { ProductID := 1, Comment := "Hàng đúng như mô tả", Rating := rating }

/-- `reviewStore` after three customers rated the product 5, 3 and 4. -/
def ratedStore (SanitizeString : String → String) : Store :=
  (CreateReview SanitizeString noFaults
    (CreateReview SanitizeString noFaults
      (CreateReview SanitizeString noFaults reviewStore (reviewer 1) (rate 5)).1
      (reviewer 2) (rate 3)).1
    (reviewer 3) (rate 4)).1

/-- `ratedStore` after the second customer changed the 3 to 1. -/
def reratedStore (SanitizeString : String → String) : Store :=
  (UpdateReview SanitizeString noFaults (ratedStore SanitizeString) (reviewer 2) (some 2)
    (rate 1)).1

/-- `reratedStore` after the first customer deleted the 5. -/
def prunedStore (SanitizeString : String → String) : Store :=
  (DeleteReview noFaults (reratedStore SanitizeString) (reviewer 1) (some 1)).1

/-- The statistics stored on the products. -/
def ratingStats (db : Store) : List (Nat × Int × ℚ) :=
  db.products.map (fun p => (p.ID, p.ReviewCount, p.AverageRating))

/-! ## The product list (controllers/product_controller.go) -/

/-- `models.ProductListParams`, without the filters on columns the product rows here do
not carry (`category_id`, `search`, `is_featured`); `sort` is the field `Sort`. -/
structure ProductListParams where
  MinPrice : Option ℚ := none
  MaxPrice : Option ℚ := none
  IsActive : Option Bool := none
  sort : String := ""
  Page : Int := 0
  Limit : Int := 0
  InStock : Option Bool := none

/-- The `// Set default values` block of `GetProducts`. -/
def defaultedParams (params : ProductListParams) : ProductListParams :=
  let params := if params.Page < 1 then { params with Page := 1 } else params
  let params :=
    if params.Limit < 1 ∨ params.Limit > 100 then { params with Limit := 20 } else params
  if params.sort = "" then { params with sort := "newest" } else params

/-- The `// Apply filters` block of `GetProducts`. -/
def listFilter (params : ProductListParams) (p : Product) : Bool :=
  (match params.MinPrice with
   | some minPrice => decide (p.Price ≥ minPrice)
   | none => true) &&
  (match params.MaxPrice with
   | some maxPrice => decide (p.Price ≤ maxPrice)
   | none => true) &&
  (match params.IsActive with
   | some isActive => p.IsActive == isActive
   | none => p.IsActive == true) &&
  (match params.InStock with
   | some true => decide (p.TotalStock > 0)
   | _ => true)

/-- The `// Apply sorting` switch of `GetProducts`: the argument of `query.Order`. -/
def sortOrder (sort : String) : String :=
  if sort = "price_asc" then "price ASC"
  else if sort = "price_desc" then "price DESC"
  else if sort = "name_asc" then "name ASC"
  else if sort = "name_desc" then "name DESC"
  else if sort = "newest" then "created_at DESC"
  else if sort = "oldest" then "created_at ASC"
  else if sort = "rating" then "average_rating DESC"
  else if sort = "popular" then "view_count DESC"
  else "created_at ASC"

/-- `ORDER BY` with one of the clauses of `sortOrder`: whether row `a` may stand before
row `b`.  Names are compared as strings, not by the collation of the database. -/
def mayPrecede (order : String) (a b : Product) : Bool :=
  if order = "price ASC" then decide (a.Price ≤ b.Price)
  else if order = "price DESC" then decide (b.Price ≤ a.Price)
  else if order = "name ASC" then decide (¬ b.Name < a.Name)
  else if order = "name DESC" then decide (¬ a.Name < b.Name)
  else if order = "created_at DESC" then decide (b.CreatedAt ≤ a.CreatedAt)
  else if order = "created_at ASC" then decide (a.CreatedAt ≤ b.CreatedAt)
  else if order = "average_rating DESC" then decide (b.AverageRating ≤ a.AverageRating)
  else if order = "view_count DESC" then decide (b.ViewCount ≤ a.ViewCount)
  else true

/-- Insertion of a row into an ordered list, behind the rows that may precede it. -/
def insertOrdered (order : String) (p : Product) : List Product → List Product
  | [] => [p]
  | q :: rest =>
    if mayPrecede order q p then q :: insertOrdered order p rest else p :: q :: rest

/-- The rows in the order of the clause; rows the clause does not tell apart keep the
order of the table. -/
def orderBy (order : String) (products : List Product) : List Product :=
  products.foldr (insertOrdered order) []

/-- `ProductController.GetProducts`: the page of products it answers with. -/
def GetProducts (db : Store) (params : ProductListParams) : List Product :=
  let params := defaultedParams params
  let offset := (params.Page - 1) * params.Limit
  ((orderBy (sortOrder params.sort) (db.products.filter (listFilter params))).drop
    offset.toNat).take params.Limit.toNat

/-- The eight sort keys `ProductListParams` documents. -/
def sortKeys : List String :=
  ["price_asc", "price_desc", "name_asc", "name_desc", "newest", "oldest", "rating", "popular"]

/-- Two active products, the second created after the first. -/
def listStore : Store :=
  { products := [{ ID := 1, Name := "Áo thun", Price := 150000, IsActive := true,
                   CreatedAt := 100 },
                 { ID := 2, Name := "Quần dài", Price := 320000, IsActive := true,
                   CreatedAt := 200 }],
    productSeq := 2 }

/-! ## Payment of a cancelled order -/

/-- The response data `ConfirmCODPayment` records; `confirmed_at` is `time.Now()`. -/
def codResponseData (now : Time) : List (String × String) :=
  [("payment_method", "cod"), ("confirmed_by", "admin"), ("confirmed_at", toString now)]

/-- `OrderController.ConfirmCODPayment`: the store and the HTTP status. -/
def ConfirmCODPayment (fails : Faults) (now : Time) (db : Store) (orderCode : String) :
    Store × Nat :=
  if orderCode = "" then (db, 400)
  else
    match ProcessPayment fails now db orderCode ("COD_" ++ orderCode) (codResponseData now) with
    | (db1, .error _) => (db1, 400)
    | (db1, .ok _) => (db1, 200)

/-- `demoStoreAfter` once the customer has cancelled the order: the two pairs are back
in stock and the payment row is cancelled. -/
def cancelledStore : Store :=
  (CancelOrder noFaults demoStoreAfter none "s1" "00001" "đổi ý").1

/-- The statuses of the orders: code, status, payment status. -/
def orderStatuses (db : Store) : List (String × String × String) :=
  db.orders.map (fun o => (o.OrderCode, o.Status, o.PaymentStatus))

/-- The statuses of the payment rows: order id and status. -/
def paymentStatuses (db : Store) : List (Nat × String) :=
  db.payments.map (fun p => (p.OrderID, p.Status))

/-! ## Order codes in use -/

/-- The shop of `demoStore` with three orders on record whose codes do not follow
their ids: the most recent order carries `00001`. -/
def reusedCodeStore : Store :=
  { demoStore with
    orders := [{ ID := 1, OrderCode := "00002" }, { ID := 2, OrderCode := "00003" },
               { ID := 3, OrderCode := "00001" }],
    orderSeq := 3 }

/-! ## Amounts of an order at the scale of their columns -/

/-- The oracle under which no write fails and every rounding tie goes up. -/
def halfCentsUp : Faults := fun s =>
  match s with
  | .roundHalfUp _ => true
  | _ => false

/-- A shop whose one product costs 1000000.10, with a guest cart holding one of it. -/
def dearStore : Store :=
  { products := [{ ID := 1, Name := "Đồng hồ", Price := 10000001 / 10, TotalStock := 1,
                   IsActive := true }],
    productSizes := [{ ID := 1, ProductID := 1, Size := "M", Stock := 1, IsActive := true }],
    carts := [{ ID := 1, SessionID := "s1", ExpiresAt := 86400 }],
    cartItems :=
      [{ ID := 1, CartID := 1, ProductID := 1, ProductSizeID := 1, Quantity := 1,
         Price := 10000001 / 10 }],
    cartSeq := 1, cartItemSeq := 1, productSeq := 1, productSizeSeq := 1 }

/-- The four amounts of an order: total, shipping fee, discount, final. -/
def Order.amounts (o : Order) : ℚ × ℚ × ℚ × ℚ :=
  (o.TotalAmount, o.ShippingFee, o.DiscountAmount, o.FinalAmount)

/-! # Properties -/

/-! ## The scale of the decimal columns -/

/-- The numerator of `value * 100` split by the denominator of `value`. -/
theorem toScale2_split (value : ℚ) :
    (0 : ℚ) < (value.den : ℚ) ∧
    (0 : ℚ) ≤ ((value.num * 100 % (value.den : ℤ) : ℤ) : ℚ) ∧
    ((value.num * 100 % (value.den : ℤ) : ℤ) : ℚ) < (value.den : ℚ) ∧
    value * 100 = ((value.num * 100 / (value.den : ℤ) : ℤ) : ℚ)
      + ((value.num * 100 % (value.den : ℤ) : ℤ) : ℚ) / (value.den : ℚ) := by
  have hd : (0 : ℤ) < (value.den : ℤ) := by exact_mod_cast value.den_pos
  have hdq : (0 : ℚ) < (value.den : ℚ) := by exact_mod_cast value.den_pos
  have h1 := Int.emod_nonneg (value.num * 100) (ne_of_gt hd)
  have h2 := Int.emod_lt_of_pos (value.num * 100) hd
  have h3 := Int.ediv_add_emod (value.num * 100) (value.den : ℤ)
  refine ⟨hdq, by exact_mod_cast h1, by exact_mod_cast h2, ?_⟩
  have hx : value = (value.num : ℚ) / (value.den : ℚ) := (Rat.num_div_den value).symm
  have h3q : ((value.den : ℤ) : ℚ) * ((value.num * 100 / (value.den : ℤ) : ℤ) : ℚ)
      + ((value.num * 100 % (value.den : ℤ) : ℤ) : ℚ) = (value.num : ℚ) * 100 := by
    exact_mod_cast h3
  have hcast : ((value.den : ℤ) : ℚ) = (value.den : ℚ) := by norm_cast
  rw [hcast] at h3q
  conv_lhs => rw [hx]
  field_simp
  linarith

/-- The value kept is a whole number of hundredths. -/
theorem toScale2_isCents (fails : Faults) (value : ℚ) : IsCents (toScale2 fails value) := by
  unfold toScale2
  simp only
  split
  · exact ⟨_, by rw [Rat.mkRat_eq_div]; norm_cast⟩
  · split
    · exact ⟨_, by rw [Rat.mkRat_eq_div]; norm_cast⟩
    · split
      · exact ⟨_, by rw [Rat.mkRat_eq_div]; norm_cast⟩
      · exact ⟨_, by rw [Rat.mkRat_eq_div]; norm_cast⟩

/-- The value kept is within half a hundredth of the value written. -/
theorem toScale2_near (fails : Faults) (value : ℚ) :
    |toScale2 fails value - value| ≤ 1 / 200 := by
  obtain ⟨hd, hr0, hr1, hsplit⟩ := toScale2_split value
  have hv : value = (((value.num * 100 / (value.den : ℤ) : ℤ) : ℚ)
      + ((value.num * 100 % (value.den : ℤ) : ℤ) : ℚ) / (value.den : ℚ)) / 100 := by
    rw [← hsplit]; ring
  have hfrac0 : (0 : ℚ) ≤ ((value.num * 100 % (value.den : ℤ) : ℤ) : ℚ) / (value.den : ℚ) :=
    div_nonneg hr0 (le_of_lt hd)
  have hlow : 2 * ((value.num * 100 % (value.den : ℤ) : ℤ) : ℚ) ≤ (value.den : ℚ) →
      |((value.num * 100 / (value.den : ℤ) : ℤ) : ℚ) / 100 - value| ≤ 1 / 200 := by
    intro hle
    have hfrac : ((value.num * 100 % (value.den : ℤ) : ℤ) : ℚ) / (value.den : ℚ) ≤ 1 / 2 := by
      rw [div_le_iff₀ hd]; linarith
    rw [abs_le]
    constructor
    · nlinarith [hv]
    · nlinarith [hv]
  have hhigh : (value.den : ℚ) ≤ 2 * ((value.num * 100 % (value.den : ℤ) : ℤ) : ℚ) →
      |((value.num * 100 / (value.den : ℤ) + 1 : ℤ) : ℚ) / 100 - value| ≤ 1 / 200 := by
    intro hle
    have hfrac : 1 / 2 ≤ ((value.num * 100 % (value.den : ℤ) : ℤ) : ℚ) / (value.den : ℚ) := by
      rw [le_div_iff₀ hd]; linarith
    have hfrac1 : ((value.num * 100 % (value.den : ℤ) : ℤ) : ℚ) / (value.den : ℚ) ≤ 1 := by
      rw [div_le_iff₀ hd]; linarith
    rw [abs_le]
    push_cast
    constructor
    · nlinarith [hv]
    · nlinarith [hv]
  unfold toScale2
  simp only
  split
  · rename_i h
    rw [Rat.mkRat_eq_div]
    have hq : 2 * ((value.num * 100 % (value.den : ℤ) : ℤ) : ℚ) < (value.den : ℚ) := by
      have : ((2 * (value.num * 100 % (value.den : ℤ)) : ℤ) : ℚ) < ((value.den : ℤ) : ℚ) := by
        exact_mod_cast h
      push_cast at this
      exact this
    simpa using hlow (le_of_lt hq)
  · rename_i h
    have hge : (value.den : ℚ) ≤ 2 * ((value.num * 100 % (value.den : ℤ) : ℤ) : ℚ) := by
      have : ((value.den : ℤ) : ℚ) ≤ ((2 * (value.num * 100 % (value.den : ℤ)) : ℤ) : ℚ) := by
        exact_mod_cast not_lt.mp h
      push_cast at this
      exact this
    split
    · rw [Rat.mkRat_eq_div]
      simpa using hhigh hge
    · rename_i h2
      have hle : 2 * ((value.num * 100 % (value.den : ℤ) : ℤ) : ℚ) ≤ (value.den : ℚ) := by
        have : ((2 * (value.num * 100 % (value.den : ℤ)) : ℤ) : ℚ) ≤ ((value.den : ℤ) : ℚ) := by
          exact_mod_cast not_lt.mp h2
        push_cast at this
        exact this
      split
      · rw [Rat.mkRat_eq_div]
        simpa using hhigh hge
      · rw [Rat.mkRat_eq_div]
        simpa using hlow hle

/-- A whole number of hundredths is kept as it is, whatever the oracle. -/
theorem toScale2_of_isCents (fails : Faults) {value : ℚ} (h : IsCents value) :
    toScale2 fails value = value := by
  obtain ⟨k, hk⟩ := h
  have hd : (0 : ℤ) < (value.den : ℤ) := by exact_mod_cast value.den_pos
  have hdq : (value.den : ℚ) ≠ 0 := by exact_mod_cast (ne_of_gt value.den_pos)
  have hx : value = (value.num : ℚ) / (value.den : ℚ) := (Rat.num_div_den value).symm
  have hmul : value.num * 100 = k * (value.den : ℤ) := by
    have : (value.num : ℚ) * 100 = (k : ℚ) * (value.den : ℚ) := by
      have h2 : (value.num : ℚ) / (value.den : ℚ) = (k : ℚ) / 100 := by rw [← hx, hk]
      field_simp at h2
      linarith
    exact_mod_cast this
  have hrest : value.num * 100 % (value.den : ℤ) = 0 := by
    rw [hmul]; exact Int.mul_emod_left _ _
  have hquot : value.num * 100 / (value.den : ℤ) = k := by
    rw [hmul]; exact Int.mul_ediv_cancel _ (ne_of_gt hd)
  unfold toScale2
  simp only [hrest, hquot, mul_zero]
  rw [if_pos hd, Rat.mkRat_eq_div]
  rw [hk]
  norm_cast

theorem isCents_intCast (n : ℤ) : IsCents (n : ℚ) := ⟨n * 100, by push_cast; ring⟩

theorem IsCents.add {x y : ℚ} (hx : IsCents x) (hy : IsCents y) : IsCents (x + y) := by
  obtain ⟨a, rfl⟩ := hx
  obtain ⟨b, rfl⟩ := hy
  exact ⟨a + b, by push_cast; ring⟩

theorem IsCents.sub {x y : ℚ} (hx : IsCents x) (hy : IsCents y) : IsCents (x - y) := by
  obtain ⟨a, rfl⟩ := hx
  obtain ⟨b, rfl⟩ := hy
  exact ⟨a - b, by push_cast; ring⟩

theorem IsCents.intMul (n : ℤ) {x : ℚ} (hx : IsCents x) : IsCents ((n : ℚ) * x) := by
  obtain ⟨a, rfl⟩ := hx
  exact ⟨n * a, by push_cast; ring⟩

/-! ## Lemmas on lookups and updates by key -/

theorem find?_map_key {α : Type} (key : α → Nat) (f : α → α) (hf : ∀ a, key (f a) = key a)
    (l : List α) (k : Nat) :
    (l.map f).find? (fun a => key a == k) = (l.find? (fun a => key a == k)).map f := by
  induction l with
  | nil => rfl
  | cons a l ih =>
    simp only [List.map_cons, List.find?_cons, hf]
    cases h : (key a == k) <;> simp [ih]

theorem findSize_saveProductSize (sizes : List ProductSize) (size : ProductSize) (k : Nat) :
    (saveProductSize sizes size).find? (fun s => s.ID == k)
      = (sizes.find? (fun s => s.ID == k)).map (fun s => if s.ID == size.ID then size else s) := by
  unfold saveProductSize
  apply find?_map_key (fun s : ProductSize => s.ID)
  intro a
  by_cases h : a.ID = size.ID <;> simp [h]

theorem findProduct_saveProduct (products : List Product) (product : Product) (k : Nat) :
    (saveProduct products product).find? (fun p => p.ID == k)
      = (products.find? (fun p => p.ID == k)).map
          (fun p => if p.ID == product.ID then product else p) := by
  unfold saveProduct
  apply find?_map_key (fun p : Product => p.ID)
  intro a
  by_cases h : a.ID = product.ID <;> simp [h]

theorem find?_key_eq {α : Type} (key : α → Nat) (l : List α) (k : Nat) (a : α)
    (h : l.find? (fun a => key a == k) = some a) : key a = k := by
  have := List.find?_some h
  simpa using this

/-! ## The loop of `CreateOrder` -/

/-- What a successful turn of the loop did. -/
theorem createOrderItem_ok {fails : Faults} {loaded : Store} {orderID : Nat} {ci : CartItem}
    {tx tx1 : Store} (h : createOrderItem fails loaded orderID ci tx = .ok tx1) :
    ∃ ps p, findSize tx ci.ProductSizeID = some ps ∧ ci.Quantity ≤ ps.Stock ∧
      findProduct tx ci.ProductID = some p ∧
      fails (.saveProductSize ps.ID) = false ∧ fails (.saveProduct p.ID) = false ∧
      fails (.createOrderItem ci.ID) = false ∧
      tx1 = { tx with
        productSizes := saveProductSize tx.productSizes { ps with Stock := ps.Stock - ci.Quantity },
        products := saveProduct tx.products { p with TotalStock := p.TotalStock - ci.Quantity },
        orderItems := tx.orderItems ++ [orderItemOf fails loaded orderID ps.Size tx.orderItemSeq ci],
        orderItemSeq := tx.orderItemSeq + 1 } := by
  unfold createOrderItem at h
  split at h
  · cases h
  · rename_i ps hps
    split at h
    · cases h
    · rename_i hstock
      simp only at h
      split at h
      · cases h
      · rename_i hf1
        split at h
        · cases h
        · rename_i p hp
          split at h
          · cases h
          · rename_i hf2
            split at h
            · cases h
            · rename_i hf3
              refine ⟨ps, p, hps, by omega, hp, by simpa using hf1, by simpa using hf2,
                by simpa using hf3, ?_⟩
              cases h
              rfl

theorem reservedOfSize_cons (ci : CartItem) (rest : List CartItem) (k : Nat) :
    reservedOfSize (ci :: rest) k
      = (if ci.ProductSizeID = k then ci.Quantity else 0) + reservedOfSize rest k := by
  unfold reservedOfSize
  by_cases h : ci.ProductSizeID = k <;> simp [List.filter_cons, h]

theorem reservedOfProduct_cons (ci : CartItem) (rest : List CartItem) (k : Nat) :
    reservedOfProduct (ci :: rest) k
      = (if ci.ProductID = k then ci.Quantity else 0) + reservedOfProduct rest k := by
  unfold reservedOfProduct
  by_cases h : ci.ProductID = k <;> simp [List.filter_cons, h]

/-- Stock of every size after one turn of the loop. -/
theorem createOrderItem_stockOf {fails : Faults} {loaded : Store} {orderID : Nat}
    {ci : CartItem} {tx tx1 : Store} (h : createOrderItem fails loaded orderID ci tx = .ok tx1)
    (k : Nat) :
    stockOf tx1 k
      = (stockOf tx k).map (fun st => st - (if ci.ProductSizeID = k then ci.Quantity else 0)) := by
  obtain ⟨ps, p, hps, -, -, -, -, -, rfl⟩ := createOrderItem_ok h
  have hid : ps.ID = ci.ProductSizeID := find?_key_eq (fun s : ProductSize => s.ID) _ _ _ hps
  unfold stockOf findSize at *
  simp only [findSize_saveProductSize, Option.map_map]
  by_cases hk : ci.ProductSizeID = k
  · subst hk
    simp [hps, hid]
  · cases hs : tx.productSizes.find? (fun s => s.ID == k) with
    | none => simp
    | some s =>
      have hsid : s.ID = k := find?_key_eq (fun s : ProductSize => s.ID) _ _ _ hs
      have : ¬ s.ID = ps.ID := by rw [hsid, hid]; exact fun e => hk e.symm
      simp [this, hk]

/-- Total stock of every product after one turn of the loop. -/
theorem createOrderItem_totalStockOf {fails : Faults} {loaded : Store} {orderID : Nat}
    {ci : CartItem} {tx tx1 : Store} (h : createOrderItem fails loaded orderID ci tx = .ok tx1)
    (k : Nat) :
    totalStockOf tx1 k
      = (totalStockOf tx k).map (fun t => t - (if ci.ProductID = k then ci.Quantity else 0)) := by
  obtain ⟨ps, p, -, -, hp, -, -, -, rfl⟩ := createOrderItem_ok h
  have hid : p.ID = ci.ProductID := find?_key_eq (fun p : Product => p.ID) _ _ _ hp
  unfold totalStockOf findProduct at *
  simp only [findProduct_saveProduct, Option.map_map]
  by_cases hk : ci.ProductID = k
  · subst hk
    simp [hp, hid]
  · cases hs : tx.products.find? (fun p => p.ID == k) with
    | none => simp
    | some q =>
      have hqid : q.ID = k := find?_key_eq (fun p : Product => p.ID) _ _ _ hs
      have : ¬ q.ID = p.ID := by rw [hqid, hid]; exact fun e => hk e.symm
      simp [this, hk]

/-- One turn of the loop keeps the stocks non-negative. -/
theorem createOrderItem_nonneg {fails : Faults} {loaded : Store} {orderID : Nat}
    {ci : CartItem} {tx tx1 : Store} (h : createOrderItem fails loaded orderID ci tx = .ok tx1)
    (hpos : ∀ s ∈ tx.productSizes, 0 ≤ s.Stock) : ∀ s ∈ tx1.productSizes, 0 ≤ s.Stock := by
  obtain ⟨ps, p, -, hq, -, -, -, -, rfl⟩ := createOrderItem_ok h
  intro s hs
  simp only [saveProductSize, List.mem_map] at hs
  obtain ⟨r, hr, rfl⟩ := hs
  split
  · simp only
    omega
  · exact hpos r hr

/-- Stock of every size after the loop: reduced by what the items ask of it. -/
theorem createOrderItems_stockOf {fails : Faults} {loaded : Store} {orderID : Nat}
    (items : List CartItem) {tx tx1 : Store}
    (h : createOrderItems fails loaded orderID items tx = .ok tx1) (k : Nat) :
    stockOf tx1 k = (stockOf tx k).map (fun st => st - reservedOfSize items k) := by
  induction items generalizing tx with
  | nil =>
    simp only [createOrderItems, Except.ok.injEq] at h
    subst h
    simp [reservedOfSize]
  | cons ci rest ih =>
    simp only [createOrderItems] at h
    split at h
    · cases h
    · rename_i tx2 h2
      rw [ih h, createOrderItem_stockOf h2, Option.map_map, reservedOfSize_cons]
      congr 1
      funext st
      simp only [Function.comp]
      omega

/-- Total stock of every product after the loop. -/
theorem createOrderItems_totalStockOf {fails : Faults} {loaded : Store} {orderID : Nat}
    (items : List CartItem) {tx tx1 : Store}
    (h : createOrderItems fails loaded orderID items tx = .ok tx1) (k : Nat) :
    totalStockOf tx1 k = (totalStockOf tx k).map (fun t => t - reservedOfProduct items k) := by
  induction items generalizing tx with
  | nil =>
    simp only [createOrderItems, Except.ok.injEq] at h
    subst h
    simp [reservedOfProduct]
  | cons ci rest ih =>
    simp only [createOrderItems] at h
    split at h
    · cases h
    · rename_i tx2 h2
      rw [ih h, createOrderItem_totalStockOf h2, Option.map_map, reservedOfProduct_cons]
      congr 1
      funext t
      simp only [Function.comp]
      omega

/-- The loop keeps the stocks non-negative. -/
theorem createOrderItems_nonneg {fails : Faults} {loaded : Store} {orderID : Nat}
    (items : List CartItem) {tx tx1 : Store}
    (h : createOrderItems fails loaded orderID items tx = .ok tx1)
    (hpos : ∀ s ∈ tx.productSizes, 0 ≤ s.Stock) : ∀ s ∈ tx1.productSizes, 0 ≤ s.Stock := by
  induction items generalizing tx with
  | nil =>
    simp only [createOrderItems, Except.ok.injEq] at h
    subst h
    exact hpos
  | cons ci rest ih =>
    simp only [createOrderItems] at h
    split at h
    · cases h
    · rename_i tx2 h2
      exact ih h (createOrderItem_nonneg h2 hpos)

/-- Every item of a successful loop found its size and its product. -/
theorem createOrderItems_found {fails : Faults} {loaded : Store} {orderID : Nat}
    (items : List CartItem) {tx tx1 : Store}
    (h : createOrderItems fails loaded orderID items tx = .ok tx1) :
    ∀ ci ∈ items, (stockOf tx ci.ProductSizeID).isSome ∧ (totalStockOf tx ci.ProductID).isSome := by
  induction items generalizing tx with
  | nil => intro ci hci; cases hci
  | cons c rest ih =>
    simp only [createOrderItems] at h
    split at h
    · cases h
    · rename_i tx2 h2
      intro ci hci
      rcases List.mem_cons.mp hci with rfl | hmem
      · obtain ⟨ps, p, hps, -, hp, -⟩ := createOrderItem_ok h2
        simp [stockOf, totalStockOf, hps, hp]
      · have := ih h ci hmem
        rw [createOrderItem_stockOf h2, createOrderItem_totalStockOf h2] at this
        simpa using this

/-- The tables the loop does not write, and the order items it appends. -/
theorem createOrderItems_frame {fails : Faults} {loaded : Store} {orderID : Nat}
    (items : List CartItem) {tx tx1 : Store}
    (h : createOrderItems fails loaded orderID items tx = .ok tx1) :
    tx1.carts = tx.carts ∧ tx1.cartItems = tx.cartItems ∧ tx1.orders = tx.orders ∧
    tx1.payments = tx.payments ∧ tx1.paymentSeq = tx.paymentSeq ∧ tx1.orderSeq = tx.orderSeq ∧
    tx1.cartSeq = tx.cartSeq ∧ tx1.cartItemSeq = tx.cartItemSeq ∧
    tx1.productSeq = tx.productSeq ∧ tx1.productSizeSeq = tx.productSizeSeq ∧
    ∃ created : List OrderItem, tx1.orderItems = tx.orderItems ++ created ∧
      List.Forall₂ (fun (oi : OrderItem) (ci : CartItem) =>
        oi.OrderID = orderID ∧ oi.ProductID = ci.ProductID ∧
        oi.ProductSizeID = ci.ProductSizeID ∧ oi.Quantity = ci.Quantity ∧
        oi.UnitPrice = toScale2 fails ci.Price ∧
        oi.TotalPrice = toScale2 fails ((ci.Quantity : ℚ) * ci.Price)) created items := by
  induction items generalizing tx with
  | nil =>
    simp only [createOrderItems, Except.ok.injEq] at h
    subst h
    exact ⟨rfl, rfl, rfl, rfl, rfl, rfl, rfl, rfl, rfl, rfl, [], by simp, List.Forall₂.nil⟩
  | cons ci rest ih =>
    simp only [createOrderItems] at h
    split at h
    · cases h
    · rename_i tx2 h2
      obtain ⟨ps, p, -, -, -, -, -, -, htx2⟩ := createOrderItem_ok h2
      obtain ⟨h1, h3, h4, h5, h6, h7, h8, h9, h10, h11, created, hc, hall⟩ := ih h
      subst htx2
      refine ⟨h1, h3, h4, h5, h6, h7, h8, h9, h10, h11,
        orderItemOf fails loaded orderID ps.Size tx.orderItemSeq ci :: created, ?_, ?_⟩
      · rw [hc]; simp
      · exact List.Forall₂.cons ⟨rfl, rfl, rfl, rfl, rfl, rfl⟩ hall

/-! ## Inversion of `CreateOrder` -/

/-- A successful `CreateOrder`, step by step. -/
theorem CreateOrder_ok {fails : Faults} {now : Time} {db db1 : Store} {userID : Option Nat}
    {sessionID : String} {req : CreateOrderRequest} {order : Order}
    (h : CreateOrder fails now db userID sessionID req = (db1, .ok order)) :
    ∃ db0 cart items summary orderCode tx2,
      Begun fails now db userID sessionID req db0 cart items summary ∧
      (GenerateOrderCode db0 = .ok orderCode ∧ orderCodeExists db0 orderCode = false) ∧
      order = storedOrder fails (newOrder now db0 userID sessionID req summary orderCode) ∧
      createOrderItems fails db0 order.ID items
        { db0 with orders := db0.orders ++ [order], orderSeq := db0.orderSeq + 1 } = .ok tx2 ∧
      db1 = insertPayment (deleteCartItems tx2 cart.ID)
              (newPayment tx2.paymentSeq order req) := by
  unfold CreateOrder at h
  split at h
  · cases h
  · rename_i db0 cart items hload
    simp only at h
    split at h
    · cases h
    · rename_i hvalid
      split at h
      · cases h
      · rename_i summary hsum
        split at h
        · cases h
        · rename_i orderCode hcode
          split at h
          · cases h
          · rename_i hfree
            split at h
            · cases h
            · rename_i tx2 hloop
              unfold ClearCart at h
              split at h
              · cases h
              · split at h
                · cases h
                · simp only [Prod.mk.injEq, Except.ok.injEq] at h
                  obtain ⟨hdb, hord⟩ := h
                  subst hord
                  have hunused : orderCodeExists db0 orderCode = false := by
                    cases hc : orderCodeExists db0 orderCode with
                    | false => rfl
                    | true => rw [hc, Bool.or_true] at hfree; exact absurd rfl hfree
                  refine ⟨db0, cart, items, summary, orderCode, tx2,
                    ⟨hload, by simpa using hvalid, hsum⟩, ⟨hcode, hunused⟩, rfl, hloop, ?_⟩
                  rw [← hdb]
                  rfl

/-! ## The cart a checkout works on -/

theorem loadCartItems_deleteCartItems (db : Store) (cartID : Nat) :
    loadCartItems (deleteCartItems db cartID) cartID = [] := by
  simp [loadCartItems, deleteCartItems, List.filter_filter, List.filter_eq_nil_iff]

/-- A cart that passes validation is not expired, has items, and none of them raises an issue. -/
theorem ValidateCart_valid {db : Store} {now : Time} {cart : Cart} {items : List CartItem}
    (h : (ValidateCart db now cart items).IsValid = true) :
    cart.IsExpired now = false ∧ items ≠ [] ∧ ∀ item ∈ items, validateItem db item = none := by
  unfold ValidateCart at h
  split at h
  · cases h
  · rename_i hexp
    split at h
    · cases h
    · rename_i hlen
      refine ⟨by simpa using hexp, ?_, ?_⟩
      · intro hnil
        exact hlen (by simp [hnil])
      · simp only [beq_iff_eq, List.length_eq_zero] at h
        intro item hitem
        cases hv : validateItem db item with
        | none => rfl
        | some issue =>
          have : issue ∈ List.filterMap (validateItem db) items :=
            List.mem_filterMap.mpr ⟨item, hitem, hv⟩
          rw [h] at this
          cases this

/-- A validated cart was loaded without touching any table but `carts`: the
items are those the store held for this cart before the call. -/
theorem GetOrCreateCart_valid {fails : Faults} {now : Time} {db db0 : Store}
    {userID : Option Nat} {sessionID : String} {cart : Cart} {items : List CartItem}
    (hload : GetOrCreateCart fails now db userID sessionID = (db0, .ok (cart, items)))
    (hvalid : (ValidateCart db0 now cart items).IsValid = true) :
    (db0 = db ∨ ∃ c, db0 = { db with carts := db.carts ++ [c], cartSeq := db.cartSeq + 1 }) ∧
      items = loadCartItems db cart.ID := by
  obtain ⟨-, hne, -⟩ := ValidateCart_valid hvalid
  have key : ∀ (c : Cart) (l : List Cart),
      ((l.find? (fun x => x.ID == c.ID)).getD c).ID = c.ID := by
    intro c l
    cases hf : l.find? (fun x => x.ID == c.ID) with
    | none => rfl
    | some r => exact find?_key_eq (fun x : Cart => x.ID) _ _ _ hf
  unfold GetOrCreateCart at hload
  cases hfind : findCart db userID sessionID with
  | some c =>
    simp only [hfind] at hload
    by_cases hexp : c.IsExpired now = true
    · simp only [hexp, if_true, Prod.mk.injEq, Except.ok.injEq] at hload
      obtain ⟨hdb, hcart, hitems⟩ := hload
      unfold CleanExpiredCart ClearCart at hdb hitems
      by_cases hf : fails (.clearCart c.ID) = true
      · simp only [hf, if_true] at hdb hitems
        subst hdb
        refine ⟨Or.inl rfl, ?_⟩
        rw [← hitems, ← hcart, key]
      · simp only [hf] at hdb hitems
        exfalso
        apply hne
        rw [← hitems]
        by_cases hs : fails (.saveCart c.ID) = true
        · simp only [hs, if_true]
          exact loadCartItems_deleteCartItems db c.ID
        · simp only [hs]
          exact loadCartItems_deleteCartItems db c.ID
    · simp only [hexp, Prod.mk.injEq, Except.ok.injEq] at hload
      obtain ⟨hdb, hcart, hitems⟩ := hload
      subst hdb
      refine ⟨Or.inl rfl, ?_⟩
      rw [← hitems, ← hcart]
      simp only [Bool.false_eq_true, if_false, key]
  | none =>
    simp only [hfind] at hload
    by_cases hf : fails .createCart = true
    · simp only [hf, if_true] at hload
      cases hload
    · simp only [hf] at hload
      split at hload
      · cases hload
      · rename_i db1 c heq
        simp only [Bool.false_eq_true, if_false, Prod.mk.injEq, Except.ok.injEq] at heq
        obtain ⟨hdb1, hc⟩ := heq
        subst hdb1
        have hnot : c.IsExpired now = false := by
          subst hc
          cases userID <;>
            simp [Cart.IsExpired, GetExpiryTime, GuestCartExpiryHours, CartExpiryHours, Hour]
        simp only [hnot, Bool.false_eq_true, if_false, Prod.mk.injEq, Except.ok.injEq] at hload
        obtain ⟨hdb, hcart, hitems⟩ := hload
        subst hdb
        refine ⟨Or.inr ⟨_, rfl⟩, ?_⟩
        rw [← hitems, ← hcart, key]
        rfl

/-! ## A small shop used to run the services on concrete data -/

theorem demo_checkout :
    CreateOrder noFaults 0 demoStore none "s1" demoRequest = (demoStoreAfter, .ok demoOrder) := by
  with_unfolding_all rfl

/-! ## Stock reservation -/

theorem stockOf_congr {a b : Store} (h : a.productSizes = b.productSizes) (k : Nat) :
    stockOf a k = stockOf b k := by
  simp [stockOf, findSize, h]

theorem totalStockOf_congr {a b : Store} (h : a.products = b.products) (k : Nat) :
    totalStockOf a k = totalStockOf b k := by
  simp [totalStockOf, findProduct, h]

/-- C1.  Whenever `CreateOrder` succeeds on a store whose size stocks are
non-negative: the stock of every product size is reduced by exactly the
quantity the items of the cart ask of it (for the size of an item that is the
only item of the cart on that size: by that item's quantity), the total stock
of the product each item names is reduced by the quantity the items ask of
that product, every size and product an item refers to exists, and no product
size has negative stock afterwards. -/
theorem createOrder_reserves_stock (fails : Faults) (now : Time) (db db1 : Store)
    (userID : Option Nat) (sessionID : String) (req : CreateOrderRequest) (order : Order)
    (hstock : ∀ s ∈ db.productSizes, 0 ≤ s.Stock)
    (hok : CreateOrder fails now db userID sessionID req = (db1, .ok order)) :
    ∃ cart items,
      (GetOrCreateCart fails now db userID sessionID).2 = .ok (cart, items) ∧
      items = loadCartItems db cart.ID ∧
      (∀ item ∈ items, ∃ st t,
        stockOf db item.ProductSizeID = some st ∧
        stockOf db1 item.ProductSizeID = some (st - reservedOfSize items item.ProductSizeID) ∧
        totalStockOf db item.ProductID = some t ∧
        totalStockOf db1 item.ProductID = some (t - reservedOfProduct items item.ProductID) ∧
        (items.filter (fun i => i.ProductSizeID == item.ProductSizeID) = [item] →
          stockOf db1 item.ProductSizeID = some (st - item.Quantity)) ∧
        (items.filter (fun i => i.ProductID == item.ProductID) = [item] →
          totalStockOf db1 item.ProductID = some (t - item.Quantity))) ∧
      (∀ k, stockOf db1 k = (stockOf db k).map (fun st => st - reservedOfSize items k)) ∧
      (∀ k, totalStockOf db1 k = (totalStockOf db k).map (fun t => t - reservedOfProduct items k)) ∧
      (∀ s ∈ db1.productSizes, 0 ≤ s.Stock) := by
  obtain ⟨db0, cart, items, summary, orderCode, tx2, hbegun, -, -, hloop, hdb1⟩ :=
    CreateOrder_ok hok
  obtain ⟨hdb0, hitems⟩ := GetOrCreateCart_valid hbegun.loaded hbegun.valid
  have hsizes : db0.productSizes = db.productSizes := by
    rcases hdb0 with rfl | ⟨c, rfl⟩ <;> rfl
  have hproducts : db0.products = db.products := by
    rcases hdb0 with rfl | ⟨c, rfl⟩ <;> rfl
  have hS : ∀ k, stockOf db1 k = (stockOf db k).map (fun st => st - reservedOfSize items k) := by
    intro k
    rw [← stockOf_congr hsizes k, hdb1]
    exact createOrderItems_stockOf items hloop k
  have hT : ∀ k, totalStockOf db1 k
      = (totalStockOf db k).map (fun t => t - reservedOfProduct items k) := by
    intro k
    rw [← totalStockOf_congr hproducts k, hdb1]
    exact createOrderItems_totalStockOf items hloop k
  refine ⟨cart, items, by rw [hbegun.loaded], hitems, ?_, hS, hT, ?_⟩
  · intro item hitem
    obtain ⟨h1, h2⟩ := createOrderItems_found items hloop item hitem
    have h1' : (stockOf db item.ProductSizeID).isSome := by
      rw [← stockOf_congr hsizes]; exact h1
    have h2' : (totalStockOf db item.ProductID).isSome := by
      rw [← totalStockOf_congr hproducts]; exact h2
    obtain ⟨st, hst⟩ := Option.isSome_iff_exists.mp h1'
    obtain ⟨t, ht⟩ := Option.isSome_iff_exists.mp h2'
    refine ⟨st, t, hst, by rw [hS, hst]; rfl, ht, by rw [hT, ht]; rfl, ?_, ?_⟩
    · intro hone
      rw [hS, hst]
      simp [reservedOfSize, hone]
    · intro hone
      rw [hT, ht]
      simp [reservedOfProduct, hone]
  · rw [hdb1]
    show ∀ s ∈ tx2.productSizes, 0 ≤ s.Stock
    exact createOrderItems_nonneg items hloop (by rw [hsizes]; exact hstock)

theorem createOrder_reserves_stock_witness :
    (∀ s ∈ demoStore.productSizes, 0 ≤ s.Stock) ∧
    CreateOrder noFaults 0 demoStore none "s1" demoRequest = (demoStoreAfter, .ok demoOrder) ∧
    stockOf demoStoreAfter 1 = (stockOf demoStore 1).map (fun st => st - 2) ∧
    ∀ s ∈ demoStoreAfter.productSizes, 0 ≤ s.Stock := by
  have h := createOrder_reserves_stock noFaults 0 demoStore demoStoreAfter none "s1" demoRequest
    demoOrder (by decide) demo_checkout
  obtain ⟨cart, items, -, -, -, -, -, hpos⟩ := h
  exact ⟨by decide, demo_checkout, by decide, hpos⟩

theorem CleanExpiredCart_tables (fails : Faults) (now : Time) (db : Store) (c : Cart) :
    SameOrderTables (CleanExpiredCart fails now db c).1 db := by
  unfold CleanExpiredCart ClearCart SameOrderTables
  by_cases hf : fails (.clearCart c.ID) = true
  · simp [hf]
  · by_cases hs : fails (.saveCart c.ID) = true
    · simp [hf, hs, deleteCartItems]
    · simp [hf, hs, deleteCartItems]

/-- `GetOrCreateCart` writes no table but `carts` and `cart_items`. -/
theorem GetOrCreateCart_tables (fails : Faults) (now : Time) (db : Store) (userID : Option Nat)
    (sessionID : String) :
    SameOrderTables (GetOrCreateCart fails now db userID sessionID).1 db := by
  unfold GetOrCreateCart
  cases findCart db userID sessionID with
  | some c =>
    simp only
    split
    · exact CleanExpiredCart_tables fails now db c
    · exact ⟨rfl, rfl, rfl, rfl, rfl⟩
  | none =>
    simp only
    by_cases hf : fails .createCart = true
    · simp only [hf, if_true]
      exact ⟨rfl, rfl, rfl, rfl, rfl⟩
    · simp only [hf, Bool.false_eq_true, if_false]
      split
      · exact CleanExpiredCart_tables fails now _ _
      · exact ⟨rfl, rfl, rfl, rfl, rfl⟩

/-- Whatever error `CreateOrder` returns, the products, the sizes (hence every
stock), the orders, the order items and the payments are as before the call. -/
theorem CreateOrder_error_tables {fails : Faults} {now : Time} {db db1 : Store}
    {userID : Option Nat} {sessionID : String} {req : CreateOrderRequest} {e : Err}
    (h : CreateOrder fails now db userID sessionID req = (db1, .error e)) :
    SameOrderTables db1 db := by
  have hg := GetOrCreateCart_tables fails now db userID sessionID
  unfold CreateOrder at h
  split at h
  · rename_i db0 e0 hload
    rw [hload] at hg
    cases h
    exact hg
  · rename_i db0 cart items hload
    rw [hload] at hg
    simp only at h
    split at h
    · cases h; exact hg
    · split at h
      · cases h; exact hg
      · split at h
        · cases h; exact hg
        · split at h
          · cases h; exact hg
          · split at h
            · cases h; exact hg
            · unfold ClearCart at h
              split at h
              · cases h; exact hg
              · rename_i db2 u hclear
                split at h
                · cases h
                  split at hclear
                  · cases hclear
                  · cases hclear
                    exact hg
                · cases h

theorem createOrderItem_error {fails : Faults} {loaded : Store} {orderID : Nat} {ci : CartItem}
    {tx : Store} {e : Err} (h : createOrderItem fails loaded orderID ci tx = .error e) :
    e.beforePayment = true := by
  unfold createOrderItem at h
  split at h
  · cases h; rfl
  · split at h
    · cases h; rfl
    · simp only at h
      split at h
      · cases h; rfl
      · split at h
        · cases h; rfl
        · split at h
          · cases h; rfl
          · split at h
            · cases h; rfl
            · cases h

theorem createOrderItems_error {fails : Faults} {loaded : Store} {orderID : Nat}
    (items : List CartItem) {tx : Store} {e : Err}
    (h : createOrderItems fails loaded orderID items tx = .error e) :
    e.beforePayment = true := by
  induction items generalizing tx with
  | nil => cases h
  | cons ci rest ih =>
    simp only [createOrderItems] at h
    split at h
    · rename_i e1 h1
      cases h
      exact createOrderItem_error h1
    · exact ih h

/-- An error raised after `os.db.Begin()` and before the insert of the payment
row leaves the cart items as they were. -/
theorem CreateOrder_error_cartItems {fails : Faults} {now : Time} {db db1 : Store}
    {userID : Option Nat} {sessionID : String} {req : CreateOrderRequest} {e : Err}
    (h : CreateOrder fails now db userID sessionID req = (db1, .error e))
    (he : e.beforePayment = true) : db1.cartItems = db.cartItems := by
  unfold CreateOrder at h
  split at h
  · cases h; cases he
  · rename_i db0 cart items hload
    simp only at h
    split at h
    · cases h; cases he
    · rename_i hvalid
      have hv : (ValidateCart db0 now cart items).IsValid = true := by simpa using hvalid
      have hdb0 : db0.cartItems = db.cartItems := by
        rcases (GetOrCreateCart_valid hload hv).1 with rfl | ⟨c, rfl⟩ <;> rfl
      split at h
      · rename_i e1 hsum
        cases h
        unfold CalculateOrderSummary at hsum
        split at hsum
        · cases hsum; cases he
        · cases hsum
      · split at h
        · cases h; exact hdb0
        · split at h
          · cases h; exact hdb0
          · split at h
            · cases h; exact hdb0
            · unfold ClearCart at h
              split at h
              · cases h; exact hdb0
              · split at h
                · cases h; cases he
                · cases h

/-- C2, where the code departs from it.  The insert of the payment row fails
after `ClearCart` has run on the plain connection: `CreateOrder` returns an
error, stock, orders, order items and payments are rolled back, but the item
the cart held before the call is gone, left in the table as a deleted row. -/
theorem createOrder_payment_failure_loses_cart :
    CreateOrder paymentInsertFails 0 demoStore none "s1" demoRequest
      = ({ demoStore with cartItems := [], deletedCartItems := demoStore.cartItems },
          .error .failedToCreatePaymentRecord) ∧
    loadCartItems demoStore 1
      = [{ ID := 1, CartID := 1, ProductID := 1, ProductSizeID := 1, Quantity := 2,
           Price := 100 }] ∧
    loadCartItems (CreateOrder paymentInsertFails 0 demoStore none "s1" demoRequest).1 1
      = [] := by
  refine ⟨?_, ?_, ?_⟩ <;> with_unfolding_all rfl

/-! ## The unique index on order codes -/

theorem orderCodeExists_false {db : Store} {code : String}
    (h : orderCodeExists db code = false) : ∀ o ∈ db.orders, o.OrderCode ≠ code := by
  intro o ho hcode
  unfold orderCodeExists at h
  have : db.orders.find? (fun o => o.OrderCode == code) = none := by
    cases hf : db.orders.find? (fun o => o.OrderCode == code) with
    | none => rfl
    | some x => rw [hf] at h; cases h
  have := List.find?_eq_none.mp this o ho
  simp [hcode] at this

/-! ## The loop of `CancelOrder` -/

theorem restoredOfSize_cons (oi : OrderItem) (rest : List OrderItem) (k : Nat) :
    restoredOfSize (oi :: rest) k
      = (if oi.ProductSizeID = k then oi.Quantity else 0) + restoredOfSize rest k := by
  unfold restoredOfSize
  by_cases h : oi.ProductSizeID = k <;> simp [List.filter_cons, h]

theorem restoredOfProduct_cons (oi : OrderItem) (rest : List OrderItem) (k : Nat) :
    restoredOfProduct (oi :: rest) k
      = (if oi.ProductID = k then oi.Quantity else 0) + restoredOfProduct rest k := by
  unfold restoredOfProduct
  by_cases h : oi.ProductID = k <;> simp [List.filter_cons, h]

theorem find?_addSizeStock (sizes : List ProductSize) (sizeID : Nat) (qty : Int) (k : Nat) :
    (addSizeStock sizes sizeID qty).find? (fun s => s.ID == k)
      = (sizes.find? (fun s => s.ID == k)).map
          (fun s => if s.ID == sizeID then { s with Stock := s.Stock + qty } else s) := by
  unfold addSizeStock
  apply find?_map_key (fun s : ProductSize => s.ID)
  intro a
  by_cases h : a.ID = sizeID <;> simp [h]

theorem find?_addProductStock (products : List Product) (productID : Nat) (qty : Int) (k : Nat) :
    (addProductStock products productID qty).find? (fun p => p.ID == k)
      = (products.find? (fun p => p.ID == k)).map
          (fun p => if p.ID == productID then { p with TotalStock := p.TotalStock + qty } else p) := by
  unfold addProductStock
  apply find?_map_key (fun p : Product => p.ID)
  intro a
  by_cases h : a.ID = productID <;> simp [h]

theorem stockOf_addSizeStock (db : Store) (sizes : List ProductSize) (sizeID : Nat) (qty : Int)
    (k : Nat) (h : db.productSizes = sizes) (db1 : Store)
    (h1 : db1.productSizes = addSizeStock sizes sizeID qty) :
    stockOf db1 k = (stockOf db k).map (fun st => st + (if sizeID = k then qty else 0)) := by
  unfold stockOf findSize
  rw [h1, h, find?_addSizeStock, Option.map_map, Option.map_map]
  cases hs : sizes.find? (fun s => s.ID == k) with
  | none => rfl
  | some s =>
    have hsid : s.ID = k := find?_key_eq (fun s : ProductSize => s.ID) _ _ _ hs
    by_cases hk : sizeID = k
    · simp [hk, hsid]
    · have : ¬ s.ID = sizeID := by rw [hsid]; exact fun e => hk e.symm
      simp [this, hk]

theorem totalStockOf_addProductStock (db : Store) (products : List Product) (productID : Nat)
    (qty : Int) (k : Nat) (h : db.products = products) (db1 : Store)
    (h1 : db1.products = addProductStock products productID qty) :
    totalStockOf db1 k
      = (totalStockOf db k).map (fun t => t + (if productID = k then qty else 0)) := by
  unfold totalStockOf findProduct
  rw [h1, h, find?_addProductStock, Option.map_map, Option.map_map]
  cases hs : products.find? (fun p => p.ID == k) with
  | none => rfl
  | some p =>
    have hpid : p.ID = k := find?_key_eq (fun p : Product => p.ID) _ _ _ hs
    by_cases hk : productID = k
    · simp [hk, hpid]
    · have : ¬ p.ID = productID := by rw [hpid]; exact fun e => hk e.symm
      simp [this, hk]

/-- What a successful run of the loop of `CancelOrder` did. -/
theorem restoreStock_ok {fails : Faults} (items : List OrderItem) {tx tx1 : Store}
    (h : restoreStock fails items tx = .ok tx1) :
    (∀ k, stockOf tx1 k = (stockOf tx k).map (fun st => st + restoredOfSize items k)) ∧
    (∀ k, totalStockOf tx1 k = (totalStockOf tx k).map (fun t => t + restoredOfProduct items k)) ∧
    tx1.carts = tx.carts ∧ tx1.cartItems = tx.cartItems ∧ tx1.orders = tx.orders ∧
    tx1.orderItems = tx.orderItems ∧ tx1.payments = tx.payments := by
  induction items generalizing tx with
  | nil =>
    simp only [restoreStock, Except.ok.injEq] at h
    subst h
    simp [restoredOfSize, restoredOfProduct]
  | cons oi rest ih =>
    simp only [restoreStock] at h
    split at h
    · cases h
    · split at h
      · cases h
      · obtain ⟨hS, hT, h1, h2, h3, h4, h5⟩ := ih h
        refine ⟨?_, ?_, h1, h2, h3, h4, h5⟩
        · intro k
          rw [hS k, stockOf_addSizeStock tx tx.productSizes oi.ProductSizeID oi.Quantity k rfl _ rfl,
            Option.map_map, restoredOfSize_cons]
          congr 1
          funext st
          simp only [Function.comp]
          omega
        · intro k
          rw [hT k, totalStockOf_addProductStock tx tx.products oi.ProductID oi.Quantity k rfl _ rfl,
            Option.map_map, restoredOfProduct_cons]
          congr 1
          funext t
          simp only [Function.comp]
          omega

/-- A successful `CancelOrder`, step by step. -/
theorem CancelOrder_ok {fails : Faults} {db db2 : Store} {userID : Option Nat}
    {sessionID orderCode reason : String}
    (h : CancelOrder fails db userID sessionID orderCode reason = (db2, .ok ())) :
    ∃ order tx2, GetOrder db userID sessionID orderCode = some order ∧
      order.CanBeCancelled = true ∧
      restoreStock fails (loadOrderItems db order.ID)
        { db with orders := saveOrder db.orders (cancelledOrder order reason) } = .ok tx2 ∧
      db2 = { tx2 with payments := cancelPayments tx2.payments order.ID } := by
  unfold CancelOrder at h
  split at h
  · cases h
  · rename_i order hget
    split at h
    · cases h
    · rename_i hcan
      simp only at h
      split at h
      · cases h
      · split at h
        · cases h
        · rename_i tx2 hloop
          split at h
          · cases h
          · simp only [Prod.mk.injEq, and_true] at h
            exact ⟨order, tx2, hget, by simpa using hcan, hloop, h.symm⟩

/-- The order found by `GetOrder` is a row of the store that carries the code. -/
theorem GetOrder_some {db : Store} {userID : Option Nat} {sessionID orderCode : String}
    {order : Order} (h : GetOrder db userID sessionID orderCode = some order) :
    order ∈ db.orders ∧ order.OrderCode = orderCode ∧
      (match userID with
       | some u => order.UserID = some u
       | none => order.SessionID = sessionID ∧ order.UserID = none) := by
  unfold GetOrder at h
  cases userID with
  | some u =>
    simp only at h
    have h1 := List.mem_of_find?_eq_some h
    have h2 := List.find?_some h
    simp only [Bool.and_eq_true, beq_iff_eq] at h2
    exact ⟨h1, h2.1, h2.2⟩
  | none =>
    simp only at h
    have h1 := List.mem_of_find?_eq_some h
    have h2 := List.find?_some h
    simp only [Bool.and_eq_true, beq_iff_eq] at h2
    exact ⟨h1, h2.1.1, h2.1.2, h2.2⟩

theorem restored_eq_reserved {orderID : Nat} {created : List OrderItem} {items : List CartItem}
    (h : List.Forall₂ (fun (oi : OrderItem) (ci : CartItem) =>
        oi.OrderID = orderID ∧ oi.ProductID = ci.ProductID ∧
        oi.ProductSizeID = ci.ProductSizeID ∧ oi.Quantity = ci.Quantity ∧
        oi.UnitPrice = toScale2 fails ci.Price ∧
        oi.TotalPrice = toScale2 fails ((ci.Quantity : ℚ) * ci.Price)) created items) :
    (∀ k, restoredOfSize created k = reservedOfSize items k) ∧
    (∀ k, restoredOfProduct created k = reservedOfProduct items k) ∧
    (∀ oi ∈ created, oi.OrderID = orderID) := by
  induction h with
  | nil => exact ⟨fun _ => rfl, fun _ => rfl, fun _ h => by cases h⟩
  | cons hhead _ ih =>
    obtain ⟨h1, h2, h3⟩ := ih
    obtain ⟨e1, e2, e3, e4, -, -⟩ := hhead
    refine ⟨?_, ?_, ?_⟩
    · intro k
      rw [restoredOfSize_cons, reservedOfSize_cons, h1 k, e3, e4]
    · intro k
      rw [restoredOfProduct_cons, reservedOfProduct_cons, h2 k, e2, e4]
    · intro oi hoi
      rcases List.mem_cons.mp hoi with rfl | hmem
      · exact e1
      · exact h3 oi hmem

/-- C3.  After a successful `CreateOrder`, a successful `CancelOrder` of the
order just created puts the stock of every product size and the total stock of
every product back to the value it had before `CreateOrder`, and leaves every
payment row of the order (there is one) with status cancelled.  The store is
one whose order items refer to orders already numbered. -/
theorem cancelOrder_restores_stock (fails fails2 : Faults) (now : Time) (db db1 db2 : Store)
    (userID userID2 : Option Nat) (sessionID sessionID2 reason : String)
    (req : CreateOrderRequest) (order : Order)
    (hrefs : ∀ oi ∈ db.orderItems, oi.OrderID ≤ db.orderSeq)
    (hcreate : CreateOrder fails now db userID sessionID req = (db1, .ok order))
    (hcancel : CancelOrder fails2 db1 userID2 sessionID2 order.OrderCode reason = (db2, .ok ())) :
    (∀ k, stockOf db2 k = stockOf db k) ∧
    (∀ k, totalStockOf db2 k = totalStockOf db k) ∧
    (∀ p ∈ db2.payments, p.OrderID = order.ID → p.Status = PaymentRecordStatusCancelled) ∧
    (∃ p ∈ db2.payments, p.OrderID = order.ID) := by
  obtain ⟨db0, cart, items, summary, orderCode, tx2, hbegun, hcode, horder, hloop, hdb1⟩ :=
    CreateOrder_ok hcreate
  obtain ⟨hdb0, -⟩ := GetOrCreateCart_valid hbegun.loaded hbegun.valid
  have hsizes : db0.productSizes = db.productSizes := by
    rcases hdb0 with rfl | ⟨c, rfl⟩ <;> rfl
  have hproducts : db0.products = db.products := by
    rcases hdb0 with rfl | ⟨c, rfl⟩ <;> rfl
  have horders : db0.orders = db.orders := by
    rcases hdb0 with rfl | ⟨c, rfl⟩ <;> rfl
  have hoitems : db0.orderItems = db.orderItems := by
    rcases hdb0 with rfl | ⟨c, rfl⟩ <;> rfl
  have hseq : db0.orderSeq = db.orderSeq := by
    rcases hdb0 with rfl | ⟨c, rfl⟩ <;> rfl
  obtain ⟨-, -, hfo, hfp, -, -, -, -, -, -, created, hcreated, hall⟩ :=
    createOrderItems_frame items hloop
  obtain ⟨hRS, hRP, hRid⟩ := restored_eq_reserved hall
  obtain ⟨found, tx3, hget, -, hrestore, hdb2⟩ := CancelOrder_ok hcancel
  have hid : order.ID = db.orderSeq + 1 := by rw [horder, ← hseq]; rfl
  have hcodeEq : order.OrderCode = orderCode := by rw [horder]; rfl
  -- the order found is the one just created
  have hfound : found = order := by
    obtain ⟨hmem, hfc, -⟩ := GetOrder_some hget
    have hmem' : found ∈ db0.orders ++ [order] := by
      rw [hdb1] at hmem
      have : (insertPayment (deleteCartItems tx2 cart.ID)
          (newPayment tx2.paymentSeq order req)).orders = tx2.orders := rfl
      rw [this, hfo] at hmem
      exact hmem
    rcases List.mem_append.mp hmem' with hold | hnew
    · exact absurd (hfc.trans hcodeEq)
        (orderCodeExists_false hcode.2 found hold)
    · simpa using hnew
  subst hfound
  -- the items given back are the items just created
  have hitems1 : loadOrderItems db1 found.ID = created := by
    rw [hdb1]
    show List.filter (fun i => i.OrderID == found.ID) tx2.orderItems = created
    rw [hcreated, hoitems, List.filter_append]
    have h1 : List.filter (fun i : OrderItem => i.OrderID == found.ID) db.orderItems = [] := by
      rw [List.filter_eq_nil_iff]
      intro oi hoi
      have := hrefs oi hoi
      simp only [beq_iff_eq]
      omega
    have h2 : List.filter (fun i : OrderItem => i.OrderID == found.ID) created = created := by
      rw [List.filter_eq_self]
      intro oi hoi
      simp [hRid oi hoi]
    rw [h1, h2, List.nil_append]
  rw [hitems1] at hrestore
  obtain ⟨hS, hT, -, -, -, -, hpay⟩ := restoreStock_ok created hrestore
  have hS1 : ∀ k, stockOf db1 k = (stockOf db k).map (fun st => st - reservedOfSize items k) := by
    intro k
    rw [← stockOf_congr hsizes k, hdb1]
    exact createOrderItems_stockOf items hloop k
  have hT1 : ∀ k, totalStockOf db1 k
      = (totalStockOf db k).map (fun t => t - reservedOfProduct items k) := by
    intro k
    rw [← totalStockOf_congr hproducts k, hdb1]
    exact createOrderItems_totalStockOf items hloop k
  refine ⟨?_, ?_, ?_, ?_⟩
  · intro k
    rw [hdb2]
    show stockOf tx3 k = stockOf db k
    rw [hS k]
    show Option.map _ (stockOf db1 k) = _
    rw [hS1 k, Option.map_map, hRS k]
    cases stockOf db k with
    | none => rfl
    | some st => simp
  · intro k
    rw [hdb2]
    show totalStockOf tx3 k = totalStockOf db k
    rw [hT k]
    show Option.map _ (totalStockOf db1 k) = _
    rw [hT1 k, Option.map_map, hRP k]
    cases totalStockOf db k with
    | none => rfl
    | some t => simp
  · intro p hp hpid
    rw [hdb2] at hp
    simp only [cancelPayments, List.mem_map] at hp
    obtain ⟨q, -, rfl⟩ := hp
    by_cases hq : q.OrderID = found.ID
    · simp [hq]
    · simp [hq] at hpid
  · have hin : newPayment tx2.paymentSeq found req ∈ tx3.payments := by
      rw [hpay]
      show _ ∈ db1.payments
      rw [hdb1]
      simp [insertPayment]
    rw [hdb2]
    refine ⟨_, List.mem_map.mpr ⟨_, hin, rfl⟩, ?_⟩
    simp [cancelPayments, newPayment]

theorem busy_checkout :
    CreateOrder noFaults 0 busyStore none "s1" demoRequest
      = ((CreateOrder noFaults 0 busyStore none "s1" demoRequest).1, .ok busyOrder) := by
  with_unfolding_all rfl

theorem cancelOrder_restores_stock_witness :
    (∀ oi ∈ busyStore.orderItems, oi.OrderID ≤ busyStore.orderSeq) ∧
    (CreateOrder noFaults 0 busyStore none "s1" demoRequest).2 = .ok busyOrder ∧
    stockOf (CreateOrder noFaults 0 busyStore none "s1" demoRequest).1 1 = some 4 ∧
    (CancelOrder noFaults (CreateOrder noFaults 0 busyStore none "s1" demoRequest).1
        none "s1" busyOrder.OrderCode "đổi ý").2 = .ok () ∧
    stockOf (CancelOrder noFaults (CreateOrder noFaults 0 busyStore none "s1" demoRequest).1
        none "s1" busyOrder.OrderCode "đổi ý").1 1 = some 5 ∧
    totalStockOf (CancelOrder noFaults (CreateOrder noFaults 0 busyStore none "s1" demoRequest).1
        none "s1" busyOrder.OrderCode "đổi ý").1 1 = some 5 := by
  have hrefs : ∀ oi ∈ busyStore.orderItems, oi.OrderID ≤ busyStore.orderSeq := by decide
  have hcancel : CancelOrder noFaults (CreateOrder noFaults 0 busyStore none "s1" demoRequest).1
        none "s1" busyOrder.OrderCode "đổi ý"
      = ((CancelOrder noFaults (CreateOrder noFaults 0 busyStore none "s1" demoRequest).1
        none "s1" busyOrder.OrderCode "đổi ý").1, .ok ()) := by
    with_unfolding_all rfl
  have h := cancelOrder_restores_stock noFaults noFaults 0 busyStore _ _ none none
    "s1" "s1" "đổi ý" demoRequest busyOrder hrefs busy_checkout hcancel
  refine ⟨hrefs, by with_unfolding_all rfl, by with_unfolding_all rfl,
    by with_unfolding_all rfl, ?_, ?_⟩
  · rw [h.1 1]; with_unfolding_all rfl
  · rw [h.2.1 1]; with_unfolding_all rfl

/-! ## Five-digit codes -/

theorem digitValue_digitChar (d : Nat) (h : d < 10) : digitValue (digitChar d) = some d := by
  interval_cases d <;> rfl

theorem digitChar_ne_sign (d : Nat) (h : d < 10) : digitChar d ≠ '-' ∧ digitChar d ≠ '+' := by
  interval_cases d <;> decide

theorem digitChar_isDigit (d : Nat) (h : d < 10) : (digitChar d).isDigit = true := by
  interval_cases d <;> rfl

theorem decimalDigitsAux_small (fuel n : Nat) (h : n < 10) :
    decimalDigitsAux fuel n = [digitChar n] := by
  cases fuel with
  | zero => simp [decimalDigitsAux, Nat.mod_eq_of_lt h]
  | succ f => simp [decimalDigitsAux, h]

theorem decimalDigitsAux_step (fuel n : Nat) (h : 10 ≤ n) (hf : 1 ≤ fuel) :
    decimalDigitsAux fuel n = decimalDigitsAux (fuel - 1) (n / 10) ++ [digitChar (n % 10)] := by
  obtain ⟨f, rfl⟩ : ∃ f, fuel = f + 1 := ⟨fuel - 1, by omega⟩
  have : ¬ n < 10 := by omega
  simp [decimalDigitsAux, this]

/-- `%05d` of a number below 100000 is its five decimal digits. -/
theorem Sprintf05d_eq (n : Nat) (h : n < 100000) :
    Sprintf05d (n : Int) = codeOf n := by
  have hz : digitChar 0 = '0' := rfl
  unfold Sprintf05d
  have hneg : ¬ ((n : Int) < 0) := by omega
  simp only [hneg, if_false, Int.toNat_ofNat]
  unfold codeOf
  congr 1
  unfold decimalDigits codeChars
  by_cases h1 : n < 10
  · rw [decimalDigitsAux_small _ _ h1]
    have e1 : n / 10000 % 10 = 0 := by omega
    have e2 : n / 1000 % 10 = 0 := by omega
    have e3 : n / 100 % 10 = 0 := by omega
    have e4 : n / 10 % 10 = 0 := by omega
    have e5 : n % 10 = n := by omega
    rw [e1, e2, e3, e4, e5, hz]
    rfl
  · by_cases h2 : n < 100
    · rw [decimalDigitsAux_step _ _ (by omega) (by omega),
        decimalDigitsAux_small _ _ (by omega)]
      have e1 : n / 10000 % 10 = 0 := by omega
      have e2 : n / 1000 % 10 = 0 := by omega
      have e3 : n / 100 % 10 = 0 := by omega
      have e4 : n / 10 % 10 = n / 10 := by omega
      rw [e1, e2, e3, e4, hz]
      rfl
    · by_cases h3 : n < 1000
      · rw [decimalDigitsAux_step _ _ (by omega) (by omega),
          decimalDigitsAux_step _ _ (by omega) (by omega),
          decimalDigitsAux_small _ _ (by omega)]
        have e1 : n / 10000 % 10 = 0 := by omega
        have e2 : n / 1000 % 10 = 0 := by omega
        have e3 : n / 100 % 10 = n / 10 / 10 := by omega
        rw [e1, e2, e3, hz]
        rfl
      · by_cases h4 : n < 10000
        · rw [decimalDigitsAux_step _ _ (by omega) (by omega),
            decimalDigitsAux_step _ _ (by omega) (by omega),
            decimalDigitsAux_step _ _ (by omega) (by omega),
            decimalDigitsAux_small _ _ (by omega)]
          have e1 : n / 10000 % 10 = 0 := by omega
          have e2 : n / 1000 % 10 = n / 10 / 10 / 10 := by omega
          have e3 : n / 100 % 10 = n / 10 / 10 % 10 := by omega
          rw [e1, e2, e3, hz]
          rfl
        · rw [decimalDigitsAux_step _ _ (by omega) (by omega),
            decimalDigitsAux_step _ _ (by omega) (by omega),
            decimalDigitsAux_step _ _ (by omega) (by omega),
            decimalDigitsAux_step _ _ (by omega) (by omega),
            decimalDigitsAux_small _ _ (by omega)]
          have e1 : n / 10000 % 10 = n / 10 / 10 / 10 / 10 := by omega
          have e2 : n / 1000 % 10 = n / 10 / 10 / 10 % 10 := by omega
          have e3 : n / 100 % 10 = n / 10 / 10 % 10 := by omega
          rw [e1, e2, e3]
          rfl

/-- `Atoi` reads back the number a five-digit code was printed from. -/
theorem Atoi_Sprintf05d (n : Nat) (h : n < 100000) : Atoi (Sprintf05d (n : Int)) = some (n : Int) := by
  rw [Sprintf05d_eq n h]
  have h4 : n / 10000 % 10 < 10 := Nat.mod_lt _ (by decide)
  have h3 : n / 1000 % 10 < 10 := Nat.mod_lt _ (by decide)
  have h2 : n / 100 % 10 < 10 := Nat.mod_lt _ (by decide)
  have h1 : n / 10 % 10 < 10 := Nat.mod_lt _ (by decide)
  have h0 : n % 10 < 10 := Nat.mod_lt _ (by decide)
  obtain ⟨hm, hp⟩ := digitChar_ne_sign _ h4
  simp only [Atoi, codeOf, codeChars, hm, hp, if_false, parseDigits, digitValue_digitChar _ h4,
    digitValue_digitChar _ h3, digitValue_digitChar _ h2, digitValue_digitChar _ h1,
    digitValue_digitChar _ h0, Option.bind]
  have hv : ((((0 * 10 + n / 10000 % 10) * 10 + n / 1000 % 10) * 10 + n / 100 % 10) * 10
      + n / 10 % 10) * 10 + n % 10 = n := by omega
  rw [hv]
  unfold inIntRange
  have : -(2 : Int) ^ 63 ≤ (n : Int) ∧ (n : Int) < (2 : Int) ^ 63 := by
    constructor
    · have : (0 : Int) ≤ (n : Int) := Int.ofNat_nonneg n
      norm_num
      omega
    · norm_num
      omega
  rw [if_pos this]

/-- A five-digit code has five characters, all of them decimal digits. -/
theorem Sprintf05d_shape (n : Nat) (h : n < 100000) :
    (Sprintf05d (n : Int)).length = 5 ∧ ∀ c ∈ (Sprintf05d (n : Int)).data, c.isDigit = true := by
  rw [Sprintf05d_eq n h]
  refine ⟨rfl, ?_⟩
  intro c hc
  simp only [codeOf, codeChars, List.mem_cons, List.mem_singleton] at hc
  have hnm := List.not_mem_nil c
  rcases hc with rfl | rfl | rfl | rfl | rfl | hc
  · exact digitChar_isDigit _ (Nat.mod_lt _ (by decide))
  · exact digitChar_isDigit _ (Nat.mod_lt _ (by decide))
  · exact digitChar_isDigit _ (Nat.mod_lt _ (by decide))
  · exact digitChar_isDigit _ (Nat.mod_lt _ (by decide))
  · exact digitChar_isDigit _ (Nat.mod_lt _ (by decide))
  · exact absurd hc hnm

/-- Distinct numbers below 100000 print to distinct codes. -/
theorem Sprintf05d_inj (n m : Nat) (hn : n < 100000) (hm : m < 100000)
    (h : Sprintf05d (n : Int) = Sprintf05d (m : Int)) : n = m := by
  have := Atoi_Sprintf05d n hn
  rw [h, Atoi_Sprintf05d m hm] at this
  simpa using this.symm

/-- The start of the search when the last order, if any, carries a five-digit
code: a number in `1..99999`. -/
theorem nextOrderCode_valid (db : Store)
    (h : ∀ o, db.orders.getLast? = some o → ValidCode o.OrderCode) :
    ∃ s : Nat, 1 ≤ s ∧ s ≤ 99999 ∧ nextOrderCode db = .ok (s : Int) ∧
      (db.orders.getLast? = none → s = 1) ∧
      (∀ o, db.orders.getLast? = some o →
        ∃ m : Nat, 1 ≤ m ∧ m ≤ 99999 ∧ o.OrderCode = codeOf m ∧
          s = if m = 99999 then 1 else m + 1) := by
  unfold nextOrderCode
  cases hl : db.orders.getLast? with
  | none =>
    exact ⟨1, by omega, by omega, rfl, fun _ => rfl, fun o ho => by cases ho⟩
  | some o =>
    obtain ⟨m, hm1, hm2, hcode⟩ := h o hl
    have hat : Atoi o.OrderCode = some (m : Int) := by
      rw [hcode, ← Sprintf05d_eq m (by omega)]
      exact Atoi_Sprintf05d m (by omega)
    have hnext : (match Atoi o.OrderCode with
        | none => (Except.error Err.parseError : Except Err Int)
        | some currentCode =>
          let nextCode := currentCode + 1
          .ok (if nextCode > MaxOrderCode then MinOrderCode else nextCode))
        = .ok (if (m : Int) + 1 > 99999 then 1 else (m : Int) + 1) := by
      rw [hat]; rfl
    by_cases hmax : m = 99999
    · refine ⟨1, by omega, by omega, ?_, ?_, ?_⟩
      · show (match Atoi o.OrderCode with
          | none => (Except.error Err.parseError : Except Err Int)
          | some currentCode =>
            let nextCode := currentCode + 1
            .ok (if nextCode > MaxOrderCode then MinOrderCode else nextCode)) = _
        rw [hnext, hmax]; rfl
      · intro hn; cases hn
      · intro o' ho'
        cases ho'
        exact ⟨m, hm1, hm2, hcode, by simp [hmax]⟩
    · refine ⟨m + 1, by omega, by omega, ?_, ?_, ?_⟩
      · show (match Atoi o.OrderCode with
          | none => (Except.error Err.parseError : Except Err Int)
          | some currentCode =>
            let nextCode := currentCode + 1
            .ok (if nextCode > MaxOrderCode then MinOrderCode else nextCode)) = _
        rw [hnext]
        have : ¬ ((m : Int) + 1 > 99999) := by omega
        rw [if_neg this]
        push_cast
        rfl
      · intro hn; cases hn
      · intro o' ho'
        cases ho'
        exact ⟨m, hm1, hm2, hcode, by simp [hmax]⟩

theorem orderCodeExists_iff (db : Store) (code : String) :
    orderCodeExists db code = true ↔ CodeUsed db code := by
  unfold orderCodeExists CodeUsed
  rw [Option.isSome_iff_exists]
  constructor
  · rintro ⟨o, ho⟩
    exact ⟨o, List.mem_of_find?_eq_some ho, by simpa using List.find?_some ho⟩
  · rintro ⟨o, ho, hc⟩
    cases hf : db.orders.find? (fun o => o.OrderCode == code) with
    | some x => exact ⟨x, rfl⟩
    | none =>
      have := List.find?_eq_none.mp hf o ho
      simp [hc] at this

theorem orderCodeExists_false_iff (db : Store) (code : String) :
    orderCodeExists db code = false ↔ ¬ CodeUsed db code := by
  rw [← orderCodeExists_iff]
  cases orderCodeExists db code <;> simp

theorem cyclicCode_range (s j : Nat) : 1 ≤ cyclicCode s j ∧ cyclicCode s j ≤ 99999 := by
  unfold cyclicCode
  have := Nat.mod_lt (s - 1 + j) (show 99999 > 0 by decide)
  omega

theorem validCode_of_getLast {db : Store} (hcodes : ∀ o ∈ db.orders, ValidCode o.OrderCode) :
    ∀ o, db.orders.getLast? = some o → ValidCode o.OrderCode :=
  fun o ho => hcodes o (List.mem_of_getLast?_eq_some ho)

/-! ## Looking an order up again after it was saved -/

/-- After `Save(&order1)` of a row found by a query that `order1` still
satisfies, the same query finds `order1`. -/
theorem find?_saveOrder (P : Order → Bool) (orders : List Order) (order order1 : Order)
    (hfind : orders.find? P = some order) (hid : order1.ID = order.ID) (hP : P order1 = true) :
    (saveOrder orders order1).find? P = some order1 := by
  induction orders with
  | nil => cases hfind
  | cons a l ih =>
    simp only [saveOrder, List.map_cons, List.find?_cons] at hfind ⊢
    cases hPa : P a with
    | true =>
      rw [hPa] at hfind
      simp only [Option.some.injEq] at hfind
      subst hfind
      simp [hid, hP]
    | false =>
      rw [hPa] at hfind
      by_cases hida : a.ID = order1.ID
      · simp [hida, hP]
      · simp only [beq_iff_eq, hida, if_false, hPa]
        have := ih hfind
        simpa [saveOrder] using this

/-- C6.  `ProcessPayment` is idempotent.  Once a call has returned success, a
second call for the same order code (with any transaction id, response data,
clock and fault oracle) returns success and leaves the whole store as the
first call left it, so no payment row is rewritten; when the first call found
no order the second finds none either and the store is still the original
one; and without write faults a call ends in one of these two ways, so two
calls in succession always leave the store as one call does. -/
theorem processPayment_idempotent (fails1 fails2 : Faults) (now1 now2 : Time) (db : Store)
    (orderCode transactionID transactionID2 : String)
    (responseData responseData2 : List (String × String)) :
    ((ProcessPayment fails1 now1 db orderCode transactionID responseData).2 = .ok () →
      ProcessPayment fails2 now2
          (ProcessPayment fails1 now1 db orderCode transactionID responseData).1
          orderCode transactionID2 responseData2
        = ((ProcessPayment fails1 now1 db orderCode transactionID responseData).1, .ok ())) ∧
    ((ProcessPayment fails1 now1 db orderCode transactionID responseData).2
        = .error .orderNotFound →
      (ProcessPayment fails1 now1 db orderCode transactionID responseData).1 = db ∧
      ProcessPayment fails2 now2 db orderCode transactionID2 responseData2
        = (db, .error .orderNotFound)) ∧
    ((ProcessPayment noFaults now1 db orderCode transactionID responseData).2 = .ok () ∨
      (ProcessPayment noFaults now1 db orderCode transactionID responseData).2
        = .error .orderNotFound) ∧
    (ProcessPayment noFaults now2
        (ProcessPayment noFaults now1 db orderCode transactionID responseData).1
        orderCode transactionID responseData).1
      = (ProcessPayment noFaults now1 db orderCode transactionID responseData).1 := by
  have hA : ∀ (f1 f2 : Faults) (t2 : String) (d2 : List (String × String)),
      (ProcessPayment f1 now1 db orderCode transactionID responseData).2 = .ok () →
      ProcessPayment f2 now2
          (ProcessPayment f1 now1 db orderCode transactionID responseData).1 orderCode t2 d2
        = ((ProcessPayment f1 now1 db orderCode transactionID responseData).1, .ok ()) := by
    intro f1 f2 t2 d2 hok
    unfold ProcessPayment at hok ⊢
    cases hfind : db.orders.find? (fun o => o.OrderCode == orderCode) with
    | none => rw [hfind] at hok; cases hok
    | some order =>
      simp only [hfind] at hok ⊢
      by_cases hpaid : order.PaymentStatus = PaymentStatusPaid
      · simp only [hpaid, if_true, hfind]
      · simp only [hpaid, if_false] at hok ⊢
        by_cases hf1 : f1 (.saveOrder order.ID) = true
        · simp only [hf1, if_true] at hok; cases hok
        · simp only [hf1] at hok ⊢
          by_cases hf2 : f1 (.completePayments order.ID) = true
          · simp only [hf2, if_true] at hok; cases hok
          · simp only [hf2, Bool.false_eq_true, if_false]
            have hcode : order.OrderCode = orderCode := by
              simpa using List.find?_some hfind
            have := find?_saveOrder (fun o => o.OrderCode == orderCode) db.orders order
              { order with PaymentStatus := PaymentStatusPaid, Status := OrderStatusPaid }
              hfind rfl (by simpa using hcode)
            simp only [this, if_true]
  have hB : ∀ (f1 f2 : Faults) (t2 : String) (d2 : List (String × String)),
      (ProcessPayment f1 now1 db orderCode transactionID responseData).2
        = .error .orderNotFound →
      (ProcessPayment f1 now1 db orderCode transactionID responseData).1 = db ∧
      ProcessPayment f2 now2 db orderCode t2 d2 = (db, .error .orderNotFound) := by
    intro f1 f2 t2 d2 herr
    unfold ProcessPayment at herr ⊢
    cases hfind : db.orders.find? (fun o => o.OrderCode == orderCode) with
    | none => simp
    | some order =>
      simp only [hfind] at herr ⊢
      by_cases hpaid : order.PaymentStatus = PaymentStatusPaid
      · simp only [hpaid, if_true] at herr; cases herr
      · simp only [hpaid, if_false] at herr
        by_cases hf1 : f1 (.saveOrder order.ID) = true
        · simp only [hf1, if_true] at herr; cases herr
        · simp only [hf1] at herr
          by_cases hf2 : f1 (.completePayments order.ID) = true
          · simp only [hf2, if_true] at herr; cases herr
          · simp only [hf2, Bool.false_eq_true, if_false] at herr; cases herr
  have hC : (ProcessPayment noFaults now1 db orderCode transactionID responseData).2 = .ok () ∨
      (ProcessPayment noFaults now1 db orderCode transactionID responseData).2
        = .error .orderNotFound := by
    unfold ProcessPayment
    cases hfind : db.orders.find? (fun o => o.OrderCode == orderCode) with
    | none => right; rfl
    | some order =>
      left
      simp only [noFaults]
      by_cases hpaid : order.PaymentStatus = PaymentStatusPaid
      · simp [hpaid]
      · simp [hpaid]
  refine ⟨hA fails1 fails2 transactionID2 responseData2,
    hB fails1 fails2 transactionID2 responseData2, hC, ?_⟩
  rcases hC with hok | herr
  · rw [hA noFaults noFaults transactionID responseData hok]
  · obtain ⟨h1, h2⟩ := hB noFaults noFaults transactionID responseData herr
    rw [h1, h2]

theorem processPayment_idempotent_witness :
    (ProcessPayment noFaults 100 demoStoreAfter "00001" "TX1" []).2 = .ok () ∧
    ProcessPayment noFaults 200
        (ProcessPayment noFaults 100 demoStoreAfter "00001" "TX1" []).1 "00001" "TX2" []
      = ((ProcessPayment noFaults 100 demoStoreAfter "00001" "TX1" []).1, .ok ()) ∧
    (ProcessPayment noFaults 100 demoStoreAfter "00001" "TX1" []).1.payments
      = [{ ID := 1, OrderID := 1, TransactionID := "TX1", Amount := 30200,
           PaymentGateway := "internal", Status := "completed", PaymentDate := some 100 }] := by
  have h := processPayment_idempotent noFaults noFaults 100 200 demoStoreAfter "00001"
    "TX1" "TX2" [] []
  exact ⟨by with_unfolding_all rfl, h.1 (by with_unfolding_all rfl), by with_unfolding_all rfl⟩

/-! ## Who may cancel, and when -/

theorem GetOrder_none_of_not_owned {db : Store} {userID : Option Nat}
    {sessionID orderCode : String}
    (h : ∀ o ∈ db.orders, o.OrderCode = orderCode → ¬ o.ownedBy userID sessionID) :
    GetOrder db userID sessionID orderCode = none := by
  unfold GetOrder
  cases userID with
  | some u =>
    simp only [List.find?_eq_none]
    intro o ho
    have := h o ho
    simp only [Order.ownedBy] at this
    simp only [Bool.and_eq_true, beq_iff_eq, not_and]
    exact this
  | none =>
    simp only [List.find?_eq_none]
    intro o ho
    have := h o ho
    simp only [Order.ownedBy] at this
    simp only [Bool.and_eq_true, beq_iff_eq, not_and]
    intro h1 h2
    exact this h1.1 ⟨h1.2, h2⟩

/-- Any error of `CancelOrder` leaves the store untouched. -/
theorem CancelOrder_error {fails : Faults} {db db2 : Store} {userID : Option Nat}
    {sessionID orderCode reason : String} {e : Err}
    (h : CancelOrder fails db userID sessionID orderCode reason = (db2, .error e)) : db2 = db := by
  unfold CancelOrder at h
  split at h
  · cases h; rfl
  · split at h
    · cases h; rfl
    · simp only at h
      split at h
      · cases h; rfl
      · split at h
        · cases h; rfl
        · split at h
          · cases h; rfl
          · cases h

/-- C10.  `CancelOrder` succeeds only for an order that `GetOrder` finds by code
within the caller's identity (user id, or session id with no user) and whose
status is pending or paid.  When no order with the code belongs to the caller,
or the order found is shipped, delivered or already cancelled, it returns an
error; every error leaves the whole store (orders, stock, payments) exactly
as it was; and after a successful cancel a second cancel of the same order is
refused, so the stock is restored once. -/
theorem cancelOrder_guard (fails : Faults) (db : Store) (userID : Option Nat)
    (sessionID orderCode reason : String) :
    (∀ db2, CancelOrder fails db userID sessionID orderCode reason = (db2, .ok ()) →
      ∃ order, GetOrder db userID sessionID orderCode = some order ∧ order ∈ db.orders ∧
        order.OrderCode = orderCode ∧ order.ownedBy userID sessionID ∧
        (order.Status = OrderStatusPending ∨ order.Status = OrderStatusPaid)) ∧
    (∀ db2 e, CancelOrder fails db userID sessionID orderCode reason = (db2, .error e) →
      db2 = db) ∧
    ((∀ o ∈ db.orders, o.OrderCode = orderCode → ¬ o.ownedBy userID sessionID) →
      CancelOrder fails db userID sessionID orderCode reason = (db, .error .orderNotFound)) ∧
    (∀ order, GetOrder db userID sessionID orderCode = some order →
      order.Status = OrderStatusShipped ∨ order.Status = OrderStatusDelivered ∨
        order.Status = OrderStatusCancelled →
      CancelOrder fails db userID sessionID orderCode reason
        = (db, .error (.orderCannotBeCancelled order.Status))) ∧
    (∀ db2, CancelOrder fails db userID sessionID orderCode reason = (db2, .ok ()) →
      ∀ (fails2 : Faults) (reason2 : String),
        CancelOrder fails2 db2 userID sessionID orderCode reason2
          = (db2, .error (.orderCannotBeCancelled OrderStatusCancelled))) := by
  refine ⟨?_, fun db2 e h => CancelOrder_error h, ?_, ?_, ?_⟩
  · intro db2 hok
    obtain ⟨order, tx2, hget, hcan, -, -⟩ := CancelOrder_ok hok
    obtain ⟨hmem, hcode, hown⟩ := GetOrder_some hget
    refine ⟨order, hget, hmem, hcode, ?_, ?_⟩
    · unfold Order.ownedBy
      cases userID <;> exact hown
    · simpa [Order.CanBeCancelled] using hcan
  · intro hnot
    unfold CancelOrder
    rw [GetOrder_none_of_not_owned hnot]
  · intro order hget hstatus
    unfold CancelOrder
    rw [hget]
    have : order.CanBeCancelled = false := by
      unfold Order.CanBeCancelled
      rcases hstatus with h | h | h <;> rw [h] <;> decide
    simp [this]
  · intro db2 hok fails2 reason2
    obtain ⟨order, tx2, hget, hcan, hloop, hdb2⟩ := CancelOrder_ok hok
    obtain ⟨-, -, -, -, horders, -, -⟩ := restoreStock_ok _ hloop
    have hget2 : GetOrder db2 userID sessionID orderCode = some (cancelledOrder order reason) := by
      have horders2 : db2.orders = saveOrder db.orders (cancelledOrder order reason) := by
        rw [hdb2]; exact horders
      obtain ⟨-, hcode, hown⟩ := GetOrder_some hget
      unfold GetOrder at hget ⊢
      rw [horders2]
      cases userID with
      | some u =>
        simp only at hget hown ⊢
        exact find?_saveOrder _ _ order _ hget rfl (by simp [cancelledOrder, hcode, hown])
      | none =>
        simp only at hget hown ⊢
        exact find?_saveOrder _ _ order _ hget rfl
          (by simp [cancelledOrder, hcode, hown.1, hown.2])
    unfold CancelOrder
    rw [hget2]
    have : (cancelledOrder order reason).CanBeCancelled = false := by
      show (OrderStatusCancelled == OrderStatusPending || OrderStatusCancelled == OrderStatusPaid)
        = false
      decide
    simp only [this]
    rfl

theorem cancelOrder_guard_witness :
    (CancelOrder noFaults demoStoreAfter none "s1" "00001" "đổi ý").2 = .ok () ∧
    CancelOrder noFaults
        (CancelOrder noFaults demoStoreAfter none "s1" "00001" "đổi ý").1 none "s1" "00001" "lần hai"
      = ((CancelOrder noFaults demoStoreAfter none "s1" "00001" "đổi ý").1,
          .error (.orderCannotBeCancelled OrderStatusCancelled)) ∧
    CancelOrder noFaults demoStoreAfter none "s2" "00001" "đổi ý"
      = (demoStoreAfter, .error .orderNotFound) := by
  have h := cancelOrder_guard noFaults demoStoreAfter none "s1" "00001" "đổi ý"
  have h2 := cancelOrder_guard noFaults demoStoreAfter none "s2" "00001" "đổi ý"
  refine ⟨by with_unfolding_all rfl, ?_, ?_⟩
  · exact h.2.2.2.2 _ (by with_unfolding_all rfl) noFaults "lần hai"
  · apply h2.2.2.1
    intro o ho _
    have : o = demoOrder := by simpa [demoStoreAfter] using ho
    subst this
    simp [Order.ownedBy, demoOrder]

/-! ## Amounts and rows of a new order -/

theorem foldl_add_eq_sum {α : Type} (f : α → ℚ) (l : List α) (a : ℚ) :
    l.foldl (fun acc x => acc + f x) a = a + (l.map f).sum := by
  induction l generalizing a with
  | nil => simp
  | cons x l ih => simp [ih, add_assoc]

theorem CalculateOrderSummary_ok {items : List CartItem} {address : ShippingAddress}
    {summary : OrderSummary} (h : CalculateOrderSummary items address = .ok summary) :
    summary.TotalAmount = (items.map (fun i => (i.Quantity : ℚ) * i.Price)).sum ∧
    summary.ShippingFee = calculateShippingFee address summary.TotalAmount ∧
    summary.DiscountAmount = calculateDiscount summary.TotalAmount ∧
    summary.FinalAmount = summary.TotalAmount + summary.ShippingFee - summary.DiscountAmount := by
  unfold CalculateOrderSummary at h
  split at h
  · cases h
  · simp only [Except.ok.injEq] at h
    subst h
    refine ⟨?_, rfl, rfl, rfl⟩
    simp only
    rw [foldl_add_eq_sum, zero_add]

theorem loadCartItems_congr {a b : Store} (h : a.cartItems = b.cartItems) (k : Nat) :
    loadCartItems a k = loadCartItems b k := by
  simp [loadCartItems, h]

/-- C9.  After a successful `CreateOrder` the new order is a row of `orders`
with status pending, payment status unpaid and `expires_at` equal to the time
of the call plus 30 minutes; the cart the order was made from has no items;
and `payments` holds exactly one more row: for this order, with status
pending, the order's `final_amount` as amount and the gateway of the payment
method (cod gives internal, bank_transfer gives bank_transfer, momo gives momo,
zalopay gives zalopay, vnpay gives vnpay). -/
theorem createOrder_result (fails : Faults) (now : Time) (db db1 : Store)
    (userID : Option Nat) (sessionID : String) (req : CreateOrderRequest) (order : Order)
    (hok : CreateOrder fails now db userID sessionID req = (db1, .ok order)) :
    order ∈ db1.orders ∧ db1.orders = db.orders ++ [order] ∧
    order.Status = OrderStatusPending ∧ order.PaymentStatus = PaymentStatusUnpaid ∧
    order.ExpiresAt = now + 30 * Minute ∧
    (∃ cart items, (GetOrCreateCart fails now db userID sessionID).2 = .ok (cart, items) ∧
      items = loadCartItems db cart.ID ∧ loadCartItems db1 cart.ID = []) ∧
    (∃ payment, db1.payments = db.payments ++ [payment] ∧
      payment.OrderID = order.ID ∧ payment.Status = PaymentRecordStatusPending ∧
      payment.Amount = order.FinalAmount ∧
      payment.PaymentGateway = getPaymentGateway req.PaymentMethod) ∧
    getPaymentGateway PaymentMethodCOD = PaymentGatewayInternal ∧
    getPaymentGateway PaymentMethodBankTransfer = PaymentGatewayBankTransfer ∧
    getPaymentGateway PaymentMethodMomo = PaymentGatewayMomo ∧
    getPaymentGateway PaymentMethodZaloPay = PaymentGatewayZaloPay ∧
    getPaymentGateway PaymentMethodVNPay = PaymentGatewayVNPay := by
  obtain ⟨db0, cart, items, summary, orderCode, tx2, hbegun, hcode, horder, hloop, hdb1⟩ :=
    CreateOrder_ok hok
  obtain ⟨hdb0, hitems⟩ := GetOrCreateCart_valid hbegun.loaded hbegun.valid
  have horders : db0.orders = db.orders := by
    rcases hdb0 with rfl | ⟨c, rfl⟩ <;> rfl
  have hpayments : db0.payments = db.payments := by
    rcases hdb0 with rfl | ⟨c, rfl⟩ <;> rfl
  obtain ⟨-, -, hfo, hfp, -⟩ := createOrderItems_frame items hloop
  have ho : db1.orders = db.orders ++ [order] := by
    rw [hdb1]
    show tx2.orders = _
    rw [hfo, horders]
  refine ⟨by rw [ho]; simp, ho, by rw [horder]; rfl, by rw [horder]; rfl, by rw [horder]; rfl,
    ⟨cart, items, by rw [hbegun.loaded], hitems, ?_⟩,
    ⟨newPayment tx2.paymentSeq order req, ?_, rfl, rfl, rfl, rfl⟩,
    by decide, by decide, by decide, by decide, by decide⟩
  · rw [hdb1]
    exact loadCartItems_deleteCartItems tx2 cart.ID
  · rw [hdb1]
    show tx2.payments ++ _ = _
    rw [hfp, hpayments]

theorem createOrder_result_witness :
    CreateOrder noFaults 0 demoStore none "s1" demoRequest = (demoStoreAfter, .ok demoOrder) ∧
    demoOrder.ExpiresAt = 0 + 30 * Minute ∧
    loadCartItems demoStoreAfter 1 = [] ∧
    ∃ payment, demoStoreAfter.payments = demoStore.payments ++ [payment] ∧
      payment.PaymentGateway = "internal" := by
  obtain ⟨-, -, -, -, hexp, -, ⟨payment, hp, -, -, -, hg⟩, -⟩ :=
    createOrder_result noFaults 0 demoStore demoStoreAfter none "s1" demoRequest demoOrder
      demo_checkout
  exact ⟨demo_checkout, hexp, by decide, payment, hp, by rw [hg]; decide⟩

/-! ## Total stock against the stock of the sizes -/

/-- A row update that keeps the key commutes with the selection by key. -/
theorem filter_map_key {α : Type} (key : α → Nat) (f : α → α) (hf : ∀ a, key (f a) = key a)
    (k : Nat) (l : List α) :
    (l.map f).filter (fun a => key a == k) = (l.filter (fun a => key a == k)).map f := by
  induction l with
  | nil => rfl
  | cons a l ih =>
    simp only [List.map_cons, List.filter_cons, hf]
    by_cases h : key a = k
    · simp only [h, beq_self_eq_true, if_true, List.map_cons]
      rw [ih]
    · simp only [beq_iff_eq, h, if_false]
      exact ih

/-- C11, the input on which the claim fails.  The order of `retriedStore` is
unpaid and has a failed payment row next to its pending one; `ProcessPayment`
returns success and has rewritten the failed row as well: it now carries the
new transaction id, the status completed, the payment date and the response
data, where the claim leaves it unchanged. -/
theorem processPayment_only_pending_counterexample :
    (ProcessPayment noFaults 50 retriedStore "00001" "t1" [("code", "00")]).2 = .ok () ∧
    loadPayments retriedStore 1
      = [{ ID := 1, OrderID := 1, TransactionID := "t0", Amount := 230,
           PaymentGateway := "vnpay", Status := PaymentRecordStatusFailed },
         { ID := 2, OrderID := 1, Amount := 230, PaymentGateway := "vnpay",
           Status := PaymentRecordStatusPending }] ∧
    loadPayments (ProcessPayment noFaults 50 retriedStore "00001" "t1" [("code", "00")]).1 1
      = [{ ID := 1, OrderID := 1, TransactionID := "t1", Amount := 230,
           PaymentGateway := "vnpay", Status := PaymentRecordStatusCompleted,
           PaymentDate := some 50, ResponseData := [("code", "00")] },
         { ID := 2, OrderID := 1, TransactionID := "t1", Amount := 230,
           PaymentGateway := "vnpay", Status := PaymentRecordStatusCompleted,
           PaymentDate := some 50, ResponseData := [("code", "00")] }] := by
  refine ⟨?_, ?_, ?_⟩ <;> with_unfolding_all rfl

/-- C11, amended.  Applied to an order whose payment status is not paid, with
its two writes going through, `ProcessPayment` returns success, saves the
order as paid (payment status and status), and rewrites every payment row of
that order, whatever its status, with the transaction id, the status
completed, the payment date and the response data; the payment rows of other
orders, the other orders and every other table are left as they were. -/
theorem processPayment_updates_every_row (fails : Faults) (now : Time) (db : Store)
    (orderCode transactionID : String) (responseData : List (String × String)) (order : Order)
    (hfind : db.orders.find? (fun o => o.OrderCode == orderCode) = some order)
    (hunpaid : order.PaymentStatus ≠ PaymentStatusPaid)
    (hsave : fails (.saveOrder order.ID) = false)
    (hupdate : fails (.completePayments order.ID) = false) :
    (ProcessPayment fails now db orderCode transactionID responseData).2 = .ok () ∧
    (ProcessPayment fails now db orderCode transactionID responseData).1.orders
      = db.orders.map (fun o => if o.ID == order.ID then paidOrder order else o) ∧
    (ProcessPayment fails now db orderCode transactionID responseData).1.payments
      = db.payments.map (fun p =>
          if p.OrderID == order.ID then completedPayment p transactionID now responseData
          else p) ∧
    loadPayments (ProcessPayment fails now db orderCode transactionID responseData).1 order.ID
      = (loadPayments db order.ID).map
          (fun p => completedPayment p transactionID now responseData) ∧
    (∀ k, k ≠ order.ID →
      loadPayments (ProcessPayment fails now db orderCode transactionID responseData).1 k
        = loadPayments db k) ∧
    (ProcessPayment fails now db orderCode transactionID responseData).1.orderItems
      = db.orderItems ∧
    (ProcessPayment fails now db orderCode transactionID responseData).1.productSizes
      = db.productSizes ∧
    (ProcessPayment fails now db orderCode transactionID responseData).1.products
      = db.products ∧
    (ProcessPayment fails now db orderCode transactionID responseData).1.carts = db.carts ∧
    (ProcessPayment fails now db orderCode transactionID responseData).1.cartItems
      = db.cartItems := by
  have hrun : ProcessPayment fails now db orderCode transactionID responseData
      = ({ db with
            orders := saveOrder db.orders (paidOrder order),
            payments := completePayments db.payments order.ID transactionID now responseData },
          .ok ()) := by
    unfold ProcessPayment
    rw [hfind]
    simp only [hunpaid, if_false, hsave, hupdate, Bool.false_eq_true, paidOrder]
  rw [hrun]
  refine ⟨rfl, rfl, rfl, ?_, ?_, rfl, rfl, rfl, rfl, rfl⟩
  · simp only [loadPayments, completePayments]
    rw [filter_map_key (fun p : Payment => p.OrderID) _ (by intro a; by_cases h : a.OrderID = order.ID <;> simp [h])]
    apply List.map_congr_left
    intro p hp
    have := (List.mem_filter.mp hp).2
    simp only [beq_iff_eq] at this
    simp [this, completedPayment]
  · intro k hk
    simp only [loadPayments, completePayments]
    rw [filter_map_key (fun p : Payment => p.OrderID) _ (by intro a; by_cases h : a.OrderID = order.ID <;> simp [h])]
    conv_rhs => rw [← List.map_id (List.filter (fun p => p.OrderID == k) db.payments)]
    apply List.map_congr_left
    intro p hp
    have := (List.mem_filter.mp hp).2
    simp only [beq_iff_eq] at this
    have hne : ¬ p.OrderID = order.ID := by rw [this]; exact hk
    simp [hne]

/-! ## The expiry sweep of orders -/

/-- C11, amended, at work on `retriedStore`. -/
theorem processPayment_updates_every_row_witness :
    (ProcessPayment noFaults 50 retriedStore "00001" "t1" []).2 = .ok () ∧
    loadPayments (ProcessPayment noFaults 50 retriedStore "00001" "t1" []).1 1
      = (loadPayments retriedStore 1).map (fun p => completedPayment p "t1" 50 []) :=
  have h := processPayment_updates_every_row noFaults 50 retriedStore "00001" "t1" []
    { ID := 1, OrderCode := "00001", SessionID := "s1", Status := "pending",
      PaymentStatus := "unpaid", FinalAmount := 230 }
    (by with_unfolding_all rfl) (by with_unfolding_all decide) rfl rfl
  ⟨h.1, h.2.2.2.1⟩

theorem restoreStock_noFaults (items : List OrderItem) (tx : Store) :
    ∃ tx2, restoreStock noFaults items tx = .ok tx2 := by
  induction items generalizing tx with
  | nil => exact ⟨tx, rfl⟩
  | cons oi rest ih =>
    simp only [restoreStock, noFaults, Bool.false_eq_true, if_false]
    exact ih _

theorem restoredOfSize_append (a b : List OrderItem) (k : Nat) :
    restoredOfSize (a ++ b) k = restoredOfSize a k + restoredOfSize b k := by
  simp [restoredOfSize]

theorem restoredOfProduct_append (a b : List OrderItem) (k : Nat) :
    restoredOfProduct (a ++ b) k = restoredOfProduct a k + restoredOfProduct b k := by
  simp [restoredOfProduct]

/-- With unique order codes, the identity and code of a stored order find that order. -/
theorem GetOrder_self {db : Store} {order : Order} (hmem : order ∈ db.orders)
    (hcodes : (db.orders.map (fun o => o.OrderCode)).Nodup) :
    GetOrder db order.UserID order.SessionID order.OrderCode = some order := by
  have hinj := List.inj_on_of_nodup_map hcodes
  have key : ∀ (P : Order → Bool), P order = true →
      (∀ a, P a = true → a.OrderCode = order.OrderCode) →
      db.orders.find? P = some order := by
    intro P hP hcode
    cases hf : db.orders.find? P with
    | none =>
      have := List.find?_eq_none.mp hf order hmem
      exact absurd hP this
    | some a =>
      have ha := List.mem_of_find?_eq_some hf
      have hPa := List.find?_some hf
      rw [hinj ha hmem (hcode a hPa)]
  unfold GetOrder
  cases hu : order.UserID with
  | some u =>
    simp only
    apply key
    · simp [hu]
    · intro a ha
      simp only [Bool.and_eq_true, beq_iff_eq] at ha
      exact ha.1
  | none =>
    simp only
    apply key
    · simp [hu]
    · intro a ha
      simp only [Bool.and_eq_true, beq_iff_eq] at ha
      exact ha.1.1

/-- One cancel of the sweep, all writes going through. -/
theorem CancelOrder_self {db : Store} {order : Order} (reason : String)
    (hmem : order ∈ db.orders)
    (hcodes : (db.orders.map (fun o => o.OrderCode)).Nodup)
    (hcan : order.CanBeCancelled = true) :
    ∃ db2, CancelOrder noFaults db order.UserID order.SessionID order.OrderCode reason
        = (db2, .ok ()) ∧
      db2.orders = saveOrder db.orders (cancelledOrder order reason) ∧
      db2.payments = cancelPayments db.payments order.ID ∧
      (∀ k, stockOf db2 k
        = (stockOf db k).map (fun st => st + restoredOfSize (loadOrderItems db order.ID) k)) ∧
      (∀ k, totalStockOf db2 k
        = (totalStockOf db k).map
            (fun t => t + restoredOfProduct (loadOrderItems db order.ID) k)) ∧
      db2.orderItems = db.orderItems ∧ db2.carts = db.carts ∧ db2.cartItems = db.cartItems := by
  obtain ⟨tx2, htx2⟩ := restoreStock_noFaults (loadOrderItems db order.ID)
    { db with orders := saveOrder db.orders (cancelledOrder order reason) }
  obtain ⟨hS, hT, h1, h2, h3, h4, h5⟩ := restoreStock_ok _ htx2
  refine ⟨{ tx2 with payments := cancelPayments tx2.payments order.ID }, ?_, ?_, ?_, ?_, ?_,
    ?_, ?_, ?_⟩
  · unfold CancelOrder
    rw [GetOrder_self hmem hcodes]
    simp only [hcan, Bool.not_true, Bool.false_eq_true, if_false, noFaults]
    unfold cancelledOrder at htx2
    rw [htx2]
  · exact h3
  · show cancelPayments tx2.payments order.ID = _
    rw [h5]
  · intro k
    exact hS k
  · intro k
    exact hT k
  · exact h4
  · exact h1
  · exact h2

theorem saveOrder_ids (orders : List Order) (order1 : Order) :
    (saveOrder orders order1).map (fun o => o.ID) = orders.map (fun o => o.ID) := by
  simp only [saveOrder, List.map_map]
  apply List.map_congr_left
  intro a _
  by_cases h : a.ID = order1.ID
  · simp [h]
  · simp [h]

theorem saveOrder_cancelled_codes {orders : List Order} {order : Order} (reason : String)
    (hmem : order ∈ orders) (hids : (orders.map (fun o => o.ID)).Nodup) :
    (saveOrder orders (cancelledOrder order reason)).map (fun o => o.OrderCode)
      = orders.map (fun o => o.OrderCode) := by
  simp only [saveOrder, List.map_map]
  apply List.map_congr_left
  intro a ha
  by_cases h : a.ID = order.ID
  · have := List.inj_on_of_nodup_map hids ha hmem h
    subst this
    simp [cancelledOrder]
  · simp [h, cancelledOrder]

/-- The loop of the sweep over orders that are stored, distinct and open to
cancellation, all writes going through. -/
theorem cancelExpired_noFaults (L : List Order) : ∀ (db : Store),
    (∀ o ∈ L, o ∈ db.orders ∧ o.CanBeCancelled = true) →
    (L.map (fun o => o.ID)).Nodup →
    (db.orders.map (fun o => o.ID)).Nodup →
    (db.orders.map (fun o => o.OrderCode)).Nodup →
    (cancelExpired noFaults L db).orders
      = db.orders.map (fun o =>
          if (L.map (fun o => o.ID)).contains o.ID then cancelledOrder o expiryReason else o) ∧
    (cancelExpired noFaults L db).payments
      = db.payments.map (sweptPayment (L.map (fun o => o.ID))) ∧
    (∀ k, stockOf (cancelExpired noFaults L db) k
      = (stockOf db k).map (fun st => st + restoredOfSize (itemsOfOrders db L) k)) ∧
    (∀ k, totalStockOf (cancelExpired noFaults L db) k
      = (totalStockOf db k).map (fun t => t + restoredOfProduct (itemsOfOrders db L) k)) ∧
    (cancelExpired noFaults L db).orderItems = db.orderItems ∧
    (cancelExpired noFaults L db).carts = db.carts ∧
    (cancelExpired noFaults L db).cartItems = db.cartItems := by
  induction L with
  | nil =>
    intro db _ _ _ _
    refine ⟨?_, ?_, ?_, ?_, rfl, rfl, rfl⟩
    · simp [cancelExpired]
    · have hid : (sweptPayment [] : Payment → Payment) = id :=
        funext (fun p => by simp [sweptPayment])
      simp only [cancelExpired, List.map_nil, hid, List.map_id]
    · intro k
      simp [cancelExpired, itemsOfOrders, restoredOfSize]
    · intro k
      simp [cancelExpired, itemsOfOrders, restoredOfProduct]
  | cons o rest ih =>
    intro db hL hLids hids hcodes
    have ho := hL o (List.mem_cons_self _ _)
    obtain ⟨db2, hrun, hord, hpay, hS, hT, hitems, hcarts, hcitems⟩ :=
      CancelOrder_self expiryReason ho.1 hcodes ho.2
    have hstep : cancelExpired noFaults (o :: rest) db = cancelExpired noFaults rest db2 := by
      simp only [cancelExpired]
      have hrun1 := hrun
      simp only [expiryReason] at hrun1
      rw [hrun1]
    rw [List.map_cons, List.nodup_cons] at hLids
    have hrest : ∀ o1 ∈ rest, o1 ∈ db2.orders ∧ o1.CanBeCancelled = true := by
      intro o1 ho1
      have h1 := hL o1 (List.mem_cons_of_mem _ ho1)
      refine ⟨?_, h1.2⟩
      rw [hord]
      simp only [saveOrder, List.mem_map]
      refine ⟨o1, h1.1, ?_⟩
      have hne : ¬ o1.ID = o.ID := by
        intro e
        apply hLids.1
        rw [← e]
        exact List.mem_map_of_mem (fun o => o.ID) ho1
      have hne1 : ¬ o1.ID = (cancelledOrder o expiryReason).ID := hne
      simp [hne1]
    have hids2 : (db2.orders.map (fun o => o.ID)).Nodup := by
      rw [hord, saveOrder_ids]; exact hids
    have hcodes2 : (db2.orders.map (fun o => o.OrderCode)).Nodup := by
      rw [hord, saveOrder_cancelled_codes expiryReason ho.1 hids]; exact hcodes
    obtain ⟨iO, iP, iS, iT, iI, iC, iCI⟩ := ih db2 hrest hLids.2 hids2 hcodes2
    have hload : ∀ l : List Order, itemsOfOrders db2 l = itemsOfOrders db l := by
      intro l
      simp only [itemsOfOrders, loadOrderItems, hitems]
    rw [hstep]
    refine ⟨?_, ?_, ?_, ?_, by rw [iI, hitems], by rw [iC, hcarts], by rw [iCI, hcitems]⟩
    · rw [iO, hord]
      simp only [saveOrder, List.map_map]
      apply List.map_congr_left
      intro a ha
      have hid0 : (cancelledOrder o expiryReason).ID = o.ID := rfl
      simp only [Function.comp, List.map_cons, List.contains_cons, hid0]
      by_cases h : a.ID = o.ID
      · have := List.inj_on_of_nodup_map hids ha ho.1 h
        subst this
        have hnot : (List.map (fun o => o.ID) rest).contains a.ID = false := by
          cases hc : (List.map (fun o => o.ID) rest).contains a.ID with
          | false => rfl
          | true => exact absurd (List.mem_of_elem_eq_true hc) hLids.1
        have hid : (cancelledOrder a expiryReason).ID = a.ID := rfl
        simp only [beq_self_eq_true, if_true, Bool.true_or, hid, hnot, Bool.false_eq_true,
          if_false]
      · have hb : (a.ID == o.ID) = false := by simp [h]
        simp only [hb, Bool.false_or, Bool.false_eq_true, if_false]
    · rw [iP, hpay]
      simp only [cancelPayments, List.map_map]
      apply List.map_congr_left
      intro p _
      simp only [Function.comp, sweptPayment, cancelledPayment, List.map_cons,
        List.contains_cons]
      by_cases h : p.OrderID = o.ID
      · have hb : (p.OrderID == o.ID) = true := by simp [h]
        simp only [hb, if_true, Bool.true_or]
        split <;> rfl
      · have hb : (p.OrderID == o.ID) = false := by simp [h]
        simp only [hb, Bool.false_or, Bool.false_eq_true, if_false]
    · intro k
      rw [iS k, hS k, Option.map_map, hload]
      congr 1
      funext st
      simp only [Function.comp, itemsOfOrders, List.map_cons, List.flatten_cons,
        restoredOfSize_append]
      omega
    · intro k
      rw [iT k, hT k, Option.map_map, hload]
      congr 1
      funext t
      simp only [Function.comp, itemsOfOrders, List.map_cons, List.flatten_cons,
        restoredOfProduct_append]
      omega

theorem expiredOrders_eq (db : Store) (now : Time) :
    expiredOrders db now = db.orders.filter (fun o => o.isSwept now) := rfl

theorem mem_expired_ids {db : Store} {now : Time}
    (hids : (db.orders.map (fun o => o.ID)).Nodup) {a : Order} (ha : a ∈ db.orders) :
    ((expiredOrders db now).map (fun o => o.ID)).contains a.ID = a.isSwept now := by
  cases hs : a.isSwept now with
  | true =>
    have hmem : a ∈ expiredOrders db now := by
      rw [expiredOrders_eq]; exact List.mem_filter.mpr ⟨ha, hs⟩
    have hin : a.ID ∈ (expiredOrders db now).map (fun o => o.ID) :=
      List.mem_map_of_mem (fun o => o.ID) hmem
    exact List.elem_eq_true_of_mem hin
  | false =>
    cases hc : ((expiredOrders db now).map (fun o => o.ID)).contains a.ID with
    | false => rfl
    | true =>
      have hm := List.mem_of_elem_eq_true hc
      obtain ⟨o, ho, hoa⟩ := List.mem_map.mp hm
      rw [expiredOrders_eq] at ho
      have ho2 := List.mem_filter.mp ho
      have := List.inj_on_of_nodup_map hids ho2.1 ha hoa
      subst this
      rw [ho2.2] at hs
      cases hs

/-- The run of `AddToCart` once the product and the size are found. -/
theorem AddToCart_found {fails : Faults} {now : Time} {db : Store} {cart : Cart}
    {req : AddToCartRequest} {product : Product} {productSize : ProductSize}
    (hp : findProduct db req.ProductID = some product)
    (hs : findSizeOf db req.ProductSizeID req.ProductID = some productSize) :
    AddToCart fails now db cart req =
      if !product.IsActive then (db, .error .productNotActive)
      else if !productSize.IsActive then (db, .error .productSizeNotActive)
      else if productSize.Stock < req.Quantity then
        (db, .error (.insufficientStockAvailable productSize.Stock))
      else
        match writeCartItem fails db cart req productSize
            (calculatePrice product productSize) with
        | (db1, .error e) => (db1, .error e)
        | (db1, .ok _) =>
          if fails (.saveCart cart.ID) then (db1, .ok ())
          else ({ db1 with carts := saveCart db1.carts (refreshedCart now cart) }, .ok ()) := by
  unfold findProduct at hp
  unfold findSizeOf at hs
  unfold AddToCart
  rw [hp]
  simp only
  rw [hs]

/-- The run of `AddToCart` when the product is missing. -/
theorem AddToCart_noProduct {fails : Faults} {now : Time} {db : Store} {cart : Cart}
    {req : AddToCartRequest} (hp : findProduct db req.ProductID = none) :
    AddToCart fails now db cart req = (db, .error .cartProductNotFound) := by
  unfold findProduct at hp
  unfold AddToCart
  rw [hp]

/-- The run of `AddToCart` when the product has no such size. -/
theorem AddToCart_noSize {fails : Faults} {now : Time} {db : Store} {cart : Cart}
    {req : AddToCartRequest} {product : Product}
    (hp : findProduct db req.ProductID = some product)
    (hs : findSizeOf db req.ProductSizeID req.ProductID = none) :
    AddToCart fails now db cart req =
      if !product.IsActive then (db, .error .productNotActive)
      else (db, .error .cartProductSizeNotFound) := by
  unfold findProduct at hp
  unfold findSizeOf at hs
  unfold AddToCart
  rw [hp]
  simp only
  rw [hs]

/-- An error of the item write leaves the store as it was. -/
theorem writeCartItem_error {fails : Faults} {db db1 : Store} {cart : Cart}
    {req : AddToCartRequest} {productSize : ProductSize} {price : ℚ} {e : Err}
    (h : writeCartItem fails db cart req productSize price = (db1, .error e)) : db1 = db := by
  unfold writeCartItem at h
  split at h
  · simp only at h
    split at h
    · cases h; rfl
    · split at h
      · cases h; rfl
      · cases h
  · simp only at h
    split at h
    · cases h; rfl
    · split at h
      · cases h; rfl
      · split at h
        · cases h; rfl
        · cases h

/-- An error of `AddToCart` leaves the store as it was. -/
theorem AddToCart_error {fails : Faults} {now : Time} {db : Store} {cart : Cart}
    {req : AddToCartRequest} {e : Err}
    (h : (AddToCart fails now db cart req).2 = .error e) :
    (AddToCart fails now db cart req).1 = db := by
  cases hp : findProduct db req.ProductID with
  | none => rw [AddToCart_noProduct hp]
  | some product =>
    cases hs : findSizeOf db req.ProductSizeID req.ProductID with
    | none =>
      rw [AddToCart_noSize hp hs]
      split <;> rfl
    | some productSize =>
      rw [AddToCart_found hp hs] at h ⊢
      split
      · rfl
      · split
        · rfl
        · split
          · rfl
          · rename_i h1 h2 h3
            simp only [h1, h2, h3, if_false] at h
            split
            · rename_i db1 e1 hw
              exact writeCartItem_error hw
            · rename_i db1 u hw
              rw [hw] at h
              exfalso
              by_cases hf : fails (.saveCart cart.ID) = true
              · simp [hf] at h
              · simp [hf] at h

/-- With every write going through, `AddToCart` returns an error exactly when the request
is to be refused on one of the listed grounds, or when the cart has no item for the
product and size while the table holds a deleted row for them, which `unique_cart_item`
turns into a refused insert. -/
theorem AddToCart_error_iff (now : Time) (db : Store) (cart : Cart) (req : AddToCartRequest) :
    (∃ e, (AddToCart noFaults now db cart req).2 = .error e)
      ↔ (AddToCartRefused db cart req ∨
          (findCartItem db cart.ID req.ProductID req.ProductSizeID = none ∧
            ∃ i ∈ db.deletedCartItems, i.CartID = cart.ID ∧ i.ProductID = req.ProductID ∧
              i.ProductSizeID = req.ProductSizeID)) := by
  have htaken : findCartItem db cart.ID req.ProductID req.ProductSizeID = none →
      (cartItemKeyTaken db cart.ID req.ProductID req.ProductSizeID = true
        ↔ ∃ i ∈ db.deletedCartItems, i.CartID = cart.ID ∧ i.ProductID = req.ProductID ∧
              i.ProductSizeID = req.ProductSizeID) := by
    intro hnone
    unfold findCartItem at hnone
    rw [List.find?_eq_none] at hnone
    unfold cartItemKeyTaken
    rw [List.any_append, Bool.or_eq_true, List.any_eq_true, List.any_eq_true]
    constructor
    · rintro (⟨i, hi, hk⟩ | ⟨i, hi, hk⟩)
      · exact absurd hk (hnone i hi)
      · exact ⟨i, hi, by simpa [and_assoc] using hk⟩
    · rintro ⟨i, hi, hk⟩
      exact Or.inr ⟨i, hi, by simpa [and_assoc] using hk⟩
  cases hp : findProduct db req.ProductID with
  | none =>
    rw [AddToCart_noProduct hp]
    simp [AddToCartRefused, hp]
  | some product =>
    cases hs : findSizeOf db req.ProductSizeID req.ProductID with
    | none =>
      rw [AddToCart_noSize hp hs]
      have : ∃ e, (if (!product.IsActive) = true then (db, Except.error Err.productNotActive)
          else (db, (Except.error Err.cartProductSizeNotFound : Except Err Unit))).2
            = Except.error e := by
        split
        · exact ⟨_, rfl⟩
        · exact ⟨_, rfl⟩
      simp only [this, true_iff]
      left; right; left
      intro size hsize
      rw [hs] at hsize
      cases hsize
    | some productSize =>
      rw [AddToCart_found hp hs]
      unfold AddToCartRefused
      rw [hp, hs]
      cases hpa : product.IsActive with
      | false => simp [hpa]
      | true =>
        cases hsa : productSize.IsActive with
        | false => simp [hpa, hsa]
        | true =>
          by_cases hst : productSize.Stock < req.Quantity
          · simp [hst]
          · simp only [Bool.not_true, Bool.false_eq_true, if_false, hst, Option.some.injEq,
              forall_eq', hpa, hsa, false_or, exists_eq_left']
            unfold writeCartItem
            cases hc : findCartItem db cart.ID req.ProductID req.ProductSizeID with
            | none =>
              have ht := htaken hc
              simp only [noFaults, Bool.false_eq_true, if_false, ge_iff_le, true_and,
                false_and, exists_false, or_false, Bool.false_or]
              by_cases hcount : MaxCartItems ≤ ((loadCartItems db cart.ID).length : Int)
              · simp [hcount]
              · by_cases hk : cartItemKeyTaken db cart.ID req.ProductID req.ProductSizeID = true
                · simp only [hcount, if_false, hk, if_true, false_or]
                  exact ⟨fun _ => Or.inr (ht.mp hk), fun _ => ⟨_, rfl⟩⟩
                · simp only [hcount, if_false, hk, false_or]
                  constructor
                  · intro h
                    by_cases hf : noFaults (.saveCart cart.ID) = true
                    · simp [hf] at h
                    · simp [hf] at h
                  · rintro (h | h)
                    · simp at h
                    · exact absurd (ht.mpr h) hk
            | some existing =>
              simp only [noFaults, Bool.false_eq_true, if_false, gt_iff_lt, false_and,
                false_or, Option.some.injEq, exists_eq_left', or_false]
              by_cases h1 : MaxItemQuantity < existing.Quantity + req.Quantity
              · simp [h1]
              · by_cases h2 : productSize.Stock < existing.Quantity + req.Quantity
                · simp [h1, h2]
                · simp [h1, h2]

/-- C13, where the code departs from it.  With every write going through, `AddToCart`
returns an error exactly when one of the listed clauses holds or the cart has no item
for the product and size while `cart_items` still holds a deleted row for them; so the
claim holds of every table without such a row, and it fails once an item has been
removed: the cart of `shelfStore` holds one item, for product 1 and size 1;
`RemoveFromCart` removes it, which leaves the row in the table, marked deleted; adding
one pair of product 1 and size 1 to the now empty cart is then refused, as a database
error, although none of the listed clauses holds.  Whenever `AddToCart` returns an
error, whatever the reason, the store, and with it every item of the cart, is as before
the call. -/
theorem addToCart_refuses_removed_item :
    (∀ (now : Time) (db : Store) (cart : Cart) (req : AddToCartRequest),
      ((∃ e, (AddToCart noFaults now db cart req).2 = .error e)
        ↔ (AddToCartRefused db cart req ∨
            (findCartItem db cart.ID req.ProductID req.ProductSizeID = none ∧
              ∃ i ∈ db.deletedCartItems, i.CartID = cart.ID ∧ i.ProductID = req.ProductID ∧
                i.ProductSizeID = req.ProductSizeID))) ∧
      ((∀ i ∈ db.deletedCartItems, ¬ (i.CartID = cart.ID ∧ i.ProductID = req.ProductID ∧
          i.ProductSizeID = req.ProductSizeID)) →
        ((∃ e, (AddToCart noFaults now db cart req).2 = .error e)
          ↔ AddToCartRefused db cart req) ∧
        ((AddToCart noFaults now db cart req).2 = .ok () ↔ ¬ AddToCartRefused db cart req)) ∧
      (∀ (fails : Faults) (e : Err), (AddToCart fails now db cart req).2 = .error e →
        (AddToCart fails now db cart req).1 = db ∧
        loadCartItems (AddToCart fails now db cart req).1 cart.ID = loadCartItems db cart.ID)) ∧
    loadCartItems shelfStore 1
      = [{ ID := 1, CartID := 1, ProductID := 1, ProductSizeID := 1, Quantity := 2,
           Price := 100 }] ∧
    (RemoveFromCart noFaults shelfStore 1 1).2 = .ok () ∧
    loadCartItems (RemoveFromCart noFaults shelfStore 1 1).1 1 = [] ∧
    AddToCart noFaults 1000 (RemoveFromCart noFaults shelfStore 1 1).1 shelfCart
        { ProductID := 1, ProductSizeID := 1, Quantity := 1 }
      = ((RemoveFromCart noFaults shelfStore 1 1).1, .error .dbError) ∧
    ¬ AddToCartRefused (RemoveFromCart noFaults shelfStore 1 1).1 shelfCart
        { ProductID := 1, ProductSizeID := 1, Quantity := 1 } := by
  refine ⟨?_, by with_unfolding_all rfl, by with_unfolding_all rfl, by with_unfolding_all rfl,
    by with_unfolding_all rfl, ?_⟩
  · intro now db cart req
    have hiff := AddToCart_error_iff now db cart req
    refine ⟨hiff, ?_, ?_⟩
    · intro hfree
      have hiff1 : (∃ e, (AddToCart noFaults now db cart req).2 = .error e)
          ↔ AddToCartRefused db cart req := by
        rw [hiff]
        constructor
        · rintro (h | ⟨-, i, hi, hk⟩)
          · exact h
          · exact absurd hk (hfree i hi)
        · exact Or.inl
      refine ⟨hiff1, ?_⟩
      rw [← hiff1]
      cases h : (AddToCart noFaults now db cart req).2 with
      | error e => simp
      | ok u => simp
    · intro fails e h
      have := AddToCart_error h
      exact ⟨this, by rw [this]⟩
  · have hp : findProduct (RemoveFromCart noFaults shelfStore 1 1).1 1
        = some { ID := 1, Name := "Runner", Price := 100, DiscountPrice := some 80,
                 TotalStock := 10, IsActive := true } := by with_unfolding_all rfl
    have hs : findSizeOf (RemoveFromCart noFaults shelfStore 1 1).1 1 1
        = some { ID := 1, ProductID := 1, Size := "M", Stock := 5, IsActive := true } := by
      with_unfolding_all rfl
    have hc : findCartItem (RemoveFromCart noFaults shelfStore 1 1).1 1 1 1 = none := by
      with_unfolding_all rfl
    have hl : loadCartItems (RemoveFromCart noFaults shelfStore 1 1).1 1 = [] := by
      with_unfolding_all rfl
    rintro (h | h | ⟨size, h, hlt⟩ | ⟨-, h⟩ | ⟨existing, size, h, -⟩)
    · exact absurd (h _ hp) (by decide)
    · exact absurd (h _ hs) (by decide)
    · have h1 : findSizeOf (RemoveFromCart noFaults shelfStore 1 1).1 1 1 = some size := h
      rw [hs] at h1
      simp only [Option.some.injEq] at h1
      subst h1
      exact absurd hlt (by decide)
    · have h1 : MaxCartItems
          ≤ ((loadCartItems (RemoveFromCart noFaults shelfStore 1 1).1 1).length : Int) := h
      rw [hl] at h1
      exact absurd h1 (by decide)
    · have h1 : findCartItem (RemoveFromCart noFaults shelfStore 1 1).1 1 1 1 = some existing := h
      rw [hc] at h1
      cases h1

/-! ## `AddToCart`: what it writes -/

/-- After the `Save` of a row found by a query that the saved row still
satisfies, the same query finds the saved row. -/
theorem find?_saveCartItem (P : CartItem → Bool) (items : List CartItem) (item item1 : CartItem)
    (hfind : items.find? P = some item) (hid : item1.ID = item.ID) (hP : P item1 = true) :
    (saveCartItem items item1).find? P = some item1 := by
  induction items with
  | nil => cases hfind
  | cons a l ih =>
    simp only [saveCartItem, List.map_cons, List.find?_cons] at hfind ⊢
    cases hPa : P a with
    | true =>
      rw [hPa] at hfind
      simp only [Option.some.injEq] at hfind
      subst hfind
      simp [hid, hP]
    | false =>
      rw [hPa] at hfind
      by_cases ha : a.ID = item1.ID
      · simp [ha, hP]
      · simp only [beq_iff_eq, ha, if_false, hPa]
        have := ih hfind
        simpa [saveCartItem] using this

/-- A successful item write, by case. -/
theorem writeCartItem_ok {fails : Faults} {db db1 : Store} {cart : Cart}
    {req : AddToCartRequest} {productSize : ProductSize} {price : ℚ} {u : Unit}
    (h : writeCartItem fails db cart req productSize price = (db1, .ok u)) :
    (findCartItem db cart.ID req.ProductID req.ProductSizeID = none →
      ((loadCartItems db cart.ID).length : Int) < MaxCartItems ∧
      db1 = { db with cartItems := db.cartItems ++ [newCartItem db cart req price],
                      cartItemSeq := db.cartItemSeq + 1 }) ∧
    (∀ existing, findCartItem db cart.ID req.ProductID req.ProductSizeID = some existing →
      existing.Quantity + req.Quantity ≤ MaxItemQuantity ∧
      existing.Quantity + req.Quantity ≤ productSize.Stock ∧
      db1 = withCartItems db (saveCartItem db.cartItems
                (mergedCartItem existing (existing.Quantity + req.Quantity) price))) := by
  unfold writeCartItem at h
  split at h
  · rename_i hnone
    simp only at h
    split at h
    · cases h
    · split at h
      · cases h
      · rename_i hcount _
        simp only [Prod.mk.injEq, and_true] at h
        refine ⟨fun _ => ⟨by omega, h.symm⟩, ?_⟩
        intro existing he
        rw [hnone] at he
        cases he
  · rename_i existingItem hsome
    simp only at h
    split at h
    · cases h
    · split at h
      · cases h
      · split at h
        · cases h
        · rename_i h1 h2 _
          simp only [Prod.mk.injEq, and_true] at h
          refine ⟨?_, ?_⟩
          · intro hn
            rw [hsome] at hn
            cases hn
          · intro existing he
            rw [hsome] at he
            simp only [Option.some.injEq] at he
            subst he
            exact ⟨by omega, by omega, h.symm⟩

/-- A successful `AddToCart`, step by step. -/
theorem AddToCart_ok {fails : Faults} {now : Time} {db : Store} {cart : Cart}
    {req : AddToCartRequest} (h : (AddToCart fails now db cart req).2 = .ok ()) :
    ∃ product productSize db1,
      findProduct db req.ProductID = some product ∧ product.IsActive = true ∧
      findSizeOf db req.ProductSizeID req.ProductID = some productSize ∧
      productSize.IsActive = true ∧ req.Quantity ≤ productSize.Stock ∧
      writeCartItem fails db cart req productSize (calculatePrice product productSize)
        = (db1, .ok ()) ∧
      (AddToCart fails now db cart req).1
        = if fails (.saveCart cart.ID) then db1
          else { db1 with carts := saveCart db1.carts (refreshedCart now cart) } := by
  cases hp : findProduct db req.ProductID with
  | none =>
    rw [AddToCart_noProduct hp] at h
    cases h
  | some product =>
    cases hs : findSizeOf db req.ProductSizeID req.ProductID with
    | none =>
      rw [AddToCart_noSize hp hs] at h
      split at h <;> cases h
    | some productSize =>
      rw [AddToCart_found hp hs] at h ⊢
      cases hpa : product.IsActive with
      | false => simp [hpa] at h
      | true =>
        cases hsa : productSize.IsActive with
        | false => simp [hpa, hsa] at h
        | true =>
          by_cases hst : productSize.Stock < req.Quantity
          · simp [hpa, hsa, hst] at h
          · simp only [hpa, hsa, hst, Bool.not_true, Bool.false_eq_true, if_false] at h ⊢
            cases hw : writeCartItem fails db cart req productSize
                (calculatePrice product productSize) with
            | mk db1 r =>
              cases r with
              | error e => rw [hw] at h; cases h
              | ok u =>
                refine ⟨product, productSize, db1, rfl, hpa, rfl, hsa, by omega, hw, ?_⟩
                simp only
                split <;> rfl

theorem find?_none_filter {α : Type} (P : α → Bool) (l : List α) (h : l.find? P = none) :
    l.filter P = [] := by
  rw [List.filter_eq_nil_iff]
  intro a ha
  have := List.find?_eq_none.mp h a ha
  simpa using this

theorem refreshedCart_ExpiresAt (now : Time) (cart : Cart) :
    (refreshedCart now cart).ExpiresAt = now + cartTTL cart := by
  unfold refreshedCart GetExpiryTime cartTTL
  cases h : cart.UserID with
  | none => simp
  | some u => simp

/-- The writes of a successful `AddToCart`, with the price as `calculatePrice` computes
it. -/
theorem AddToCart_writes (fails : Faults) (now : Time) (db : Store) (cart : Cart)
    (req : AddToCartRequest) (hok : (AddToCart fails now db cart req).2 = .ok ()) :
    ∃ product productSize,
      findProduct db req.ProductID = some product ∧
      findSizeOf db req.ProductSizeID req.ProductID = some productSize ∧
      (findCartItem db cart.ID req.ProductID req.ProductSizeID = none →
        (AddToCart fails now db cart req).1.cartItems
          = db.cartItems ++
              [{ ID := db.cartItemSeq + 1, CartID := cart.ID, ProductID := req.ProductID,
                 ProductSizeID := req.ProductSizeID, Quantity := req.Quantity,
                 Price := calculatePrice product productSize }] ∧
        loadCartItems (AddToCart fails now db cart req).1 cart.ID
          = loadCartItems db cart.ID ++
              [{ ID := db.cartItemSeq + 1, CartID := cart.ID, ProductID := req.ProductID,
                 ProductSizeID := req.ProductSizeID, Quantity := req.Quantity,
                 Price := calculatePrice product productSize }] ∧
        findCartItem (AddToCart fails now db cart req).1 cart.ID req.ProductID req.ProductSizeID
          = some { ID := db.cartItemSeq + 1, CartID := cart.ID, ProductID := req.ProductID,
                   ProductSizeID := req.ProductSizeID, Quantity := req.Quantity,
                   Price := calculatePrice product productSize }) ∧
      (∀ existing, findCartItem db cart.ID req.ProductID req.ProductSizeID = some existing →
        (AddToCart fails now db cart req).1.cartItems
          = db.cartItems.map (fun i =>
              if i.ID == existing.ID then
                { existing with Quantity := existing.Quantity + req.Quantity,
                                Price := calculatePrice product productSize }
              else i) ∧
        findCartItem (AddToCart fails now db cart req).1 cart.ID req.ProductID req.ProductSizeID
          = some { existing with Quantity := existing.Quantity + req.Quantity,
                                 Price := calculatePrice product productSize }) ∧
      ((db.cartItems.map (fun i => i.ID)).Nodup → CartItemsUnique db →
        CartItemsUnique (AddToCart fails now db cart req).1) ∧
      (fails (.saveCart cart.ID) = false →
        (AddToCart fails now db cart req).1.carts = saveCart db.carts (refreshedCart now cart) ∧
        ∀ c ∈ (AddToCart fails now db cart req).1.carts, c.ID = cart.ID →
          c.ExpiresAt = now + cartTTL cart) ∧
      (AddToCart fails now db cart req).1.products = db.products ∧
      (AddToCart fails now db cart req).1.productSizes = db.productSizes ∧
      (AddToCart fails now db cart req).1.orders = db.orders ∧
      (AddToCart fails now db cart req).1.orderItems = db.orderItems ∧
      (AddToCart fails now db cart req).1.payments = db.payments := by
  obtain ⟨product, productSize, db1, hp, _, hs, _, _, hw, hD⟩ := AddToCart_ok hok
  obtain ⟨hnew, hold⟩ := writeCartItem_ok hw
  have hitems : (AddToCart fails now db cart req).1.cartItems = db1.cartItems := by
    rw [hD]; split <;> rfl
  have hfind : ∀ a b c, findCartItem (AddToCart fails now db cart req).1 a b c
      = findCartItem db1 a b c := by
    intro a b c
    unfold findCartItem
    rw [hitems]
  have hload : loadCartItems (AddToCart fails now db cart req).1 cart.ID
      = loadCartItems db1 cart.ID := by
    unfold loadCartItems
    rw [hitems]
  have hrest : (AddToCart fails now db cart req).1.products = db1.products ∧
      (AddToCart fails now db cart req).1.productSizes = db1.productSizes ∧
      (AddToCart fails now db cart req).1.orders = db1.orders ∧
      (AddToCart fails now db cart req).1.orderItems = db1.orderItems ∧
      (AddToCart fails now db cart req).1.payments = db1.payments := by
    rw [hD]; split <;> exact ⟨rfl, rfl, rfl, rfl, rfl⟩
  have hdb1 : db1.products = db.products ∧ db1.productSizes = db.productSizes ∧
      db1.orders = db.orders ∧ db1.orderItems = db.orderItems ∧ db1.payments = db.payments ∧
      db1.carts = db.carts := by
    cases hc : findCartItem db cart.ID req.ProductID req.ProductSizeID with
    | none => rw [(hnew hc).2]; exact ⟨rfl, rfl, rfl, rfl, rfl, rfl⟩
    | some existing => rw [(hold existing hc).2.2]; exact ⟨rfl, rfl, rfl, rfl, rfl, rfl⟩
  refine ⟨product, productSize, hp, hs, ?_, ?_, ?_, ?_, ?_, ?_, ?_, ?_, ?_⟩
  · intro hc
    have h1 := (hnew hc).2
    refine ⟨?_, ?_, ?_⟩
    · rw [hitems, h1]; rfl
    · rw [hload, h1]
      simp [loadCartItems, newCartItem]
    · rw [hfind, h1]
      unfold findCartItem at hc ⊢
      simp only [List.find?_append, hc, Option.none_or]
      simp [newCartItem]
  · intro existing hc
    have h1 := (hold existing hc).2.2
    refine ⟨?_, ?_⟩
    · rw [hitems, h1]; rfl
    · rw [hfind, h1]
      unfold findCartItem at hc ⊢
      have hP := List.find?_some hc
      exact find?_saveCartItem _ _ existing _ hc rfl hP
  · intro hids huniq a b c
    rw [hitems]
    cases hc : findCartItem db cart.ID req.ProductID req.ProductSizeID with
    | none =>
      rw [(hnew hc).2]
      show (List.filter _ (db.cartItems ++ [newCartItem db cart req _])).length ≤ 1
      rw [List.filter_append, List.length_append]
      by_cases hm : a = cart.ID ∧ b = req.ProductID ∧ c = req.ProductSizeID
      · obtain ⟨rfl, rfl, rfl⟩ := hm
        unfold findCartItem at hc
        rw [find?_none_filter _ _ hc]
        simp [newCartItem]
      · have hn : List.filter (fun i : CartItem =>
            i.CartID == a && i.ProductID == b && i.ProductSizeID == c)
            [newCartItem db cart req (calculatePrice product productSize)] = [] := by
          rw [List.filter_eq_nil_iff]
          intro i hi
          simp only [List.mem_singleton] at hi
          subst hi
          simp only [newCartItem, Bool.and_eq_true, beq_iff_eq]
          intro h
          exact hm ⟨h.1.1.symm, h.1.2.symm, h.2.symm⟩
        rw [hn]
        simpa using huniq a b c
    | some existing =>
      rw [(hold existing hc).2.2]
      show (List.filter _ (saveCartItem db.cartItems _)).length ≤ 1
      have hmem := List.mem_of_find?_eq_some hc
      have hsame : saveCartItem db.cartItems
          (mergedCartItem existing (existing.Quantity + req.Quantity)
            (calculatePrice product productSize))
          = db.cartItems.map (fun i =>
              if i.ID == existing.ID then
                mergedCartItem existing (existing.Quantity + req.Quantity)
                  (calculatePrice product productSize)
              else i) := rfl
      rw [hsame, List.filter_map, List.length_map]
      have hcongr : List.filter
          ((fun i : CartItem => i.CartID == a && i.ProductID == b && i.ProductSizeID == c) ∘
            (fun i => if i.ID == existing.ID then
                mergedCartItem existing (existing.Quantity + req.Quantity)
                  (calculatePrice product productSize)
              else i)) db.cartItems
          = List.filter (fun i : CartItem =>
              i.CartID == a && i.ProductID == b && i.ProductSizeID == c) db.cartItems := by
        apply List.filter_congr
        intro i hi
        simp only [Function.comp]
        by_cases h : i.ID = existing.ID
        · have := List.inj_on_of_nodup_map hids hi hmem h
          subst this
          simp [mergedCartItem]
        · simp [h]
      rw [hcongr]
      exact huniq a b c
  · intro hsave
    have hcarts : (AddToCart fails now db cart req).1.carts
        = saveCart db.carts (refreshedCart now cart) := by
      rw [hD]
      simp only [hsave, Bool.false_eq_true, if_false]
      rw [hdb1.2.2.2.2.2]
    refine ⟨hcarts, ?_⟩
    intro c hc hid
    rw [hcarts] at hc
    simp only [saveCart, List.mem_map] at hc
    obtain ⟨a, _, ha⟩ := hc
    by_cases h : a.ID = (refreshedCart now cart).ID
    · simp only [h, beq_self_eq_true, if_true] at ha
      rw [← ha]
      exact refreshedCart_ExpiresAt now cart
    · simp only [beq_iff_eq, h, if_false] at ha
      subst ha
      exact absurd hid h
  · rw [hrest.1, hdb1.1]
  · rw [hrest.2.1, hdb1.2.1]
  · rw [hrest.2.2.1, hdb1.2.2.1]
  · rw [hrest.2.2.2.1, hdb1.2.2.2.1]
  · rw [hrest.2.2.2.2, hdb1.2.2.2.2.1]

/-- The price `AddToCart` computes, case by case. -/
theorem calculatePrice_cases (product : Product) (productSize : ProductSize) :
    (∀ sizePrice, productSize.Price = some sizePrice →
      calculatePrice product productSize = sizePrice) ∧
    (productSize.Price = none → ∀ discountPrice,
      product.DiscountPrice = some discountPrice → 0 < discountPrice →
      calculatePrice product productSize = discountPrice) ∧
    (productSize.Price = none → ∀ discountPrice,
      product.DiscountPrice = some discountPrice → discountPrice ≤ 0 →
      calculatePrice product productSize = product.Price) ∧
    (productSize.Price = none → product.DiscountPrice = none →
      calculatePrice product productSize = product.Price) := by
  refine ⟨?_, ?_, ?_, ?_⟩
  · intro sizePrice h
    rw [calculatePrice, h]
  · intro h d hd hpos
    rw [calculatePrice, h, hd]
    simp [hpos]
  · intro h d hd hle
    rw [calculatePrice, h, hd]
    simp [not_lt.mpr hle]
  · intro h hd
    rw [calculatePrice, h, hd]

/-- C14, the input on which the claim fails.  Product 2 of `walkerStore` costs 100 and
has a discount price set, of 0; its size has no price of its own, so the effective price
`size.price ?? product.discount_price ?? product.price` is 0.  With one pair of it in
the cart, adding one more rewrites the existing item: its quantity becomes 2, and its
captured price is replaced by 100, not by the effective price 0. -/
theorem addToCart_effect_price_counterexample :
    (findProduct walkerStore 2).map (fun p => (p.Price, p.DiscountPrice)) = some (100, some 0) ∧
    (findSizeOf walkerStore 2 2).map (fun s => s.Price) = some none ∧
    (findCartItem walkerStore 1 2 2).map (fun i => (i.Quantity, i.Price)) = some (1, 50) ∧
    (AddToCart noFaults 1000 walkerStore shelfCart
        { ProductID := 2, ProductSizeID := 2, Quantity := 1 }).2 = .ok () ∧
    (findCartItem
        (AddToCart noFaults 1000 walkerStore shelfCart
          { ProductID := 2, ProductSizeID := 2, Quantity := 1 }).1 1 2 2).map
        (fun i => (i.Quantity, i.Price))
      = some (2, 100) ∧
    (findProduct walkerStore 2).map (fun p => coalescedPrice p { ID := 2 }) = some 0 := by
  refine ⟨?_, ?_, ?_, ?_, ?_, ?_⟩ <;> with_unfolding_all rfl

/-- C14, amended.  When `AddToCart` returns success, the product and the size were
found, and with `price` the price of the size when the size has one, otherwise the
discount price of the product when it is set and greater than 0, otherwise the price of
the product:
* if the cart had no item for the product and size, the table of cart items
  gains exactly one row, of this cart, with the requested quantity and `price`,
  and that row is the item of the cart for the product and size;
* otherwise the existing item, and no other row, is rewritten with quantity
  existing + requested and `price`;
* if cart items had distinct ids and at most one row per cart, product and
  size before, they have at most one row per cart, product and size after;
* unless its save fails (the failure is dropped), the cart row carries
  expires_at = now + TTL, a day for a guest cart and a week for a user cart;
* the catalogue and the order tables are untouched. -/
theorem addToCart_effect_captured_price (fails : Faults) (now : Time) (db : Store)
    (cart : Cart) (req : AddToCartRequest)
    (hok : (AddToCart fails now db cart req).2 = .ok ()) :
    ∃ product productSize price,
      findProduct db req.ProductID = some product ∧
      findSizeOf db req.ProductSizeID req.ProductID = some productSize ∧
      (∀ sizePrice, productSize.Price = some sizePrice → price = sizePrice) ∧
      (productSize.Price = none → ∀ discountPrice,
        product.DiscountPrice = some discountPrice → 0 < discountPrice →
        price = discountPrice) ∧
      (productSize.Price = none → ∀ discountPrice,
        product.DiscountPrice = some discountPrice → discountPrice ≤ 0 →
        price = product.Price) ∧
      (productSize.Price = none → product.DiscountPrice = none → price = product.Price) ∧
      (findCartItem db cart.ID req.ProductID req.ProductSizeID = none →
        (AddToCart fails now db cart req).1.cartItems
          = db.cartItems ++
              [{ ID := db.cartItemSeq + 1, CartID := cart.ID, ProductID := req.ProductID,
                 ProductSizeID := req.ProductSizeID, Quantity := req.Quantity,
                 Price := price }] ∧
        loadCartItems (AddToCart fails now db cart req).1 cart.ID
          = loadCartItems db cart.ID ++
              [{ ID := db.cartItemSeq + 1, CartID := cart.ID, ProductID := req.ProductID,
                 ProductSizeID := req.ProductSizeID, Quantity := req.Quantity,
                 Price := price }] ∧
        findCartItem (AddToCart fails now db cart req).1 cart.ID req.ProductID req.ProductSizeID
          = some { ID := db.cartItemSeq + 1, CartID := cart.ID, ProductID := req.ProductID,
                   ProductSizeID := req.ProductSizeID, Quantity := req.Quantity,
                   Price := price }) ∧
      (∀ existing, findCartItem db cart.ID req.ProductID req.ProductSizeID = some existing →
        (AddToCart fails now db cart req).1.cartItems
          = db.cartItems.map (fun i =>
              if i.ID == existing.ID then
                { existing with Quantity := existing.Quantity + req.Quantity, Price := price }
              else i) ∧
        findCartItem (AddToCart fails now db cart req).1 cart.ID req.ProductID req.ProductSizeID
          = some { existing with Quantity := existing.Quantity + req.Quantity,
                                 Price := price }) ∧
      ((db.cartItems.map (fun i => i.ID)).Nodup → CartItemsUnique db →
        CartItemsUnique (AddToCart fails now db cart req).1) ∧
      (fails (.saveCart cart.ID) = false →
        (AddToCart fails now db cart req).1.carts = saveCart db.carts (refreshedCart now cart) ∧
        ∀ c ∈ (AddToCart fails now db cart req).1.carts, c.ID = cart.ID →
          c.ExpiresAt = now + cartTTL cart) ∧
      (AddToCart fails now db cart req).1.products = db.products ∧
      (AddToCart fails now db cart req).1.productSizes = db.productSizes ∧
      (AddToCart fails now db cart req).1.orders = db.orders ∧
      (AddToCart fails now db cart req).1.orderItems = db.orderItems ∧
      (AddToCart fails now db cart req).1.payments = db.payments := by
  obtain ⟨product, productSize, hp, hs, hrest⟩ := AddToCart_writes fails now db cart req hok
  obtain ⟨h1, h2, h3, h4⟩ := calculatePrice_cases product productSize
  exact ⟨product, productSize, calculatePrice product productSize, hp, hs, h1, h2, h3, h4,
    hrest⟩

/-- C14, amended, at work on `walkerStore`: one more pair of product 2, whose discount
price is 0, at time 1000; the item then holds two pairs at 100. -/
theorem addToCart_effect_captured_price_witness :
    (AddToCart noFaults 1000 walkerStore shelfCart
        { ProductID := 2, ProductSizeID := 2, Quantity := 1 }).2 = .ok () ∧
    findCartItem (AddToCart noFaults 1000 walkerStore shelfCart
        { ProductID := 2, ProductSizeID := 2, Quantity := 1 }).1 1 2 2
      = some { ID := 2, CartID := 1, ProductID := 2, ProductSizeID := 2, Quantity := 2,
               Price := 100 } ∧
    (AddToCart noFaults 1000 walkerStore shelfCart
        { ProductID := 2, ProductSizeID := 2, Quantity := 1 }).1.carts
      = saveCart walkerStore.carts (refreshedCart 1000 shelfCart) := by
  have hok : (AddToCart noFaults 1000 walkerStore shelfCart
      { ProductID := 2, ProductSizeID := 2, Quantity := 1 }).2 = .ok () := by
    with_unfolding_all rfl
  obtain ⟨product, productSize, price, hp, hs, -, -, hzero, -, -, hold, -, hcart, -⟩ :=
    addToCart_effect_captured_price noFaults 1000 walkerStore shelfCart
      { ProductID := 2, ProductSizeID := 2, Quantity := 1 } hok
  have hp2 : findProduct walkerStore 2
      = some { ID := 2, Name := "Walker", Price := 100, DiscountPrice := some 0,
               TotalStock := 5, IsActive := true } := by with_unfolding_all rfl
  have hs2 : findSizeOf walkerStore 2 2
      = some { ID := 2, ProductID := 2, Size := "M", Stock := 5, IsActive := true } := by
    with_unfolding_all rfl
  have hp3 : findProduct walkerStore 2 = some product := hp
  have hs3 : findSizeOf walkerStore 2 2 = some productSize := hs
  rw [hp2] at hp3
  rw [hs2] at hs3
  simp only [Option.some.injEq] at hp3 hs3
  subst hp3
  subst hs3
  have hprice : price = 100 := hzero rfl 0 rfl (le_refl 0)
  subst hprice
  have hfound : findCartItem walkerStore 1 2 2
      = some { ID := 2, CartID := 1, ProductID := 2, ProductSizeID := 2, Quantity := 1,
               Price := 50 } := by with_unfolding_all rfl
  exact ⟨hok, (hold _ hfound).2, (hcart rfl).1⟩

/-! ## The price `AddToCart` captures -/

/-- The price on the item of the cart for the product and size, after a
successful `AddToCart`. -/
theorem AddToCart_item_price {fails : Faults} {now : Time} {db : Store} {cart : Cart}
    {req : AddToCartRequest} (hok : (AddToCart fails now db cart req).2 = .ok ()) :
    ∃ product productSize item,
      findProduct db req.ProductID = some product ∧
      findSizeOf db req.ProductSizeID req.ProductID = some productSize ∧
      findCartItem (AddToCart fails now db cart req).1 cart.ID req.ProductID req.ProductSizeID
        = some item ∧
      item.Price = calculatePrice product productSize := by
  obtain ⟨product, productSize, db1, hp, _, hs, _, _, hw, hD⟩ := AddToCart_ok hok
  obtain ⟨hnew, hold⟩ := writeCartItem_ok hw
  have hitems : (AddToCart fails now db cart req).1.cartItems = db1.cartItems := by
    rw [hD]; split <;> rfl
  have hfind : findCartItem (AddToCart fails now db cart req).1 cart.ID req.ProductID
      req.ProductSizeID = findCartItem db1 cart.ID req.ProductID req.ProductSizeID := by
    unfold findCartItem
    rw [hitems]
  cases hc : findCartItem db cart.ID req.ProductID req.ProductSizeID with
  | none =>
    refine ⟨product, productSize, newCartItem db cart req (calculatePrice product productSize),
      hp, hs, ?_, rfl⟩
    rw [hfind, (hnew hc).2]
    unfold findCartItem at hc ⊢
    simp only [List.find?_append, hc, Option.none_or]
    simp [newCartItem]
  | some existing =>
    refine ⟨product, productSize,
      mergedCartItem existing (existing.Quantity + req.Quantity)
        (calculatePrice product productSize), hp, hs, ?_, rfl⟩
    rw [hfind, (hold existing hc).2.2]
    unfold findCartItem at hc ⊢
    have hP := List.find?_some hc
    exact find?_saveCartItem _ _ existing _ hc rfl hP

/-- C15, the input on which the claim fails.  Product 2 of `shelfStore` costs
100 and has a discount price set, of 0; its size has no price of its own.
`AddToCart` puts the pair in the cart at 100, the price of the product, where
the claim gives the discount price, 0. -/
theorem addToCart_zero_discount_counterexample :
    (findProduct shelfStore 2).map (fun p => (p.Price, p.DiscountPrice)) = some (100, some 0) ∧
    (findSizeOf shelfStore 2 2).map (fun s => s.Price) = some none ∧
    (AddToCart noFaults 1000 shelfStore shelfCart
        { ProductID := 2, ProductSizeID := 2, Quantity := 1 }).2 = .ok () ∧
    (findCartItem
        (AddToCart noFaults 1000 shelfStore shelfCart
          { ProductID := 2, ProductSizeID := 2, Quantity := 1 }).1 1 2 2).map (fun i => i.Price)
      = some 100 ∧
    (findProduct shelfStore 2).map (fun p => coalescedPrice p { ID := 2 }) = some 0 := by
  refine ⟨?_, ?_, ?_, ?_, ?_⟩ <;> with_unfolding_all rfl

/-- C15, amended.  After a successful `AddToCart` the item of the cart for the
product and size carries: the price of the size when the size has one;
otherwise the discount price of the product when it is set and greater than 0;
otherwise, the discount price being unset, zero or negative, the price of the
product. -/
theorem addToCart_captured_price (fails : Faults) (now : Time) (db : Store) (cart : Cart)
    (req : AddToCartRequest) (hok : (AddToCart fails now db cart req).2 = .ok ()) :
    ∃ product productSize item,
      findProduct db req.ProductID = some product ∧
      findSizeOf db req.ProductSizeID req.ProductID = some productSize ∧
      findCartItem (AddToCart fails now db cart req).1 cart.ID req.ProductID req.ProductSizeID
        = some item ∧
      (∀ sizePrice, productSize.Price = some sizePrice → item.Price = sizePrice) ∧
      (productSize.Price = none → ∀ discountPrice,
        product.DiscountPrice = some discountPrice → 0 < discountPrice →
        item.Price = discountPrice) ∧
      (productSize.Price = none → ∀ discountPrice,
        product.DiscountPrice = some discountPrice → discountPrice ≤ 0 →
        item.Price = product.Price) ∧
      (productSize.Price = none → product.DiscountPrice = none →
        item.Price = product.Price) := by
  obtain ⟨product, productSize, item, hp, hs, hfind, hprice⟩ := AddToCart_item_price hok
  refine ⟨product, productSize, item, hp, hs, hfind, ?_, ?_, ?_, ?_⟩
  · intro sizePrice h
    rw [hprice, calculatePrice, h]
  · intro h d hd hpos
    rw [hprice, calculatePrice, h, hd]
    simp [hpos]
  · intro h d hd hle
    rw [hprice, calculatePrice, h, hd]
    simp [not_lt.mpr hle]
  · intro h hd
    rw [hprice, calculatePrice, h, hd]

/-- C15, amended, at work on `shelfStore`: size 3 has its own price, 90. -/
theorem addToCart_captured_price_witness :
    (AddToCart noFaults 1000 shelfStore shelfCart
        { ProductID := 1, ProductSizeID := 3, Quantity := 1 }).2 = .ok () ∧
    ∃ product productSize item,
      findProduct shelfStore 1 = some product ∧
      findSizeOf shelfStore 3 1 = some productSize ∧
      findCartItem (AddToCart noFaults 1000 shelfStore shelfCart
          { ProductID := 1, ProductSizeID := 3, Quantity := 1 }).1 1 1 3 = some item ∧
      (∀ sizePrice, productSize.Price = some sizePrice → item.Price = sizePrice) := by
  have hok : (AddToCart noFaults 1000 shelfStore shelfCart
      { ProductID := 1, ProductSizeID := 3, Quantity := 1 }).2 = .ok () := by
    with_unfolding_all rfl
  obtain ⟨product, productSize, item, hp, hs, hfind, h1, _⟩ :=
    addToCart_captured_price noFaults 1000 shelfStore shelfCart
      { ProductID := 1, ProductSizeID := 3, Quantity := 1 } hok
  exact ⟨hok, product, productSize, item, hp, hs, hfind, h1⟩

/-! ## `ValidateCart` -/

/-- `validateItem` raises an issue exactly for a faulty item. -/
theorem validateItem_isSome (db : Store) (item : CartItem) :
    (validateItem db item).isSome = itemFaulty db item := by
  unfold validateItem itemFaulty
  simp only
  cases h1 : (preloadProduct db item.ProductID).IsActive with
  | false => simp
  | true =>
    cases h2 : (preloadProductSize db item.ProductSizeID).IsActive with
    | false => simp
    | true =>
      by_cases h3 : (preloadProductSize db item.ProductSizeID).Stock = 0
      · simp [h3]
      · by_cases h4 : (preloadProductSize db item.ProductSizeID).Stock < item.Quantity
        · simp [h3, h4]
        · simp [h3, h4]

theorem length_filterMap_isSome {α β : Type} (f : α → Option β) (l : List α) :
    (l.filterMap f).length = (l.filter (fun a => (f a).isSome)).length := by
  induction l with
  | nil => rfl
  | cons a l ih =>
    cases h : f a with
    | none => simp [List.filterMap_cons, h, ih]
    | some b => simp [List.filterMap_cons, h, ih]

/-- C16, the input on which the claim fails.  The cart of `staleStore` is
expired at time 200 and its one item names a withdrawn product.  The claim
asks for an entry for the item next to the entry for the expiry;
`ValidateCart` returns the expiry entry alone, the item is not inspected. -/
theorem validateCart_expired_counterexample :
    staleCart.IsExpired 200 = true ∧
    (loadCartItems staleStore 1).filter (itemFaulty staleStore)
      = [{ ID := 1, CartID := 1, ProductID := 1, ProductSizeID := 1, Quantity := 1,
           Price := 100 }] ∧
    ValidateCart staleStore 200 staleCart (loadCartItems staleStore 1)
      = { IsValid := false, Issues := ["Giỏ hàng đã hết hạn"] } ∧
    (ValidateCart staleStore 200 staleCart (loadCartItems staleStore 1)).Issues.length
      ≠ ((loadCartItems staleStore 1).filter (itemFaulty staleStore)).length + 1 := by
  refine ⟨?_, ?_, ?_, ?_⟩
  · with_unfolding_all rfl
  · with_unfolding_all rfl
  · with_unfolding_all rfl
  · have h1 : (ValidateCart staleStore 200 staleCart (loadCartItems staleStore 1)).Issues.length
        = 1 := by with_unfolding_all rfl
    have h2 : ((loadCartItems staleStore 1).filter (itemFaulty staleStore)).length = 1 := by
      with_unfolding_all rfl
    rw [h1, h2]
    decide

/-- C16, amended.  For an expired cart `ValidateCart` returns the single issue
of the expiry and inspects no item; for a cart that is not expired and has no
item it returns the single issue of the empty cart; for every other cart it
inspects every item and the issues are, in the order of the items, one entry
for each item whose product is inactive, whose size is inactive, whose size
stock is 0 or whose size stock is below the quantity of the item.  In all
cases is_valid is true if and only if the list of issues is empty. -/
theorem validateCart_issues (db : Store) (now : Time) (cart : Cart) (items : List CartItem) :
    (cart.IsExpired now = true →
      ValidateCart db now cart items = { IsValid := false, Issues := ["Giỏ hàng đã hết hạn"] }) ∧
    (cart.IsExpired now = false → items = [] →
      ValidateCart db now cart items = { IsValid := false, Issues := ["Giỏ hàng trống"] }) ∧
    (cart.IsExpired now = false → items ≠ [] →
      (ValidateCart db now cart items).Issues = items.filterMap (validateItem db) ∧
      (ValidateCart db now cart items).Issues.length
        = (items.filter (itemFaulty db)).length) ∧
    (∀ item, (validateItem db item).isSome = true ↔
      ((preloadProduct db item.ProductID).IsActive = false ∨
        (preloadProductSize db item.ProductSizeID).IsActive = false ∨
        (preloadProductSize db item.ProductSizeID).Stock = 0 ∨
        (preloadProductSize db item.ProductSizeID).Stock < item.Quantity)) ∧
    ((ValidateCart db now cart items).IsValid = true ↔
      (ValidateCart db now cart items).Issues = []) := by
  refine ⟨?_, ?_, ?_, ?_, ?_⟩
  · intro h
    simp [ValidateCart, h]
  · intro h hitems
    simp [ValidateCart, h, hitems]
  · intro h hitems
    have hlen : ¬ items.length = 0 := by
      intro h0
      exact hitems (List.length_eq_zero.mp h0)
    have hI : (ValidateCart db now cart items).Issues = items.filterMap (validateItem db) := by
      simp [ValidateCart, h, hlen]
    refine ⟨hI, ?_⟩
    rw [hI, length_filterMap_isSome]
    congr 1
    apply List.filter_congr
    intro a _
    exact validateItem_isSome db a
  · intro item
    rw [validateItem_isSome]
    simp [itemFaulty]
    tauto
  · unfold ValidateCart
    split
    · simp
    · split
      · simp
      · simp [List.length_eq_zero]

/-! ## `GetOrCreateCart` -/

/-- C16, amended, at work on `staleStore` at time 50, before the cart expires:
one issue, for the item of the withdrawn product. -/
theorem validateCart_issues_witness :
    staleCart.IsExpired 50 = false ∧
    (ValidateCart staleStore 50 staleCart (loadCartItems staleStore 1)).Issues.length = 1 := by
  have hexp : staleCart.IsExpired 50 = false := by with_unfolding_all rfl
  have h := (validateCart_issues staleStore 50 staleCart (loadCartItems staleStore 1)).2.2.1
    hexp (by with_unfolding_all decide)
  refine ⟨hexp, ?_⟩
  rw [h.2]
  with_unfolding_all rfl

theorem find?_id_of_mem {carts : List Cart} {cart : Cart} (hmem : cart ∈ carts)
    (hids : (carts.map (fun c => c.ID)).Nodup) :
    carts.find? (fun c => c.ID == cart.ID) = some cart := by
  cases h : carts.find? (fun c => c.ID == cart.ID) with
  | none =>
    have := List.find?_eq_none.mp h cart hmem
    simp at this
  | some a =>
    have ha := List.mem_of_find?_eq_some h
    have hP := List.find?_some h
    simp only [beq_iff_eq] at hP
    rw [List.inj_on_of_nodup_map hids ha hmem hP]

theorem findCart_mem {db : Store} {userID : Option Nat} {sessionID : String} {cart : Cart}
    (h : findCart db userID sessionID = some cart) :
    cart ∈ db.carts ∧
      (match userID with
       | some u => cart.UserID = some u
       | none => cart.SessionID = sessionID ∧ cart.UserID = none) := by
  unfold findCart at h
  cases userID with
  | some u =>
    simp only at h
    have h2 := List.find?_some h
    simp only [beq_iff_eq] at h2
    exact ⟨List.mem_of_find?_eq_some h, h2⟩
  | none =>
    simp only at h
    have h2 := List.find?_some h
    simp only [Bool.and_eq_true, beq_iff_eq] at h2
    exact ⟨List.mem_of_find?_eq_some h, h2⟩

/-- The run of `GetOrCreateCart` on a miss. -/
theorem GetOrCreateCart_created {now : Time} {db : Store} {userID : Option Nat}
    {sessionID : String} (hkeys : CartKeys db) (hnone : findCart db userID sessionID = none) :
    GetOrCreateCart noFaults now db userID sessionID
      = ({ db with carts := db.carts ++ [createdCart db now userID sessionID],
                   cartSeq := db.cartSeq + 1 },
         .ok (createdCart db now userID sessionID, loadCartItems db (db.cartSeq + 1))) := by
  have hfresh : db.carts.find? (fun c => c.ID == db.cartSeq + 1) = none := by
    rw [List.find?_eq_none]
    intro c hc
    have := hkeys.2 c hc
    simp only [beq_iff_eq]
    omega
  unfold GetOrCreateCart
  rw [hnone]
  cases userID with
  | some u =>
    have hexp : Cart.IsExpired
        { ID := db.cartSeq + 1, UserID := some u, SessionID := sessionID,
          ExpiresAt := GetExpiryTime now false } now = false := by
      simp [Cart.IsExpired, GetExpiryTime, CartExpiryHours, Hour]
    simp only [noFaults, Bool.false_eq_true, if_false, hexp, List.find?_append, hfresh,
      Option.none_or, List.find?_cons, beq_self_eq_true, Option.getD_some]
    simp [createdCart, GetExpiryTime, CartExpiryHours, loadCartItems]
  | none =>
    have hexp : Cart.IsExpired
        { ID := db.cartSeq + 1, SessionID := sessionID,
          ExpiresAt := GetExpiryTime now true } now = false := by
      simp [Cart.IsExpired, GetExpiryTime, GuestCartExpiryHours, Hour]
    simp only [noFaults, Bool.false_eq_true, if_false, hexp, List.find?_append, hfresh,
      Option.none_or, List.find?_cons, beq_self_eq_true, Option.getD_some]
    simp [createdCart, GetExpiryTime, GuestCartExpiryHours, loadCartItems]

/-- The run of `GetOrCreateCart` on a cart that is not expired. -/
theorem GetOrCreateCart_fresh {fails : Faults} {now : Time} {db : Store} {userID : Option Nat}
    {sessionID : String} {cart : Cart} (hids : (db.carts.map (fun c => c.ID)).Nodup)
    (hsome : findCart db userID sessionID = some cart) (hexp : cart.IsExpired now = false) :
    GetOrCreateCart fails now db userID sessionID
      = (db, .ok (cart, loadCartItems db cart.ID)) := by
  have hmem := (findCart_mem hsome).1
  unfold GetOrCreateCart
  rw [hsome]
  simp only [hexp, Bool.false_eq_true, if_false, find?_id_of_mem hmem hids, Option.getD_some]

/-- After `Save(&cart1)`, the row with the id of `cart1` is `cart1`, if there was one. -/
theorem find?_saveCart_self (carts : List Cart) (cart1 : Cart)
    (h : ∃ c ∈ carts, c.ID = cart1.ID) :
    (saveCart carts cart1).find? (fun c => c.ID == cart1.ID) = some cart1 := by
  induction carts with
  | nil =>
    obtain ⟨c, hc, _⟩ := h
    cases hc
  | cons a l ih =>
    simp only [saveCart, List.map_cons, List.find?_cons]
    by_cases ha : a.ID = cart1.ID
    · simp [ha]
    · have hb : (a.ID == cart1.ID) = false := by simp [ha]
      simp only [hb, Bool.false_eq_true, if_false]
      apply ih
      obtain ⟨c, hc, hid⟩ := h
      rcases List.mem_cons.mp hc with rfl | hc
      · exact absurd hid ha
      · exact ⟨c, hc, hid⟩

/-- The run of `GetOrCreateCart` on an expired cart. -/
theorem GetOrCreateCart_expired {now : Time} {db : Store} {userID : Option Nat}
    {sessionID : String} {cart : Cart}
    (hsome : findCart db userID sessionID = some cart) (hexp : cart.IsExpired now = true) :
    GetOrCreateCart noFaults now db userID sessionID
      = ({ deleteCartItems db cart.ID with carts := saveCart db.carts (refreshedCart now cart) },
         .ok (refreshedCart now cart, [])) := by
  have hmem := (findCart_mem hsome).1
  have hfind : (saveCart db.carts (refreshedCart now cart)).find? (fun c => c.ID == cart.ID)
      = some (refreshedCart now cart) :=
    find?_saveCart_self db.carts (refreshedCart now cart) ⟨cart, hmem, rfl⟩
  unfold GetOrCreateCart
  rw [hsome]
  simp only [hexp, if_true, CleanExpiredCart, ClearCart, noFaults, Bool.false_eq_true, if_false]
  have hitems : loadCartItems
      { deleteCartItems db cart.ID with carts := saveCart db.carts (refreshedCart now cart) }
      cart.ID = [] := loadCartItems_deleteCartItems db cart.ID
  have hfind2 : List.find? (fun c => c.ID == cart.ID)
      ({ deleteCartItems db cart.ID with
          carts := saveCart db.carts (refreshedCart now cart) } : Store).carts
      = some (refreshedCart now cart) := hfind
  show (_, Except.ok (Option.getD (List.find? (fun c => c.ID == cart.ID)
      ({ deleteCartItems db cart.ID with
          carts := saveCart db.carts (refreshedCart now cart) } : Store).carts) cart,
      loadCartItems { deleteCartItems db cart.ID with
          carts := saveCart db.carts (refreshedCart now cart) } cart.ID)) = _
  rw [hfind2, hitems]
  rfl

theorem length_filter_map_congr {α : Type} (p : α → Bool) (f : α → α) (l : List α)
    (h : ∀ a ∈ l, p (f a) = p a) :
    ((l.map f).filter p).length = (l.filter p).length := by
  rw [List.filter_map, List.length_map]
  congr 1
  apply List.filter_congr
  intro a ha
  exact h a ha

theorem CartsUnique_saveCart {db : Store} {cart : Cart} (now : Time)
    (hids : (db.carts.map (fun c => c.ID)).Nodup) (hmem : cart ∈ db.carts)
    (hU : CartsUnique db) (items deleted : List CartItem) :
    CartsUnique { db with carts := saveCart db.carts (refreshedCart now cart),
                          cartItems := items, deletedCartItems := deleted } := by
  have key : ∀ p : Cart → Bool, p (refreshedCart now cart) = p cart →
      ((saveCart db.carts (refreshedCart now cart)).filter p).length
        = (db.carts.filter p).length := by
    intro p hp
    apply length_filter_map_congr
    intro a ha
    by_cases h : a.ID = (refreshedCart now cart).ID
    · have : a = cart := List.inj_on_of_nodup_map hids ha hmem h
      subst this
      rw [if_pos (by rw [beq_iff_eq]; exact h)]
      exact hp
    · rw [if_neg (by rw [beq_iff_eq]; exact h)]
  constructor
  · intro u
    show ((saveCart db.carts (refreshedCart now cart)).filter _).length ≤ 1
    rw [key (fun c => c.UserID == some u) rfl]
    exact hU.1 u
  · intro s
    show ((saveCart db.carts (refreshedCart now cart)).filter _).length ≤ 1
    rw [key (fun c => c.SessionID == s && c.UserID == none) rfl]
    exact hU.2 s

theorem CartsUnique_created {db : Store} (now : Time) {userID : Option Nat}
    {sessionID : String} (hnone : findCart db userID sessionID = none) (hU : CartsUnique db) :
    CartsUnique { db with carts := db.carts ++ [createdCart db now userID sessionID],
                          cartSeq := db.cartSeq + 1 } := by
  unfold findCart at hnone
  constructor
  · intro u
    show ((db.carts ++ [createdCart db now userID sessionID]).filter _).length ≤ 1
    rw [List.filter_append, List.length_append]
    cases userID with
    | none =>
      have := hU.1 u
      simp [createdCart]
      exact this
    | some v =>
      simp only at hnone
      by_cases huv : v = u
      · subst huv
        rw [find?_none_filter _ _ hnone]
        simp [createdCart]
      · have := hU.1 u
        simp [createdCart, huv]
        exact this
  · intro s
    show ((db.carts ++ [createdCart db now userID sessionID]).filter _).length ≤ 1
    rw [List.filter_append, List.length_append]
    cases userID with
    | some v =>
      have := hU.2 s
      simp [createdCart]
      exact this
    | none =>
      simp only at hnone
      by_cases hs : sessionID = s
      · subst hs
        rw [find?_none_filter _ _ hnone]
        simp [createdCart]
      · have := hU.2 s
        simp [createdCart, hs]
        exact this

/-- C17.  On a store whose carts have distinct ids below the sequence, and
with every write going through, for every identity (a user id, or a session
id without user):
* when the identity has no cart, `GetOrCreateCart` appends one and returns it,
  with expires_at = now + 24 h for a guest and now + 7 days for a user;
* when its cart is expired, the same row (same id, user and session) is
  returned with expires_at = now + TTL, every item of the cart is removed and
  no other cart or item is touched;
* when its cart is not expired, the store is unchanged and the cart is
  returned with its items;
* if no user had two carts and no session two carts without user before, the
  same holds after. -/
theorem getOrCreateCart_cases (now : Time) (db : Store) (userID : Option Nat)
    (sessionID : String) (hkeys : CartKeys db) :
    (findCart db userID sessionID = none →
      (GetOrCreateCart noFaults now db userID sessionID).1.carts
        = db.carts ++ [createdCart db now userID sessionID] ∧
      (GetOrCreateCart noFaults now db userID sessionID).1.cartItems = db.cartItems ∧
      (GetOrCreateCart noFaults now db userID sessionID).2
        = .ok (createdCart db now userID sessionID, loadCartItems db (db.cartSeq + 1))) ∧
    (∀ cart, findCart db userID sessionID = some cart → cart.IsExpired now = true →
      (GetOrCreateCart noFaults now db userID sessionID).1.carts
        = db.carts.map (fun c => if c.ID == cart.ID then refreshedCart now cart else c) ∧
      (GetOrCreateCart noFaults now db userID sessionID).1.cartItems
        = db.cartItems.filter (fun i => i.CartID != cart.ID) ∧
      (GetOrCreateCart noFaults now db userID sessionID).2 = .ok (refreshedCart now cart, []) ∧
      (refreshedCart now cart).ID = cart.ID ∧
      (refreshedCart now cart).UserID = cart.UserID ∧
      (refreshedCart now cart).SessionID = cart.SessionID ∧
      (refreshedCart now cart).ExpiresAt = now + cartTTL cart ∧
      loadCartItems (GetOrCreateCart noFaults now db userID sessionID).1 cart.ID = []) ∧
    (∀ cart, findCart db userID sessionID = some cart → cart.IsExpired now = false →
      GetOrCreateCart noFaults now db userID sessionID
        = (db, .ok (cart, loadCartItems db cart.ID))) ∧
    (CartsUnique db → CartsUnique (GetOrCreateCart noFaults now db userID sessionID).1) := by
  refine ⟨?_, ?_, ?_, ?_⟩
  · intro hnone
    rw [GetOrCreateCart_created hkeys hnone]
    exact ⟨rfl, rfl, rfl⟩
  · intro cart hsome hexp
    rw [GetOrCreateCart_expired hsome hexp]
    exact ⟨rfl, rfl, rfl, rfl, rfl, rfl, refreshedCart_ExpiresAt now cart,
      loadCartItems_deleteCartItems db cart.ID⟩
  · intro cart hsome hexp
    exact GetOrCreateCart_fresh hkeys.1 hsome hexp
  · intro hU
    cases hfind : findCart db userID sessionID with
    | none =>
      rw [GetOrCreateCart_created hkeys hfind]
      exact CartsUnique_created now hfind hU
    | some cart =>
      cases hexp : cart.IsExpired now with
      | false =>
        rw [GetOrCreateCart_fresh hkeys.1 hfind hexp]
        exact hU
      | true =>
        rw [GetOrCreateCart_expired hfind hexp]
        exact CartsUnique_saveCart now hkeys.1 (findCart_mem hfind).1 hU _ _

/-- C17 at work on `staleStore`, whose guest cart expired at time 100: at time
200 the cart comes back empty, due at 200 + 24 h. -/
theorem getOrCreateCart_cases_witness :
    CartKeys staleStore ∧
    (GetOrCreateCart noFaults 200 staleStore none "s1").1.cartItems = [] ∧
    (GetOrCreateCart noFaults 200 staleStore none "s1").2
      = .ok ({ ID := 1, SessionID := "s1", ExpiresAt := 200 + 24 * 3600 }, []) := by
  have hkeys : CartKeys staleStore := by
    constructor
    · with_unfolding_all decide
    · intro c hc
      have : c = staleCart := by simpa [staleStore, staleCart] using hc
      subst this
      with_unfolding_all decide
  have h := (getOrCreateCart_cases 200 staleStore none "s1" hkeys).2.1 staleCart
    (by with_unfolding_all rfl) (by with_unfolding_all rfl)
  refine ⟨hkeys, ?_, ?_⟩
  · rw [h.2.1]
    with_unfolding_all rfl
  · rw [h.2.2.1]
    with_unfolding_all rfl

/-! ## `UpdateCartItem` -/

/-- C19, the input on which the claim fails.  The cart of `shelfStore` holds item 1
with two pairs; `UpdateCartItem` with quantity -1 returns success and stores
the quantity -1, where the claim has every quantity below 1, other than 0,
refused with the item unchanged. -/
theorem updateCartItem_negative_counterexample :
    UpdateCartItem noFaults shelfStore 1 1 (-1)
      = (withCartItems shelfStore
          [{ ID := 1, CartID := 1, ProductID := 1, ProductSizeID := 1, Quantity := -1,
             Price := 100 }], .ok ()) := by
  with_unfolding_all rfl

/-- C19, amended.  For an item of the given cart and every integer `q`, with
the write going through: `UpdateCartItem` with `q = 0` deletes the item, which
stays in the table as a deleted row; with
`q ≠ 0` it succeeds exactly when `q ≤ MaxItemQuantity` (100) and `q` is at most
the stock of the size of the item, no lower bound being checked, and the item
then has quantity `q` and its other columns as before; otherwise it returns an
error and the store is unchanged.  An item id that names no item of the given
cart is refused without any change. -/
theorem updateCartItem_cases (db : Store) (cartID itemID : Nat) (q : Int) :
    (findItemOfCart db cartID itemID = none →
      ∀ fails, UpdateCartItem fails db cartID itemID q = (db, .error .cartItemNotFound)) ∧
    (∀ item, findItemOfCart db cartID itemID = some item →
      (q = 0 →
        UpdateCartItem noFaults db cartID itemID q
          = ({ db with cartItems := db.cartItems.filter (fun i => i.ID != item.ID),
                       deletedCartItems :=
                         db.deletedCartItems ++ db.cartItems.filter (fun i => i.ID == item.ID) },
              .ok ())) ∧
      (q ≠ 0 → q ≤ MaxItemQuantity → q ≤ (preloadProductSize db item.ProductSizeID).Stock →
        UpdateCartItem noFaults db cartID itemID q
          = (withCartItems db
              (db.cartItems.map (fun i =>
                if i.ID == item.ID then mergedCartItem item q item.Price else i)), .ok ()) ∧
        (mergedCartItem item q item.Price).Quantity = q ∧
        findItemOfCart (UpdateCartItem noFaults db cartID itemID q).1 cartID itemID
          = some (mergedCartItem item q item.Price)) ∧
      (q ≠ 0 → ¬ (q ≤ MaxItemQuantity ∧ q ≤ (preloadProductSize db item.ProductSizeID).Stock) →
        ∀ fails, ∃ e, UpdateCartItem fails db cartID itemID q = (db, .error e))) ∧
    (∀ fails e, (UpdateCartItem fails db cartID itemID q).2 = .error e →
      (UpdateCartItem fails db cartID itemID q).1 = db) := by
  refine ⟨?_, ?_, ?_⟩
  · intro hnone fails
    unfold findItemOfCart at hnone
    unfold UpdateCartItem
    rw [hnone]
  · intro item hsome
    unfold findItemOfCart at hsome
    refine ⟨?_, ?_, ?_⟩
    · intro hq
      unfold UpdateCartItem
      rw [hsome]
      simp [hq, noFaults, withCartItems]
    · intro hq h100 hstock
      have hrun : UpdateCartItem noFaults db cartID itemID q
          = (withCartItems db
              (db.cartItems.map (fun i =>
                if i.ID == item.ID then mergedCartItem item q item.Price else i)), .ok ()) := by
        unfold UpdateCartItem
        rw [hsome]
        simp only [hq, if_false, not_lt.mpr h100, not_lt.mpr hstock, noFaults,
          Bool.false_eq_true, gt_iff_lt]
        rfl
      refine ⟨hrun, rfl, ?_⟩
      rw [hrun]
      unfold findItemOfCart
      have hP := List.find?_some hsome
      have := find?_saveCartItem _ _ item (mergedCartItem item q item.Price) hsome rfl hP
      exact this
    · intro hq hbad fails
      unfold UpdateCartItem
      rw [hsome]
      simp only [hq, if_false, gt_iff_lt]
      by_cases h100 : MaxItemQuantity < q
      · simp only [h100, if_true]
        exact ⟨_, rfl⟩
      · simp only [h100, if_false]
        have hst : (preloadProductSize db item.ProductSizeID).Stock < q := by
          by_contra hn
          exact hbad ⟨not_lt.mp h100, not_lt.mp hn⟩
        simp only [hst, if_true]
        exact ⟨_, rfl⟩
  · intro fails e h
    unfold UpdateCartItem at h ⊢
    cases hfind : db.cartItems.find? (fun i => i.ID == itemID && i.CartID == cartID) with
    | none => rfl
    | some item =>
      rw [hfind] at h
      simp only at h ⊢
      by_cases hq : q = 0
      · simp only [hq, if_true] at h ⊢
        by_cases hf : fails (.deleteCartItem item.ID) = true
        · simp only [hf, if_true]
        · simp only [hf, if_false] at h
          cases h
      · simp only [hq, if_false] at h ⊢
        by_cases h1 : q > MaxItemQuantity
        · simp only [h1, if_true]
        · simp only [h1, if_false] at h ⊢
          by_cases h2 : (preloadProductSize db item.ProductSizeID).Stock < q
          · simp only [h2, if_true]
          · simp only [h2, if_false] at h ⊢
            by_cases h3 : fails (.saveCartItem item.ID) = true
            · simp only [h3, if_true]
            · simp only [h3, if_false] at h
              cases h

/-! ## Cart routes: the identity of the caller -/

/-- C19, amended, at work on `shelfStore`: item 1 of cart 1 set to three pairs,
size 1 having five in stock. -/
theorem updateCartItem_cases_witness :
    findItemOfCart shelfStore 1 1
      = some { ID := 1, CartID := 1, ProductID := 1, ProductSizeID := 1, Quantity := 2,
               Price := 100 } ∧
    findItemOfCart (UpdateCartItem noFaults shelfStore 1 1 3).1 1 1
      = some { ID := 1, CartID := 1, ProductID := 1, ProductSizeID := 1, Quantity := 3,
               Price := 100 } := by
  have hfind : findItemOfCart shelfStore 1 1
      = some { ID := 1, CartID := 1, ProductID := 1, ProductSizeID := 1, Quantity := 2,
               Price := 100 } := by with_unfolding_all rfl
  have h := ((updateCartItem_cases shelfStore 1 1 3).2.1 _ hfind).2.1 (by decide)
    (by with_unfolding_all decide) (by with_unfolding_all decide)
  exact ⟨hfind, h.2.2⟩

theorem runHandlers_user_id (handlers : List (Context → Context)) (c : Context)
    (h : ∀ handler ∈ handlers, ∀ c1, (handler c1).user_id = c1.user_id ∧
      (handler c1).Request = c1.Request) :
    (runHandlers handlers c).user_id = c.user_id ∧
      (runHandlers handlers c).Request = c.Request := by
  induction handlers generalizing c with
  | nil => exact ⟨rfl, rfl⟩
  | cons a l ih =>
    simp only [runHandlers]
    split
    · exact ⟨rfl, rfl⟩
    · have h1 := h a (List.mem_cons_self _ _) c
      have h2 := ih (a c) (fun handler hh => h handler (List.mem_cons_of_mem _ hh))
      exact ⟨h2.1.trans h1.1, h2.2.trans h1.2⟩

theorem cartContext_user_id (req : Request) :
    (cartContext req).user_id = none ∧ (cartContext req).Request = req := by
  have := runHandlers_user_id cartMiddlewares { Request := req } (by
    intro handler hh c1
    simp only [cartMiddlewares, List.mem_singleton] at hh
    subst hh
    unfold corsMiddleware
    split <;> exact ⟨rfl, rfl⟩)
  exact this

/-- C20, the failing input and the general fact behind it.  Whatever the
request to a cart route carries in `Authorization`, the context the controller
receives has no `user_id`: `getCartIdentifier` returns no user and the session
id (the header, or the generated one), and `MergeGuestCart` answers 401 and
leaves the store alone.  On `mergeRequest` the token is one `RequireAuth`
accepts, for user 7, and the guest cart of session `s1` exists in
`shelfStore`; still the key is the session `s1` and the merge is answered 401,
`MergeGuestCartToUser` not being reached. -/
theorem cart_routes_ignore_bearer_token :
    (∀ (req : Request) (GenerateSessionID : String),
      GetUserIDFromContext (cartContext req) = none ∧
      (getCartIdentifier GenerateSessionID (cartContext req)).1 = none ∧
      (getCartIdentifier GenerateSessionID (cartContext req)).2.1
        = (if req.XSessionID = "" then GenerateSessionID else req.XSessionID) ∧
      ∀ fails now db, MergeGuestCart fails now db (cartContext req) = (db, 401)) ∧
    (RequireAuth demoValidateToken { Request := mergeRequest }).user_id = some 7 ∧
    (RequireAuth demoValidateToken { Request := mergeRequest }).aborted = false ∧
    (getCartIdentifier "fresh" (cartContext mergeRequest)).1 = none ∧
    (getCartIdentifier "fresh" (cartContext mergeRequest)).2.1 = "s1" ∧
    MergeGuestCart noFaults 1000 shelfStore (cartContext mergeRequest) = (shelfStore, 401) ∧
    (MergeGuestCartToUser noFaults 1000 shelfStore "s1" 7).1 ≠ shelfStore := by
  have hgen : ∀ (req : Request) (GenerateSessionID : String),
      GetUserIDFromContext (cartContext req) = none ∧
      (getCartIdentifier GenerateSessionID (cartContext req)).1 = none ∧
      (getCartIdentifier GenerateSessionID (cartContext req)).2.1
        = (if req.XSessionID = "" then GenerateSessionID else req.XSessionID) ∧
      ∀ fails now db, MergeGuestCart fails now db (cartContext req) = (db, 401) := by
    intro req gen
    obtain ⟨hu, hr⟩ := cartContext_user_id req
    have hget : GetUserIDFromContext (cartContext req) = none := hu
    refine ⟨hget, ?_, ?_, ?_⟩
    · unfold getCartIdentifier
      rw [hget]
      simp only
      split <;> rfl
    · unfold getCartIdentifier
      rw [hget, hr]
      simp only
      split <;> rfl
    · intro fails now db
      unfold MergeGuestCart
      rw [hget]
  refine ⟨hgen, ?_, ?_, (hgen mergeRequest "fresh").2.1, ?_, (hgen mergeRequest "fresh").2.2.2 _ _ _, ?_⟩
  · with_unfolding_all rfl
  · with_unfolding_all rfl
  · rw [(hgen mergeRequest "fresh").2.2.1]
    with_unfolding_all rfl
  · intro h
    have h2 : (MergeGuestCartToUser noFaults 1000 shelfStore "s1" 7).1.carts.map (fun c => c.ID)
        = shelfStore.carts.map (fun c => c.ID) := by rw [h]
    revert h2
    with_unfolding_all decide

/-! ## `MergeGuestCartToUser` -/

/-- What one `AddToCart` does to the cart items, whatever its outcome. -/
theorem AddToCart_step (fails : Faults) (now : Time) (d : Store) (cart : Cart)
    (req : AddToCartRequest) :
    (AddToCart fails now d cart req).1.productSizes = d.productSizes ∧
    (((AddToCart fails now d cart req).1.cartItems = d.cartItems ∧
        (AddToCart fails now d cart req).1.cartItemSeq = d.cartItemSeq) ∨
      (∃ price size, findCartItem d cart.ID req.ProductID req.ProductSizeID = none ∧
        findSizeOf d req.ProductSizeID req.ProductID = some size ∧
        req.Quantity ≤ size.Stock ∧
        (AddToCart fails now d cart req).1.cartItems
          = d.cartItems ++ [newCartItem d cart req price] ∧
        (AddToCart fails now d cart req).1.cartItemSeq = d.cartItemSeq + 1) ∨
      (∃ existing price size,
        findCartItem d cart.ID req.ProductID req.ProductSizeID = some existing ∧
        findSizeOf d req.ProductSizeID req.ProductID = some size ∧
        existing.Quantity + req.Quantity ≤ MaxItemQuantity ∧
        existing.Quantity + req.Quantity ≤ size.Stock ∧
        (AddToCart fails now d cart req).1.cartItems
          = saveCartItem d.cartItems
              (mergedCartItem existing (existing.Quantity + req.Quantity) price) ∧
        (AddToCart fails now d cart req).1.cartItemSeq = d.cartItemSeq)) := by
  cases hr : (AddToCart fails now d cart req).2 with
  | error e =>
    have := AddToCart_error hr
    rw [this]
    exact ⟨rfl, Or.inl ⟨rfl, rfl⟩⟩
  | ok u =>
    obtain ⟨product, productSize, db1, hp, _, hs, _, hst, hw, hD⟩ := AddToCart_ok hr
    obtain ⟨hnew, hold⟩ := writeCartItem_ok hw
    have hitems : (AddToCart fails now d cart req).1.cartItems = db1.cartItems := by
      rw [hD]; split <;> rfl
    have hseq : (AddToCart fails now d cart req).1.cartItemSeq = db1.cartItemSeq := by
      rw [hD]; split <;> rfl
    have hsizes : (AddToCart fails now d cart req).1.productSizes = db1.productSizes := by
      rw [hD]; split <;> rfl
    cases hc : findCartItem d cart.ID req.ProductID req.ProductSizeID with
    | none =>
      have h1 := (hnew hc).2
      refine ⟨by rw [hsizes, h1], Or.inr (Or.inl
        ⟨calculatePrice product productSize, productSize, rfl, hs, hst, ?_, ?_⟩)⟩
      · rw [hitems, h1]
      · rw [hseq, h1]
    | some existing =>
      obtain ⟨h100, hstock, h1⟩ := hold existing hc
      refine ⟨by rw [hsizes, h1]; rfl,
        Or.inr (Or.inr ⟨existing, calculatePrice product productSize, productSize, rfl, hs,
          h100, hstock, ?_, ?_⟩)⟩
      · rw [hitems, h1]; rfl
      · rw [hseq, h1]; rfl

theorem WithinBounds_congr {a b : Store} (h : a.productSizes = b.productSizes)
    (item : CartItem) : WithinBounds a item ↔ WithinBounds b item := by
  unfold WithinBounds findSizeOf
  rw [h]

theorem findCartItem_some {d : Store} {cartID productID sizeID : Nat} {e : CartItem}
    (h : findCartItem d cartID productID sizeID = some e) :
    e ∈ d.cartItems ∧ e.CartID = cartID ∧ e.ProductID = productID ∧
      e.ProductSizeID = sizeID := by
  unfold findCartItem at h
  have h2 := List.find?_some h
  simp only [Bool.and_eq_true, beq_iff_eq] at h2
  exact ⟨List.mem_of_find?_eq_some h, h2.1.1, h2.1.2, h2.2⟩

theorem saveCartItem_ids (items : List CartItem) (item1 : CartItem) :
    (saveCartItem items item1).map (fun i => i.ID) = items.map (fun i => i.ID) := by
  simp only [saveCartItem, List.map_map]
  apply List.map_congr_left
  intro a _
  by_cases h : a.ID = item1.ID
  · simp [h]
  · simp [h]

theorem mem_saveCartItem {items : List CartItem} {item1 j : CartItem}
    (h : j ∈ saveCartItem items item1) :
    j = item1 ∨ (j ∈ items ∧ j.ID ≠ item1.ID) := by
  simp only [saveCartItem, List.mem_map] at h
  obtain ⟨a, ha, hj⟩ := h
  by_cases hid : a.ID = item1.ID
  · left
    rw [if_pos (by rw [beq_iff_eq]; exact hid)] at hj
    exact hj.symm
  · right
    rw [if_neg (by rw [beq_iff_eq]; exact hid)] at hj
    subst hj
    exact ⟨ha, hid⟩

theorem mem_saveCartItem_of_ne {items : List CartItem} {item1 i : CartItem}
    (hi : i ∈ items) (hne : i.ID ≠ item1.ID) : i ∈ saveCartItem items item1 := by
  simp only [saveCartItem, List.mem_map]
  exact ⟨i, hi, by rw [if_neg (by rw [beq_iff_eq]; exact hne)]⟩

theorem mem_saveCartItem_self {items : List CartItem} {item1 e : CartItem}
    (he : e ∈ items) (hid : e.ID = item1.ID) : item1 ∈ saveCartItem items item1 := by
  simp only [saveCartItem, List.mem_map]
  exact ⟨e, he, by rw [if_pos (by rw [beq_iff_eq]; exact hid)]⟩

/-- One `AddToCart` of the merge keeps the catalogue, the primary key of the
cart items, the items of the cart and their bounds. -/
theorem AddToCart_preserves (fails : Faults) (now : Time) (d : Store) (cart : Cart)
    (req : AddToCartRequest) (hkeys : CartItemKeys d) :
    (AddToCart fails now d cart req).1.productSizes = d.productSizes ∧
    CartItemKeys (AddToCart fails now d cart req).1 ∧
    (0 ≤ req.Quantity → ItemsKept cart.ID d (AddToCart fails now d cart req).1) ∧
    (req.Quantity ≤ MaxItemQuantity →
      (∀ i ∈ loadCartItems d cart.ID, WithinBounds d i) →
      ∀ j ∈ loadCartItems (AddToCart fails now d cart req).1 cart.ID,
        WithinBounds (AddToCart fails now d cart req).1 j) := by
  obtain ⟨hsizes, hstep⟩ := AddToCart_step fails now d cart req
  refine ⟨hsizes, ?_⟩
  rcases hstep with ⟨hitems, hseq⟩ | ⟨price, size, hnone, hsize, hst, hitems, hseq⟩ |
    ⟨e, price, size, hsome, hsize, h100, hstock, hitems, hseq⟩
  · refine ⟨?_, ?_, ?_⟩
    · unfold CartItemKeys
      rw [hitems, hseq]
      exact hkeys
    · intro _ i hi
      refine ⟨i, ?_, rfl, rfl, rfl, le_refl _⟩
      unfold loadCartItems at hi ⊢
      rw [hitems]
      exact hi
    · intro _ hb j hj
      unfold loadCartItems at hj
      rw [hitems] at hj
      exact (WithinBounds_congr hsizes j).mpr (hb j hj)
  · refine ⟨?_, ?_, ?_⟩
    · unfold CartItemKeys
      rw [hitems, hseq]
      constructor
      · rw [List.map_append, List.nodup_append]
        refine ⟨hkeys.1, by simp, ?_⟩
        intro a ha hb
        simp only [List.map_cons, List.map_nil, List.mem_singleton] at hb
        obtain ⟨i, hi, hia⟩ := List.mem_map.mp ha
        have := hkeys.2 i hi
        simp only [newCartItem] at hb
        omega
      · intro i hi
        rcases List.mem_append.mp hi with h | h
        · have := hkeys.2 i h
          omega
        · simp only [List.mem_singleton] at h
          subst h
          simp [newCartItem]
    · intro _ i hi
      refine ⟨i, ?_, rfl, rfl, rfl, le_refl _⟩
      unfold loadCartItems at hi ⊢
      rw [hitems, List.filter_append]
      exact List.mem_append_left _ hi
    · intro hq hb j hj
      unfold loadCartItems at hj
      rw [hitems, List.filter_append] at hj
      rcases List.mem_append.mp hj with h | h
      · exact (WithinBounds_congr hsizes j).mpr (hb j h)
      · have hj2 := (List.mem_filter.mp h).1
        simp only [List.mem_singleton] at hj2
        subst hj2
        rw [WithinBounds_congr hsizes]
        refine ⟨hq, ?_⟩
        intro s hs
        simp only [newCartItem] at hs
        rw [hsize] at hs
        simp only [Option.some.injEq] at hs
        subst hs
        exact hst
  · obtain ⟨hemem, hecart, hepid, hesid⟩ := findCartItem_some hsome
    refine ⟨?_, ?_, ?_⟩
    · unfold CartItemKeys
      rw [hitems, hseq, saveCartItem_ids]
      refine ⟨hkeys.1, ?_⟩
      intro i hi
      rcases mem_saveCartItem hi with h | h
      · subst h
        exact hkeys.2 e hemem
      · exact hkeys.2 i h.1
    · intro hq i hi
      have himem := (List.mem_filter.mp hi).1
      have hicart := (List.mem_filter.mp hi).2
      by_cases hid : i.ID = e.ID
      · have : i = e := List.inj_on_of_nodup_map hkeys.1 himem hemem hid
        subst this
        refine ⟨mergedCartItem i (i.Quantity + req.Quantity) price, ?_, rfl, rfl, rfl, ?_⟩
        · unfold loadCartItems
          rw [hitems]
          exact List.mem_filter.mpr ⟨mem_saveCartItem_self hemem rfl, hicart⟩
        · simp only [mergedCartItem]
          omega
      · refine ⟨i, ?_, rfl, rfl, rfl, le_refl _⟩
        unfold loadCartItems
        rw [hitems]
        exact List.mem_filter.mpr ⟨mem_saveCartItem_of_ne himem hid, hicart⟩
    · intro _ hb j hj
      unfold loadCartItems at hj
      rw [hitems] at hj
      have hjmem := (List.mem_filter.mp hj).1
      have hjcart := (List.mem_filter.mp hj).2
      rw [WithinBounds_congr hsizes]
      rcases mem_saveCartItem hjmem with h | h
      · subst h
        refine ⟨h100, ?_⟩
        intro s hs
        simp only [mergedCartItem] at hs
        rw [hesid, hepid, hsize] at hs
        simp only [Option.some.injEq] at hs
        subst hs
        exact hstock
      · exact hb j (List.mem_filter.mpr ⟨h.1, hjcart⟩)

theorem ItemsKept_refl (cartID : Nat) (a : Store) : ItemsKept cartID a a :=
  fun i hi => ⟨i, hi, rfl, rfl, rfl, le_refl _⟩

theorem ItemsKept_trans {cartID : Nat} {a b c : Store} (h1 : ItemsKept cartID a b)
    (h2 : ItemsKept cartID b c) : ItemsKept cartID a c := by
  intro i hi
  obtain ⟨j, hj, e1, e2, e3, e4⟩ := h1 i hi
  obtain ⟨k, hk, f1, f2, f3, f4⟩ := h2 j hj
  exact ⟨k, hk, f1.trans e1, f2.trans e2, f3.trans e3, le_trans e4 f4⟩

/-- The loop of the merge keeps the catalogue, the primary key of the cart
items, the items of the cart of the user and their bounds. -/
theorem mergeItems_preserves (fails : Faults) (now : Time) (cart : Cart)
    (guestItems : List CartItem) : ∀ d : Store, CartItemKeys d →
    (mergeItems fails now cart guestItems d).productSizes = d.productSizes ∧
    CartItemKeys (mergeItems fails now cart guestItems d) ∧
    ((∀ g ∈ guestItems, 0 ≤ g.Quantity) →
      ItemsKept cart.ID d (mergeItems fails now cart guestItems d)) ∧
    ((∀ g ∈ guestItems, g.Quantity ≤ MaxItemQuantity) →
      (∀ i ∈ loadCartItems d cart.ID, WithinBounds d i) →
      ∀ j ∈ loadCartItems (mergeItems fails now cart guestItems d) cart.ID,
        WithinBounds (mergeItems fails now cart guestItems d) j) := by
  induction guestItems with
  | nil =>
    intro d hkeys
    exact ⟨rfl, hkeys, fun _ => ItemsKept_refl _ _, fun _ hb => hb⟩
  | cons g rest ih =>
    intro d hkeys
    obtain ⟨s1, k1, m1, b1⟩ := AddToCart_preserves fails now d cart
      { ProductID := g.ProductID, ProductSizeID := g.ProductSizeID, Quantity := g.Quantity }
      hkeys
    obtain ⟨s2, k2, m2, b2⟩ := ih _ k1
    simp only [mergeItems]
    refine ⟨s2.trans s1, k2, ?_, ?_⟩
    · intro hq
      exact ItemsKept_trans (m1 (hq g (List.mem_cons_self _ _)))
        (m2 (fun x hx => hq x (List.mem_cons_of_mem _ hx)))
    · intro hq hb
      exact b2 (fun x hx => hq x (List.mem_cons_of_mem _ hx))
        (b1 (hq g (List.mem_cons_self _ _)) hb)

/-- The run of the merge when the cart of the user, if any, is not expired. -/
theorem MergeGuestCartToUser_run {now : Time} {db : Store} {sessionID : String} {userID : Nat}
    {guestCart : Cart}
    (hguest : db.carts.find? (fun c => c.SessionID == sessionID && c.UserID == none)
      = some guestCart)
    (hkeys : CartKeys db)
    (hfresh : ∀ userCart, findCart db (some userID) sessionID = some userCart →
      userCart.IsExpired now = false) :
    ∃ db1 userCart,
      MergeGuestCartToUser noFaults now db sessionID userID
        = (deleteCart (deleteCartItems
            (mergeItems noFaults now userCart (loadCartItems db guestCart.ID) db1)
            guestCart.ID) guestCart.ID, .ok ()) ∧
      db1.cartItems = db.cartItems ∧ db1.cartItemSeq = db.cartItemSeq ∧
      db1.productSizes = db.productSizes ∧
      userCart.ID = userCartID db userID sessionID ∧
      userCart.ID ≠ guestCart.ID := by
  have hgmem := List.mem_of_find?_eq_some hguest
  have hgP := List.find?_some hguest
  simp only [Bool.and_eq_true, beq_iff_eq] at hgP
  cases hfind : findCart db (some userID) sessionID with
  | none =>
    refine ⟨{ db with carts := db.carts ++ [createdCart db now (some userID) sessionID],
                      cartSeq := db.cartSeq + 1 },
      createdCart db now (some userID) sessionID, ?_, rfl, rfl, rfl, ?_, ?_⟩
    · unfold MergeGuestCartToUser
      rw [hguest]
      simp only
      rw [GetOrCreateCart_created hkeys hfind]
      simp only [noFaults, Bool.false_eq_true, if_false]
    · simp [userCartID, hfind, createdCart]
    · have := hkeys.2 guestCart hgmem
      simp only [createdCart]
      omega
  | some userCart =>
    have hu := findCart_mem hfind
    refine ⟨db, userCart, ?_, rfl, rfl, rfl, ?_, ?_⟩
    · unfold MergeGuestCartToUser
      rw [hguest]
      simp only
      rw [GetOrCreateCart_fresh hkeys.1 hfind (hfresh userCart hfind)]
      rfl
    · simp [userCartID, hfind]
    · intro hid
      have := List.inj_on_of_nodup_map hkeys.1 hu.1 hgmem hid
      subst this
      have h1 : userCart.UserID = some userID := hu.2
      rw [hgP.2] at h1
      cases h1

/-- C18, the inputs on which the claim fails.  In `lapsedStore` the cart of
user 7 expired at time 100 and holds a pair of size 3; the merge of the guest
cart of session `s1` at time 1000 returns success, and the cart of the user
now holds the pair of the guest only: the item it held before is gone.  In
`overdrawnStore` the cart of user 7 is not expired and holds nine pairs of size
2, of which five are in stock; after the merge it still holds the nine. -/
theorem mergeGuestCart_counterexample :
    (MergeGuestCartToUser noFaults 1000 lapsedStore "s1" 7).2 = .ok () ∧
    (loadCartItems lapsedStore 2).map (fun i => (i.ProductID, i.ProductSizeID, i.Quantity))
      = [(1, 3, 1)] ∧
    (loadCartItems (MergeGuestCartToUser noFaults 1000 lapsedStore "s1" 7).1 2).map
        (fun i => (i.ProductID, i.ProductSizeID, i.Quantity))
      = [(1, 1, 2)] ∧
    (MergeGuestCartToUser noFaults 1000 overdrawnStore "s1" 7).2 = .ok () ∧
    (loadCartItems (MergeGuestCartToUser noFaults 1000 overdrawnStore "s1" 7).1 2).map
        (fun i => (i.ProductID, i.ProductSizeID, i.Quantity))
      = [(2, 2, 9), (1, 1, 2)] ∧
    stockOf (MergeGuestCartToUser noFaults 1000 overdrawnStore "s1" 7).1 2 = some 5 := by
  refine ⟨?_, ?_, ?_, ?_, ?_, ?_⟩ <;> with_unfolding_all rfl

/-- C18, amended.  On a store whose carts and cart items have distinct ids
below their sequences, for a session with a guest cart and a user whose cart,
if there is one, is not expired, and with every write going through,
`MergeGuestCartToUser` returns success and afterwards:
* no cart carries the id of the guest cart and no cart item belongs to it;
* if the guest quantities are not negative, every item that was in the cart of
  the user is still in it, same product and size, with at least its quantity;
* if the guest quantities are at most 100 and every item of the cart of the
  user was within 100 and within the stock of its size before, then every item
  of the cart of the user is within 100 and within the stock of its size;
* the stock of the sizes is untouched. -/
theorem mergeGuestCart_effect (now : Time) (db : Store) (sessionID : String) (userID : Nat)
    (guestCart : Cart)
    (hguest : db.carts.find? (fun c => c.SessionID == sessionID && c.UserID == none)
      = some guestCart)
    (hkeys : CartKeys db) (hitemkeys : CartItemKeys db)
    (hfresh : ∀ userCart, findCart db (some userID) sessionID = some userCart →
      userCart.IsExpired now = false) :
    (MergeGuestCartToUser noFaults now db sessionID userID).2 = .ok () ∧
    (∀ c ∈ (MergeGuestCartToUser noFaults now db sessionID userID).1.carts,
      c.ID ≠ guestCart.ID) ∧
    loadCartItems (MergeGuestCartToUser noFaults now db sessionID userID).1 guestCart.ID = [] ∧
    ((∀ g ∈ loadCartItems db guestCart.ID, 0 ≤ g.Quantity) →
      ItemsKept (userCartID db userID sessionID) db
        (MergeGuestCartToUser noFaults now db sessionID userID).1) ∧
    ((∀ g ∈ loadCartItems db guestCart.ID, g.Quantity ≤ MaxItemQuantity) →
      (∀ i ∈ loadCartItems db (userCartID db userID sessionID), WithinBounds db i) →
      ∀ j ∈ loadCartItems (MergeGuestCartToUser noFaults now db sessionID userID).1
          (userCartID db userID sessionID),
        WithinBounds (MergeGuestCartToUser noFaults now db sessionID userID).1 j) ∧
    (MergeGuestCartToUser noFaults now db sessionID userID).1.productSizes
      = db.productSizes := by
  obtain ⟨db1, userCart, hrun, hitems, hseq, hsizes, huid, hne⟩ :=
    MergeGuestCartToUser_run hguest hkeys hfresh
  have hkeys1 : CartItemKeys db1 := by
    unfold CartItemKeys
    rw [hitems, hseq]
    exact hitemkeys
  obtain ⟨ms, _, mk, mb⟩ :=
    mergeItems_preserves noFaults now userCart (loadCartItems db guestCart.ID) db1 hkeys1
  have hload1 : ∀ k, loadCartItems db1 k = loadCartItems db k := by
    intro k
    unfold loadCartItems
    rw [hitems]
  have hloadD : ∀ M : Store,
      loadCartItems (deleteCart (deleteCartItems M guestCart.ID) guestCart.ID) userCart.ID
        = loadCartItems M userCart.ID := by
    intro M
    simp only [loadCartItems, deleteCart, deleteCartItems, List.filter_filter]
    apply List.filter_congr
    intro i _
    by_cases h : i.CartID = userCart.ID
    · simp [h, hne]
    · simp [h]
  rw [hrun, ← huid]
  refine ⟨rfl, ?_, ?_, ?_, ?_, ?_⟩
  · intro c hc
    simp only [deleteCart, List.mem_filter, bne_iff_ne] at hc
    exact hc.2
  · exact loadCartItems_deleteCartItems _ guestCart.ID
  · intro hq i hi
    rw [← hload1] at hi
    obtain ⟨j, hj, e⟩ := mk hq i hi
    exact ⟨j, by rw [hloadD]; exact hj, e⟩
  · intro hq hb j hj
    rw [hloadD] at hj
    have hb1 : ∀ i ∈ loadCartItems db1 userCart.ID, WithinBounds db1 i := by
      intro i hi
      rw [hload1] at hi
      exact (WithinBounds_congr hsizes i).mpr (hb i hi)
    have := mb hq hb1 j hj
    exact (WithinBounds_congr (a := deleteCart (deleteCartItems _ guestCart.ID) guestCart.ID)
      rfl j).mpr this
  · show (mergeItems noFaults now userCart (loadCartItems db guestCart.ID) db1).productSizes = _
    rw [ms, hsizes]

/-- C18, amended, at work on `overdrawnStore`, where the cart of user 7 is not
expired: the guest cart is gone and the nine pairs are still in the cart of
the user. -/
theorem mergeGuestCart_effect_witness :
    CartKeys overdrawnStore ∧ CartItemKeys overdrawnStore ∧
    (MergeGuestCartToUser noFaults 1000 overdrawnStore "s1" 7).2 = .ok () ∧
    loadCartItems (MergeGuestCartToUser noFaults 1000 overdrawnStore "s1" 7).1 1 = [] ∧
    ItemsKept 2 overdrawnStore (MergeGuestCartToUser noFaults 1000 overdrawnStore "s1" 7).1 := by
  have hkeys : CartKeys overdrawnStore := by
    constructor
    · with_unfolding_all decide
    · intro c hc
      simp only [overdrawnStore, List.mem_cons, List.mem_singleton, List.not_mem_nil,
        or_false] at hc
      rcases hc with rfl | rfl <;> with_unfolding_all decide
  have hitemkeys : CartItemKeys overdrawnStore := by
    constructor
    · with_unfolding_all decide
    · intro i hi
      simp only [overdrawnStore, List.mem_cons, List.mem_singleton, List.not_mem_nil,
        or_false] at hi
      rcases hi with rfl | rfl <;> with_unfolding_all decide
  have hfind : findCart overdrawnStore (some 7) "s1"
      = some { ID := 2, UserID := some 7, ExpiresAt := 86400 } := by with_unfolding_all rfl
  have h := mergeGuestCart_effect 1000 overdrawnStore "s1" 7
    { ID := 1, SessionID := "s1", ExpiresAt := 86400 } (by with_unfolding_all rfl) hkeys
    hitemkeys (by
      intro userCart hu
      rw [hfind] at hu
      simp only [Option.some.injEq] at hu
      subst hu
      with_unfolding_all rfl)
  have hid : userCartID overdrawnStore 7 "s1" = 2 := by with_unfolding_all rfl
  have hqty : ∀ g ∈ loadCartItems overdrawnStore 1, 0 ≤ g.Quantity := by
    intro g hg
    have hl : loadCartItems overdrawnStore 1
        = [{ ID := 1, CartID := 1, ProductID := 1, ProductSizeID := 1, Quantity := 2,
             Price := 100 }] := by with_unfolding_all rfl
    rw [hl] at hg
    simp only [List.mem_singleton] at hg
    subst hg
    with_unfolding_all decide
  have hkept := h.2.2.2.1 hqty
  rw [hid] at hkept
  exact ⟨hkeys, hitemkeys, h.1, h.2.2.1, hkept⟩

/-! ## Shipping fee -/

/-- C27.  For every shipping address and subtotal, `calculateShippingFee` is
0 when the subtotal is at least 500000, whatever the city; otherwise it is
30000, plus 20000 when the city of the address is one of Cà Mau, An Giang,
Kiên Giang and Hà Giang.  The fee is always one of 0, 30000 and 50000. -/
theorem calculateShippingFee_cases (address : ShippingAddress) (totalAmount : ℚ) :
    (500000 ≤ totalAmount → calculateShippingFee address totalAmount = 0) ∧
    (totalAmount < 500000 → address.City ∈ remoteCities →
      calculateShippingFee address totalAmount = 30000 + 20000) ∧
    (totalAmount < 500000 → address.City ∉ remoteCities →
      calculateShippingFee address totalAmount = 30000) ∧
    (calculateShippingFee address totalAmount = 0 ∨
      calculateShippingFee address totalAmount = 30000 ∨
      calculateShippingFee address totalAmount = 50000) := by
  have hfree : 500000 ≤ totalAmount → calculateShippingFee address totalAmount = 0 := by
    intro h
    unfold calculateShippingFee
    rw [if_pos h]
  have hremote : totalAmount < 500000 → address.City ∈ remoteCities →
      calculateShippingFee address totalAmount = 30000 + 20000 := by
    intro h hc
    unfold calculateShippingFee
    rw [if_neg (not_le.mpr h)]
    have hcc : (["Cà Mau", "An Giang", "Kiên Giang", "Hà Giang"].contains address.City)
        = true := List.elem_eq_true_of_mem hc
    simp only [hcc, if_true]
  have hbase : totalAmount < 500000 → address.City ∉ remoteCities →
      calculateShippingFee address totalAmount = 30000 := by
    intro h hc
    unfold calculateShippingFee
    rw [if_neg (not_le.mpr h)]
    have hcc : (["Cà Mau", "An Giang", "Kiên Giang", "Hà Giang"].contains address.City)
        = false := by
      cases hb : (["Cà Mau", "An Giang", "Kiên Giang", "Hà Giang"].contains address.City) with
      | false => rfl
      | true => exact absurd (List.mem_of_elem_eq_true hb) hc
    simp only [hcc, Bool.false_eq_true, if_false]
  refine ⟨hfree, hremote, hbase, ?_⟩
  by_cases h : 500000 ≤ totalAmount
  · exact Or.inl (hfree h)
  · by_cases hc : address.City ∈ remoteCities
    · right; right
      rw [hremote (not_le.mp h) hc]
      norm_num
    · exact Or.inr (Or.inl (hbase (not_le.mp h) hc))

/-- C27 at work: a subtotal of 200000 to Cà Mau costs 50000, 600000 ships free. -/
theorem calculateShippingFee_cases_witness :
    calculateShippingFee { City := "Cà Mau" } 200000 = 30000 + 20000 ∧
    calculateShippingFee { City := "Cà Mau" } 600000 = 0 :=
  ⟨(calculateShippingFee_cases { City := "Cà Mau" } 200000).2.1 (by norm_num)
      (by with_unfolding_all decide),
   (calculateShippingFee_cases { City := "Cà Mau" } 600000).1 (by norm_num)⟩

/-! ## CSRF guard -/

/-- What `RequireAuth` leaves in the context when it lets a request through. -/
theorem RequireAuth_passed {ValidateToken : String → Option JWTClaims} {c : Context}
    (h : (RequireAuth ValidateToken c).aborted = false) :
    ∃ token claims, Split c.Request.Authorization ' ' = ["Bearer", token] ∧
      ValidateToken token = some claims ∧
      (RequireAuth ValidateToken c).csrf_token = some claims.CSRFToken ∧
      (RequireAuth ValidateToken c).Request = c.Request := by
  unfold RequireAuth at h ⊢
  simp only at h ⊢
  split at h
  · simp [abortWith] at h
  · split at h
    · rename_i scheme token hsplit
      split at h
      · simp [abortWith] at h
      · rename_i hscheme
        have hs : scheme = "Bearer" := by
          by_contra hne
          exact hscheme hne
        subst hs
        split at h
        · simp [abortWith] at h
        · rename_i claims hv
          refine ⟨token, claims, hsplit, hv, ?_, ?_⟩
          · rw [if_neg (by assumption)]
            simp only [hsplit, ne_eq, not_true_eq_false, if_false, hv]
          · rw [if_neg (by assumption)]
            simp only [hsplit, ne_eq, not_true_eq_false, if_false, hv]
    · simp [abortWith] at h

/-- What `RequireAuth` does with a well-formed header and a valid token. -/
theorem RequireAuth_valid {ValidateToken : String → Option JWTClaims} {c : Context}
    {token : String} {claims : JWTClaims}
    (hsplit : Split c.Request.Authorization ' ' = ["Bearer", token])
    (hv : ValidateToken token = some claims) :
    RequireAuth ValidateToken c
      = { c with user_id := some claims.UserID, user_email := some claims.Email,
                 user_role := some claims.Role, csrf_token := some claims.CSRFToken } := by
  have hne : ¬ c.Request.Authorization = "" := by
    intro h
    rw [h] at hsplit
    have hempty : Split "" ' ' = [""] := by with_unfolding_all rfl
    rw [hempty] at hsplit
    simp at hsplit
  unfold RequireAuth
  simp only [hne, if_false, hsplit, ne_eq, not_true_eq_false, hv]

/-- `CSRFProtection` on a request that is neither a GET nor to a public endpoint. -/
theorem CSRFProtection_guarded {c : Context} (hm : c.Request.Method ≠ "GET")
    (hp : isPublicEndpoint c.Request.Path = false) :
    (c.Request.XCSRFToken ≠ "" ∧ c.csrf_token = some c.Request.XCSRFToken →
      CSRFProtection c = c) ∧
    (¬ (c.Request.XCSRFToken ≠ "" ∧ c.csrf_token = some c.Request.XCSRFToken) →
      CSRFProtection c = abortWith c 403) := by
  unfold CSRFProtection
  simp only [hm, if_false, hp, Bool.false_eq_true]
  constructor
  · rintro ⟨h1, h2⟩
    simp [h1, h2]
  · intro hn
    by_cases h1 : c.Request.XCSRFToken = ""
    · simp [h1]
    · simp only [h1, if_false]
      cases h2 : c.csrf_token with
      | none => rfl
      | some t =>
        simp only
        have hne : c.Request.XCSRFToken ≠ t := by
          intro e
          apply hn
          exact ⟨h1, by rw [h2, e]⟩
        simp [hne]

/-- C25.  `CSRFProtection` lets every GET request and every request to one of
the five public endpoints through unchanged, whatever the header.  For every
other request it lets the request through if and only if the header
`X-CSRF-Token` is not empty and equals the `csrf_token` of the context, and
otherwise aborts with 403.  Behind `RequireAuth`, as the routes install it,
the `csrf_token` of the context is the one of the validated bearer token: such
a request reaches the controller if and only if its bearer token is valid and
its header is not empty and equals the CSRF token embedded in that token. -/
theorem csrfProtection_cases (c : Context) :
    (c.Request.Method = "GET" → CSRFProtection c = c) ∧
    (isPublicEndpoint c.Request.Path = true → CSRFProtection c = c) ∧
    (∀ path, isPublicEndpoint path = true ↔
      path ∈ ["/api/v1/auth/login", "/api/v1/auth/register", "/api/v1/auth/recovery",
        "/api/v1/auth/recovery/verify", "/health"]) ∧
    (c.Request.Method ≠ "GET" → isPublicEndpoint c.Request.Path = false →
      (c.Request.XCSRFToken ≠ "" ∧ c.csrf_token = some c.Request.XCSRFToken →
        CSRFProtection c = c) ∧
      (¬ (c.Request.XCSRFToken ≠ "" ∧ c.csrf_token = some c.Request.XCSRFToken) →
        CSRFProtection c = abortWith c 403 ∧
        (CSRFProtection c).aborted = true ∧ (CSRFProtection c).status = some 403)) ∧
    (∀ (ValidateToken : String → Option JWTClaims) (req : Request),
      req.Method ≠ "GET" → isPublicEndpoint req.Path = false →
      ((runHandlers (protectedMiddlewares ValidateToken) { Request := req }).aborted = false ↔
        ∃ token claims, Split req.Authorization ' ' = ["Bearer", token] ∧
          ValidateToken token = some claims ∧
          req.XCSRFToken ≠ "" ∧ req.XCSRFToken = claims.CSRFToken)) := by
  refine ⟨?_, ?_, ?_, ?_, ?_⟩
  · intro h
    unfold CSRFProtection
    rw [if_pos h]
  · intro h
    unfold CSRFProtection
    split
    · rfl
    · simp [h]
  · intro path
    simp [isPublicEndpoint]
  · intro hm hp
    obtain ⟨h1, h2⟩ := CSRFProtection_guarded hm hp
    refine ⟨h1, ?_⟩
    intro hn
    have := h2 hn
    rw [this]
    exact ⟨rfl, rfl, rfl⟩
  · intro V req hm hp
    have hrun : runHandlers (protectedMiddlewares V) { Request := req }
        = if (RequireAuth V { Request := req }).aborted then RequireAuth V { Request := req }
          else CSRFProtection (RequireAuth V { Request := req }) := by
      simp [runHandlers, protectedMiddlewares]
    rw [hrun]
    constructor
    · intro h
      cases ha : (RequireAuth V { Request := req }).aborted with
      | true =>
        rw [ha] at h
        simp only [if_true] at h
        rw [ha] at h
        cases h
      | false =>
        rw [ha] at h
        simp only [Bool.false_eq_true, if_false] at h
        obtain ⟨token, claims, hsplit, hv, hcsrf, hreq⟩ := RequireAuth_passed ha
        have hm1 : (RequireAuth V { Request := req }).Request.Method ≠ "GET" := by
          rw [hreq]; exact hm
        have hp1 : isPublicEndpoint (RequireAuth V { Request := req }).Request.Path = false := by
          rw [hreq]; exact hp
        obtain ⟨_, g2⟩ := CSRFProtection_guarded hm1 hp1
        by_cases hcond : (RequireAuth V { Request := req }).Request.XCSRFToken ≠ "" ∧
            (RequireAuth V { Request := req }).csrf_token
              = some (RequireAuth V { Request := req }).Request.XCSRFToken
        · rw [hreq, hcsrf] at hcond
          simp only [Option.some.injEq] at hcond
          exact ⟨token, claims, hsplit, hv, hcond.1, hcond.2.symm⟩
        · rw [g2 hcond] at h
          simp [abortWith] at h
    · rintro ⟨token, claims, hsplit, hv, hne, heq⟩
      have hra := RequireAuth_valid (c := { Request := req }) hsplit hv
      rw [hra]
      simp only [Bool.false_eq_true, if_false]
      have g := (CSRFProtection_guarded
        (c := { Request := req, user_id := some claims.UserID,
                user_email := some claims.Email, user_role := some claims.Role,
                csrf_token := some claims.CSRFToken }) hm hp).1 ⟨hne, by rw [heq]⟩
      rw [g]

/-- C25 at work on a POST to a protected route with the bearer token `good`,
whose CSRF token is `c7`: the header `c7` passes, the header `c8` is aborted
with 403. -/
theorem csrfProtection_cases_witness :
    (runHandlers (protectedMiddlewares csrfValidateToken)
      { Request := { Method := "POST", Path := "/api/v1/users/7",
                     Authorization := "Bearer good", XCSRFToken := "c7" } }).aborted = false ∧
    (runHandlers (protectedMiddlewares csrfValidateToken)
      { Request := { Method := "POST", Path := "/api/v1/users/7",
                     Authorization := "Bearer good", XCSRFToken := "c8" } }).status
      = some 403 := by
  refine ⟨?_, by with_unfolding_all rfl⟩
  exact ((csrfProtection_cases { Request := {} }).2.2.2.2 csrfValidateToken
    { Method := "POST", Path := "/api/v1/users/7", Authorization := "Bearer good",
      XCSRFToken := "c7" } (by decide) (by with_unfolding_all rfl)).mpr
    ⟨"good", { UserID := 7, Email := "u7@x", CSRFToken := "c7" },
      by with_unfolding_all rfl, by with_unfolding_all rfl, by decide, rfl⟩

/-! ## Login, lockout and recovery -/

/-- C24, the failing input and the general fact behind it.  For a valid
address, `RequestRecovery` answers an unknown address with status 200,
success and the message "if the e-mail exists, a recovery code has been
sent"; a known address never gets that answer: it gets status 200 with the
message "the recovery code has been sent, it is valid for 30 minutes", or a
500.  On `an@x.vn` the store without users and `lockedStore`, which differ
only in the user with that address, give two different messages. -/
theorem requestRecovery_reveals_account :
    (∀ (env : AuthEnv) (fails : Faults) (now : Time) (db : Store) (email : String)
        (code : Option String),
      env.isEmail email = true → findUserByEmail db email = none →
      RequestRecovery env fails now db email code = (db, recoveryAnswerUnknown)) ∧
    (∀ (env : AuthEnv) (fails : Faults) (now : Time) (db : Store) (email : String)
        (code : Option String) (user : User),
      env.isEmail email = true → findUserByEmail db email = some user →
      (RequestRecovery env fails now db email code).2 ≠ recoveryAnswerUnknown) ∧
    (RequestRecovery demoAuthEnv noFaults 1000 {} "an@x.vn" (some "4f1c")).2
      = { Status := 200, Success := true,
          Message := "Nếu email tồn tại, mã khôi phục đã được gửi đến email của bạn." } ∧
    (RequestRecovery demoAuthEnv noFaults 1000 lockedStore "an@x.vn" (some "4f1c")).2
      = { Status := 200, Success := true,
          Message := "Mã khôi phục đã được gửi đến email của bạn. Mã có hiệu lực trong 30 phút." } ∧
    (RequestRecovery demoAuthEnv noFaults 1000 {} "an@x.vn" (some "4f1c")).2
      ≠ (RequestRecovery demoAuthEnv noFaults 1000 lockedStore "an@x.vn" (some "4f1c")).2 := by
  have h3 : (RequestRecovery demoAuthEnv noFaults 1000 {} "an@x.vn" (some "4f1c")).2
      = { Status := 200, Success := true,
          Message := "Nếu email tồn tại, mã khôi phục đã được gửi đến email của bạn." } := by
    with_unfolding_all rfl
  have h4 : (RequestRecovery demoAuthEnv noFaults 1000 lockedStore "an@x.vn" (some "4f1c")).2
      = { Status := 200, Success := true,
          Message := "Mã khôi phục đã được gửi đến email của bạn. Mã có hiệu lực trong 30 phút." } := by
    with_unfolding_all rfl
  refine ⟨?_, ?_, h3, h4, ?_⟩
  · intro env fails now db email code hvalid hnone
    unfold RequestRecovery
    simp only [hvalid, Bool.not_true, Bool.false_eq_true, if_false, hnone]
    rfl
  · intro env fails now db email code user hvalid hsome
    unfold RequestRecovery
    simp only [hvalid, Bool.not_true, Bool.false_eq_true, if_false, hsome]
    cases code with
    | none =>
      simp only [recoveryAnswerUnknown]
      with_unfolding_all decide
    | some code =>
      simp only
      split
      · simp only [recoveryAnswerUnknown]
        with_unfolding_all decide
      · simp only [recoveryAnswerUnknown]
        with_unfolding_all decide
  · rw [h3, h4]
    with_unfolding_all decide

theorem logLoginAttempt_users (fails : Faults) (now : Time) (db : Store)
    (email ipAddress userAgent : String) (isSuccess : Bool) (failReason : String) :
    (logLoginAttempt fails now db email ipAddress userAgent isSuccess failReason).users
      = db.users := by
  unfold logLoginAttempt
  split <;> rfl

/-- After `Save(&user1)` of the user found by an address, the address finds `user1`. -/
theorem find?_saveUser (P : User → Bool) (users : List User) (user user1 : User)
    (hfind : users.find? P = some user) (hid : user1.ID = user.ID) (hP : P user1 = true) :
    (saveUser users user1).find? P = some user1 := by
  induction users with
  | nil => cases hfind
  | cons a l ih =>
    simp only [saveUser, List.map_cons, List.find?_cons] at hfind ⊢
    cases hPa : P a with
    | true =>
      rw [hPa] at hfind
      simp only [Option.some.injEq] at hfind
      subst hfind
      simp [hid, hP]
    | false =>
      rw [hPa] at hfind
      by_cases ha : a.ID = user1.ID
      · simp [ha, hP]
      · simp only [beq_iff_eq, ha, if_false, hPa]
        have := ih hfind
        simpa [saveUser] using this

/-- The users after a `Login` that passed the validation and found the user. -/
theorem Login_users {env : AuthEnv} {fails : Faults} {now : Time} {db : Store}
    {req : LoginRequest} {ipAddress userAgent : String} {user : User}
    (hemail : env.isEmail req.Email = true) (hpw : req.Password ≠ "")
    (hfind : findUserByEmail db req.Email = some user) :
    (Login env fails now db req ipAddress userAgent).1.users =
      if user.IsActive = false then db.users
      else if fails (.saveUser user.ID) then db.users
      else if env.CompareHashAndPassword user.Password req.Password then
        saveUser db.users (loggedInUser user now)
      else saveUser db.users (failedLoginUser user) := by
  have hpw2 : (req.Password == "") = false := by simp [hpw]
  unfold Login
  simp only [hemail, Bool.not_true, hpw2, Bool.or_self, Bool.false_eq_true, if_false, hfind]
  cases ha : user.IsActive with
  | false => simp [logLoginAttempt_users]
  | true =>
    simp only [Bool.not_true, Bool.false_eq_true, if_false]
    cases hc : env.CompareHashAndPassword user.Password req.Password with
    | false =>
      simp only [Bool.not_false, if_true]
      by_cases hf : fails (.saveUser user.ID) = true
      · simp only [hf, if_true]
        split <;> simp [logLoginAttempt_users]
      · simp only [hf, if_false]
        split <;> simp [logLoginAttempt_users]
    | true =>
      simp only [Bool.not_true, Bool.false_eq_true, if_false]
      by_cases hf : fails (.saveUser user.ID) = true
      · simp [hf]
      · simp only [hf, if_false, Bool.true_eq_false]
        cases env.GenerateToken user.ID user.Email user.Role with
        | none => rfl
        | some t => exact logLoginAttempt_users _ _ _ _ _ _ _ _

/-- The users after any `Login`: untouched, or one row saved after a failure or a success. -/
theorem Login_users_cases (env : AuthEnv) (fails : Faults) (now : Time) (db : Store)
    (req : LoginRequest) (ipAddress userAgent : String) :
    (Login env fails now db req ipAddress userAgent).1.users = db.users ∨
    ∃ user, user ∈ db.users ∧ user.IsActive = true ∧
      ((Login env fails now db req ipAddress userAgent).1.users
          = saveUser db.users (loggedInUser user now) ∨
        (Login env fails now db req ipAddress userAgent).1.users
          = saveUser db.users (failedLoginUser user)) := by
  by_cases hv : env.isEmail req.Email = true ∧ req.Password ≠ ""
  · cases hfind : findUserByEmail db req.Email with
    | none =>
      left
      have hpw2 : (req.Password == "") = false := by simp [hv.2]
      unfold Login
      simp only [hv.1, Bool.not_true, hpw2, Bool.or_self, Bool.false_eq_true, if_false, hfind]
      exact logLoginAttempt_users _ _ _ _ _ _ _ _
    | some user =>
      rw [Login_users hv.1 hv.2 hfind]
      cases ha : user.IsActive with
      | false => left; simp
      | true =>
        simp only [Bool.true_eq_false, if_false]
        by_cases hf : fails (.saveUser user.ID) = true
        · left; simp [hf]
        · right
          refine ⟨user, List.mem_of_find?_eq_some hfind, ha, ?_⟩
          simp only [hf, if_false]
          cases env.CompareHashAndPassword user.Password req.Password with
          | true => exact Or.inl (by simp)
          | false => exact Or.inr (by simp)
  · left
    unfold Login
    have : (!(env.isEmail req.Email) || req.Password == "") = true := by
      by_cases h1 : env.isEmail req.Email = true
      · have h2 : req.Password = "" := by
          by_contra hne
          exact hv ⟨h1, hne⟩
        simp [h1, h2]
      · simp [h1]
    simp only [this, if_true]

theorem findUserByEmail_Login_saved {env : AuthEnv} {fails : Faults} {now : Time} {db : Store}
    {req : LoginRequest} {ipAddress userAgent : String} {user user1 : User}
    (hfind : findUserByEmail db req.Email = some user)
    (husers : (Login env fails now db req ipAddress userAgent).1.users = saveUser db.users user1)
    (hid : user1.ID = user.ID) (hemail : user1.Email = user.Email) :
    findUserByEmail (Login env fails now db req ipAddress userAgent).1 req.Email = some user1 := by
  unfold findUserByEmail at hfind ⊢
  rw [husers]
  have hP := List.find?_some hfind
  apply find?_saveUser _ _ user user1 hfind hid
  rw [hemail]
  exact hP

/-- One login attempt on a stored user, by case. -/
theorem Login_step {env : AuthEnv} {fails : Faults} {now : Time} {db : Store}
    {req : LoginRequest} {ipAddress userAgent : String} {user : User}
    (hemail : env.isEmail req.Email = true) (hpw : req.Password ≠ "")
    (hfind : findUserByEmail db req.Email = some user) :
    (user.IsActive = false →
      (Login env fails now db req ipAddress userAgent).1.users = db.users ∧
      (Login env fails now db req ipAddress userAgent).2.Status = 401 ∧
      (Login env fails now db req ipAddress userAgent).2.Success = false) ∧
    (user.IsActive = true → fails (.saveUser user.ID) = false →
      env.CompareHashAndPassword user.Password req.Password = false →
      findUserByEmail (Login env fails now db req ipAddress userAgent).1 req.Email
        = some (failedLoginUser user) ∧
      (Login env fails now db req ipAddress userAgent).2.Status = 401) ∧
    (user.IsActive = true → fails (.saveUser user.ID) = false →
      env.CompareHashAndPassword user.Password req.Password = true →
      findUserByEmail (Login env fails now db req ipAddress userAgent).1 req.Email
        = some (loggedInUser user now)) := by
  have husers := @Login_users env fails now db req ipAddress userAgent user
    hemail hpw hfind
  have hpw2 : (req.Password == "") = false := by simp [hpw]
  refine ⟨?_, ?_, ?_⟩
  · intro ha
    refine ⟨by rw [husers]; simp [ha], ?_, ?_⟩
    · unfold Login
      simp only [hemail, Bool.not_true, hpw2, Bool.or_self, Bool.false_eq_true, if_false, hfind,
        ha, Bool.not_false, if_true]
    · unfold Login
      simp only [hemail, Bool.not_true, hpw2, Bool.or_self, Bool.false_eq_true, if_false, hfind,
        ha, Bool.not_false, if_true]
  · intro ha hf hc
    refine ⟨findUserByEmail_Login_saved hfind (by rw [husers]; simp [ha, hf, hc]) rfl rfl, ?_⟩
    unfold Login
    simp only [hemail, Bool.not_true, hpw2, Bool.or_self, Bool.false_eq_true, if_false, hfind,
      ha, hc, Bool.not_false, if_true]
    split <;> rfl
  · intro ha hf hc
    exact findUserByEmail_Login_saved hfind (by rw [husers]; simp [ha, hf, hc]) rfl rfl

/-- Wrong passwords in a row, starting from an active user without failures. -/
theorem repeatLogin_wrong {env : AuthEnv} {now : Time} {db : Store} {req : LoginRequest}
    {ipAddress userAgent : String} {user : User}
    (hemail : env.isEmail req.Email = true) (hpw : req.Password ≠ "")
    (hfind : findUserByEmail db req.Email = some user)
    (hactive : user.IsActive = true) (hzero : user.FailedLoginCount = 0)
    (hwrong : env.CompareHashAndPassword user.Password req.Password = false) (n : Nat) :
    ∃ u, findUserByEmail (repeatLogin env noFaults now req ipAddress userAgent n db) req.Email
        = some u ∧
      u.FailedLoginCount = (if n < 5 then (n : Int) else 5) ∧
      (u.IsActive = true ↔ n < 5) ∧ u.Password = user.Password := by
  induction n with
  | zero => exact ⟨user, hfind, by simp [hzero], by simp [hactive], rfl⟩
  | succ n ih =>
    obtain ⟨u, hu, hcount, hact, hpass⟩ := ih
    obtain ⟨s1, s2, _⟩ := @Login_step env noFaults now _ req ipAddress userAgent u
      hemail hpw hu
    simp only [repeatLogin]
    by_cases hn : n < 5
    · have hua : u.IsActive = true := hact.mpr hn
      have hcount1 : u.FailedLoginCount = (n : Int) := by simpa [hn] using hcount
      obtain ⟨hf, _⟩ := s2 hua rfl (by rw [hpass]; exact hwrong)
      refine ⟨failedLoginUser u, hf, ?_, ?_, hpass⟩
      · simp only [failedLoginUser, hcount1]
        split
        · push_cast; ring
        · omega
      · simp only [failedLoginUser, hcount1, hua, MaxFailedLogins]
        constructor
        · intro h
          by_contra hn1
          have : (n : Int) + 1 ≥ 5 := by omega
          simp [this] at h
        · intro h
          have : ¬ ((n : Int) + 1 ≥ 5) := by omega
          simp [this]
    · have hua : u.IsActive = false := by
        cases h : u.IsActive with
        | false => rfl
        | true => exact absurd (hact.mp h) hn
      have hcount1 : u.FailedLoginCount = 5 := by simpa [hn] using hcount
      obtain ⟨hsame, _⟩ := s1 hua
      refine ⟨u, ?_, ?_, ?_, hpass⟩
      · unfold findUserByEmail at hu ⊢
        rw [hsame]
        exact hu
      · have : ¬ (n + 1 < 5) := by omega
        simp [this, hcount1]
      · simp only [hua, Bool.false_eq_true, false_iff]
        omega

theorem LockoutInvariant_saveUser {db : Store} {user1 : User} (hI : LockoutInvariant db)
    (h1 : MaxFailedLogins ≤ user1.FailedLoginCount → user1.IsActive = false) :
    ∀ u ∈ saveUser db.users user1, MaxFailedLogins ≤ u.FailedLoginCount → u.IsActive = false := by
  intro u hu
  simp only [saveUser, List.mem_map] at hu
  obtain ⟨a, ha, hau⟩ := hu
  by_cases h : a.ID = user1.ID
  · rw [if_pos (by rw [beq_iff_eq]; exact h)] at hau
    subst hau
    exact h1
  · rw [if_neg (by rw [beq_iff_eq]; exact h)] at hau
    subst hau
    exact hI a ha

theorem LockoutInvariant_append {db : Store} {user1 : User} (hI : LockoutInvariant db)
    (h1 : MaxFailedLogins ≤ user1.FailedLoginCount → user1.IsActive = false) :
    ∀ u ∈ db.users ++ [user1], MaxFailedLogins ≤ u.FailedLoginCount → u.IsActive = false := by
  intro u hu
  rcases List.mem_append.mp hu with h | h
  · exact hI u h
  · simp only [List.mem_singleton] at h
    subst h
    exact h1

theorem failedLoginUser_locked (user : User) :
    MaxFailedLogins ≤ (failedLoginUser user).FailedLoginCount →
      (failedLoginUser user).IsActive = false := by
  intro h
  simp only [failedLoginUser] at h ⊢
  simp [h]

theorem Register_invariant (env : AuthEnv) (fails : Faults) (db : Store) (req : RegisterRequest)
    (hI : LockoutInvariant db) : LockoutInvariant (Register env fails db req).1 := by
  unfold Register
  split
  · exact hI
  · split
    · exact hI
    · split
      · exact hI
      · split
        · exact hI
        · split
          · exact hI
          · exact LockoutInvariant_append hI (by intro h; simp [newUser, MaxFailedLogins] at h)

theorem Login_invariant (env : AuthEnv) (fails : Faults) (now : Time) (db : Store)
    (req : LoginRequest) (ipAddress userAgent : String) (hI : LockoutInvariant db) :
    LockoutInvariant (Login env fails now db req ipAddress userAgent).1 := by
  unfold LockoutInvariant
  rcases Login_users_cases env fails now db req ipAddress userAgent with h | ⟨user, _, _, h | h⟩
  · rw [h]; exact hI
  · rw [h]
    exact LockoutInvariant_saveUser hI (by intro h; simp [loggedInUser, MaxFailedLogins] at h)
  · rw [h]
    exact LockoutInvariant_saveUser hI (failedLoginUser_locked user)

theorem RequestRecovery_users (env : AuthEnv) (fails : Faults) (now : Time) (db : Store)
    (email : String) (code : Option String) :
    (RequestRecovery env fails now db email code).1.users = db.users := by
  unfold RequestRecovery
  split
  · rfl
  · split
    · rfl
    · split
      · rfl
      · split <;> rfl

theorem VerifyRecovery_invariant (fails : Faults) (now : Time) (db : Store) (code : String)
    (hI : LockoutInvariant db) : LockoutInvariant (VerifyRecovery fails now db code).1 := by
  unfold VerifyRecovery
  split
  · exact hI
  · split
    · exact hI
    · simp only
      split
      · exact hI
      · split
        · split
          · exact hI
          · exact @LockoutInvariant_append (withRecoveryCodes db _) _ hI
              (by intro h; simp [reactivatedUser, MaxFailedLogins] at h)
        · split
          · exact hI
          · exact @LockoutInvariant_saveUser (withRecoveryCodes db _) _ hI
              (by intro h; simp [reactivatedUser, MaxFailedLogins] at h)

theorem AuthReachable_invariant {env : AuthEnv} {db : Store} (h : AuthReachable env db) :
    LockoutInvariant db := by
  induction h with
  | start db h =>
    intro u hu
    rw [h] at hu
    cases hu
  | register fails db req _ ih => exact Register_invariant env fails db req ih
  | login fails now db req ip ua _ ih => exact Login_invariant env fails now db req ip ua ih
  | requestRecovery fails now db email code _ ih =>
    unfold LockoutInvariant
    rw [RequestRecovery_users]
    exact ih
  | verifyRecovery fails now db code _ ih => exact VerifyRecovery_invariant fails now db code ih

/-- C21.  For a login request that passes the validation and names a stored
user:
* on an inactive user the attempt fails with 401 and no user row changes,
  whatever the password;
* a wrong password on an active user, its save going through, leaves the user
  with one failure more, active exactly when the new count is below
  `MaxFailedLogins` (5);
* the right password on an active user, its save going through, leaves the
  user with count 0.
Starting from an active user with count 0, after `n` wrong passwords in a row
the count is `n` and the user is active while `n < 5`; from the fifth on the
user is inactive and the count stays at 5.  In every store reachable from one
without users through `Register`, `Login`, `RequestRecovery` and
`VerifyRecovery`, whichever writes fail, a user with a count of 5 or more is
inactive. -/
theorem login_lockout (env : AuthEnv) :
    (∀ (fails : Faults) (now : Time) (db : Store) (req : LoginRequest)
        (ipAddress userAgent : String) (user : User),
      env.isEmail req.Email = true → req.Password ≠ "" →
      findUserByEmail db req.Email = some user →
      (user.IsActive = false →
        (Login env fails now db req ipAddress userAgent).1.users = db.users ∧
        (Login env fails now db req ipAddress userAgent).2.Status = 401 ∧
        (Login env fails now db req ipAddress userAgent).2.Success = false) ∧
      (user.IsActive = true → fails (.saveUser user.ID) = false →
        env.CompareHashAndPassword user.Password req.Password = false →
        ∃ u, findUserByEmail (Login env fails now db req ipAddress userAgent).1 req.Email
            = some u ∧
          u.FailedLoginCount = user.FailedLoginCount + 1 ∧
          (u.IsActive = true ↔ user.FailedLoginCount + 1 < MaxFailedLogins) ∧
          (Login env fails now db req ipAddress userAgent).2.Status = 401) ∧
      (user.IsActive = true → fails (.saveUser user.ID) = false →
        env.CompareHashAndPassword user.Password req.Password = true →
        ∃ u, findUserByEmail (Login env fails now db req ipAddress userAgent).1 req.Email
            = some u ∧
          u.FailedLoginCount = 0 ∧ u.IsActive = true)) ∧
    (∀ (now : Time) (db : Store) (req : LoginRequest) (ipAddress userAgent : String)
        (user : User) (n : Nat),
      env.isEmail req.Email = true → req.Password ≠ "" →
      findUserByEmail db req.Email = some user →
      user.IsActive = true → user.FailedLoginCount = 0 →
      env.CompareHashAndPassword user.Password req.Password = false →
      ∃ u, findUserByEmail (repeatLogin env noFaults now req ipAddress userAgent n db) req.Email
          = some u ∧
        u.FailedLoginCount = (if n < 5 then (n : Int) else 5) ∧
        (u.IsActive = true ↔ n < 5)) ∧
    (∀ db, AuthReachable env db →
      ∀ u ∈ db.users, MaxFailedLogins ≤ u.FailedLoginCount → u.IsActive = false) := by
  refine ⟨?_, ?_, ?_⟩
  · intro fails now db req ip ua user hemail hpw hfind
    obtain ⟨s1, s2, s3⟩ := @Login_step env fails now db req ip ua user
      hemail hpw hfind
    refine ⟨s1, ?_, ?_⟩
    · intro ha hf hc
      obtain ⟨h1, h2⟩ := s2 ha hf hc
      refine ⟨failedLoginUser user, h1, rfl, ?_, h2⟩
      simp only [failedLoginUser, ha]
      constructor
      · intro h
        by_contra hn
        have : user.FailedLoginCount + 1 ≥ MaxFailedLogins := not_lt.mp hn
        simp [this] at h
      · intro h
        have : ¬ (user.FailedLoginCount + 1 ≥ MaxFailedLogins) := not_le.mpr h
        simp [this]
    · intro ha hf hc
      exact ⟨loggedInUser user now, s3 ha hf hc, rfl, ha⟩
  · intro now db req ip ua user n hemail hpw hfind hactive hzero hwrong
    obtain ⟨u, h1, h2, h3, _⟩ := @repeatLogin_wrong env now db req ip ua user
      hemail hpw hfind hactive hzero hwrong n
    exact ⟨u, h1, h2, h3⟩
  · intro db h
    exact AuthReachable_invariant h

/-- C21 at work on `freshUserStore`: after four wrong passwords the user is
still active with count 4, after five the user is locked with count 5, and a
sixth attempt changes nothing. -/
theorem login_lockout_witness :
    (findUserByEmail
        (repeatLogin demoAuthEnv noFaults 1000 { Email := "an@x.vn", Password := "guess" }
          "ip" "ua" 4 freshUserStore) "an@x.vn").map (fun u => (u.FailedLoginCount, u.IsActive))
      = some (4, true) ∧
    (findUserByEmail
        (repeatLogin demoAuthEnv noFaults 1000 { Email := "an@x.vn", Password := "guess" }
          "ip" "ua" 5 freshUserStore) "an@x.vn").map (fun u => (u.FailedLoginCount, u.IsActive))
      = some (5, false) ∧
    (findUserByEmail
        (repeatLogin demoAuthEnv noFaults 1000 { Email := "an@x.vn", Password := "guess" }
          "ip" "ua" 6 freshUserStore) "an@x.vn").map (fun u => (u.FailedLoginCount, u.IsActive))
      = some (5, false) := by
  have key : ∀ n : Nat, ∃ u,
      findUserByEmail
        (repeatLogin demoAuthEnv noFaults 1000 { Email := "an@x.vn", Password := "guess" }
          "ip" "ua" n freshUserStore) "an@x.vn" = some u ∧
      u.FailedLoginCount = (if n < 5 then (n : Int) else 5) ∧ (u.IsActive = true ↔ n < 5) :=
    fun n => (login_lockout demoAuthEnv).2.1 1000 freshUserStore
      { Email := "an@x.vn", Password := "guess" } "ip" "ua"
      { ID := 1, Fullname := "An", Email := "an@x.vn", Password := "hash", Role := 1,
        IsActive := true } n
      (by with_unfolding_all rfl) (by decide) (by with_unfolding_all rfl) rfl rfl
      (by with_unfolding_all rfl)
  refine ⟨?_, ?_, ?_⟩
  · obtain ⟨u, h1, h2, h3⟩ := key 4
    rw [h1]
    have ha : u.IsActive = true := h3.mpr (by decide)
    simp [h2, ha]
  · obtain ⟨u, h1, h2, h3⟩ := key 5
    rw [h1]
    have ha : u.IsActive = false := by
      cases h : u.IsActive with
      | false => rfl
      | true => exact absurd (h3.mp h) (by decide)
    simp [h2, ha]
  · obtain ⟨u, h1, h2, h3⟩ := key 6
    rw [h1]
    have ha : u.IsActive = false := by
      cases h : u.IsActive with
      | false => rfl
      | true => exact absurd (h3.mp h) (by decide)
    simp [h2, ha]

/-! ## `VerifyRecovery` -/

theorem findRecoveryCode_some {db : Store} {now : Time} {code : String} {r : RecoveryCode}
    (h : findRecoveryCode db now code = some r) :
    r ∈ db.recoveryCodes ∧ r.Code = code ∧ r.IsUsed = false ∧ now < r.ExpiresAt := by
  unfold findRecoveryCode at h
  have h2 := List.find?_some h
  simp only [Bool.and_eq_true, beq_iff_eq, decide_eq_true_eq, gt_iff_lt] at h2
  exact ⟨List.mem_of_find?_eq_some h, h2.1.1, h2.1.2, h2.2⟩

theorem findRecoveryCode_isSome (db : Store) (now : Time) (code : String) :
    (findRecoveryCode db now code).isSome = true ↔
      ∃ r ∈ db.recoveryCodes, r.Code = code ∧ r.IsUsed = false ∧ now < r.ExpiresAt := by
  unfold findRecoveryCode
  rw [List.find?_isSome]
  simp only [Bool.and_eq_true, beq_iff_eq, decide_eq_true_eq, gt_iff_lt, and_assoc]

/-- The run of `VerifyRecovery` on a code it finds, whose owner is stored. -/
theorem VerifyRecovery_found {fails : Faults} {now : Time} {db : Store} {code : String}
    {r : RecoveryCode} {owner : User} (hcode : code ≠ "")
    (hfind : findRecoveryCode db now code = some r)
    (howner : findUser db r.UserID = some owner) (hid : owner.ID ≠ 0) :
    VerifyRecovery fails now db code =
      if fails (.saveRecoveryCode r.ID) then
        (db, { Status := 500, Success := false, Message := "Failed to update recovery code" })
      else if fails (.saveUser owner.ID) then
        (withRecoveryCodes db (saveRecoveryCode db.recoveryCodes (usedRecoveryCode r)),
         { Status := 500, Success := false, Message := "Failed to reactivate account" })
      else
        (withUsers
          (withRecoveryCodes db (saveRecoveryCode db.recoveryCodes (usedRecoveryCode r)))
          (saveUser db.users (reactivatedUser owner)), recoveryDone owner.Email) := by
  have hpre : preloadUser db r.UserID = owner := by
    unfold findUser at howner
    unfold preloadUser
    rw [howner]
    rfl
  have hid2 : ¬ (reactivatedUser owner).ID = 0 := hid
  unfold VerifyRecovery
  simp only [hcode, if_false, hfind, hpre, hid2]
  rfl

theorem find?_map_of_fixed {α : Type} (P : α → Bool) (f : α → α) (l : List α)
    (h : ∀ a ∈ l, P (f a) = P a) (hfix : ∀ a ∈ l, P a = true → f a = a) :
    (l.map f).find? P = l.find? P := by
  induction l with
  | nil => rfl
  | cons a l ih =>
    have ha := h a (List.mem_cons_self _ _)
    simp only [List.map_cons, List.find?_cons, ha]
    cases hP : P a with
    | true =>
      simp only
      rw [hfix a (List.mem_cons_self _ _) hP]
    | false =>
      simp only
      exact ih (fun b hb => h b (List.mem_cons_of_mem _ hb))
        (fun b hb => hfix b (List.mem_cons_of_mem _ hb))

/-- With every write going through, `VerifyRecovery` succeeds exactly when it finds the code. -/
theorem VerifyRecovery_success_iff (now : Time) (db : Store) (code : String)
    (hcode : code ≠ "") :
    (VerifyRecovery noFaults now db code).2.Success = true ↔
      (findRecoveryCode db now code).isSome = true := by
  unfold VerifyRecovery
  simp only [hcode, if_false, noFaults, Bool.false_eq_true]
  cases h : findRecoveryCode db now code with
  | none => simp
  | some r =>
    simp only [Option.isSome_some, iff_true]
    split <;> rfl

/-- A success of `VerifyRecovery`, whichever writes fail, has found the code and saved it as used. -/
theorem VerifyRecovery_success {fails : Faults} {now : Time} {db : Store} {code : String}
    (h : (VerifyRecovery fails now db code).2.Success = true) :
    ∃ r, findRecoveryCode db now code = some r ∧
      (VerifyRecovery fails now db code).1.recoveryCodes
        = saveRecoveryCode db.recoveryCodes (usedRecoveryCode r) := by
  by_cases hcode : code = ""
  · simp [VerifyRecovery, hcode] at h
  · cases hr : findRecoveryCode db now code with
    | none => simp [VerifyRecovery, hcode, hr] at h
    | some r =>
      cases hf : fails (.saveRecoveryCode r.ID) with
      | true => simp [VerifyRecovery, hcode, hr, hf] at h
      | false =>
        refine ⟨r, rfl, ?_⟩
        simp only [VerifyRecovery, hcode, hr, hf, if_false, Bool.false_eq_true]
        split
        · split <;> rfl
        · split <;> rfl

/-- Once a code is saved as used, no lookup finds it, its value being unique. -/
theorem findRecoveryCode_used {db db2 : Store} {now now2 : Time} {code : String}
    {r : RecoveryCode} (hcodes : (db.recoveryCodes.map (fun c => c.Code)).Nodup)
    (hfind : findRecoveryCode db now code = some r)
    (h2 : db2.recoveryCodes = saveRecoveryCode db.recoveryCodes (usedRecoveryCode r)) :
    findRecoveryCode db2 now2 code = none := by
  obtain ⟨hmem, hrc, _, _⟩ := findRecoveryCode_some hfind
  unfold findRecoveryCode
  rw [h2, List.find?_eq_none]
  intro x hx
  simp only [saveRecoveryCode, List.mem_map] at hx
  obtain ⟨a, ha, hax⟩ := hx
  by_cases hid : a.ID = (usedRecoveryCode r).ID
  · rw [if_pos (by rw [beq_iff_eq]; exact hid)] at hax
    subst hax
    simp [usedRecoveryCode]
  · rw [if_neg (by rw [beq_iff_eq]; exact hid)] at hax
    subst hax
    simp only [Bool.and_eq_true, beq_iff_eq, decide_eq_true_eq, not_and]
    intro hc _
    exfalso
    have : a = r := List.inj_on_of_nodup_map hcodes ha hmem (hc.1.trans hrc.symm)
    subst this
    exact hid rfl

/-- Saving one code as used does not touch the lookup of another value. -/
theorem findRecoveryCode_other {db db2 : Store} {now now2 : Time} {code code2 : String}
    {r : RecoveryCode} (hids : (db.recoveryCodes.map (fun c => c.ID)).Nodup)
    (hfind : findRecoveryCode db now code = some r) (hne : code2 ≠ code)
    (h2 : db2.recoveryCodes = saveRecoveryCode db.recoveryCodes (usedRecoveryCode r)) :
    findRecoveryCode db2 now2 code2 = findRecoveryCode db now2 code2 := by
  obtain ⟨hmem, hrc, _, _⟩ := findRecoveryCode_some hfind
  unfold findRecoveryCode
  rw [h2]
  have hfix : ∀ a ∈ db.recoveryCodes, a.Code = code2 →
      (if (a.ID == (usedRecoveryCode r).ID) = true then usedRecoveryCode r else a) = a := by
    intro a ha hc
    by_cases hid : a.ID = (usedRecoveryCode r).ID
    · have : a = r := List.inj_on_of_nodup_map hids ha hmem hid
      subst this
      exact absurd (hc.symm.trans hrc) hne
    · rw [if_neg (by rw [beq_iff_eq]; exact hid)]
  apply find?_map_of_fixed
  · intro a ha
    by_cases hc : a.Code = code2
    · rw [hfix a ha hc]
    · by_cases hid : a.ID = (usedRecoveryCode r).ID
      · rw [if_pos (by rw [beq_iff_eq]; exact hid)]
        have hc2 : ¬ (usedRecoveryCode r).Code = code2 := by
          show ¬ r.Code = code2
          rw [hrc]
          exact fun e => hne e.symm
        have e1 : ((usedRecoveryCode r).Code == code2) = false := by
          rw [beq_eq_false_iff_ne]; exact hc2
        have e2 : (a.Code == code2) = false := by
          rw [beq_eq_false_iff_ne]; exact hc
        rw [e1, e2]
        rfl
      · rw [if_neg (by rw [beq_iff_eq]; exact hid)]
  · intro a ha hP
    simp only [Bool.and_eq_true, beq_iff_eq] at hP
    exact hfix a ha hP.1.1

/-- The code `VerifyRecovery` finds is the one stored row with that value, the values being
unique. -/
theorem findRecoveryCode_eq {db : Store} {now : Time} {r : RecoveryCode}
    (hcodes : (db.recoveryCodes.map (fun c => c.Code)).Nodup)
    (hmem : r ∈ db.recoveryCodes) (hunused : r.IsUsed = false) (hlive : now < r.ExpiresAt) :
    findRecoveryCode db now r.Code = some r := by
  have hsome := (findRecoveryCode_isSome db now r.Code).2 ⟨r, hmem, rfl, hunused, hlive⟩
  cases h : findRecoveryCode db now r.Code with
  | none => rw [h] at hsome; cases hsome
  | some r1 =>
    obtain ⟨hmem1, hc1, _, _⟩ := findRecoveryCode_some h
    rw [List.inj_on_of_nodup_map hcodes hmem1 hmem hc1]

/-- The answer to a code that is not accepted. -/
theorem VerifyRecovery_none {fails : Faults} {now : Time} {db : Store} {code : String}
    (hfind : findRecoveryCode db now code = none) :
    (VerifyRecovery fails now db code).1 = db ∧
    (VerifyRecovery fails now db code).2.Status = 400 ∧
    (VerifyRecovery fails now db code).2.Success = false := by
  unfold VerifyRecovery
  rw [hfind]
  split <;> exact ⟨rfl, rfl, rfl⟩

/-- C22. `VerifyRecovery`, every write going through, succeeds for a code exactly when a
recovery code row with that value is stored with `is_used = false` and `now < expires_at`.
When it succeeds, whichever writes were allowed to fail, the row is stored with
`is_used = true` and its owner with `is_active = true` and `failed_login_count = 0`; any
later `VerifyRecovery` with the same code, at any time, answers 400 and changes nothing;
and every other code is looked up as before, so the user's other outstanding codes stay
valid.  Code ids and code values are unique (primary key, unique index), no stored code is
the empty string, and the owner is a stored user. -/
theorem verifyRecovery_once (now : Time) (db : Store) (code : String)
    (hids : (db.recoveryCodes.map (fun c => c.ID)).Nodup)
    (hcodes : (db.recoveryCodes.map (fun c => c.Code)).Nodup)
    (hstored : ∀ r ∈ db.recoveryCodes, r.Code ≠ "") :
    ((VerifyRecovery noFaults now db code).2.Success = true ↔
      ∃ r ∈ db.recoveryCodes, r.Code = code ∧ r.IsUsed = false ∧ now < r.ExpiresAt) ∧
    (∀ (fails : Faults) (r : RecoveryCode) (owner : User),
      (VerifyRecovery fails now db code).2.Success = true →
      r ∈ db.recoveryCodes → r.Code = code → r.IsUsed = false → now < r.ExpiresAt →
      findUser db r.UserID = some owner → owner.ID ≠ 0 →
        (VerifyRecovery fails now db code).1.recoveryCodes
          = db.recoveryCodes.map (fun c => if c.ID == r.ID then usedRecoveryCode r else c) ∧
        usedRecoveryCode r ∈ (VerifyRecovery fails now db code).1.recoveryCodes ∧
        (usedRecoveryCode r).IsUsed = true ∧
        (VerifyRecovery fails now db code).1.users
          = db.users.map (fun u => if u.ID == owner.ID then reactivatedUser owner else u) ∧
        findUser (VerifyRecovery fails now db code).1 r.UserID = some (reactivatedUser owner) ∧
        (reactivatedUser owner).IsActive = true ∧
        (reactivatedUser owner).FailedLoginCount = 0 ∧
        (VerifyRecovery fails now db code).2 = recoveryDone owner.Email) ∧
    (∀ (fails : Faults), (VerifyRecovery fails now db code).2.Success = true →
      ∀ (fails2 : Faults) (now2 : Time),
        (VerifyRecovery fails2 now2 (VerifyRecovery fails now db code).1 code).1
          = (VerifyRecovery fails now db code).1 ∧
        (VerifyRecovery fails2 now2 (VerifyRecovery fails now db code).1 code).2.Status = 400 ∧
        (VerifyRecovery fails2 now2 (VerifyRecovery fails now db code).1 code).2.Success
          = false) ∧
    (∀ (fails : Faults), (VerifyRecovery fails now db code).2.Success = true →
      ∀ (code2 : String) (now2 : Time), code2 ≠ code →
        findRecoveryCode (VerifyRecovery fails now db code).1 now2 code2
          = findRecoveryCode db now2 code2) := by
  refine ⟨?_, ?_, ?_, ?_⟩
  · by_cases hcode : code = ""
    · subst hcode
      constructor
      · intro h
        simp [VerifyRecovery] at h
      · rintro ⟨r, hr, hc, _⟩
        exact absurd hc (hstored r hr)
    · rw [VerifyRecovery_success_iff now db code hcode, findRecoveryCode_isSome]
  · intro fails r owner hok hmem hc hunused hlive howner hid
    subst hc
    have hcode : r.Code ≠ "" := hstored r hmem
    have hfind := findRecoveryCode_eq hcodes hmem hunused hlive
    have hrun := @VerifyRecovery_found fails now db r.Code r owner hcode hfind howner hid
    cases h1 : fails (.saveRecoveryCode r.ID) with
    | true => rw [hrun, h1] at hok; cases hok
    | false =>
      cases h2 : fails (.saveUser owner.ID) with
      | true => rw [hrun, h1, h2] at hok; cases hok
      | false =>
        have hrun2 : VerifyRecovery fails now db r.Code =
            (withUsers
              (withRecoveryCodes db (saveRecoveryCode db.recoveryCodes (usedRecoveryCode r)))
              (saveUser db.users (reactivatedUser owner)), recoveryDone owner.Email) := by
          rw [hrun, h1, h2]
          rfl
        rw [hrun2]
        have hoid : owner.ID = r.UserID := by
          have := List.find?_some howner
          simpa using this
        refine ⟨rfl, ?_, rfl, rfl, ?_, rfl, rfl, rfl⟩
        · show usedRecoveryCode r ∈ saveRecoveryCode db.recoveryCodes (usedRecoveryCode r)
          unfold saveRecoveryCode
          rw [List.mem_map]
          exact ⟨r, hmem, by simp [usedRecoveryCode]⟩
        · show (saveUser db.users (reactivatedUser owner)).find? (fun u => u.ID == r.UserID)
            = some (reactivatedUser owner)
          exact find?_saveUser _ _ _ _ howner rfl (by simpa [reactivatedUser] using hoid)
  · intro fails hok fails2 now2
    obtain ⟨r, hfind, hsave⟩ := VerifyRecovery_success hok
    exact VerifyRecovery_none (findRecoveryCode_used hcodes hfind hsave)
  · intro fails hok code2 now2 hne
    obtain ⟨r, hfind, hsave⟩ := VerifyRecovery_success hok
    exact findRecoveryCode_other hids hfind hne hsave

theorem verifyRecovery_once_witness :
    ((recoveryStore.recoveryCodes.map (fun c => c.ID)).Nodup ∧
     (recoveryStore.recoveryCodes.map (fun c => c.Code)).Nodup ∧
     (∀ r ∈ recoveryStore.recoveryCodes, r.Code ≠ "")) ∧
    (VerifyRecovery noFaults 1000 recoveryStore "4f1c").2.Success = true ∧
    (VerifyRecovery noFaults 1000 recoveryStore "4f1c").1.recoveryCodes.map
        (fun c => (c.Code, c.IsUsed)) = [("4f1c", true), ("9b2e", false)] ∧
    (VerifyRecovery noFaults 1000 recoveryStore "4f1c").1.users.map
        (fun u => (u.ID, u.IsActive, u.FailedLoginCount)) = [(1, true, 0)] ∧
    (VerifyRecovery noFaults 1001 (VerifyRecovery noFaults 1000 recoveryStore "4f1c").1
        "4f1c").2.Status = 400 ∧
    (VerifyRecovery noFaults 1001 (VerifyRecovery noFaults 1000 recoveryStore "4f1c").1
        "9b2e").2.Success = true ∧
    (VerifyRecovery noFaults 1800 recoveryStore "4f1c").2.Success = false ∧
    ((VerifyRecovery noFaults 1000 recoveryStore "4f1c").2.Success = true ↔
      ∃ r ∈ recoveryStore.recoveryCodes, r.Code = "4f1c" ∧ r.IsUsed = false ∧
        (1000 : Time) < r.ExpiresAt) :=
  have hids : (recoveryStore.recoveryCodes.map (fun c => c.ID)).Nodup := by
    with_unfolding_all decide
  have hcodes : (recoveryStore.recoveryCodes.map (fun c => c.Code)).Nodup := by
    with_unfolding_all decide
  have hstored : ∀ r ∈ recoveryStore.recoveryCodes, r.Code ≠ "" := by
    intro r hr
    have h2 : r ∈ [({ ID := 1, UserID := 1, Code := "4f1c", ExpiresAt := 1800 } : RecoveryCode),
        { ID := 2, UserID := 1, Code := "9b2e", ExpiresAt := 1800 }] := hr
    simp only [List.mem_cons, List.mem_singleton, List.not_mem_nil, or_false] at h2
    rcases h2 with rfl | rfl <;> decide
  ⟨⟨hids, hcodes, hstored⟩, by with_unfolding_all rfl, by with_unfolding_all rfl,
   by with_unfolding_all rfl, by with_unfolding_all rfl, by with_unfolding_all rfl,
   by with_unfolding_all rfl,
   (verifyRecovery_once 1000 recoveryStore "4f1c" hids hcodes hstored).1⟩

/-- C23, counterexample.  When the save of the user fails after the save of the code went
through, `VerifyRecovery` answers 500 with the code consumed and its user still locked. -/
theorem verifyRecovery_atomic_counterexample :
    (VerifyRecovery userSaveFails 1000 recoveryStore "4f1c").2
      = { Status := 500, Success := false, Message := "Failed to reactivate account" } ∧
    recoveryStore.recoveryCodes.map (fun c => (c.Code, c.IsUsed))
      = [("4f1c", false), ("9b2e", false)] ∧
    (VerifyRecovery userSaveFails 1000 recoveryStore "4f1c").1.recoveryCodes.map
        (fun c => (c.Code, c.IsUsed)) = [("4f1c", true), ("9b2e", false)] ∧
    (VerifyRecovery userSaveFails 1000 recoveryStore "4f1c").1.users = recoveryStore.users ∧
    (VerifyRecovery userSaveFails 1000 recoveryStore "4f1c").1.users.map
        (fun u => (u.ID, u.IsActive, u.FailedLoginCount)) = [(1, false, 5)] := by
  refine ⟨?_, ?_, ?_, ?_, ?_⟩ <;> with_unfolding_all rfl

/-- C23, amended.  `VerifyRecovery` writes the code row and the user row one after the
other, each on its own.  A code that is not accepted, or a failing save of the code row,
leaves the store as it was.  For an accepted code whose owner is stored: when the save of
the code goes through and the save of the user fails, the answer is 500, the code row is
stored as used and no user row is changed; when both saves go through, the code row is
stored as used and the owner as active with `failed_login_count = 0`. -/
theorem verifyRecovery_two_writes (fails : Faults) (now : Time) (db : Store) (code : String) :
    (findRecoveryCode db now code = none →
      (VerifyRecovery fails now db code).1 = db ∧
      (VerifyRecovery fails now db code).2.Success = false) ∧
    (∀ r : RecoveryCode, findRecoveryCode db now code = some r →
      fails (.saveRecoveryCode r.ID) = true →
      (VerifyRecovery fails now db code).1 = db ∧
      (VerifyRecovery fails now db code).2.Success = false) ∧
    (∀ (r : RecoveryCode) (owner : User), code ≠ "" →
      findRecoveryCode db now code = some r →
      findUser db r.UserID = some owner → owner.ID ≠ 0 →
      fails (.saveRecoveryCode r.ID) = false →
      (fails (.saveUser owner.ID) = true →
        (VerifyRecovery fails now db code).2
          = { Status := 500, Success := false, Message := "Failed to reactivate account" } ∧
        (VerifyRecovery fails now db code).1.recoveryCodes
          = saveRecoveryCode db.recoveryCodes (usedRecoveryCode r) ∧
        (VerifyRecovery fails now db code).1.users = db.users) ∧
      (fails (.saveUser owner.ID) = false →
        (VerifyRecovery fails now db code).2 = recoveryDone owner.Email ∧
        (VerifyRecovery fails now db code).1.recoveryCodes
          = saveRecoveryCode db.recoveryCodes (usedRecoveryCode r) ∧
        (VerifyRecovery fails now db code).1.users
          = saveUser db.users (reactivatedUser owner) ∧
        (reactivatedUser owner).IsActive = true ∧
        (reactivatedUser owner).FailedLoginCount = 0)) := by
  refine ⟨?_, ?_, ?_⟩
  · intro hfind
    exact ⟨(VerifyRecovery_none hfind).1, (VerifyRecovery_none hfind).2.2⟩
  · intro r hfind hfail
    by_cases hcode : code = ""
    · simp [VerifyRecovery, hcode]
    · simp [VerifyRecovery, hcode, hfind, hfail]
  · intro r owner hcode hfind howner hid h1
    rw [VerifyRecovery_found hcode hfind howner hid, h1]
    constructor
    · intro h2
      rw [h2]
      exact ⟨rfl, rfl, rfl⟩
    · intro h2
      rw [h2]
      exact ⟨rfl, rfl, rfl, rfl, rfl⟩

theorem verifyRecovery_two_writes_witness :
    findRecoveryCode recoveryStore 1000 "4f1c"
      = some { ID := 1, UserID := 1, Code := "4f1c", ExpiresAt := 1800 } ∧
    (VerifyRecovery userSaveFails 1000 recoveryStore "4f1c").2
      = { Status := 500, Success := false, Message := "Failed to reactivate account" } ∧
    (VerifyRecovery userSaveFails 1000 recoveryStore "4f1c").1.recoveryCodes
      = saveRecoveryCode recoveryStore.recoveryCodes
          (usedRecoveryCode { ID := 1, UserID := 1, Code := "4f1c", ExpiresAt := 1800 }) ∧
    (VerifyRecovery userSaveFails 1000 recoveryStore "4f1c").1.users = recoveryStore.users :=
  ⟨by with_unfolding_all rfl,
   ((verifyRecovery_two_writes userSaveFails 1000 recoveryStore "4f1c").2.2
      { ID := 1, UserID := 1, Code := "4f1c", ExpiresAt := 1800 }
      { ID := 1, Fullname := "An", Email := "an@x.vn", Password := "hash", Role := 1,
        IsActive := false, FailedLoginCount := 5 }
      (by decide) (by with_unfolding_all rfl) (by with_unfolding_all rfl) (by decide)
      (by with_unfolding_all rfl)).1 (by with_unfolding_all rfl)⟩

/-! ## Rating statistics of the reviews -/

theorem updateProductRatingStats_some {fails : Faults} {tx tx1 : Store} {productID : Nat}
    (h : updateProductRatingStats fails tx productID = some tx1) :
    tx1.reviews = tx.reviews ∧ tx1.reviewSeq = tx.reviewSeq ∧
    tx1.products = tx.products.map (fun p =>
      if p.ID == productID then
        ratedProduct p ((activeRatings tx productID).length : Int)
          (toScale2 fails (meanRating (activeRatings tx productID)))
      else p) := by
  have hrows : (fun r : Review => r.ProductID == productID && r.IsActive == true)
      = (fun r => r.ProductID == productID && r.IsActive) := by
    funext r
    cases r.IsActive <;> simp
  unfold updateProductRatingStats at h
  simp only [hrows] at h
  split at h
  · cases h
  · have h2 := Option.some.inj h
    subst h2
    refine ⟨rfl, rfl, ?_⟩
    show List.map _ tx.products = _
    unfold activeRatings
    generalize tx.reviews.filter (fun r => r.ProductID == productID && r.IsActive) = rows
    congr 1
    funext p
    split
    · congr 1
      · simp
      · cases rows with
        | nil => rfl
        | cons r rows => simp [meanRating]
    · rfl

theorem activeRatings_eq (db : Store) (productID : Nat) :
    activeRatings db productID = db.reviews.filterMap (ratingOf productID) := by
  unfold activeRatings
  induction db.reviews with
  | nil => rfl
  | cons r l ih =>
    simp only [List.filter_cons, List.filterMap_cons, ratingOf]
    cases h : (r.ProductID == productID && r.IsActive) with
    | true => simp only [if_true, List.map_cons, ih]
    | false => simp only [Bool.false_eq_true, if_false, ih]

theorem activeRatings_congr {db db1 : Store} (h : db1.reviews = db.reviews) (productID : Nat) :
    activeRatings db1 productID = activeRatings db productID := by
  unfold activeRatings
  rw [h]

theorem RatingStatsAtScale_congr {db db1 : Store} (hr : db1.reviews = db.reviews)
    (hp : db1.products = db.products) (productID : Nat) :
    RatingStatsAtScale db1 productID ↔ RatingStatsAtScale db productID := by
  unfold RatingStatsAtScale
  rw [hp, activeRatings_congr hr]

/-- After `updateProductRatingStats` the statistics of the product are right, at the
scale of the column. -/
theorem updateProductRatingStats_right {fails : Faults} {tx tx1 : Store} {productID : Nat}
    (h : updateProductRatingStats fails tx productID = some tx1) :
    RatingStatsAtScale tx1 productID := by
  obtain ⟨hr, _, hp⟩ := updateProductRatingStats_some h
  intro p hmem hid
  rw [hp, List.mem_map] at hmem
  obtain ⟨q, _, hq⟩ := hmem
  rw [activeRatings_congr hr]
  by_cases hqid : q.ID = productID
  · rw [if_pos (by rw [beq_iff_eq]; exact hqid)] at hq
    subst hq
    exact ⟨rfl, toScale2_isCents fails _, toScale2_near fails _⟩
  · rw [if_neg (by rw [beq_iff_eq]; exact hqid)] at hq
    subst hq
    exact absurd hid hqid

/-- The products `updateProductRatingStats` does not name keep their statistics. -/
theorem updateProductRatingStats_others {fails : Faults} {tx tx1 : Store} {productID : Nat}
    (h : updateProductRatingStats fails tx productID = some tx1) {other : Nat}
    (hne : other ≠ productID) (hright : RatingStatsAtScale tx other) :
    RatingStatsAtScale tx1 other := by
  obtain ⟨hr, _, hp⟩ := updateProductRatingStats_some h
  intro p hmem hid
  rw [hp, List.mem_map] at hmem
  obtain ⟨q, hqmem, hq⟩ := hmem
  rw [activeRatings_congr hr]
  by_cases hqid : q.ID = productID
  · rw [if_pos (by rw [beq_iff_eq]; exact hqid)] at hq
    subst hq
    exact absurd (hid.symm.trans hqid) (fun e => hne e)
  · rw [if_neg (by rw [beq_iff_eq]; exact hqid)] at hq
    subst hq
    exact hright _ hqmem hid

theorem activeRatings_insertReview (db : Store) (review : Review) {other : Nat}
    (hne : review.ProductID ≠ other) :
    activeRatings (insertReview db review) other = activeRatings db other := by
  rw [activeRatings_eq, activeRatings_eq]
  show (db.reviews ++ [_]).filterMap (ratingOf other) = _
  rw [List.filterMap_append]
  have : ratingOf other { review with ID := db.reviewSeq + 1 } = none := by
    unfold ratingOf
    have : (review.ProductID == other) = false := by rw [beq_eq_false_iff_ne]; exact hne
    simp [this]
  simp [this]

/-- A saved review that keeps product, rating and activity keeps every list of ratings. -/
theorem activeRatings_saveReview {db : Store} (review review1 : Review)
    (hkeyed : (db.reviews.map (fun r => r.ID)).Nodup) (hmem : review ∈ db.reviews)
    (hid : review1.ID = review.ID) (productID : Nat)
    (hsame : ratingOf productID review1 = ratingOf productID review) :
    activeRatings (withReviews db (saveReview db.reviews review1)) productID
      = activeRatings db productID := by
  rw [activeRatings_eq, activeRatings_eq]
  show (saveReview db.reviews review1).filterMap (ratingOf productID) = _
  unfold saveReview
  rw [List.filterMap_map]
  apply List.filterMap_congr
  intro r hr
  by_cases h : r.ID = review1.ID
  · have : r = review := List.inj_on_of_nodup_map hkeyed hr hmem (h.trans hid)
    subst this
    simp only [Function.comp, beq_iff_eq, h, if_true]
    exact hsame
  · simp only [Function.comp, beq_iff_eq, h, if_false]

/-- Deleting a review keeps the ratings of the other products. -/
theorem activeRatings_deleteReview {db : Store} {review : Review}
    (hkeyed : (db.reviews.map (fun r => r.ID)).Nodup) (hmem : review ∈ db.reviews)
    {other : Nat} (hne : review.ProductID ≠ other) :
    activeRatings (withReviews db (db.reviews.filter (fun r => r.ID != review.ID))) other
      = activeRatings db other := by
  rw [activeRatings_eq, activeRatings_eq]
  show (db.reviews.filter (fun r => r.ID != review.ID)).filterMap (ratingOf other) = _
  rw [List.filterMap_filter]
  apply List.filterMap_congr
  intro r hr
  by_cases h : r.ID = review.ID
  · have : r = review := List.inj_on_of_nodup_map hkeyed hr hmem h
    subst this
    have hk : ratingOf other r = none := by
      unfold ratingOf
      have : (r.ProductID == other) = false := by rw [beq_eq_false_iff_ne]; exact hne
      simp [this]
    simp [hk]
  · simp [h]

/-- A run of `CreateReview` leaves the store alone and fails, or inserts the review and
recomputes the statistics of its product. -/
theorem CreateReview_shape (SanitizeString : String → String) (fails : Faults) (db : Store)
    (c : Context) (req : ReviewRequest) :
    ((CreateReview SanitizeString fails db c req).1 = db ∧
      (CreateReview SanitizeString fails db c req).2.Success = false) ∨
    ∃ userID, updateProductRatingStats fails
        (insertReview db (newReview SanitizeString req userID)) req.ProductID
          = some (CreateReview SanitizeString fails db c req).1 := by
  unfold CreateReview
  split
  · exact Or.inl ⟨rfl, rfl⟩
  · split
    · exact Or.inl ⟨rfl, rfl⟩
    · rename_i userID _
      split
      · exact Or.inl ⟨rfl, rfl⟩
      · split
        · exact Or.inl ⟨rfl, rfl⟩
        · split
          · exact Or.inl ⟨rfl, rfl⟩
          · split
            · exact Or.inl ⟨rfl, rfl⟩
            · rename_i tx htx
              exact Or.inr ⟨userID, htx⟩

/-- A run of `UpdateReview` leaves the store alone and fails, or saves the edited review
and recomputes the statistics of its product when the rating changed. -/
theorem UpdateReview_shape (SanitizeString : String → String) (fails : Faults) (db : Store)
    (c : Context) (id : Option Nat) (req : ReviewRequest) :
    ((UpdateReview SanitizeString fails db c id req).1 = db ∧
      (UpdateReview SanitizeString fails db c id req).2.Success = false) ∨
    ∃ id1 review, id = some id1 ∧ db.reviews.find? (fun r => r.ID == id1) = some review ∧
      ((review.Rating ≠ req.Rating ∧
        updateProductRatingStats fails
          (withReviews db (saveReview db.reviews (editedReview SanitizeString review req)))
          review.ProductID = some (UpdateReview SanitizeString fails db c id req).1) ∨
       (review.Rating = req.Rating ∧
        (UpdateReview SanitizeString fails db c id req).1
          = withReviews db (saveReview db.reviews (editedReview SanitizeString review req)))) := by
  unfold UpdateReview
  split
  · exact Or.inl ⟨rfl, rfl⟩
  · rename_i id1
    split
    · exact Or.inl ⟨rfl, rfl⟩
    · split
      · exact Or.inl ⟨rfl, rfl⟩
      · simp only
        split
        · exact Or.inl ⟨rfl, rfl⟩
        · rename_i review hfind
          split
          · exact Or.inl ⟨rfl, rfl⟩
          · split
            · exact Or.inl ⟨rfl, rfl⟩
            · split
              · rename_i hne
                split
                · exact Or.inl ⟨rfl, rfl⟩
                · rename_i tx htx
                  exact Or.inr ⟨id1, review, rfl, hfind, Or.inl ⟨hne, htx⟩⟩
              · rename_i heq
                exact Or.inr ⟨id1, review, rfl, hfind, Or.inr ⟨not_not.1 heq, rfl⟩⟩

/-- A run of `DeleteReview` leaves the store alone and fails, or deletes the review and
recomputes the statistics of its product. -/
theorem DeleteReview_shape (fails : Faults) (db : Store) (c : Context) (id : Option Nat) :
    ((DeleteReview fails db c id).1 = db ∧ (DeleteReview fails db c id).2.Success = false) ∨
    ∃ id1 review, id = some id1 ∧ db.reviews.find? (fun r => r.ID == id1) = some review ∧
      updateProductRatingStats fails
        (withReviews db (db.reviews.filter (fun r => r.ID != review.ID)))
        review.ProductID = some (DeleteReview fails db c id).1 := by
  unfold DeleteReview
  split
  · exact Or.inl ⟨rfl, rfl⟩
  · rename_i id1
    split
    · exact Or.inl ⟨rfl, rfl⟩
    · simp only
      split
      · exact Or.inl ⟨rfl, rfl⟩
      · rename_i review hfind
        split
        · exact Or.inl ⟨rfl, rfl⟩
        · split
          · exact Or.inl ⟨rfl, rfl⟩
          · split
            · exact Or.inl ⟨rfl, rfl⟩
            · rename_i tx htx
              exact Or.inr ⟨id1, review, rfl, hfind, htx⟩

theorem ReviewsKeyed_stats {fails : Faults} {tx tx1 : Store} {productID : Nat}
    (h : updateProductRatingStats fails tx productID = some tx1) (hk : ReviewsKeyed tx) :
    ReviewsKeyed tx1 := by
  obtain ⟨hr, hs, _⟩ := updateProductRatingStats_some h
  unfold ReviewsKeyed
  rw [hr, hs]
  exact hk

theorem ReviewsKeyed_insertReview {db : Store} (review : Review) (hk : ReviewsKeyed db) :
    ReviewsKeyed (insertReview db review) := by
  constructor
  · show ((db.reviews ++ [{ review with ID := db.reviewSeq + 1 }]).map
      (fun r : Review => r.ID)).Nodup
    rw [List.map_append, List.nodup_append]
    refine ⟨hk.1, List.nodup_singleton _, ?_⟩
    intro a ha hb
    rw [List.mem_map] at ha
    obtain ⟨r, hr, rfl⟩ := ha
    simp only [List.map_cons, List.map_nil, List.mem_singleton] at hb
    have := hk.2 r hr
    omega
  · intro r hr
    have hr2 : r ∈ db.reviews ++ [{ review with ID := db.reviewSeq + 1 }] := hr
    show r.ID ≤ db.reviewSeq + 1
    rw [List.mem_append, List.mem_singleton] at hr2
    rcases hr2 with h | h
    · have := hk.2 r h
      omega
    · rw [h]

theorem saveReview_ids (reviews : List Review) (review : Review) :
    (saveReview reviews review).map (fun r => r.ID) = reviews.map (fun r => r.ID) := by
  unfold saveReview
  rw [List.map_map]
  apply List.map_congr_left
  intro r _
  by_cases h : r.ID = review.ID
  · simp [Function.comp, h]
  · simp [Function.comp, h]

theorem ReviewsKeyed_saveReview {db : Store} (review : Review) (hk : ReviewsKeyed db) :
    ReviewsKeyed (withReviews db (saveReview db.reviews review)) := by
  constructor
  · show ((saveReview db.reviews review).map (fun r => r.ID)).Nodup
    rw [saveReview_ids]
    exact hk.1
  · intro r hr
    have hmem : r.ID ∈ (saveReview db.reviews review).map (fun r => r.ID) :=
      List.mem_map_of_mem _ hr
    rw [saveReview_ids, List.mem_map] at hmem
    obtain ⟨q, hq, hqid⟩ := hmem
    show r.ID ≤ db.reviewSeq
    rw [← hqid]
    exact hk.2 q hq

theorem ReviewsKeyed_filter {db : Store} (keep : Review → Bool) (hk : ReviewsKeyed db) :
    ReviewsKeyed (withReviews db (db.reviews.filter keep)) := by
  constructor
  · show ((db.reviews.filter keep).map (fun r => r.ID)).Nodup
    exact List.Nodup.sublist (List.Sublist.map _ (List.filter_sublist _)) hk.1
  · intro r hr
    exact hk.2 r (List.mem_of_mem_filter hr)

theorem find?_id {reviews : List Review} {id : Nat} {review : Review}
    (h : reviews.find? (fun r => r.ID == id) = some review) :
    review ∈ reviews ∧ review.ID = id :=
  ⟨List.mem_of_find?_eq_some h, by simpa using List.find?_some h⟩

theorem CreateReview_invariant (SanitizeString : String → String) (fails : Faults)
    (db : Store) (c : Context) (req : ReviewRequest) (h : ReviewInvariant db) :
    ReviewInvariant (CreateReview SanitizeString fails db c req).1 := by
  rcases CreateReview_shape SanitizeString fails db c req with ⟨hdb, _⟩ | ⟨userID, hrun⟩
  · rw [hdb]; exact h
  · refine ⟨ReviewsKeyed_stats hrun (ReviewsKeyed_insertReview _ h.1), ?_⟩
    intro productID
    by_cases hp : productID = req.ProductID
    · rw [hp]; exact updateProductRatingStats_right hrun
    · apply updateProductRatingStats_others hrun hp
      intro p hmem hid
      have := h.2 productID p hmem hid
      rw [activeRatings_insertReview db _ (fun e => hp e.symm)]
      exact this

theorem UpdateReview_invariant (SanitizeString : String → String) (fails : Faults)
    (db : Store) (c : Context) (id : Option Nat) (req : ReviewRequest)
    (h : ReviewInvariant db) :
    ReviewInvariant (UpdateReview SanitizeString fails db c id req).1 := by
  rcases UpdateReview_shape SanitizeString fails db c id req with
    ⟨hdb, _⟩ | ⟨id1, review, _, hfind, hrun⟩
  · rw [hdb]; exact h
  · obtain ⟨hmem, _⟩ := find?_id hfind
    have hothers : ∀ productID, (productID ≠ review.ProductID ∨ review.Rating = req.Rating) →
        RatingStatsAtScale
          (withReviews db (saveReview db.reviews (editedReview SanitizeString review req)))
          productID := by
      intro productID hcase p hp hid
      have := h.2 productID p hp hid
      rw [activeRatings_saveReview review (editedReview SanitizeString review req)
        h.1.1 hmem rfl]
      · exact this
      · unfold ratingOf editedReview
        rcases hcase with hne | heq
        · have : (review.ProductID == productID) = false := by
            rw [beq_eq_false_iff_ne]; exact fun e => hne e.symm
          simp [this]
        · simp [heq]
    rcases hrun with ⟨_, hrun⟩ | ⟨heq, hout⟩
    · refine ⟨ReviewsKeyed_stats hrun (ReviewsKeyed_saveReview _ h.1), ?_⟩
      intro productID
      by_cases hp : productID = review.ProductID
      · rw [hp]; exact updateProductRatingStats_right hrun
      · exact updateProductRatingStats_others hrun hp (hothers productID (Or.inl hp))
    · rw [hout]
      exact ⟨ReviewsKeyed_saveReview _ h.1, fun productID => hothers productID (Or.inr heq)⟩

theorem DeleteReview_invariant (fails : Faults) (db : Store) (c : Context) (id : Option Nat)
    (h : ReviewInvariant db) : ReviewInvariant (DeleteReview fails db c id).1 := by
  rcases DeleteReview_shape fails db c id with ⟨hdb, _⟩ | ⟨id1, review, _, hfind, hrun⟩
  · rw [hdb]; exact h
  · obtain ⟨hmem, _⟩ := find?_id hfind
    refine ⟨ReviewsKeyed_stats hrun (ReviewsKeyed_filter _ h.1), ?_⟩
    intro productID
    by_cases hp : productID = review.ProductID
    · rw [hp]; exact updateProductRatingStats_right hrun
    · apply updateProductRatingStats_others hrun hp
      intro p hpm hid
      have := h.2 productID p hpm hid
      rw [activeRatings_deleteReview h.1.1 hmem (fun e => hp e.symm)]
      exact this

theorem ReviewReachable_invariant {SanitizeString : String → String} {db : Store}
    (h : ReviewReachable SanitizeString db) : ReviewInvariant db := by
  induction h with
  | start =>
    refine ⟨⟨List.nodup_nil, ?_⟩, ?_⟩
    · intro r hr; cases hr
    · intro productID p hp; cases hp
  | create fails db c req _ ih => exact CreateReview_invariant _ fails db c req ih
  | update fails db c id req _ ih => exact UpdateReview_invariant _ fails db c id req ih
  | delete fails db c id _ ih => exact DeleteReview_invariant fails db c id ih
  | other db db1 _ hr hs hp ih =>
    refine ⟨?_, ?_⟩
    · unfold ReviewsKeyed
      rw [hr, hs]
      exact ih.1
    · intro productID p hmem hid
      rw [activeRatings_congr hr]
      rcases hp p hmem with ⟨q, hq, hqid, hcount, havg⟩ | ⟨hcount, havg, hnone⟩
      · rw [← hcount, ← havg]
        exact ih.2 productID q hq (hqid.trans hid)
      · have hnil : activeRatings db productID = [] := by
          rw [activeRatings_eq, List.filterMap_eq_nil_iff]
          intro r hrm
          unfold ratingOf
          have : (r.ProductID == productID) = false := by
            rw [beq_eq_false_iff_ne, ← hid]; exact hnone r hrm
          simp [this]
        rw [hnil, hcount, havg]
        exact ⟨rfl, ⟨0, by norm_num⟩, by simp [meanRating]⟩

/-- C26, the input on which the claim fails.  Three customers rate product 1 with 5, 3
and 4, and the second changes the 3 to 1: the active ratings are 5, 1, 4, whose mean is
10/3, and `average_rating`, a `decimal(3,2)`, holds 3.33. -/
theorem review_stats_mean_counterexample :
    (UpdateReview id noFaults (ratedStore id) (reviewer 2) (some 2) (rate 1)).2.Success = true ∧
    activeRatings (reratedStore id) 1 = [5, 1, 4] ∧
    meanRating [5, 1, 4] = 10 / 3 ∧
    ratingStats (reratedStore id) = [(1, 3, 333 / 100)] ∧
    ¬ RatingStatsRight (reratedStore id) 1 := by
  have m2 : meanRating [5, 1, 4] = 10 / 3 := by
    unfold meanRating
    rw [if_neg (List.cons_ne_nil _ _)]
    norm_num
  have hr : activeRatings (reratedStore id) 1 = [5, 1, 4] := by with_unfolding_all rfl
  have hs : ratingStats (reratedStore id) = [(1, 3, 333 / 100)] := by with_unfolding_all rfl
  refine ⟨by with_unfolding_all rfl, hr, m2, hs, ?_⟩
  intro h
  have hp : (reratedStore id).products.map (fun p => (p.ID, p.ReviewCount, p.AverageRating))
      = [(1, 3, 333 / 100)] := hs
  cases hproducts : (reratedStore id).products with
  | nil => rw [hproducts] at hp; cases hp
  | cons p rest =>
    rw [hproducts] at hp
    simp only [List.map_cons, List.cons.injEq, Prod.mk.injEq] at hp
    have h1 := (h p (by rw [hproducts]; exact List.mem_cons_self _ _) hp.1.1).2
    rw [hr, m2, hp.1.2.2] at h1
    norm_num at h1

/-- C26, amended.  After a successful `CreateReview` the product of the request, and
after a successful `DeleteReview` the product of the deleted review, has `review_count`
equal to the number of its active stored reviews and `average_rating` equal to the
arithmetic mean of their ratings rounded to two decimals, 0 when there are none,
whatever the store was before.  The same holds after a successful `UpdateReview` that
changes the rating; an `UpdateReview` that keeps the rating writes no statistics and
leaves them right when they were and review ids are unique.  Hence in every store
reached from the empty one by the three handlers, succeeding or not, and by handlers
that touch neither reviews nor statistics, the statistics of every product are right in
this sense.  On the example: ratings 5, 3, 4 give count 3 and average 4, changing the 3
to 1 gives 3.33, deleting the 5 gives count 2 and 2.5. -/
theorem review_stats_at_scale (SanitizeString : String → String) :
    (∀ (fails : Faults) (db : Store) (c : Context) (req : ReviewRequest),
      (CreateReview SanitizeString fails db c req).2.Success = true →
      RatingStatsAtScale (CreateReview SanitizeString fails db c req).1 req.ProductID) ∧
    (∀ (fails : Faults) (db : Store) (c : Context) (id : Nat) (review : Review),
      db.reviews.find? (fun r => r.ID == id) = some review →
      (DeleteReview fails db c (some id)).2.Success = true →
      RatingStatsAtScale (DeleteReview fails db c (some id)).1 review.ProductID) ∧
    (∀ (fails : Faults) (db : Store) (c : Context) (id : Nat) (req : ReviewRequest)
        (review : Review),
      db.reviews.find? (fun r => r.ID == id) = some review →
      (UpdateReview SanitizeString fails db c (some id) req).2.Success = true →
      (review.Rating ≠ req.Rating →
        RatingStatsAtScale (UpdateReview SanitizeString fails db c (some id) req).1
          review.ProductID) ∧
      (review.Rating = req.Rating → (db.reviews.map (fun r => r.ID)).Nodup →
        RatingStatsAtScale db review.ProductID →
        (UpdateReview SanitizeString fails db c (some id) req).1.products = db.products ∧
        RatingStatsAtScale (UpdateReview SanitizeString fails db c (some id) req).1
          review.ProductID)) ∧
    (∀ db : Store, ReviewReachable SanitizeString db →
      ∀ productID, RatingStatsAtScale db productID) ∧
    (activeRatings (ratedStore id) 1 = [5, 3, 4] ∧
     ratingStats (ratedStore id) = [(1, 3, 4)] ∧
     activeRatings (reratedStore id) 1 = [5, 1, 4] ∧
     ratingStats (reratedStore id) = [(1, 3, 333 / 100)] ∧
     activeRatings (prunedStore id) 1 = [1, 4] ∧
     ratingStats (prunedStore id) = [(1, 2, 5 / 2)]) := by
  refine ⟨?_, ?_, ?_, ?_, ?_⟩
  · intro fails db c req hok
    rcases CreateReview_shape SanitizeString fails db c req with ⟨_, hno⟩ | ⟨userID, hrun⟩
    · rw [hno] at hok; cases hok
    · exact updateProductRatingStats_right hrun
  · intro fails db c id review hfind hok
    rcases DeleteReview_shape fails db c (some id) with ⟨_, hno⟩ | ⟨id1, review1, hid, hf, hrun⟩
    · rw [hno] at hok; cases hok
    · cases hid
      rw [hfind] at hf
      cases hf
      exact updateProductRatingStats_right hrun
  · intro fails db c id req review hfind hok
    rcases UpdateReview_shape SanitizeString fails db c (some id) req with
      ⟨_, hno⟩ | ⟨id1, review1, hid, hf, hrun⟩
    · rw [hno] at hok; cases hok
    · cases hid
      rw [hfind] at hf
      cases hf
      constructor
      · intro hne
        rcases hrun with ⟨_, hrun⟩ | ⟨heq, _⟩
        · exact updateProductRatingStats_right hrun
        · exact absurd heq hne
      · intro heq hkeyed hright
        rcases hrun with ⟨hne, _⟩ | ⟨_, hout⟩
        · exact absurd heq hne
        · rw [hout]
          refine ⟨rfl, ?_⟩
          intro p hp hpid
          have := hright p hp hpid
          rw [activeRatings_saveReview review (editedReview SanitizeString review req)
            hkeyed (find?_id hfind).1 rfl]
          · exact this
          · simp [ratingOf, editedReview, heq]
  · intro db h productID
    exact (ReviewReachable_invariant h).2 productID
  · refine ⟨?_, ?_, ?_, ?_, ?_, ?_⟩ <;> with_unfolding_all rfl

/-- C26, amended, at work on the example of the claim. -/
theorem review_stats_at_scale_witness :
    (UpdateReview id noFaults (ratedStore id) (reviewer 2) (some 2) (rate 1)).2.Success = true ∧
    RatingStatsAtScale (reratedStore id) 1 ∧
    (CreateReview id noFaults reviewStore (reviewer 1) (rate 5)).2.Success = true ∧
    RatingStatsAtScale (CreateReview id noFaults reviewStore (reviewer 1) (rate 5)).1 1 ∧
    (DeleteReview noFaults (reratedStore id) (reviewer 1) (some 1)).2.Success = true ∧
    RatingStatsAtScale (prunedStore id) 1 :=
  ⟨by with_unfolding_all rfl,
   ((review_stats_at_scale id).2.2.1 noFaults (ratedStore id) (reviewer 2) 2 (rate 1)
      { ID := 2, ProductID := 1, UserID := 2, Comment := "Hàng đúng như mô tả", Rating := 3,
        IsActive := true }
      (by with_unfolding_all rfl) (by with_unfolding_all rfl)).1 (by decide),
   by with_unfolding_all rfl,
   (review_stats_at_scale id).1 noFaults reviewStore (reviewer 1) (rate 5)
     (by with_unfolding_all rfl),
   by with_unfolding_all rfl,
   (review_stats_at_scale id).2.1 noFaults (reratedStore id) (reviewer 1) 1
      { ID := 1, ProductID := 1, UserID := 1, Comment := "Hàng đúng như mô tả", Rating := 5,
        IsActive := true }
      (by with_unfolding_all rfl) (by with_unfolding_all rfl)⟩

/-! ## The order of the product list -/

theorem defaultedParams_sort (params : ProductListParams) :
    (defaultedParams params).sort = if params.sort = "" then "newest" else params.sort := by
  unfold defaultedParams
  simp only
  split <;> split <;> split <;> rfl

/-- C28.  A sort parameter of the product list that is neither empty nor one of the eight
documented keys is ordered by `created_at ASC`, as "oldest" is, and not by
`created_at DESC`, as "newest" and the empty parameter are: on two products created at
100 and 200, `sort=cheapest` lists the older one first and `sort=newest` the newer one. -/
theorem getProducts_unknown_sort :
    (∀ params : ProductListParams, params.sort ∉ sortKeys → params.sort ≠ "" →
      sortOrder (defaultedParams params).sort = "created_at ASC" ∧
      sortOrder (defaultedParams params).sort = sortOrder "oldest" ∧
      sortOrder (defaultedParams params).sort ≠ sortOrder "newest") ∧
    sortOrder "newest" = "created_at DESC" ∧
    sortOrder (defaultedParams { sort := "" }).sort = "created_at DESC" ∧
    "cheapest" ∉ sortKeys ∧
    (GetProducts listStore { sort := "cheapest" }).map (fun p => p.ID) = [1, 2] ∧
    (GetProducts listStore { sort := "oldest" }).map (fun p => p.ID) = [1, 2] ∧
    (GetProducts listStore { sort := "newest" }).map (fun p => p.ID) = [2, 1] ∧
    (GetProducts listStore { sort := "" }).map (fun p => p.ID) = [2, 1] := by
  refine ⟨?_, by decide, by with_unfolding_all decide, by decide, ?_, ?_, ?_, ?_⟩
  · intro params hkeys hne
    have hasc : sortOrder (defaultedParams params).sort = "created_at ASC" := by
      rw [defaultedParams_sort, if_neg hne]
      simp only [sortKeys, List.mem_cons, List.mem_singleton, List.not_mem_nil, or_false,
        not_or] at hkeys
      obtain ⟨h1, h2, h3, h4, h5, h6, h7, h8⟩ := hkeys
      unfold sortOrder
      rw [if_neg h1, if_neg h2, if_neg h3, if_neg h4, if_neg h5, if_neg h6, if_neg h7,
        if_neg h8]
    rw [hasc]
    exact ⟨rfl, by decide, by decide⟩
  · with_unfolding_all rfl
  · with_unfolding_all rfl
  · with_unfolding_all rfl
  · with_unfolding_all rfl

theorem getProducts_unknown_sort_witness :
    "cheapest" ∉ sortKeys ∧ "cheapest" ≠ "" ∧
    sortOrder (defaultedParams { sort := "cheapest" }).sort = "created_at ASC" ∧
    sortOrder (defaultedParams { sort := "cheapest" }).sort ≠ sortOrder "newest" :=
  ⟨by decide, by decide,
   (getProducts_unknown_sort.1 { sort := "cheapest" } (by decide) (by decide)).1,
   (getProducts_unknown_sort.1 { sort := "cheapest" } (by decide) (by decide)).2.2⟩

/-! ## Payment of a cancelled order -/

/-- With unique order codes, the code of a stored order finds that order. -/
theorem find?_orderCode {db : Store} {order : Order} (hmem : order ∈ db.orders)
    (hcodes : (db.orders.map (fun o => o.OrderCode)).Nodup) :
    db.orders.find? (fun o => o.OrderCode == order.OrderCode) = some order := by
  cases hf : db.orders.find? (fun o => o.OrderCode == order.OrderCode) with
  | none =>
    have := List.find?_eq_none.mp hf order hmem
    simp at this
  | some a =>
    have ha := List.mem_of_find?_eq_some hf
    have hPa := List.find?_some hf
    simp only [beq_iff_eq] at hPa
    rw [List.inj_on_of_nodup_map hcodes ha hmem hPa]

/-- With unique order codes, whoever asks for the code of a stored order gets that order or
none. -/
theorem GetOrder_code {db : Store} {order found : Order} {userID : Option Nat}
    {sessionID : String} (hmem : order ∈ db.orders)
    (hcodes : (db.orders.map (fun o => o.OrderCode)).Nodup)
    (h : GetOrder db userID sessionID order.OrderCode = some found) : found = order := by
  unfold GetOrder at h
  cases userID with
  | some u =>
    simp only at h
    have ha := List.mem_of_find?_eq_some h
    have hPa := List.find?_some h
    simp only [Bool.and_eq_true, beq_iff_eq] at hPa
    exact List.inj_on_of_nodup_map hcodes ha hmem hPa.1
  | none =>
    simp only at h
    have ha := List.mem_of_find?_eq_some h
    have hPa := List.find?_some h
    simp only [Bool.and_eq_true, beq_iff_eq] at hPa
    exact List.inj_on_of_nodup_map hcodes ha hmem hPa.1.1

/-- The run of `ProcessPayment` on an unpaid order whose two writes go through. -/
theorem ProcessPayment_unpaid {fails : Faults} {now : Time} {db : Store}
    {orderCode transactionID : String} {responseData : List (String × String)} {order : Order}
    (hfind : db.orders.find? (fun o => o.OrderCode == orderCode) = some order)
    (hunpaid : order.PaymentStatus ≠ PaymentStatusPaid)
    (hsave : fails (.saveOrder order.ID) = false)
    (hupdate : fails (.completePayments order.ID) = false) :
    ProcessPayment fails now db orderCode transactionID responseData
      = ({ db with
            orders := saveOrder db.orders (paidOrder order),
            payments := completePayments db.payments order.ID transactionID now responseData },
          .ok ()) := by
  unfold ProcessPayment
  rw [hfind]
  simp only [hunpaid, if_false, hsave, hupdate, Bool.false_eq_true, paidOrder]

/-- The run of `ProcessPayment` on an order already paid. -/
theorem ProcessPayment_paid {fails : Faults} {now : Time} {db : Store}
    {orderCode transactionID : String} {responseData : List (String × String)} {order : Order}
    (hfind : db.orders.find? (fun o => o.OrderCode == orderCode) = some order)
    (hpaid : order.PaymentStatus = PaymentStatusPaid) :
    ProcessPayment fails now db orderCode transactionID responseData = (db, .ok ()) := by
  unfold ProcessPayment
  rw [hfind]
  simp only [hpaid, if_true]

theorem sweptOrder_ID (now : Time) (o : Order) : (sweptOrder now o).ID = o.ID := by
  unfold sweptOrder
  split <;> rfl

/-- With every write going through, the sweep saves exactly the orders it selects. -/
theorem CleanExpiredOrders_orders (now : Time) (db : Store)
    (hids : (db.orders.map (fun o => o.ID)).Nodup)
    (hcodes : (db.orders.map (fun o => o.OrderCode)).Nodup) :
    (CleanExpiredOrders noFaults now db).1.orders = db.orders.map (sweptOrder now) := by
  have hL : ∀ o ∈ expiredOrders db now, o ∈ db.orders ∧ o.CanBeCancelled = true := by
    intro o ho
    rw [expiredOrders_eq] at ho
    have ho2 := List.mem_filter.mp ho
    refine ⟨ho2.1, ?_⟩
    have hs := ho2.2
    simp only [Order.isSwept, Bool.and_eq_true, decide_eq_true_eq, beq_iff_eq] at hs
    simp [Order.CanBeCancelled, hs.1.2]
  have hLids : ((expiredOrders db now).map (fun o => o.ID)).Nodup :=
    List.Nodup.sublist ((List.filter_sublist db.orders).map _) hids
  have hO := (cancelExpired_noFaults (expiredOrders db now) db hL hLids hids hcodes).1
  show (cancelExpired noFaults (expiredOrders db now) db).orders = _
  rw [hO]
  apply List.map_congr_left
  intro a ha
  rw [mem_expired_ids hids ha]
  rfl

theorem CanBeCancelled_cancelled {order : Order} (h : order.Status = OrderStatusCancelled) :
    order.CanBeCancelled = false := by
  unfold Order.CanBeCancelled
  rw [h]
  with_unfolding_all decide

theorem isSwept_cancelled {order : Order} (h : order.Status = OrderStatusCancelled)
    (now : Time) : order.isSwept now = false := by
  unfold Order.isSwept
  rw [h]
  have : (OrderStatusCancelled == OrderStatusPending) = false := by with_unfolding_all decide
  rw [this]
  simp

/-- C30, counterexample.  The customer has cancelled the order of `demoStoreAfter`: it is
cancelled and unpaid, its payment row is cancelled and its two pairs are back in stock.
The admin COD confirmation then answers 200 and leaves the order with status and payment
status paid and its payment row completed, the stock staying restored; `ProcessPayment`
does the same. -/
theorem cancelled_order_paid_counterexample :
    orderStatuses cancelledStore = [("00001", "cancelled", "unpaid")] ∧
    paymentStatuses cancelledStore = [(1, "cancelled")] ∧
    stockOf cancelledStore 1 = some 2 ∧
    (ConfirmCODPayment noFaults 100 cancelledStore "00001").2 = 200 ∧
    orderStatuses (ConfirmCODPayment noFaults 100 cancelledStore "00001").1
      = [("00001", "paid", "paid")] ∧
    paymentStatuses (ConfirmCODPayment noFaults 100 cancelledStore "00001").1
      = [(1, "completed")] ∧
    stockOf (ConfirmCODPayment noFaults 100 cancelledStore "00001").1 1 = some 2 ∧
    (ProcessPayment noFaults 100 cancelledStore "00001" "t1" []).2 = .ok () ∧
    orderStatuses (ProcessPayment noFaults 100 cancelledStore "00001" "t1" []).1
      = [("00001", "paid", "paid")] ∧
    paymentStatuses (ProcessPayment noFaults 100 cancelledStore "00001" "t1" []).1
      = [(1, "completed")] := by
  refine ⟨?_, ?_, ?_, ?_, ?_, ?_, ?_, ?_, ?_, ?_⟩ <;> with_unfolding_all rfl

/-- C30, amended.  On a store with unique order ids and codes, a cancelled order is not
cancelled again: `CancelOrder` on its code returns an error and leaves the store as it
was, whoever asks, and the expiry sweep does not select it and leaves its row as it is.
`ProcessPayment` and the admin COD confirmation look at the payment status only: when the
cancelled order is already paid they succeed and change nothing; when it is not, and the
two writes go through, they succeed, save it with status and payment status paid and
rewrite every payment row of it as completed, products and sizes staying as they are. -/
theorem cancelled_order_transitions (db : Store) (order : Order)
    (hmem : order ∈ db.orders) (hcancelled : order.Status = OrderStatusCancelled)
    (hids : (db.orders.map (fun o => o.ID)).Nodup)
    (hcodes : (db.orders.map (fun o => o.OrderCode)).Nodup)
    (hcode : order.OrderCode ≠ "") :
    (∀ (fails : Faults) (userID : Option Nat) (sessionID reason : String),
      (CancelOrder fails db userID sessionID order.OrderCode reason).1 = db ∧
      ∃ e, (CancelOrder fails db userID sessionID order.OrderCode reason).2 = .error e) ∧
    (∀ (fails : Faults) (reason : String),
      CancelOrder fails db order.UserID order.SessionID order.OrderCode reason
        = (db, .error (.orderCannotBeCancelled OrderStatusCancelled))) ∧
    (∀ now : Time, order ∉ expiredOrders db now ∧
      order ∈ (CleanExpiredOrders noFaults now db).1.orders ∧
      ∀ o ∈ (CleanExpiredOrders noFaults now db).1.orders, o.ID = order.ID → o = order) ∧
    (order.PaymentStatus = PaymentStatusPaid →
      ∀ (fails : Faults) (now : Time) (transactionID : String)
        (responseData : List (String × String)),
        ProcessPayment fails now db order.OrderCode transactionID responseData
          = (db, .ok ()) ∧
        ConfirmCODPayment fails now db order.OrderCode = (db, 200)) ∧
    (order.PaymentStatus ≠ PaymentStatusPaid →
      ∀ (fails : Faults) (now : Time) (transactionID : String)
        (responseData : List (String × String)),
        fails (.saveOrder order.ID) = false → fails (.completePayments order.ID) = false →
        (ProcessPayment fails now db order.OrderCode transactionID responseData).2 = .ok () ∧
        (ProcessPayment fails now db order.OrderCode transactionID responseData).1.orders
          = db.orders.map (fun o => if o.ID == order.ID then paidOrder order else o) ∧
        paidOrder order ∈
          (ProcessPayment fails now db order.OrderCode transactionID responseData).1.orders ∧
        (paidOrder order).Status = OrderStatusPaid ∧
        (paidOrder order).PaymentStatus = PaymentStatusPaid ∧
        loadPayments
            (ProcessPayment fails now db order.OrderCode transactionID responseData).1 order.ID
          = (loadPayments db order.ID).map
              (fun p => completedPayment p transactionID now responseData) ∧
        (ProcessPayment fails now db order.OrderCode transactionID responseData).1.productSizes
          = db.productSizes ∧
        (ProcessPayment fails now db order.OrderCode transactionID responseData).1.products
          = db.products ∧
        ConfirmCODPayment fails now db order.OrderCode
          = ((ProcessPayment fails now db order.OrderCode ("COD_" ++ order.OrderCode)
                (codResponseData now)).1, 200)) := by
  have hfind := find?_orderCode hmem hcodes
  have hcan := CanBeCancelled_cancelled hcancelled
  refine ⟨?_, ?_, ?_, ?_, ?_⟩
  · intro fails userID sessionID reason
    unfold CancelOrder
    cases hget : GetOrder db userID sessionID order.OrderCode with
    | none => exact ⟨rfl, _, rfl⟩
    | some found =>
      have := GetOrder_code hmem hcodes hget
      subst this
      simp only
      rw [hcan]
      exact ⟨rfl, _, rfl⟩
  · intro fails reason
    unfold CancelOrder
    rw [GetOrder_self hmem hcodes]
    simp only
    rw [hcan, hcancelled]
    rfl
  · intro now
    have hsw := isSwept_cancelled hcancelled now
    have horders := CleanExpiredOrders_orders now db hids hcodes
    have hself : sweptOrder now order = order := by
      unfold sweptOrder
      rw [hsw]
      rfl
    refine ⟨?_, ?_, ?_⟩
    · rw [expiredOrders_eq]
      intro h
      have := (List.mem_filter.mp h).2
      rw [hsw] at this
      cases this
    · rw [horders, List.mem_map]
      exact ⟨order, hmem, hself⟩
    · intro o ho hoid
      rw [horders, List.mem_map] at ho
      obtain ⟨a, ha, hao⟩ := ho
      have haid : a.ID = order.ID := by
        rw [← hoid, ← hao, sweptOrder_ID]
      have : a = order := List.inj_on_of_nodup_map hids ha hmem haid
      subst this
      rw [← hao, hself]
  · intro hpaid fails now transactionID responseData
    refine ⟨ProcessPayment_paid hfind hpaid, ?_⟩
    unfold ConfirmCODPayment
    rw [if_neg hcode, ProcessPayment_paid hfind hpaid]
  · intro hunpaid fails now transactionID responseData hsave hupdate
    have hrun : ∀ (t : String) (r : List (String × String)),
        ProcessPayment fails now db order.OrderCode t r
          = ({ db with
                orders := saveOrder db.orders (paidOrder order),
                payments := completePayments db.payments order.ID t now r },
              .ok ()) :=
      fun _ _ => ProcessPayment_unpaid hfind hunpaid hsave hupdate
    rw [hrun transactionID responseData]
    refine ⟨rfl, rfl, ?_, rfl, rfl, ?_, rfl, rfl, ?_⟩
    · show paidOrder order ∈ saveOrder db.orders (paidOrder order)
      simp only [saveOrder, List.mem_map]
      exact ⟨order, hmem, by simp [paidOrder]⟩
    · simp only [loadPayments, completePayments]
      rw [filter_map_key (fun p : Payment => p.OrderID) _
        (by intro a; by_cases h : a.OrderID = order.ID <;> simp [h])]
      apply List.map_congr_left
      intro p hp
      have := (List.mem_filter.mp hp).2
      simp only [beq_iff_eq] at this
      simp [this, completedPayment]
    · unfold ConfirmCODPayment
      rw [if_neg hcode, hrun]

theorem cancelled_order_transitions_witness :
    cancelledOrder demoOrder "đổi ý" ∈ cancelledStore.orders ∧
    (cancelledOrder demoOrder "đổi ý").Status = OrderStatusCancelled ∧
    (cancelledOrder demoOrder "đổi ý").PaymentStatus ≠ PaymentStatusPaid ∧
    CancelOrder noFaults cancelledStore none "s1" "00001" "lần nữa"
      = (cancelledStore, .error (.orderCannotBeCancelled OrderStatusCancelled)) ∧
    (ProcessPayment noFaults 100 cancelledStore "00001" "t1" []).2 = .ok () ∧
    (paidOrder (cancelledOrder demoOrder "đổi ý")).Status = OrderStatusPaid :=
  have horders : cancelledStore.orders = [cancelledOrder demoOrder "đổi ý"] := by
    with_unfolding_all rfl
  have hmem : cancelledOrder demoOrder "đổi ý" ∈ cancelledStore.orders :=
    horders ▸ List.mem_cons_self _ _
  have hunpaid : (cancelledOrder demoOrder "đổi ý").PaymentStatus ≠ PaymentStatusPaid := by
    with_unfolding_all decide
  have h := cancelled_order_transitions cancelledStore (cancelledOrder demoOrder "đổi ý")
    hmem rfl (by rw [horders]; with_unfolding_all decide)
    (by rw [horders]; with_unfolding_all decide) (by with_unfolding_all decide)
  have hpay := h.2.2.2.2 hunpaid noFaults 100 "t1" [] rfl rfl
  ⟨hmem, rfl, hunpaid, h.2.1 noFaults "lần nữa", hpay.1, hpay.2.2.2.1⟩

/-! ## Five-digit codes: the probing -/

theorem firstOrderByCode_zero (db : Store) (code : String) :
    firstOrderByCode db 0 code = db.orders.find? (fun o => o.OrderCode == code) := by
  unfold firstOrderByCode
  congr 1
  funext o
  simp

theorem firstOrderByCode_zero_none {db : Store} {code : String} :
    firstOrderByCode db 0 code = none ↔ orderCodeExists db code = false := by
  rw [firstOrderByCode_zero]
  unfold orderCodeExists
  cases db.orders.find? (fun o => o.OrderCode == code) <;> simp

theorem firstOrderByCode_zero_some {db : Store} {code : String} {e : Order}
    (h : firstOrderByCode db 0 code = some e) : e ∈ db.orders ∧ e.OrderCode = code := by
  rw [firstOrderByCode_zero] at h
  exact ⟨List.mem_of_find?_eq_some h, by simpa using List.find?_some h⟩

/-- With the key of a stored row in the struct, the query finds that row under its own
code. -/
theorem firstOrderByCode_self {db : Store} {e : Order} (hmem : e ∈ db.orders)
    (hids : (db.orders.map (fun o => o.ID)).Nodup) (hnz : e.ID ≠ 0) :
    firstOrderByCode db e.ID e.OrderCode = some e := by
  unfold firstOrderByCode
  cases hf : db.orders.find?
      (fun o => o.OrderCode == e.OrderCode && (e.ID == 0 || o.ID == e.ID)) with
  | none =>
    have := List.find?_eq_none.mp hf e hmem
    simp at this
  | some a =>
    have ha := List.mem_of_find?_eq_some hf
    have hPa := List.find?_some hf
    simp only [Bool.and_eq_true, Bool.or_eq_true, beq_iff_eq] at hPa
    rcases hPa.2 with h0 | hid
    · exact absurd h0 hnz
    · rw [List.inj_on_of_nodup_map hids ha hmem hid]

/-- With the key of a stored row in the struct, the query finds nothing under another
code, whether that code is in use or not. -/
theorem firstOrderByCode_other {db : Store} {e : Order} (hmem : e ∈ db.orders)
    (hids : (db.orders.map (fun o => o.ID)).Nodup) (hnz : e.ID ≠ 0) {code : String}
    (hne : code ≠ e.OrderCode) : firstOrderByCode db e.ID code = none := by
  unfold firstOrderByCode
  rw [List.find?_eq_none]
  intro a ha hPa
  simp only [Bool.and_eq_true, Bool.or_eq_true, beq_iff_eq] at hPa
  rcases hPa.2 with h0 | hid
  · exact hnz h0
  · have : a = e := List.inj_on_of_nodup_map hids ha hmem hid
    subst this
    exact hne hPa.1.symm

/-- A code returned by a probing loop is one of the codes of its range. -/
theorem probeOrderCode_inl (db : Store) (k : Nat) (i : Int) (existingID : Nat) (code : String)
    (h : probeOrderCode db k i existingID = .inl code) :
    ∃ j : Nat, j < k ∧ code = Sprintf05d (i + j) := by
  induction k generalizing i existingID with
  | zero => cases h
  | succ k ih =>
    simp only [probeOrderCode] at h
    split at h
    · cases h
      exact ⟨0, by omega, by simp⟩
    · obtain ⟨j, hj, hcode⟩ := ih _ _ h
      refine ⟨j + 1, by omega, ?_⟩
      rw [hcode]
      congr 1
      push_cast
      ring

theorem probeOrderCode_found (db : Store) (k : Nat) (i : Int) (existingID : Nat) {e : Order}
    (h : firstOrderByCode db existingID (Sprintf05d i) = some e) :
    probeOrderCode db (k + 1) i existingID = probeOrderCode db k (i + 1) e.ID := by
  simp only [probeOrderCode, h]

theorem probeOrderCode_missing (db : Store) (k : Nat) (i : Int) (existingID : Nat)
    (h : firstOrderByCode db existingID (Sprintf05d i) = none) :
    probeOrderCode db (k + 1) i existingID = .inl (Sprintf05d i) := by
  simp only [probeOrderCode, h]

/-- A code returned by `GenerateOrderCode`, once the start of the search is known, is
the print of a number of `1..99999`. -/
theorem GenerateOrderCode_range {db : Store} {s : Nat} (hs1 : 1 ≤ s) (hs2 : s ≤ 99999)
    (hnext : nextOrderCode db = .ok (s : Int)) {code : String}
    (h : GenerateOrderCode db = .ok code) :
    ∃ n : Nat, 1 ≤ n ∧ n ≤ 99999 ∧ code = Sprintf05d (n : Int) := by
  unfold GenerateOrderCode at h
  rw [hnext] at h
  simp only at h
  split at h
  · cases h
    exact ⟨s, hs1, hs2, rfl⟩
  · split at h
    · rename_i c hc
      cases h
      obtain ⟨j, hj, hcode⟩ := probeOrderCode_inl _ _ _ _ _ hc
      have hk : (MaxOrderCode - (s : Int) + 1).toNat = 99999 - s + 1 := by
        unfold MaxOrderCode; omega
      rw [hk] at hj
      exact ⟨s + j, by omega, by omega, by rw [hcode]; push_cast; rfl⟩
    · split at h
      · rename_i c hc
        cases h
        obtain ⟨j, hj, hcode⟩ := probeOrderCode_inl _ _ _ _ _ hc
        have hk : ((s : Int) - MinOrderCode).toNat = s - 1 := by
          unfold MinOrderCode; omega
        rw [hk] at hj
        refine ⟨1 + j, by omega, by omega, ?_⟩
        rw [hcode]
        unfold MinOrderCode
        push_cast
        rfl
      · cases h

/-- When no order carries the first candidate, `GenerateOrderCode` returns it. -/
theorem GenerateOrderCode_unused {db : Store} {s : Int}
    (hnext : nextOrderCode db = .ok s)
    (hfree : orderCodeExists db (Sprintf05d s) = false) :
    GenerateOrderCode db = .ok (Sprintf05d s) := by
  unfold GenerateOrderCode
  rw [hnext]
  simp only
  rw [firstOrderByCode_zero_none.mpr hfree]

/-- When an order carries the first candidate, `GenerateOrderCode` returns the candidate
after it in cyclic order without having looked it up in the table: the loops query it on
the row the safety check found. -/
theorem GenerateOrderCode_used {db : Store} {s : Nat} (hs1 : 1 ≤ s) (hs2 : s ≤ 99999)
    (hids : (db.orders.map (fun o => o.ID)).Nodup) (hnz : ∀ o ∈ db.orders, o.ID ≠ 0)
    (hnext : nextOrderCode db = .ok (s : Int))
    (hused : orderCodeExists db (Sprintf05d (s : Int)) = true) :
    GenerateOrderCode db = .ok (Sprintf05d ((if s = 99999 then 1 else s + 1 : Nat) : Int)) := by
  obtain ⟨e, he⟩ : ∃ e, firstOrderByCode db 0 (Sprintf05d (s : Int)) = some e := by
    cases hf : firstOrderByCode db 0 (Sprintf05d (s : Int)) with
    | some e => exact ⟨e, rfl⟩
    | none => rw [firstOrderByCode_zero_none.mp hf] at hused; cases hused
  obtain ⟨hmem, hcode⟩ := firstOrderByCode_zero_some he
  have hself := firstOrderByCode_self hmem hids (hnz e hmem)
  rw [hcode] at hself
  have hother : ∀ n : Nat, n ≤ 99999 → n ≠ s →
      firstOrderByCode db e.ID (Sprintf05d (n : Int)) = none := by
    intro n hn hne
    apply firstOrderByCode_other hmem hids (hnz e hmem)
    rw [hcode]
    intro heq
    exact hne (Sprintf05d_inj n s (by omega) (by omega) heq)
  unfold GenerateOrderCode
  rw [hnext]
  simp only
  rw [he]
  simp only
  by_cases hmax : s = 99999
  · subst hmax
    have hk1 : (MaxOrderCode - ((99999 : Nat) : Int) + 1).toNat = 0 + 1 := by
      unfold MaxOrderCode; omega
    have hk2 : (((99999 : Nat) : Int) - MinOrderCode).toNat = 99997 + 1 := by
      unfold MinOrderCode; omega
    have h1 := hother 1 (by omega) (by omega)
    have hmin : MinOrderCode = ((1 : Nat) : Int) := rfl
    have hzero : ∀ (i : Int) (existingID : Nat),
        probeOrderCode db 0 i existingID = .inr existingID := fun _ _ => rfl
    rw [hk1, hk2, probeOrderCode_found db 0 _ _ hself, hzero]
    simp only
    rw [hmin, probeOrderCode_missing db 99997 _ _ h1]
    rfl
  · have hk1 : (MaxOrderCode - (s : Int) + 1).toNat = (99999 - s - 1) + 1 + 1 := by
      unfold MaxOrderCode; omega
    have h1 := hother (s + 1) (by omega) (by omega)
    have hcast : (s : Int) + 1 = ((s + 1 : Nat) : Int) := by push_cast; rfl
    rw [hk1, probeOrderCode_found db _ _ _ hself, hcast, probeOrderCode_missing db _ _ _ h1]
    simp only [hmax, if_false]

theorem probeOrderCode_congr {a b : Store} (h : a.orders = b.orders) (k : Nat) (i : Int)
    (existingID : Nat) : probeOrderCode a k i existingID = probeOrderCode b k i existingID := by
  induction k generalizing i existingID with
  | zero => rfl
  | succ k ih => simp only [probeOrderCode, firstOrderByCode, h, ih]

/-- `GenerateOrderCode` reads the table `orders` only. -/
theorem GenerateOrderCode_congr {a b : Store} (h : a.orders = b.orders) :
    GenerateOrderCode a = GenerateOrderCode b := by
  simp only [GenerateOrderCode, nextOrderCode, firstOrderByCode, h, probeOrderCode_congr h]

/-- The orders after `CreateOrder`: as before, or one more, whose code
`GenerateOrderCode` returned on the orders as before and no order carried. -/
theorem CreateOrder_orders (fails : Faults) (now : Time) (db : Store) (userID : Option Nat)
    (sessionID : String) (req : CreateOrderRequest) :
    (CreateOrder fails now db userID sessionID req).1.orders = db.orders ∨
    ∃ order, (CreateOrder fails now db userID sessionID req).1.orders = db.orders ++ [order] ∧
      GenerateOrderCode db = .ok order.OrderCode ∧
      ∀ o ∈ db.orders, o.OrderCode ≠ order.OrderCode := by
  cases hres : CreateOrder fails now db userID sessionID req with
  | mk db1 res =>
    cases res with
    | error e => exact Or.inl (CreateOrder_error_tables hres).2.2.1
    | ok order =>
      right
      obtain ⟨db0, cart, items, summary, orderCode, tx2, hbegun, hcode, horder, hloop, hdb1⟩ :=
        CreateOrder_ok hres
      obtain ⟨hdb0, -⟩ := GetOrCreateCart_valid hbegun.loaded hbegun.valid
      have horders : db0.orders = db.orders := by
        rcases hdb0 with rfl | ⟨c, rfl⟩ <;> rfl
      obtain ⟨-, -, hfo, -⟩ := createOrderItems_frame items hloop
      have hoc : order.OrderCode = orderCode := by rw [horder]; rfl
      refine ⟨order, ?_, ?_, ?_⟩
      · rw [hdb1]
        show tx2.orders = _
        rw [hfo, horders]
      · rw [← GenerateOrderCode_congr horders, hcode.1, hoc]
      · rw [hoc, ← horders]
        exact orderCodeExists_false hcode.2

/-- C4.  A code returned by `GenerateOrderCode` does have five decimal digits and denotes
a number of `1..99999`, but it need not differ from the codes of the existing orders.
Whenever an order carries the first candidate (one more than the code of the most recent
order, wrapped), the code returned is the candidate after it in cyclic order, whether an
order carries that one or not: on `reusedCodeStore`, whose orders carry `00002`, `00003`
and, most recently, `00001`, the code returned is `00003`, the code of the second order.
The duplicate is then stopped by the unique index alone: `CreateOrder` fails with
"failed to create order", and through any sequence of `CreateOrder` calls the codes of the
stored orders stay pairwise distinct five-digit codes. -/
theorem generateOrderCode_returns_code_in_use :
    (∀ db : Store, (∀ o, db.orders.getLast? = some o → ValidCode o.OrderCode) →
      ∀ code, GenerateOrderCode db = .ok code →
        code.length = 5 ∧ (∀ c ∈ code.data, c.isDigit = true) ∧
        ∃ n : Nat, 1 ≤ n ∧ n ≤ 99999 ∧ code = codeOf n ∧ Atoi code = some (n : Int)) ∧
    (∀ (db : Store) (s : Nat), 1 ≤ s → s ≤ 99999 →
      (db.orders.map (fun o => o.ID)).Nodup → (∀ o ∈ db.orders, o.ID ≠ 0) →
      nextOrderCode db = .ok (s : Int) → CodeUsed db (codeOf s) →
      GenerateOrderCode db = .ok (codeOf (cyclicCode s 1))) ∧
    ((∀ o ∈ reusedCodeStore.orders, ValidCode o.OrderCode) ∧
      GenerateOrderCode reusedCodeStore = .ok "00003" ∧
      (∃ o ∈ reusedCodeStore.orders, o.ID = 2 ∧ o.OrderCode = "00003") ∧
      CreateOrder noFaults 0 reusedCodeStore none "s1" demoRequest
        = (reusedCodeStore, .error .failedToCreateOrder)) ∧
    (∀ db : Store, (∀ o ∈ db.orders, ValidCode o.OrderCode) →
      (db.orders.map (fun o => o.OrderCode)).Nodup → ∀ calls : List Checkout,
      ((createOrders calls db).orders.map (fun o => o.OrderCode)).Nodup ∧
      ∀ o ∈ (createOrders calls db).orders, ValidCode o.OrderCode) := by
  have key : ∀ db : Store, (∀ o, db.orders.getLast? = some o → ValidCode o.OrderCode) →
      ∀ code, GenerateOrderCode db = .ok code →
        code.length = 5 ∧ (∀ c ∈ code.data, c.isDigit = true) ∧
        ∃ n : Nat, 1 ≤ n ∧ n ≤ 99999 ∧ code = codeOf n ∧ Atoi code = some (n : Int) := by
    intro db hlast code hgen
    obtain ⟨s, hs1, hs2, hnext, -, -⟩ := nextOrderCode_valid db hlast
    obtain ⟨n, hn1, hn2, hcode⟩ := GenerateOrderCode_range hs1 hs2 hnext hgen
    have hlt : n < 100000 := by omega
    have hshape := Sprintf05d_shape _ hlt
    have hat := Atoi_Sprintf05d _ hlt
    rw [← hcode] at hshape hat
    exact ⟨hshape.1, hshape.2, n, hn1, hn2, by rw [hcode, Sprintf05d_eq _ hlt], hat⟩
  refine ⟨key, ?_, ⟨?_, by decide, ⟨{ ID := 2, OrderCode := "00003" }, by decide, rfl, rfl⟩,
    by with_unfolding_all rfl⟩, ?_⟩
  · intro db s hs1 hs2 hids hnz hnext hused
    have hfmt : Sprintf05d (s : Int) = codeOf s := Sprintf05d_eq s (by omega)
    have h := GenerateOrderCode_used hs1 hs2 hids hnz hnext
      (by rw [hfmt]; exact (orderCodeExists_iff _ _).mpr hused)
    rw [h]
    have hcyc : cyclicCode s 1 = if s = 99999 then 1 else s + 1 := by
      unfold cyclicCode
      split <;> omega
    rw [hcyc, Sprintf05d_eq _ (by split <;> omega)]
  · intro o ho
    have h2 : o ∈ [({ ID := 1, OrderCode := "00002" } : Order), { ID := 2, OrderCode := "00003" },
        { ID := 3, OrderCode := "00001" }] := ho
    simp only [List.mem_cons, List.mem_singleton, List.not_mem_nil, or_false] at h2
    rcases h2 with rfl | rfl | rfl
    · exact ⟨2, by decide, by decide, by decide⟩
    · exact ⟨3, by decide, by decide, by decide⟩
    · exact ⟨1, by decide, by decide, by decide⟩
  · intro db hcodes hnodup calls
    induction calls generalizing db with
    | nil => exact ⟨hnodup, hcodes⟩
    | cons c rest ih =>
      simp only [createOrders]
      rcases CreateOrder_orders c.fails c.now db c.userID c.sessionID c.req with
        hsame | ⟨o, hnew, hgen, hfresh⟩
      · exact ih _ (by rw [hsame]; exact hcodes) (by rw [hsame]; exact hnodup)
      · obtain ⟨-, -, n, hn1, hn2, hcode, -⟩ := key db (validCode_of_getLast hcodes) _ hgen
        apply ih
        · rw [hnew]
          intro o' ho'
          rcases List.mem_append.mp ho' with hold | hlast
          · exact hcodes o' hold
          · have : o' = o := by simpa using hlast
            subst this
            exact ⟨n, hn1, hn2, hcode⟩
        · rw [hnew, List.map_append, List.nodup_append]
          refine ⟨hnodup, by simp, ?_⟩
          intro a ha hb
          simp only [List.map_cons, List.map_nil, List.mem_singleton] at hb
          obtain ⟨o', ho', rfl⟩ := List.mem_map.mp ha
          exact hfresh o' ho' hb

theorem generateOrderCode_returns_code_in_use_witness :
    nextOrderCode reusedCodeStore = .ok ((2 : Nat) : Int) ∧
    CodeUsed reusedCodeStore (codeOf 2) ∧
    GenerateOrderCode reusedCodeStore = .ok (codeOf (cyclicCode 2 1)) ∧
    CodeUsed reusedCodeStore (codeOf (cyclicCode 2 1)) :=
  have hused : CodeUsed reusedCodeStore (codeOf 2) :=
    ⟨{ ID := 1, OrderCode := "00002" }, by decide, by decide⟩
  ⟨by decide, hused,
   generateOrderCode_returns_code_in_use.2.1 reusedCodeStore 2 (by decide) (by decide)
     (by decide) (by decide) (by decide) hused,
   ⟨{ ID := 2, OrderCode := "00003" }, by decide, by decide⟩⟩

/-! ## Allocation of order codes, as worded -/

/-- C5 as stated fails: with orders `00005` (older) and `00002` (more recent)
the code allocates `00003`, one more than the code of the most recent order,
while the first unused code after the highest existing code is `00006`. -/
theorem generateOrderCode_after_highest_counterexample :
    GenerateOrderCode wrappedStore = .ok "00003" ∧
    orderCodeAfterHighest wrappedStore = some "00006" ∧
    GenerateOrderCode wrappedStore ≠
      (match orderCodeAfterHighest wrappedStore with
       | some code => .ok code
       | none => .error .allOrderCodesTaken) := by
  refine ⟨by decide, by decide, by decide⟩

/-- C5, amended.  When the most recent order of the store (the one with the highest id),
if any, carries a five-digit code of `00001..99999`, `GenerateOrderCode` starts from the
code of that order plus one, wrapping to `00001` after `99999`, and from `00001` when no
order exists; when no order carries that code, it is the code returned. -/
theorem generateOrderCode_starts_after_latest (db : Store)
    (hlast : ∀ o, db.orders.getLast? = some o → ValidCode o.OrderCode) :
    ∃ s : Nat, 1 ≤ s ∧ s ≤ 99999 ∧
      (db.orders.getLast? = none → s = 1) ∧
      (∀ o, db.orders.getLast? = some o →
        ∃ m : Nat, 1 ≤ m ∧ m ≤ 99999 ∧ o.OrderCode = codeOf m ∧
          s = if m = 99999 then 1 else m + 1) ∧
      (¬ CodeUsed db (codeOf s) → GenerateOrderCode db = .ok (codeOf s)) := by
  obtain ⟨s, hs1, hs2, hnext, hnone, hsome⟩ := nextOrderCode_valid db hlast
  refine ⟨s, hs1, hs2, hnone, hsome, ?_⟩
  intro hfree
  have hfmt : Sprintf05d (s : Int) = codeOf s := Sprintf05d_eq s (by omega)
  rw [← hfmt]
  apply GenerateOrderCode_unused hnext
  rw [hfmt]
  exact (orderCodeExists_false_iff _ _).mpr hfree

theorem generateOrderCode_starts_after_latest_witness :
    (∀ o, wrappedStore.orders.getLast? = some o → ValidCode o.OrderCode) ∧
    ¬ CodeUsed wrappedStore (codeOf 3) ∧
    GenerateOrderCode wrappedStore = .ok (codeOf 3) :=
  have hlast : ∀ o, wrappedStore.orders.getLast? = some o → ValidCode o.OrderCode := by
    intro o ho
    have : o = { ID := 2, OrderCode := "00002" } := by
      simpa [wrappedStore, eq_comm] using ho
    subst this
    exact ⟨2, by decide, by decide, by decide⟩
  have hfree : ¬ CodeUsed wrappedStore (codeOf 3) := by
    rw [← orderCodeExists_false_iff]
    decide
  ⟨hlast, hfree, by
    obtain ⟨s, -, -, -, hsome, hret⟩ := generateOrderCode_starts_after_latest wrappedStore hlast
    obtain ⟨m, hm1, hm2, hcode, hs⟩ := hsome { ID := 2, OrderCode := "00002" } (by decide)
    have hm : m = 2 := by
      have h2 : codeOf 2 = codeOf m := hcode
      rw [← Sprintf05d_eq 2 (by omega), ← Sprintf05d_eq m (by omega)] at h2
      exact (Sprintf05d_inj 2 m (by omega) (by omega) h2).symm
    subst hm
    have hs3 : s = 3 := by simpa using hs
    subst hs3
    exact hret hfree⟩

/-! ## Amounts of an order at the scale of their columns -/

theorem calculateShippingFee_isCents (address : ShippingAddress) (totalAmount : ℚ) :
    IsCents (calculateShippingFee address totalAmount) := by
  unfold calculateShippingFee
  split
  · exact ⟨0, by norm_num⟩
  · simp only
    split
    · exact ⟨5000000, by norm_num⟩
    · exact ⟨3000000, by norm_num⟩

theorem isCents_sum {α : Type} (f : α → ℚ) (l : List α) (h : ∀ a ∈ l, IsCents (f a)) :
    IsCents (l.map f).sum := by
  induction l with
  | nil => exact ⟨0, by simp⟩
  | cons a l ih =>
    rw [List.map_cons, List.sum_cons]
    exact (h a (List.mem_cons_self _ _)).add (ih (fun b hb => h b (List.mem_cons_of_mem _ hb)))

/-- The order items created from cart items whose prices are whole hundredths carry
those prices and the exact products. -/
theorem created_exact {fails : Faults} {orderID : Nat} {created : List OrderItem}
    {items : List CartItem}
    (h : List.Forall₂ (fun (oi : OrderItem) (ci : CartItem) =>
        oi.OrderID = orderID ∧ oi.ProductID = ci.ProductID ∧
        oi.ProductSizeID = ci.ProductSizeID ∧ oi.Quantity = ci.Quantity ∧
        oi.UnitPrice = toScale2 fails ci.Price ∧
        oi.TotalPrice = toScale2 fails ((ci.Quantity : ℚ) * ci.Price)) created items)
    (hcents : ∀ ci ∈ items, IsCents ci.Price) :
    List.Forall₂ (fun (oi : OrderItem) (ci : CartItem) =>
        oi.OrderID = orderID ∧ oi.ProductID = ci.ProductID ∧
        oi.ProductSizeID = ci.ProductSizeID ∧ oi.Quantity = ci.Quantity ∧
        oi.UnitPrice = ci.Price ∧ oi.TotalPrice = (oi.Quantity : ℚ) * oi.UnitPrice)
      created items ∧
    (created.map (fun oi => oi.TotalPrice)).sum
      = (items.map (fun i => (i.Quantity : ℚ) * i.Price)).sum := by
  induction h with
  | nil => exact ⟨List.Forall₂.nil, rfl⟩
  | @cons oi ci created items hhead _ ih =>
    obtain ⟨h1, h2, h3, h4, h5, h6⟩ := hhead
    have hc := hcents ci (List.mem_cons_self _ _)
    have hu : oi.UnitPrice = ci.Price := by rw [h5, toScale2_of_isCents fails hc]
    have ht : oi.TotalPrice = (ci.Quantity : ℚ) * ci.Price := by
      rw [h6, toScale2_of_isCents fails (IsCents.intMul _ hc)]
    obtain ⟨ih1, ih2⟩ := ih (fun c hcm => hcents c (List.mem_cons_of_mem _ hcm))
    refine ⟨List.Forall₂.cons ⟨h1, h2, h3, h4, hu, by rw [ht, h4, hu]⟩ ih1, ?_⟩
    simp only [List.map_cons, List.sum_cons, ih2, ht]

/-- C8, counterexample.  One item at 1000000.10: the total is 1000000.10 and shipping is
free; 5 % of the total is 50000.005, kept as 50000.01 in `discount_amount`; total plus
shipping minus the discount is 950000.095, kept as 950000.10 in `final_amount` (both halves
going up, as they do in `float64`).  The order read back has
`final_amount = 950000.10`, while `total_amount + shipping_fee - discount_amount` is
950000.09. -/
theorem createOrder_final_amount_counterexample :
    (CreateOrder halfCentsUp 0 dearStore none "s1" demoRequest).2.toOption.map Order.amounts
      = some (10000001 / 10, 0, 5000001 / 100, 9500001 / 10) ∧
    ((CreateOrder halfCentsUp 0 dearStore none "s1" demoRequest).1.orderItems.map
        (fun oi => oi.TotalPrice)).sum = 10000001 / 10 ∧
    (9500001 / 10 : ℚ) ≠ 10000001 / 10 + 0 - 5000001 / 100 := by
  refine ⟨?_, ?_, by norm_num⟩
  · with_unfolding_all rfl
  · have h : (CreateOrder halfCentsUp 0 dearStore none "s1" demoRequest).1.orderItems.map
        (fun oi => oi.TotalPrice) = [10000001 / 10] := by with_unfolding_all rfl
    rw [h]
    norm_num

/-- C8, amended.  After a successful `CreateOrder` the order items written correspond
one to one, in order, to the items of the cart, each with the quantity of the cart item,
its captured price at two decimals as `unit_price` and the product at two decimals as
`total_price`.  When the captured prices have at most two decimals, as the column of the
cart items has: `unit_price` is the captured price, `total_price = quantity × unit_price`,
`total_amount` is the sum of the `total_price`, and with `discount` the discount
computed in memory, nothing below 1000000 and 5 % of the sum above, `discount_amount` is
`discount` at two decimals and `final_amount` is the sum plus `shipping_fee` minus
`discount`, at two decimals: a whole number of hundredths at most half a hundredth away.
Hence `final_amount` is the sum plus `shipping_fee` minus
`discount_amount` whenever `discount` has at most two decimals, as always below 1000000,
and is within one hundredth of it otherwise. -/
theorem createOrder_amounts_at_scale (fails : Faults) (now : Time) (db db1 : Store)
    (userID : Option Nat) (sessionID : String) (req : CreateOrderRequest) (order : Order)
    (hok : CreateOrder fails now db userID sessionID req = (db1, .ok order)) :
    ∃ cart items created,
      (GetOrCreateCart fails now db userID sessionID).2 = .ok (cart, items) ∧
      items = loadCartItems db cart.ID ∧
      db1.orderItems = db.orderItems ++ created ∧
      List.Forall₂ (fun (oi : OrderItem) (ci : CartItem) =>
        oi.OrderID = order.ID ∧ oi.ProductID = ci.ProductID ∧
        oi.ProductSizeID = ci.ProductSizeID ∧ oi.Quantity = ci.Quantity ∧
        oi.UnitPrice = toScale2 fails ci.Price ∧
        oi.TotalPrice = toScale2 fails ((ci.Quantity : ℚ) * ci.Price)) created items ∧
      ((∀ ci ∈ items, IsCents ci.Price) →
        List.Forall₂ (fun (oi : OrderItem) (ci : CartItem) =>
          oi.OrderID = order.ID ∧ oi.ProductID = ci.ProductID ∧
          oi.ProductSizeID = ci.ProductSizeID ∧ oi.Quantity = ci.Quantity ∧
          oi.UnitPrice = ci.Price ∧ oi.TotalPrice = (oi.Quantity : ℚ) * oi.UnitPrice)
          created items ∧
        order.TotalAmount = (created.map (fun oi => oi.TotalPrice)).sum ∧
        ∃ discount : ℚ,
          (discount = 0 ∨ discount = order.TotalAmount * (5 / 100)) ∧
          (order.TotalAmount < 1000000 → discount = 0) ∧
          (1000000 < order.TotalAmount → discount = order.TotalAmount * (5 / 100)) ∧
          order.DiscountAmount = toScale2 fails discount ∧
          IsCents order.DiscountAmount ∧ |order.DiscountAmount - discount| ≤ 1 / 200 ∧
          order.FinalAmount = toScale2 fails
            ((created.map (fun oi => oi.TotalPrice)).sum + order.ShippingFee - discount) ∧
          IsCents order.FinalAmount ∧
          |order.FinalAmount - ((created.map (fun oi => oi.TotalPrice)).sum
              + order.ShippingFee - discount)| ≤ 1 / 200 ∧
          |order.FinalAmount - ((created.map (fun oi => oi.TotalPrice)).sum
              + order.ShippingFee - order.DiscountAmount)| ≤ 1 / 100 ∧
          (IsCents discount →
            order.FinalAmount = (created.map (fun oi => oi.TotalPrice)).sum
              + order.ShippingFee - order.DiscountAmount)) ∧
      ((∀ oi ∈ db.orderItems, oi.OrderID ≤ db.orderSeq) →
        loadOrderItems db1 order.ID = created) := by
  obtain ⟨db0, cart, items, summary, orderCode, tx2, hbegun, hcode, horder, hloop, hdb1⟩ :=
    CreateOrder_ok hok
  obtain ⟨hdb0, hitems⟩ := GetOrCreateCart_valid hbegun.loaded hbegun.valid
  have hoitems : db0.orderItems = db.orderItems := by
    rcases hdb0 with rfl | ⟨c, rfl⟩ <;> rfl
  have hseq : db0.orderSeq = db.orderSeq := by
    rcases hdb0 with rfl | ⟨c, rfl⟩ <;> rfl
  obtain ⟨-, -, -, -, -, -, -, -, -, -, created, hcreated, hall⟩ :=
    createOrderItems_frame items hloop
  obtain ⟨hT, hS, hD, hF⟩ := CalculateOrderSummary_ok hbegun.summed
  have hoi : db1.orderItems = db.orderItems ++ created := by
    rw [hdb1]
    show tx2.orderItems = _
    rw [hcreated, hoitems]
  have hTA : order.TotalAmount = toScale2 fails summary.TotalAmount := by rw [horder]; rfl
  have hFA : order.FinalAmount = toScale2 fails summary.FinalAmount := by rw [horder]; rfl
  have hSF : order.ShippingFee = toScale2 fails summary.ShippingFee := by rw [horder]; rfl
  have hDA : order.DiscountAmount = toScale2 fails summary.DiscountAmount := by
    rw [horder]; rfl
  refine ⟨cart, items, created, by rw [hbegun.loaded], hitems, hoi, hall, ?_, ?_⟩
  · intro hcents
    obtain ⟨hexact, hsum⟩ := created_exact hall hcents
    have hTc : IsCents summary.TotalAmount := by
      rw [hT]
      exact isCents_sum _ _ (fun ci hci => IsCents.intMul _ (hcents ci hci))
    have hTA2 : order.TotalAmount = summary.TotalAmount := by
      rw [hTA, toScale2_of_isCents fails hTc]
    have hSc : IsCents summary.ShippingFee := by
      rw [hS]; exact calculateShippingFee_isCents _ _
    have hSF2 : order.ShippingFee = summary.ShippingFee := by
      rw [hSF, toScale2_of_isCents fails hSc]
    have hsumT : (created.map (fun oi => oi.TotalPrice)).sum = summary.TotalAmount := by
      rw [hsum, hT]
    have hFA2 : order.FinalAmount = toScale2 fails
        (order.TotalAmount + order.ShippingFee - calculateDiscount order.TotalAmount) := by
      rw [hFA, hF, hTA2, hSF2, hD]
    have hDA2 : order.DiscountAmount = toScale2 fails (calculateDiscount order.TotalAmount) := by
      rw [hDA, hD, hTA2]
    refine ⟨hexact, by rw [hTA2, hsumT], calculateDiscount order.TotalAmount, ?_, ?_, ?_,
      hDA2, by rw [hDA2]; exact toScale2_isCents fails _,
      by rw [hDA2]; exact toScale2_near fails _,
      by rw [hsumT, ← hTA2]; exact hFA2, by rw [hFA2]; exact toScale2_isCents fails _,
      by rw [hsumT, ← hTA2, hFA2]; exact toScale2_near fails _, ?_, ?_⟩
    · unfold calculateDiscount
      split
      · exact Or.inr rfl
      · exact Or.inl rfl
    · intro hlt
      unfold calculateDiscount
      rw [if_neg (not_le.mpr hlt)]
    · intro hgt
      unfold calculateDiscount
      rw [if_pos (le_of_lt hgt)]
    · rw [hsumT, ← hTA2, hFA2, hDA2]
      have h1 := toScale2_near fails
        (order.TotalAmount + order.ShippingFee - calculateDiscount order.TotalAmount)
      have h2 := toScale2_near fails (calculateDiscount order.TotalAmount)
      rw [abs_le] at h1 h2 ⊢
      constructor <;> linarith [h1.1, h1.2, h2.1, h2.2]
    · intro hDc
      have hTo : IsCents order.TotalAmount := by rw [hTA2]; exact hTc
      have hSo : IsCents order.ShippingFee := by rw [hSF2]; exact hSc
      rw [hsumT, ← hTA2, hFA2, hDA2, toScale2_of_isCents fails hDc,
        toScale2_of_isCents fails ((hTo.add hSo).sub hDc)]
  · intro hrefs
    obtain ⟨-, -, hRid⟩ := restored_eq_reserved hall
    have hid : order.ID = db.orderSeq + 1 := by rw [horder, ← hseq]; rfl
    unfold loadOrderItems
    rw [hoi, List.filter_append]
    have h1 : List.filter (fun i : OrderItem => i.OrderID == order.ID) db.orderItems = [] := by
      rw [List.filter_eq_nil_iff]
      intro oi hoi'
      have := hrefs oi hoi'
      simp only [beq_iff_eq]
      omega
    have h2 : List.filter (fun i : OrderItem => i.OrderID == order.ID) created = created := by
      rw [List.filter_eq_self]
      intro oi hoi'
      simp [hRid oi hoi']
    rw [h1, h2, List.nil_append]

theorem createOrder_amounts_at_scale_witness :
    CreateOrder noFaults 0 demoStore none "s1" demoRequest = (demoStoreAfter, .ok demoOrder) ∧
    (∀ ci ∈ loadCartItems demoStore 1, IsCents ci.Price) ∧
    demoOrder.TotalAmount = ((loadOrderItems demoStoreAfter 1).map (fun oi => oi.TotalPrice)).sum ∧
    demoOrder.FinalAmount
      = ((loadOrderItems demoStoreAfter 1).map (fun oi => oi.TotalPrice)).sum
        + demoOrder.ShippingFee - demoOrder.DiscountAmount := by
  have hcents : ∀ ci ∈ loadCartItems demoStore 1, IsCents ci.Price := by
    intro ci hci
    have h2 : ci ∈ demoStore.cartItems := hci
    simp only [demoStore, List.mem_singleton] at h2
    subst h2
    exact ⟨10000, by norm_num⟩
  obtain ⟨cart, items, created, hget, hitems, -, -, hscale, hload⟩ :=
    createOrder_amounts_at_scale noFaults 0 demoStore demoStoreAfter none "s1" demoRequest
      demoOrder demo_checkout
  have hcart : cart.ID = 1 := by
    have h1 : (GetOrCreateCart noFaults 0 demoStore none "s1").2
        = .ok ({ ID := 1, SessionID := "s1", ExpiresAt := 86400 },
            loadCartItems demoStore 1) := by with_unfolding_all rfl
    rw [h1] at hget
    simp only [Except.ok.injEq, Prod.mk.injEq] at hget
    rw [← hget.1]
  have hi : ∀ ci ∈ items, IsCents ci.Price := by
    rw [hitems, hcart]; exact hcents
  obtain ⟨-, hT, discount, -, hbelow, -, -, -, -, -, -, -, -, hexact⟩ := hscale hi
  have h1 : loadOrderItems demoStoreAfter demoOrder.ID = created := hload (by decide)
  have hlt : demoOrder.TotalAmount < 1000000 := by
    show (200 : ℚ) < 1000000
    norm_num
  have hF := hexact ⟨0, by rw [hbelow hlt]; norm_num⟩
  refine ⟨demo_checkout, hcents, ?_, ?_⟩
  · rw [hT, ← h1]; rfl
  · rw [hF, ← h1]; rfl

end Storelite
